import Mathlib

/-!
Feed checks of price-placements.

A shallow embedding of the validation passes of the four feed packages
(`avito`, `cian`, `dom_click`, `realty`) and of the primitives of package
`validation`, followed by theorems about them.

Conventions of the embedding.

* Go `string` is `String`; `fmt.Sprintf` is written out as string concatenation,
  with `%v` / `%d` of an integer rendered by `toString` (decimal, with a leading
  minus sign for negative values) and `%v` / `%s` of a string rendered as the
  string itself.
* Go `int64`, `int32` and `int` are `Int`.  The source performs no arithmetic on
  them, only comparisons and the conversions `int(x)` from `int64`/`int32`, which
  are the identity on a 64-bit platform.
* Go `float32` / `float64` values are modelled by the rational number they
  denote.  The checks only compare them with `0` or truncate them with `int(x)`.
  The decoder of CIAN prices, which can store every `float64`, works on the
  IEEE 754 fields of the value (`Binary64`).
* A slice is a `List`; a `nil` slice result is `none`.
* A Go struct is a `structure` whose fields default to the Go zero value.
* A function taking `results *[]string` takes the list and returns the new one.
* `time.Now().Year()` is an explicit argument `year`.
-/

set_option linter.dupNamespace false

/-- Go `int64`. -/
abbrev int64 := Int

/-- Go `int32`. -/
abbrev int32 := Int

/-- Go `float32`, modelled by the rational it denotes. -/
abbrev float32 := ℚ

/-- Go `float64`, modelled by the rational it denotes. -/
abbrev float64 := ℚ

/-- Go `time.Time`, as a count of nanoseconds since the zero time (year 1). -/
abbrev Time := Int

/-- Go `*http.Client`: `none` is the nil pointer, `some h` a client handle. -/
abbrev ClientPtr := Option Nat

/-- Go `xml.Name`. -/
structure XMLName where
  Space : String := ""
  Local : String := ""
deriving DecidableEq

/-- Go conversion `int(x)` of a floating point value: truncation toward zero. -/
def intOfFloat (x : ℚ) : Int := Int.tdiv x.num x.den

/-- The values a Go call `Check() ([]string, error)` returns: the slice
(`none` for nil) and the error (`none` for nil, else its text). -/
abbrev CheckResult := Option (List String) × Option String

/-- Go `for idx, x := range xs { results = body(idx, x, results) }`. -/
def forRange {α : Type} (xs : List α) (body : Nat → α → List String → List String)
    (results : List String) : List String :=
  xs.enum.foldl (fun acc p => body p.1 p.2 acc) results

namespace validation

def MsgEmptyFeed : String := "feed is empty"

structure CustomInt64 where
  Int64 : int64 := 0
  Valid : Bool := false
deriving DecidableEq

/-- Go `CheckString`: returns `isOk` and the new contents of `*results`. -/
def CheckString (path fieldName value : String) (results : List String) :
    Bool × List String :=
  if value = "" then
    (false, results ++ ["field " ++ path ++ "." ++ fieldName ++ " is empty"])
  else
    (true, results)

/-- Go `CheckStringWithPos`. -/
def CheckStringWithPos (idx : Nat) (path fieldName value : String)
    (results : List String) : Bool × List String :=
  if value = "" then
    (false, results ++
      ["field " ++ path ++ "[" ++ toString idx ++ "]." ++ fieldName ++ " is empty"])
  else
    (true, results)

/-- Go `CheckStringWithID`. -/
def CheckStringWithID (ID path fieldName value : String) (results : List String) :
    Bool × List String :=
  let idMessage : String :=
    if ID = "" then "InternalID not found" else "InternalID: " ++ ID
  if value = "" then
    (false, results ++
      ["field " ++ path ++ "." ++ fieldName ++ " is empty. " ++ idMessage])
  else
    (true, results)

/-- Go `CheckZeroWithID[V int | float64 | float32]`. -/
def CheckZeroWithID {V : Type} [Zero V] [DecidableEq V] (ID path fieldName : String)
    (value : V) (results : List String) : Bool × List String :=
  if value = 0 then
    (false, results ++
      ["field " ++ path ++ "." ++ fieldName ++ " is empty. InternalID: " ++ ID])
  else
    (true, results)

end validation

namespace avito

structure Image where
  URL : String := ""
deriving DecidableEq

structure Images where
  Image : List Image := []
deriving DecidableEq

structure RoomType where
  Option : String := ""
deriving DecidableEq

structure Ad where
  ID : String := ""
  AdStatus : String := ""
  AllowEmail : String := ""
  ContactPhone : String := ""
  Latitude : String := ""
  Longitude : String := ""
  Description : String := ""
  Category : String := ""
  OperationType : String := ""
  Price : int64 := 0
  Rooms : String := ""
  Square : float32 := 0
  BalconyOrLoggia : String := ""
  KitchenSpace : float32 := 0
  ViewFromWindows : String := ""
  CeilingHeight : String := ""
  LivingSpace : float32 := 0
  Decoration : String := ""
  DealType : String := ""
  RoomType : RoomType := {}
  Status : String := ""
  Floor : int64 := 0
  Floors : int64 := 0
  HouseType : String := ""
  MarketType : String := ""
  PropertyRights : String := ""
  NewDevelopmentID : String := ""
  Images : Images := {}
deriving DecidableEq

structure Data where
  XMLName : XMLName := {}
  FormatVersion : Int := 0
  Target : String := ""
  Ad : List Ad := []
deriving DecidableEq

structure Feed where
  client : ClientPtr := none
  url : String := ""
  isGet : Bool := false
  LastModified : Time := 0
  Data : Data := {}
deriving DecidableEq

/-- Body of the loop `for idx, lot := range f.Data.Ad` of `Check`. -/
def checkLot (idx : Nat) (lot : Ad) (results : List String) : List String :=
  let results := (validation.CheckStringWithPos idx "Ad" "ID" lot.ID results).2
  let id := lot.ID
  let results := (validation.CheckStringWithID id "Ad" "ContactPhone" lot.ContactPhone results).2
  let results := (validation.CheckStringWithID id "Ad" "Description" lot.Description results).2
  let results := (validation.CheckStringWithID id "Ad" "Category" lot.Category results).2
  let results := (validation.CheckZeroWithID id "Ad" "Price" lot.Price results).2
  let results := (validation.CheckStringWithID id "Ad" "OperationType" lot.OperationType results).2
  let results := (validation.CheckStringWithID id "Ad" "MarketType" lot.MarketType results).2
  let results := (validation.CheckStringWithID id "Ad" "HouseType" lot.HouseType results).2
  let results := (validation.CheckZeroWithID id "Ad" "Floor" lot.Floor results).2
  let results := (validation.CheckZeroWithID id "Ad" "Floors" lot.Floors results).2
  let results := (validation.CheckStringWithID id "Ad" "Rooms" lot.Rooms results).2
  let results := (validation.CheckZeroWithID id "Ad" "Square" lot.Square results).2
  let results :=
    if lot.LivingSpace = 0 ∧ lot.Rooms ≠ "Студия" then
      results ++ ["field LivingSpace is empty. InternalID: " ++ lot.ID]
    else results
  let results := (validation.CheckStringWithID id "Ad" "Status" lot.Status results).2
  let results := (validation.CheckStringWithID id "Ad" "NewDevelopmentId" lot.NewDevelopmentID results).2
  let results := (validation.CheckStringWithID id "Ad" "PropertyRights" lot.PropertyRights results).2
  let results := (validation.CheckStringWithID id "Ad" "Decoration" lot.Decoration results).2
  let results :=
    if lot.Floor > lot.Floors then
      results ++ ["field Floor is bigger than Floors. InternalID: " ++ lot.ID]
    else results
  let results := forRange lot.Images.Image
    (fun idx image results =>
      (validation.CheckStringWithPos idx "Images.Image" "URL" image.URL results).2) results
  let results :=
    if lot.Images.Image.length < 3 ∨ lot.Images.Image.length > 40 then
      results ++ ["field Images.Image contains '" ++ toString lot.Images.Image.length
        ++ "' items. InternalID: " ++ lot.ID]
    else results
  results

/-- Go `(f *Feed) Check`. -/
def Check (f : Feed) : CheckResult :=
  if !f.isGet then
    (none, some "feed not got")
  else
    let results : List String := []
    if f.Data.Ad.length < 2 then
      let results := results ++ [validation.MsgEmptyFeed]
      (some results, none)
    else if f.Data.Ad.length ≤ 10 then
      let results := results ++ ["feed contains only " ++ toString f.Data.Ad.length ++ " items"]
      (some results, none)
    else
      let results := forRange f.Data.Ad checkLot results
      (some results, none)

end avito

namespace cian

structure Coordinates where
  Lat : float32 := 0
  Lng : float32 := 0
deriving DecidableEq

structure PhoneSchema where
  CountryCode : String := ""
  Number : String := ""
deriving DecidableEq

structure Phones where
  PhoneSchema : PhoneSchema := {}
deriving DecidableEq

structure LayoutPhoto where
  IsDefault : Bool := false
  FullUrl : String := ""
deriving DecidableEq

structure PhotoSchema where
  FullUrl : String := ""
  IsDefault : Bool := false
deriving DecidableEq

structure Photos where
  PhotoSchema : List PhotoSchema := []
deriving DecidableEq

structure Parking where
  Type_ : String := ""
deriving DecidableEq

structure Deadline where
  Quarter : String := ""
  Year : int64 := 0
  IsComplete : Bool := false
deriving DecidableEq

structure Building where
  FloorsCount : int64 := 0
  MaterialType : String := ""
  PassengerLiftsCount : int64 := 0
  CargoLiftsCount : int64 := 0
  Parking : Parking := {}
  Deadline : Deadline := {}
deriving DecidableEq

structure CustomFloat64 where
  Float64 : float64 := 0
deriving DecidableEq

structure BargainTerms where
  Price : CustomFloat64 := {}
  Currency : String := ""
  MortgageAllowed : Bool := false
  SaleType : String := ""
deriving DecidableEq

structure JKFlat where
  FlatNumber : String := ""
  SectionNumber : String := ""
  FlatType : String := ""
deriving DecidableEq

structure JKHouse where
  ID : int32 := 0
  Name : String := ""
  Flat : JKFlat := {}
deriving DecidableEq

structure JKSchema where
  ID : int32 := 0
  Name : String := ""
  House : JKHouse := {}
deriving DecidableEq

structure UndergroundInfoSchema where
  TransportType : String := ""
  Time : int64 := 0
  ID : int64 := 0
deriving DecidableEq

structure Undergrounds where
  UndergroundInfoSchema : List UndergroundInfoSchema := []
deriving DecidableEq

structure Object where
  ExternalId : String := ""
  Description : String := ""
  Address : String := ""
  Coordinates : Coordinates := {}
  CadastralNumber : String := ""
  Phones : Phones := {}
  LayoutPhoto : LayoutPhoto := {}
  Photos : Photos := {}
  Category : String := ""
  RoomType : String := ""
  FlatRoomsCount : int64 := 0
  TotalArea : float32 := 0
  LivingArea : float32 := 0
  KitchenArea : float32 := 0
  ProjectDeclarationUrl : String := ""
  FloorNumber : int64 := 0
  CombinedWcsCount : int64 := 0
  Building : Building := {}
  BargainTerms : BargainTerms := {}
  JKSchema : JKSchema := {}
  Decoration : String := ""
  WindowsViewType : String := ""
  CeilingHeight : float32 := 0
  Undergrounds : Undergrounds := {}
  IsApartments : Bool := false
deriving DecidableEq

structure Data where
  FeedVersion : String := ""
  Object : List Object := []
deriving DecidableEq

structure Feed where
  client : ClientPtr := none
  url : String := ""
  isGet : Bool := false
  LastModified : Time := 0
  Data : Data := {}
deriving DecidableEq

/-- Body of the loop `for idx, lot := range f.Data.Object` of `Check`;
`year` is `time.Now().Year()`. -/
def checkLot (year : Int) (idx : Nat) (lot : Object) (results : List String) : List String :=
  let id := lot.ExternalId
  let results :=
    if lot.ExternalId = "" then
      results ++ ["field ExternalId is empty. Position: " ++ toString idx]
    else results
  let results := (validation.CheckStringWithID id "object" "Address" lot.Address results).2
  let results := (validation.CheckStringWithID id "object.Phones.PhoneSchema" "CountryCode"
    lot.Phones.PhoneSchema.CountryCode results).2
  let results := (validation.CheckStringWithID id "object.Phones.PhoneSchema" "Number"
    lot.Phones.PhoneSchema.Number results).2
  let results := (validation.CheckStringWithID id "object.LayoutPhoto.FullUrl" "IsDefault"
    lot.LayoutPhoto.FullUrl results).2
  let results := (validation.CheckStringWithID id "object" "Category" lot.Category results).2
  let results := forRange lot.Photos.PhotoSchema
    (fun idx photoSchema results =>
      (validation.CheckStringWithPos idx "object.Photos.PhotoSchema" "FullUrl"
        photoSchema.FullUrl results).2) results
  let results := (validation.CheckZeroWithID id "object" "FlatRoomsCount"
    lot.FlatRoomsCount results).2
  let results := (validation.CheckZeroWithID id "object" "TotalArea"
    (intOfFloat lot.TotalArea) results).2
  let results := (validation.CheckZeroWithID id "object" "FloorNumber" lot.FloorNumber results).2
  let results := (validation.CheckZeroWithID id "object.Building" "FloorsCount"
    lot.Building.FloorsCount results).2
  let results := (validation.CheckZeroWithID id "object.Building.Deadline" "Year"
    lot.Building.Deadline.Year results).2
  let results := (validation.CheckStringWithID id "object.Building.Deadline" "Quarter"
    lot.Building.Deadline.Quarter results).2
  let results := (validation.CheckZeroWithID id "object.BargainTerms.Price" "Price"
    (intOfFloat lot.BargainTerms.Price.Float64) results).2
  let results := (validation.CheckZeroWithID id "object.JKSchema" "Id" lot.JKSchema.ID results).2
  let results := (validation.CheckStringWithID id "object.JKSchema" "Name"
    lot.JKSchema.Name results).2
  let results := (validation.CheckZeroWithID id "object.JKSchema.House" "Id"
    lot.JKSchema.House.ID results).2
  let results := (validation.CheckStringWithID id "object.JKSchema.House" "Name"
    lot.JKSchema.House.Name results).2
  let results :=
    if lot.Building.Deadline.Year < year ∧ lot.Building.Deadline.IsComplete = false then
      results ++ ["field Building.Deadline is False for " ++ toString lot.Building.Deadline.Year
        ++ ". InternalID: " ++ lot.ExternalId]
    else results
  let results :=
    if lot.FloorNumber > lot.Building.FloorsCount then
      results ++ ["field FloorNumber is greater than Building.FloorsCount. InternalID: "
        ++ lot.ExternalId]
    else results
  let results :=
    if lot.Photos.PhotoSchema.length < 3 then
      results ++ ["field Photos.PhotoSchema contains '"
        ++ toString lot.Photos.PhotoSchema.length ++ "' items. InternalID: " ++ lot.ExternalId]
    else results
  results

/-- Go `(f *Feed) Check`; `year` is `time.Now().Year()`. -/
def Check (year : Int) (f : Feed) : CheckResult :=
  if !f.isGet then
    (none, some "feed not got")
  else
    let results : List String := []
    if f.Data.Object.length < 2 then
      let results := results ++ [validation.MsgEmptyFeed]
      (some results, none)
    else if f.Data.Object.length ≤ 10 then
      let results := results ++
        ["feed contains only " ++ toString f.Data.Object.length ++ " items"]
      (some results, none)
    else
      let results := forRange f.Data.Object (checkLot year) results
      (some results, none)

end cian

namespace domclick

structure Images where
  Image : List String := []
deriving DecidableEq

structure DescriptionMain where
  Title : String := ""
  Text : String := ""
deriving DecidableEq

structure Infrastructure where
  Parking : String := ""
  Security : String := ""
  FencedArea : String := ""
  SportsGround : String := ""
  Playground : String := ""
  School : String := ""
  Kindergarten : String := ""
deriving DecidableEq

structure Profit where
  Title : String := ""
  Text : String := ""
  Image : String := ""
deriving DecidableEq

structure ProfitsMain where
  ProfitMain : List Profit := []
deriving DecidableEq

structure ProfitsSecondary where
  ProfitSecondary : List Profit := []
deriving DecidableEq

structure RoomsArea where
  Area : List String := []
deriving DecidableEq

structure Flat where
  FlatID : String := ""
  Apartment : String := ""
  Floor : int64 := 0
  Room : Option int64 := none
  Plan : String := ""
  Balcony : String := ""
  Renovation : String := ""
  Price : float32 := 0
  Area : float32 := 0
  LivingArea : float32 := 0
  KitchenArea : float32 := 0
  RoomsArea : RoomsArea := {}
  Bathroom : String := ""
  HousingType : String := ""
  Decoration : int64 := 0
  ReadyHousing : String := ""
deriving DecidableEq

structure Flats where
  Flat : List Flat := []
deriving DecidableEq

structure Building where
  ID : String := ""
  Fz214 : String := ""
  Name : String := ""
  Floors : int64 := 0
  BuildingState : String := ""
  BuiltYear : int64 := 0
  ReadyQuarter : int64 := 0
  BuildingType : String := ""
  Image : String := ""
  Flats : Flats := {}
deriving DecidableEq

structure Buildings where
  Building : List Building := []
deriving DecidableEq

structure WorkDay where
  Day : String := ""
  OpenAt : String := ""
  CloseAt : String := ""
deriving DecidableEq

structure WorkDays where
  WorkDay : List WorkDay := []
deriving DecidableEq

structure SalesInfo where
  SalesPhone : String := ""
  ResponsibleOfficerPhone : String := ""
  SalesAddress : String := ""
  SalesLatitude : String := ""
  SalesLongitude : String := ""
  Timezone : String := ""
  WorkDays : WorkDays := {}
deriving DecidableEq

structure Developer where
  ID : String := ""
  Name : String := ""
  Phone : String := ""
  Site : String := ""
  Logo : String := ""
deriving DecidableEq

structure Complex where
  ID : String := ""
  Name : String := ""
  Latitude : String := ""
  Longitude : String := ""
  Address : String := ""
  Images : Images := {}
  DescriptionMain : DescriptionMain := {}
  Infrastructure : Infrastructure := {}
  ProfitsMain : ProfitsMain := {}
  ProfitsSecondary : ProfitsSecondary := {}
  Buildings : Buildings := {}
  SalesInfo : SalesInfo := {}
  Developer : Developer := {}
deriving DecidableEq

structure Data where
  XMLName : XMLName := {}
  Complex : Complex := {}
deriving DecidableEq

structure Feed where
  client : ClientPtr := none
  url : String := ""
  isGet : Bool := false
  LastModified : Time := 0
  Data : Data := {}
deriving DecidableEq

/-- Body of the loop `for idx, lot := range flats` of `checkLots`. -/
def checkLot (floors : Int) (idx : Nat) (lot : Flat) (results : List String) : List String :=
  let path := "Flats.Flat"
  let results := (validation.CheckStringWithPos idx path "FlatID" lot.FlatID results).2
  let results := (validation.CheckZeroWithID lot.FlatID path "Floor" lot.Floor results).2
  let results :=
    if lot.Room = none then
      results ++ ["Field Flats.Room is empty. InternalID: " ++ lot.FlatID]
    else results
  let results := (validation.CheckStringWithID lot.FlatID path "Plan" lot.Plan results).2
  let results := (validation.CheckStringWithID lot.FlatID path "Balcony" lot.Balcony results).2
  let results := (validation.CheckZeroWithID lot.FlatID path "Price" lot.Price results).2
  let results := (validation.CheckZeroWithID lot.FlatID path "Area" lot.Area results).2
  let r := validation.CheckZeroWithID lot.FlatID path "LivingArea" lot.LivingArea results
  let isOk := r.1
  let results := r.2
  let results :=
    if !isOk then
      forRange lot.RoomsArea.Area
        (fun i room results =>
          if room = "" then
            results ++ ["Field Flats.Flat.RoomsArea.Area[" ++ toString i
              ++ "] is empty. InternalID: " ++ lot.FlatID]
          else results) results
    else results
  let results := (validation.CheckZeroWithID lot.FlatID path "KitchenArea"
    lot.KitchenArea results).2
  let results := (validation.CheckStringWithID lot.FlatID path "Bathroom" lot.Bathroom results).2
  let results :=
    if lot.Floor > floors then
      results ++ ["Field Flats.Flat.Floor is bigger than building.Floors. InternalID: "
        ++ lot.FlatID]
    else results
  results

/-- Go `(f *Feed) checkLots`. -/
def checkLots (flats : List Flat) (floors : Int) (results : List String) : List String :=
  forRange flats (checkLot floors) results

/-- Body of the loop `for pos, building := range buildings` of `Check`;
`year` is `time.Now().Year()`. -/
def checkBuilding (year : Int) (pos : Nat) (building : Building) (results : List String) :
    List String :=
  let path := "Complex.Buildings.Building"
  let results := (validation.CheckStringWithPos pos path "ID" building.ID results).2
  let results := (validation.CheckStringWithID building.ID path "Fz214" building.Fz214 results).2
  let results := (validation.CheckStringWithID building.ID path "Name" building.Name results).2
  let results := (validation.CheckZeroWithID building.ID path "Floors" building.Floors results).2
  let results := (validation.CheckStringWithID building.ID path "BuildingState"
    building.BuildingState results).2
  let results := (validation.CheckZeroWithID building.ID path "BuiltYear"
    building.BuiltYear results).2
  let results := (validation.CheckZeroWithID building.ID path "ReadyQuarter"
    building.ReadyQuarter results).2
  let results := (validation.CheckStringWithID building.ID path "BuildingType"
    building.BuildingType results).2
  let results :=
    if building.BuiltYear < year ∧ building.BuildingState = "unfinished" then
      results ++ ["BuildingState == unfinished for " ++ toString building.BuiltYear
        ++ ". InternalID: " ++ building.ID]
    else results
  checkLots building.Flats.Flat building.Floors results

/-- Go `(f *Feed) Check`; `year` is `time.Now().Year()`. -/
def Check (year : Int) (f : Feed) : CheckResult :=
  if !f.isGet then
    (none, some "feed not got")
  else
    let results : List String := []
    let residence := f.Data.Complex
    if residence.Buildings.Building.length < 2 then
      let results := results ++ [validation.MsgEmptyFeed]
      (some results, none)
    else
      let path := "Complex"
      let results := (validation.CheckString path "ID" residence.ID results).2
      let results := (validation.CheckString path "Name" residence.Name results).2
      let results := (validation.CheckString path "Address" residence.Address results).2
      let results := (validation.CheckString path "Latitude" residence.Latitude results).2
      let results := (validation.CheckString path "Longitude" residence.Longitude results).2
      let results := forRange residence.Images.Image
        (fun idx image results =>
          (validation.CheckStringWithPos idx "Complex.Images.Image" "Image" image results).2)
        results
      let path := "Complex.DescriptionMain"
      let descriptionMain := residence.DescriptionMain
      let results := (validation.CheckString path "Title" descriptionMain.Title results).2
      let results := (validation.CheckString path "Text" descriptionMain.Text results).2
      let path := "Complex.ProfitsMain.ProfitMain"
      let profits := residence.ProfitsMain.ProfitMain
      let results := forRange profits
        (fun idx profit results =>
          let results := (validation.CheckStringWithPos idx path "Title" profit.Title results).2
          let results := (validation.CheckStringWithPos idx path "Text" profit.Text results).2
          let results := (validation.CheckStringWithPos idx path "Image" profit.Image results).2
          results) results
      let buildings := f.Data.Complex.Buildings.Building
      let results := forRange buildings (checkBuilding year) results
      let path := "Complex.SalesInfo"
      let salesInfo := f.Data.Complex.SalesInfo
      let results := (validation.CheckString path "SalesPhone" salesInfo.SalesPhone results).2
      let results := (validation.CheckString path "SalesAddress" salesInfo.SalesAddress results).2
      let results := (validation.CheckString path "SalesLatitude"
        salesInfo.SalesLatitude results).2
      let results := (validation.CheckString path "SalesLongitude"
        salesInfo.SalesLongitude results).2
      let path := "Complex.Developer"
      let developer := f.Data.Complex.Developer
      let results := (validation.CheckString path "Name" developer.Name results).2
      let results := (validation.CheckString path "Phone" developer.Phone results).2
      let results := (validation.CheckString path "Site" developer.Site results).2
      let results := (validation.CheckString path "Logo" developer.Logo results).2
      (some results, none)

end domclick

/-- Go `map[string]bool`, as the list of its entries (at most one per key). -/
abbrev StringBoolMap := List (String × Bool)

/-- Go `m[k]` on a `map[string]bool`: the stored value, `false` when absent. -/
def StringBoolMap.index (m : StringBoolMap) (k : String) : Bool :=
  (m.lookup k).getD false

/-- Go `m[k] = v`. -/
def StringBoolMap.store (m : StringBoolMap) (k : String) (v : Bool) : StringBoolMap :=
  (k, v) :: m.filter (fun e => e.1 ≠ k)

/-- Go `_, ok := m[k]`: whether the key is present. -/
def StringBoolMap.has (m : StringBoolMap) (k : String) : Bool :=
  (m.lookup k).isSome

namespace realty

structure Image where
  Tag : String := ""
deriving DecidableEq

structure vas where
  Text : String := ""
  StartTime : String := ""
  Schedule : String := ""
deriving DecidableEq

structure Metro where
  Name : String := ""
  TimeOnTransport : String := ""
  TimeOnFoot : String := ""
deriving DecidableEq

structure Location where
  Country : String := ""
  Region : String := ""
  Address : String := ""
  LocalityName : String := ""
  Latitude : String := ""
  Longitude : String := ""
  Direction : String := ""
  Distance : String := ""
  Metro : Metro := {}
deriving DecidableEq

structure SalesAgent where
  Category : String := ""
  Organization : String := ""
  Phone : String := ""
deriving DecidableEq

structure Price where
  Value : float32 := 0
  Currency : String := ""
deriving DecidableEq

structure Value where
  Value : float32 := 0
  Unit : String := ""
deriving DecidableEq

structure Offer where
  InternalID : String := ""
  Image : List Image := []
  Type_ : String := ""
  PropertyType : String := ""
  Category : String := ""
  URL : String := ""
  WindowView : String := ""
  CeilingHeight : List String := []
  Description : String := ""
  CreationDate : String := ""
  Vas : List vas := []
  LastUpdateDate : String := ""
  ExpireDate : String := ""
  Location : Location := {}
  SalesAgent : SalesAgent := {}
  Price : Price := {}
  NewFlat : String := ""
  DealStatus : String := ""
  BuiltYear : int64 := 0
  ReadyQuarter : int64 := 0
  Area : Value := {}
  RoomSpace : List Value := []
  LivingSpace : Value := {}
  KitchenSpace : Value := {}
  Renovation : String := ""
  Rooms : int64 := 0
  RubbishChute : String := ""
  FloorsTotal : int64 := 0
  Floor : int64 := 0
  BuildingName : String := ""
  BuildingType : String := ""
  Mortgage : String := ""
  BuildingState : String := ""
  Lift : String := ""
  BathroomUnit : String := ""
  YandexBuildingID : int64 := 0
  YandexHouseID : validation.CustomInt64 := {}
  BuildingSection : String := ""
  Balcony : String := ""
  OpenPlan : String := ""
deriving DecidableEq

structure Data where
  GenerationDate : String := ""
  Offer : List Offer := []
deriving DecidableEq

structure Feed where
  client : ClientPtr := none
  url : String := ""
  isGet : Bool := false
  LastModified : Time := 0
  Data : Data := {}
deriving DecidableEq

/-- The loop `for _, image := range lot.Image` of `Check`, from the empty map:
the set of tags of the images. -/
def collectTags (images : List Image) : StringBoolMap :=
  images.foldl
    (fun tags image => if tags.index image.Tag then tags else tags.store image.Tag true) []

/-- Body of the loop `for idx, lot := range f.Data.Offer` of `Check`;
`year` is `time.Now().Year()`. -/
def checkLot (year : Int) (idx : Nat) (lot : Offer) (results : List String) : List String :=
  let results :=
    if lot.InternalID = "" then
      results ++ ["field InternalID is empty. Position: " ++ toString idx]
    else results
  let tags := collectTags lot.Image
  let results :=
    if !tags.has "plan" then
      results ++ ["tag 'plan' for image is not found. InternalID: " ++ lot.InternalID]
    else results
  let results :=
    if !tags.has "floor-plan" then
      results ++ ["tag 'floor-plan' for image is not found. InternalID: " ++ lot.InternalID]
    else results
  let id := lot.InternalID
  let results := (validation.CheckStringWithID id "offer" "Type" lot.Type_ results).2
  let results := (validation.CheckStringWithID id "offer" "PropertyType" lot.PropertyType results).2
  let results := (validation.CheckStringWithID id "offer" "CreationDate" lot.CreationDate results).2
  let results := (validation.CheckStringWithID id "offer.Location" "Country"
    lot.Location.Country results).2
  let results := (validation.CheckStringWithID id "offer.Location" "Address"
    lot.Location.Address results).2
  let results := (validation.CheckStringWithID id "offer.SalesAgent" "Phone"
    lot.SalesAgent.Phone results).2
  let results := (validation.CheckStringWithID id "offer.SalesAgent" "Category"
    lot.SalesAgent.Category results).2
  let results := (validation.CheckStringWithID id "offer" "DealStatus" lot.DealStatus results).2
  let results := (validation.CheckZeroWithID id "offer.Price" "Value" lot.Price.Value results).2
  let results := (validation.CheckStringWithID id "offer.Price" "Currency"
    lot.Price.Currency results).2
  let results := (validation.CheckZeroWithID id "offer.Area" "Value" lot.Area.Value results).2
  let results := (validation.CheckStringWithID id "offer.Area" "Unit" lot.Area.Unit results).2
  let results := (validation.CheckZeroWithID id "offer" "Rooms" lot.Rooms results).2
  let results := (validation.CheckStringWithID id "offer" "NewFlat" lot.NewFlat results).2
  let results := (validation.CheckZeroWithID id "offer" "Floor" lot.Floor results).2
  let results := (validation.CheckZeroWithID id "offer" "FloorsTotal" lot.FloorsTotal results).2
  let results := (validation.CheckStringWithID id "offer" "BuildingName" lot.BuildingName results).2
  let results := (validation.CheckZeroWithID id "offer" "YandexBuildingID"
    lot.YandexBuildingID results).2
  let results := (validation.CheckStringWithID id "offer" "BuildingState"
    lot.BuildingState results).2
  let results := (validation.CheckZeroWithID id "offer" "BuiltYear" lot.BuiltYear results).2
  let results := (validation.CheckZeroWithID id "offer" "ReadyQuarter" lot.ReadyQuarter results).2
  let results :=
    if lot.LivingSpace.Value = 0 ∧ lot.OpenPlan ≠ "1" then
      results ++ ["field LivingSpace.Value is empty. InternalID: " ++ lot.InternalID]
    else results
  let results :=
    if lot.BuiltYear < year ∧ lot.BuildingState = "unfinished" then
      results ++ ["BuildingState == unfinished for " ++ toString lot.BuiltYear
        ++ ". InternalID: " ++ lot.InternalID]
    else results
  let results :=
    if lot.Floor > lot.FloorsTotal then
      results ++ ["field Floor is bigger than FloorsTotal. InternalID: " ++ lot.InternalID]
    else results
  let results :=
    if (lot.RoomSpace.length : Int) > lot.Rooms then
      results ++ ["field RoomSpace contains more values than Rooms. InternalID: "
        ++ lot.InternalID]
    else results
  let results :=
    if lot.Image.length < 3 then
      results ++ ["field Image contains '" ++ toString lot.Image.length
        ++ "' items. InternalID: " ++ lot.InternalID]
    else results
  results

/-- Go `(f *Feed) Check`; `year` is `time.Now().Year()`. -/
def Check (year : Int) (f : Feed) : CheckResult :=
  if !f.isGet then
    (none, some "feed not got")
  else
    let results : List String := []
    if f.Data.Offer.length < 2 then
      let results := results ++ [validation.MsgEmptyFeed]
      (some results, none)
    else
      let results := forRange f.Data.Offer (checkLot year) results
      (some results, none)

end realty

/-! ## Fetching and decoding

`Get` talks to the network and calls library code that is not part of the
repository.  The embedding makes both explicit.

* `Env` holds what one call meets outside the packages: the outcome of
  `http.NewRequestWithContext`, of `cl.Do(req)` and of the two `time.Parse`
  layouts.
* A Go `error` is `Option String`: `none` is nil, `some e` an error with text `e`;
  `fmt.Errorf("...%w", err)` is the concatenation of the text and `err.Error()`.
* A call that can dereference a nil pointer returns `Panics α`: `.error` is the
  panic, `.ok` the values returned.
* Every call of `cl.Do` is recorded, in order, in the field `sent` of the result.
* A payload is modelled by the document `encoding/xml` reads from it, already
  cut into the parts the target type has fields for.
-/

/-- A Go call that may panic: `.error msg` is the panic. -/
abbrev Panics := Except String

/-- Go `http.Header`, as the list of its entries under their canonical keys. -/
structure Header where
  entries : List (String × String) := []

/-- Go `Header.Get`: the first value under the key, "" when there is none. -/
def Header.Get (h : Header) (key : String) : String := (h.entries.lookup key).getD ""

/-- Go `*http.Response`, as far as the packages read it; `Body` is what
`io.ReadAll(resp.Body)` returns, the contents or a read error. -/
structure Response where
  Status : String := ""
  StatusCode : Int := 0
  Header : Header := {}
  Body : Except String String := .ok ""

/-- A request handed to `cl.Do`: its method and URL. -/
abbrev Request := String × String

/-- What one call of `Get` meets outside the packages. -/
structure Env where
  /-- `http.NewRequestWithContext(ctx, method, url, nil)`: `some e` when it
  fails (nil context, unparsable URL). -/
  NewRequestWithContext : String → String → Option String
  /-- `cl.Do(req)` on the client with the given handle, for a method and URL:
  a transport error or the response of the upstream. -/
  Do : Nat → String → String → Except String Response
  /-- `time.Parse(time.RFC1123, s)`. -/
  ParseRFC1123 : String → Except String Time
  /-- `time.Parse(time.RFC3339Nano, s)`. -/
  ParseRFC3339Nano : String → Except String Time

/-- The values a method of a Feed returns, with the state of the Feed after
the call and the requests sent during it. -/
structure Returned (σ : Type) where
  err : Option String
  feed : σ
  sent : List Request

/-- Go `time.Time.IsZero`. -/
def Time.IsZero (t : Time) : Bool := t == 0

namespace transport

def HeaderLastModified : String := "Last-Modified"

/-- The values `GetResponse` and `GetOnlyHeader` return, with the requests sent. -/
structure Fetched where
  response : Option Response
  err : Option String
  sent : List Request

/-- Go `GetResponse`.  `cl.Do` on a nil client panics. -/
def GetResponse (env : Env) (cl : ClientPtr) (url : String) : Panics Fetched :=
  match env.NewRequestWithContext "GET" url with
  | some e => .ok ⟨none, some ("can't get feed. Error:" ++ e), []⟩
  | none =>
    match cl with
    | none => .error "invalid memory address or nil pointer dereference"
    | some c =>
      match env.Do c "GET" url with
      | .error e => .ok ⟨none, some ("can't get feed. Error:" ++ e), [("GET", url)]⟩
      | .ok response =>
        if response.StatusCode ≠ 200 then
          .ok ⟨some response, some ("feed not availible. Status:" ++ response.Status),
            [("GET", url)]⟩
        else
          .ok ⟨some response, none, [("GET", url)]⟩

/-- Go `GetOnlyHeader`. -/
def GetOnlyHeader (env : Env) (cl : ClientPtr) (url : String) : Panics Fetched :=
  match env.NewRequestWithContext "HEAD" url with
  | some e => .ok ⟨none, some ("can't get feed info. Error:" ++ e), []⟩
  | none =>
    match cl with
    | none => .error "invalid memory address or nil pointer dereference"
    | some c =>
      match env.Do c "HEAD" url with
      | .error e => .ok ⟨none, some ("can't get feed info. Error:" ++ e), [("HEAD", url)]⟩
      | .ok response =>
        if response.StatusCode ≠ 200 then
          .ok ⟨some response, some ("feed not availible. Status:" ++ response.Status),
            [("HEAD", url)]⟩
        else
          .ok ⟨some response, none, [("HEAD", url)]⟩

end transport

namespace avito

/-- What `encoding/xml` reads from an Avito payload for a target of type
`Data`: the name of the root element, the attributes `formatVersion` and
`target` when present, the `Ad` elements in document order, each decoded into a
zero `Ad`, and the error that stopped the decoding, if any, after these parts
were read. -/
structure Document where
  Root : XMLName := { Local := "Ads" }
  FormatVersion : Option Int := none
  Target : Option String := none
  Ad : List Ad := []
  err : Option String := none

/-- Go `xml.Unmarshal(body, &f.Data)` on the document of the body.  The root
must be named by the tag of `XMLName`.  A field is assigned when the payload
holds its attribute, and is left as it is otherwise.  For the slice the package
documentation says: "Unmarshal maps an XML element to a slice by extending the
length of the slice and mapping the element to the newly created value", so the
elements are appended to those the slice holds. -/
def Unmarshal (doc : Document) (d : Data) : Data × Option String :=
  if doc.Root.Local ≠ "Ads" then
    (d, some ("expected element type <Ads> but have <" ++ doc.Root.Local ++ ">"))
  else
    ({ XMLName := doc.Root,
       FormatVersion := doc.FormatVersion.getD d.FormatVersion,
       Target := doc.Target.getD d.Target,
       Ad := d.Ad ++ doc.Ad }, doc.err)

/-- Go `(f *Feed) GetInfo`. -/
def GetInfo (env : Env) (f : Feed) : Panics (Returned Feed) :=
  match transport.GetOnlyHeader env f.client f.url with
  | .error p => .error p
  | .ok r =>
    match r.err with
    | some e => .ok ⟨some e, f, r.sent⟩
    | none =>
      match r.response with
      | none => .error "invalid memory address or nil pointer dereference"
      | some resp =>
        let attributeLastModified := resp.Header.Get "Last-Modified"
        if attributeLastModified ≠ "" then
          match env.ParseRFC1123 (resp.Header.Get "Last-Modified") with
          | .error e => .ok ⟨some e, f, r.sent⟩
          | .ok lastModifiedDate =>
            .ok ⟨none, { f with LastModified := lastModifiedDate }, r.sent⟩
        else
          .ok ⟨none, f, r.sent⟩

/-- The statements of `Get` after the body fetch: `io.ReadAll`, `xml.Unmarshal`
and the assignment of `isGet`.  `parse` reads the document of a body, or fails
before any part of the target is assigned. -/
def Get.finish (parse : String → Except String Document) (resp : Response) (f : Feed)
    (sent : List Request) : Returned Feed :=
  match resp.Body with
  | .error e => ⟨some e, f, sent⟩
  | .ok responseBody =>
    match parse responseBody with
    | .error e => ⟨some e, f, sent⟩
    | .ok doc =>
      let u := Unmarshal doc f.Data
      let f := { f with Data := u.1 }
      match u.2 with
      | some e => ⟨some e, f, sent⟩
      | none => ⟨none, { f with isGet := true }, sent⟩

/-- Go `(f *Feed) Get`. -/
def Get (env : Env) (parse : String → Except String Document) (f : Feed) :
    Panics (Returned Feed) :=
  match GetInfo env f with
  | .error p => .error p
  | .ok i =>
    match i.err with
    | some e => .ok ⟨some ("can't get feed info. Error:" ++ e), i.feed, i.sent⟩
    | none =>
      let f := i.feed
      match transport.GetResponse env f.client f.url with
      | .error p => .error p
      | .ok r =>
        match r.err with
        | some e => .ok ⟨some ("can't get feed data. Error:" ++ e), f, i.sent ++ r.sent⟩
        | none =>
          match r.response with
          | none => .error "invalid memory address or nil pointer dereference"
          | some resp => .ok (Get.finish parse resp f (i.sent ++ r.sent))

end avito

namespace cian

/-- A child element of a `Data` element. -/
inductive DataChild where
  | feed_version (text : String)
  | object (o : Object)
  | other (name : String)

/-- A child element of the root of a payload, as `encoding/xml` meets it when
the target is a `Feed`: an element `LastModified` with the time its text is,
an element `Data` with its children, an element `feed_version` or `object`
(with the Object it would decode to), or another element. -/
inductive FeedChild where
  | LastModified (t : Time)
  | Data (children : List DataChild)
  | feed_version (text : String)
  | object (o : Object)
  | other (name : String)

/-- What `encoding/xml` reads from a CIAN payload: the children of the root in
document order and the error that stopped the decoding, if any, after these
children were read. -/
structure Document where
  Root : XMLName := {}
  children : List FeedChild := []
  err : Option String := none

/-- Decoding of one child of a `Data` element into the `Data` it belongs to:
`feed_version` is assigned, an `object` extends the slice, any other element is
skipped. -/
def Data.decodeChild (d : Data) : DataChild → Data
  | .feed_version text => { d with FeedVersion := text }
  | .object o => { d with Object := d.Object ++ [o] }
  | .other _ => d

/-- Decoding of one child of the root into the `Feed`.  The exported fields of
`Feed` are `LastModified` and `Data`, without tags, so only elements of these
names are decoded; `client`, `url` and `isGet` are unexported and are never
assigned; every other element is skipped. -/
def Feed.decodeChild (f : Feed) : FeedChild → Feed
  | .LastModified t => { f with LastModified := t }
  | .Data children => { f with Data := children.foldl Data.decodeChild f.Data }
  | .feed_version _ => f
  | .object _ => f
  | .other _ => f

/-- Go `xml.Unmarshal(body, &f)`: the target is the `Feed` itself, the type
has no `XMLName`, so any root is accepted. -/
def Unmarshal (doc : Document) (f : Feed) : Feed × Option String :=
  (doc.children.foldl Feed.decodeChild f, doc.err)

/-- Go `(f *Feed) GetInfo`. -/
def GetInfo (env : Env) (f : Feed) : Panics (Returned Feed) :=
  match transport.GetOnlyHeader env f.client f.url with
  | .error p => .error p
  | .ok r =>
    match r.err with
    | some e => .ok ⟨some e, f, r.sent⟩
    | none =>
      match r.response with
      | none => .error "invalid memory address or nil pointer dereference"
      | some resp =>
        let attributeLastModified := resp.Header.Get transport.HeaderLastModified
        if attributeLastModified ≠ "" then
          match env.ParseRFC1123 (resp.Header.Get "Last-Modified") with
          | .error e => .ok ⟨some e, f, r.sent⟩
          | .ok lastModifiedDate =>
            .ok ⟨none, { f with LastModified := lastModifiedDate }, r.sent⟩
        else
          .ok ⟨none, f, r.sent⟩

/-- The statements of `Get` after the body fetch: `io.ReadAll`, `xml.Unmarshal`
and the assignment of `isGet`. -/
def Get.finish (parse : String → Except String Document) (resp : Response) (f : Feed)
    (sent : List Request) : Returned Feed :=
  match resp.Body with
  | .error e => ⟨some e, f, sent⟩
  | .ok responseBody =>
    match parse responseBody with
    | .error e => ⟨some e, f, sent⟩
    | .ok doc =>
      let u := Unmarshal doc f
      let f := u.1
      match u.2 with
      | some e => ⟨some e, f, sent⟩
      | none => ⟨none, { f with isGet := true }, sent⟩

/-- Go `(f *Feed) Get`. -/
def Get (env : Env) (parse : String → Except String Document) (f : Feed) :
    Panics (Returned Feed) :=
  match GetInfo env f with
  | .error p => .error p
  | .ok i =>
    match i.err with
    | some e => .ok ⟨some ("can't get feed info. Error:" ++ e), i.feed, i.sent⟩
    | none =>
      let f := i.feed
      match transport.GetResponse env f.client f.url with
      | .error p => .error p
      | .ok r =>
        match r.err with
        | some e => .ok ⟨some ("can't get feed data. Error:" ++ e), f, i.sent ++ r.sent⟩
        | none =>
          match r.response with
          | none => .error "invalid memory address or nil pointer dereference"
          | some resp => .ok (Get.finish parse resp f (i.sent ++ r.sent))

end cian

namespace domclick

/-- The statements of `Get` after the body fetch: the `Last-Modified` header
of the response, `io.ReadAll`, `xml.Unmarshal` and the assignment of `isGet`.
`unmarshal` is `xml.Unmarshal(body, &f.Data)`, taken as a parameter: from the
body and the value `f.Data` holds it gives the value after the call and the
error. -/
def Get.finish (env : Env) (unmarshal : String → Data → Data × Option String)
    (resp : Response) (f : Feed) (sent : List Request) : Returned Feed :=
  let AttributeLastModified := resp.Header.Get transport.HeaderLastModified
  let parsed : Except String Feed :=
    if AttributeLastModified ≠ "" then
      match env.ParseRFC1123 (resp.Header.Get "Last-Modified") with
      | .error e => .error e
      | .ok lastModifiedDate => .ok { f with LastModified := lastModifiedDate }
    else
      .ok f
  match parsed with
  | .error e => ⟨some e, f, sent⟩
  | .ok f =>
    match resp.Body with
    | .error e => ⟨some e, f, sent⟩
    | .ok responseBody =>
      let u := unmarshal responseBody f.Data
      let f := { f with Data := u.1 }
      match u.2 with
      | some e => ⟨some e, f, sent⟩
      | none => ⟨none, { f with isGet := true }, sent⟩

/-- Go `(f *Feed) Get`. -/
def Get (env : Env) (unmarshal : String → Data → Data × Option String) (f : Feed) :
    Panics (Returned Feed) :=
  match transport.GetResponse env f.client f.url with
  | .error p => .error p
  | .ok r =>
    match r.err with
    | some e => .ok ⟨some e, f, r.sent⟩
    | none =>
      match r.response with
      | none => .error "invalid memory address or nil pointer dereference"
      | some resp => .ok (Get.finish env unmarshal resp f r.sent)

/-- Go `(f *Feed) GetInfo`; `Get` does not call it. -/
def GetInfo (env : Env) (f : Feed) : Panics (Returned Feed) :=
  match transport.GetOnlyHeader env f.client f.url with
  | .error p => .error p
  | .ok r =>
    match r.err with
    | some e => .ok ⟨some e, f, r.sent⟩
    | none =>
      match r.response with
      | none => .error "invalid memory address or nil pointer dereference"
      | some resp =>
        let attributeLastModified := resp.Header.Get transport.HeaderLastModified
        if attributeLastModified ≠ "" then
          match env.ParseRFC1123 (resp.Header.Get "Last-Modified") with
          | .error e => .ok ⟨some e, f, r.sent⟩
          | .ok lastModifiedDate =>
            .ok ⟨none, { f with LastModified := lastModifiedDate }, r.sent⟩
        else
          .ok ⟨none, f, r.sent⟩

end domclick

namespace realty

/-- A child element of the root of a Realty payload. -/
inductive DataChild where
  | generation_date (text : String)
  | offer (o : Offer)
  | other (name : String)

/-- What `encoding/xml` reads from a Realty payload for a target of type
`Data`: the children of the root in document order and the error that stopped
the decoding, if any, after these children were read. -/
structure Document where
  Root : XMLName := {}
  children : List DataChild := []
  err : Option String := none

/-- Decoding of one child of the root: `generation-date` is assigned, an
`offer` extends the slice, any other element is skipped. -/
def Data.decodeChild (d : Data) : DataChild → Data
  | .generation_date text => { d with GenerationDate := text }
  | .offer o => { d with Offer := d.Offer ++ [o] }
  | .other _ => d

/-- Go `xml.Unmarshal(body, &f.Data)`; `Data` has no `XMLName`, so any root is
accepted. -/
def Unmarshal (doc : Document) (d : Data) : Data × Option String :=
  (doc.children.foldl Data.decodeChild d, doc.err)

/-- Go `(f *Feed) GetInfo`. -/
def GetInfo (env : Env) (f : Feed) : Panics (Returned Feed) :=
  match transport.GetOnlyHeader env f.client f.url with
  | .error p => .error p
  | .ok r =>
    match r.err with
    | some e => .ok ⟨some e, f, r.sent⟩
    | none =>
      match r.response with
      | none => .error "invalid memory address or nil pointer dereference"
      | some resp =>
        let attributeLastModified := resp.Header.Get transport.HeaderLastModified
        if attributeLastModified ≠ "" then
          match env.ParseRFC1123 (resp.Header.Get transport.HeaderLastModified) with
          | .error e => .ok ⟨some e, f, r.sent⟩
          | .ok lastModifiedDate =>
            .ok ⟨none, { f with LastModified := lastModifiedDate }, r.sent⟩
        else
          .ok ⟨none, f, r.sent⟩

/-- The statements of `Get` after the body fetch: `io.ReadAll`, `xml.Unmarshal`,
the fallback to `generation-date` and the assignment of `isGet`.  `time.Parse`
returns the zero time with its error, and the assignment
`f.LastModified, err = time.Parse(...)` stores it. -/
def Get.finish (env : Env) (parse : String → Except String Document) (resp : Response)
    (f : Feed) (sent : List Request) : Returned Feed :=
  match resp.Body with
  | .error e => ⟨some e, f, sent⟩
  | .ok responseBody =>
    match parse responseBody with
    | .error e => ⟨some e, f, sent⟩
    | .ok doc =>
      let u := Unmarshal doc f.Data
      let f := { f with Data := u.1 }
      match u.2 with
      | some e => ⟨some e, f, sent⟩
      | none =>
        if f.LastModified.IsZero then
          match env.ParseRFC3339Nano f.Data.GenerationDate with
          | .error e => ⟨some e, { f with LastModified := 0 }, sent⟩
          | .ok t => ⟨none, { f with LastModified := t, isGet := true }, sent⟩
        else
          ⟨none, { f with isGet := true }, sent⟩

/-- Go `(f *Feed) Get`. -/
def Get (env : Env) (parse : String → Except String Document) (f : Feed) :
    Panics (Returned Feed) :=
  match GetInfo env f with
  | .error p => .error p
  | .ok i =>
    match i.err with
    | some e => .ok ⟨some ("can't get feed info. Error:" ++ e), i.feed, i.sent⟩
    | none =>
      let f := i.feed
      match transport.GetResponse env f.client f.url with
      | .error p => .error p
      | .ok r =>
        match r.err with
        | some e => .ok ⟨some ("can't get feed data. Error:" ++ e), f, i.sent ++ r.sent⟩
        | none =>
          match r.response with
          | none => .error "invalid memory address or nil pointer dereference"
          | some resp => .ok (Get.finish env parse resp f (i.sent ++ r.sent))

end realty

/-! ## The custom decoders

`strings.ReplaceAll`, `strconv.Atoi` and `strconv.ParseFloat` are library
functions; they are modelled from their documentation and, for `ParseFloat`,
from the functions `special`, `readFloat` and `underscoreOK` it is made of.
`d.DecodeElement(&s, &start)` is modelled by its outcome, the character data of
the element or an error. -/

namespace strings

/-- Replacement of the non-overlapping instances of a non-empty `old`, from
the left, on at most `fuel` positions. -/
def replaceChars (old new : List Char) : Nat → List Char → List Char
  | 0, l => l
  | _ + 1, [] => []
  | fuel + 1, c :: l =>
    if old.isPrefixOf (c :: l) then
      new ++ replaceChars old new fuel ((c :: l).drop old.length)
    else
      c :: replaceChars old new fuel l

/-- Go `strings.ReplaceAll`.  An empty `old` matches at the beginning of the
string and after each character. -/
def ReplaceAll (s old new : String) : String :=
  if old = "" then
    ⟨new.data ++ s.data.flatMap (fun c => c :: new.data)⟩
  else
    ⟨replaceChars old.data new.data s.data.length s.data⟩

end strings

namespace strconv

/-- Go `strconv.Quote`, for a text without quotes, backslashes or characters
that need an escape: the text between double quotes.  The model writes every
text so; the error texts below are the only use. -/
def Quote (s : String) : String := "\"" ++ s ++ "\""

/-- The text of the `*NumError` for `ErrSyntax`. -/
def syntaxError (fn s : String) : String :=
  "strconv." ++ fn ++ ": parsing " ++ Quote s ++ ": invalid syntax"

/-- The text of the `*NumError` for `ErrRange`. -/
def rangeError (fn s : String) : String :=
  "strconv." ++ fn ++ ": parsing " ++ Quote s ++ ": value out of range"

/-- The optional sign of a number: whether it is negative, and what follows. -/
def splitSign : List Char → Bool × List Char
  | '-' :: r => (true, r)
  | '+' :: r => (false, r)
  | r => (false, r)

/-- The number that decimal digits write. -/
def digitsValue (ds : List Char) : Nat :=
  ds.foldl (fun n c => 10 * n + (c.toNat - '0'.toNat)) 0

/-- Go `strconv.Atoi` with a 64-bit `int`: an optional sign followed by one or
more decimal digits, and nothing else; a value outside the range of `int` is an
error. -/
def Atoi (s : String) : Except String Int :=
  let p := splitSign s.data
  if p.2 ≠ [] ∧ p.2.all Char.isDigit = true then
    let v : Int := if p.1 then -(digitsValue p.2 : Int) else (digitsValue p.2 : Int)
    if -2 ^ 63 ≤ v ∧ v ≤ 2 ^ 63 - 1 then .ok v else .error (rangeError "Atoi" s)
  else
    .error (syntaxError "Atoi" s)

end strconv

/-! ### `float64` values as `strconv.ParseFloat` returns them

`Check` reads a `float64` only through comparisons with 0 and through `int(x)`,
for which the rational a finite value denotes is enough (`float64` above).
`strconv.ParseFloat` returns every `float64`, the infinities and NaN included,
and rounds the number the text writes; its model returns the IEEE 754 fields of
the value. -/

/-- A Go `float64` by its IEEE 754 binary64 fields: the sign bit, the 11 bits
of the biased exponent and the 52 bits of the fraction.  The exponent 2047 is
an infinity (fraction 0) or a NaN; the exponent 0 a zero or a subnormal value. -/
structure Binary64 where
  sign : Bool := false
  exponent : Nat := 0
  fraction : Nat := 0
deriving DecidableEq

namespace Binary64

/-- Go `math.Float64bits`. -/
def bits (x : Binary64) : Nat :=
  (if x.sign then 2 ^ 63 else 0) + x.exponent * 2 ^ 52 + x.fraction

/-- Go `math.Inf(sign)`. -/
def Inf (negative : Bool) : Binary64 := { sign := negative, exponent := 2047 }

/-- Go `math.NaN()`, the value with the bits 0x7FF8000000000001. -/
def NaN : Binary64 := { exponent := 2047, fraction := 2 ^ 51 + 1 }

/-- The value is neither an infinity nor a NaN. -/
def isFinite (x : Binary64) : Prop := x.exponent < 2047 ∧ x.fraction < 2 ^ 52

instance isFinite.decidable (x : Binary64) : Decidable x.isFinite := by
  unfold isFinite; infer_instance

/-- The magnitude of a finite value, as a rational. -/
def magnitude (x : Binary64) : ℚ :=
  if x.exponent = 0 then (x.fraction : ℚ) / 2 ^ 1074
  else ((2 ^ 52 + x.fraction : Nat) : ℚ) * 2 ^ (x.exponent - 1) / 2 ^ 1074

/-- The rational a finite value denotes. -/
def toRat (x : Binary64) : ℚ := if x.sign then -x.magnitude else x.magnitude

/-- The number of binary digits of `n`, on at most `fuel` digits; `n` itself is
fuel enough. -/
def bitLength : Nat → Nat → Nat
  | 0, _ => 0
  | fuel + 1, n => if n = 0 then 0 else bitLength fuel (n / 2) + 1

/-- The integer nearest to `num / den`, the even one of two that are equally
near (IEEE 754 roundTiesToEven). -/
def nearestEven (num den : Nat) : Nat :=
  let quotient := num / den
  let remainder := num % den
  if 2 * remainder < den then quotient
  else if den < 2 * remainder then quotient + 1
  else if quotient % 2 = 0 then quotient else quotient + 1

/-- The binary exponent the rounding of `num / den` works at: the unit of the
result is `2 ^ (-shift)`.  For a value of at least `2 ^ (-1022)` the shift
brings it into the interval from `2 ^ 52` to `2 ^ 53`; below, the unit is that
of the subnormal values, `2 ^ (-1074)`. -/
def shift (num den : Nat) : Int :=
  let s0 : Int := 52 + (bitLength den den : Int) - (bitLength num num : Int)
  let s : Int := if 2 ^ 52 * (den * 2 ^ (-s0).toNat) ≤ num * 2 ^ s0.toNat then s0 else s0 + 1
  min s 1074

/-- The value `m * 2 ^ (-s)` by its fields, for `m` up to `2 ^ 53`: a
subnormal value when `m` is below `2 ^ 52` (then `s` is 1074), and the next
binade when the rounding has reached `2 ^ 53`. -/
def assemble (negative : Bool) (m : Nat) (s : Int) : Binary64 :=
  if m < 2 ^ 52 then { sign := negative, exponent := 0, fraction := m }
  else if m < 2 ^ 53 then
    { sign := negative, exponent := (1075 - s).toNat, fraction := m - 2 ^ 52 }
  else { sign := negative, exponent := (1076 - s).toNat, fraction := 0 }

/-- The `float64` nearest to `± num / den` (`den` not 0), under IEEE 754
roundTiesToEven: an infinity when the rounded value is beyond the largest
finite `float64`. -/
def round (negative : Bool) (num den : Nat) : Binary64 :=
  if num = 0 then { sign := negative }
  else
    let s := shift num den
    let m := nearestEven (num * 2 ^ s.toNat) (den * 2 ^ (-s).toNat)
    if (assemble negative m s).exponent < 2047 then assemble negative m s else Inf negative

end Binary64

namespace strconv
/-- Go `commonPrefixLenIgnoreCase(s, prefix)`, for a lower-case `prefix`: only
the letters `A` to `Z` of `s` are folded. -/
def commonPrefixLenIgnoreCase : List Char → List Char → Nat
  | c :: s, p :: ps =>
    if c.toLower = p then commonPrefixLenIgnoreCase s ps + 1 else 0
  | _, _ => 0

/-- Go `special`: the value and the rest of the text when the text starts with
a possibly signed "inf" or "infinity" or with "nan", in any case. -/
def special (s : List Char) : Option (Binary64 × List Char) :=
  let infinity (negative : Bool) (t : List Char) : Option (Binary64 × List Char) :=
    let n := commonPrefixLenIgnoreCase t "infinity".data
    let n := if 3 < n ∧ n < 8 then 3 else n
    if n = 3 ∨ n = 8 then some (Binary64.Inf negative, t.drop n) else none
  match s with
  | [] => none
  | '+' :: t => infinity false t
  | '-' :: t => infinity true t
  | c :: t =>
    if c = 'i' ∨ c = 'I' then infinity false (c :: t)
    else if c = 'n' ∨ c = 'N' then
      if commonPrefixLenIgnoreCase (c :: t) "nan".data = 3 then
        some (Binary64.NaN, (c :: t).drop 3)
      else none
    else none

/-- The letters that are hexadecimal digits: `'a' <= lower(c) && lower(c) <= 'f'`. -/
def isHexLetter (c : Char) : Bool := "abcdefABCDEF".data.contains c

/-- The value of a hexadecimal letter, `lower(c) - 'a' + 10`. -/
def hexLetterValue (c : Char) : Nat :=
  if 'a'.toNat ≤ c.toNat then c.toNat - 'a'.toNat + 10 else c.toNat - 'A'.toNat + 10

/-- The state of the digit loop of `readFloat`.  The source keeps the first 19
digits (16 in base 16) with a flag for dropped digits, and the caller goes back
to the text when digits were dropped; the model keeps every digit. -/
structure Mantissa where
  /-- The number the digits read so far write, the point left out. -/
  mantissa : Nat := 0
  /-- The number of digits read after the point. -/
  fraction : Nat := 0
  sawdot : Bool := false
  sawdigits : Bool := false
  underscores : Bool := false

/-- The digit loop of `readFloat`: it stops at a second point and at a character
that is neither an underscore, a point nor a digit of the base.  Returns the
state and the text from the character it stopped at. -/
def readDigits (hex : Bool) : List Char → Mantissa → Mantissa × List Char
  | [], st => (st, [])
  | c :: r, st =>
    if c = '_' then readDigits hex r { st with underscores := true }
    else if c = '.' then
      if st.sawdot then (st, c :: r) else readDigits hex r { st with sawdot := true }
    else if c.isDigit then
      readDigits hex r
        { st with sawdigits := true,
                  mantissa := st.mantissa * (if hex then 16 else 10) + (c.toNat - '0'.toNat),
                  fraction := if st.sawdot then st.fraction + 1 else st.fraction }
    else if hex ∧ isHexLetter c then
      readDigits hex r
        { st with sawdigits := true,
                  mantissa := st.mantissa * 16 + hexLetterValue c,
                  fraction := if st.sawdot then st.fraction + 1 else st.fraction }
    else (st, c :: r)

/-- The loop over the digits of the exponent: an exponent that has reached
10000 takes no further digit.  Returns the exponent, whether an underscore was
met, and the text from the character the loop stopped at. -/
def readExponentDigits : List Char → Nat → Bool → Nat × Bool × List Char
  | [], e, underscores => (e, underscores, [])
  | c :: r, e, underscores =>
    if c.isDigit then
      readExponentDigits r (if e < 10000 then e * 10 + (c.toNat - '0'.toNat) else e) underscores
    else if c = '_' then readExponentDigits r e true
    else (e, underscores, c :: r)

/-- The optional sign of the exponent, `esign`, and what follows it. -/
def exponentSign : List Char → Int × List Char
  | '+' :: r => (1, r)
  | '-' :: r => (-1, r)
  | r => (1, r)

/-- The exponent part of `readFloat`, after the exponent character: an
optional sign and at least one digit, the first character after the sign being
a digit.  `none` when that is missing. -/
def readExponent (s : List Char) : Option (Int × Bool × List Char) :=
  let p := exponentSign s
  match p.2 with
  | [] => none
  | c :: r =>
    if c.isDigit then
      let d := readExponentDigits (c :: r) 0 false
      some (p.1 * (d.1 : Int), d.2.1, d.2.2)
    else none

/-- Go `underscoreOK`, after the optional sign and the optional base prefix:
`saw` is the kind of the last character, `'^'` at the beginning, `'0'` for a
digit or the base prefix, `'_'` for an underscore and `'!'` for anything else. -/
def underscoreLoop (hex : Bool) : List Char → Char → Bool
  | [], saw => saw != '_'
  | c :: r, saw =>
    if c.isDigit ∨ (hex ∧ isHexLetter c) then underscoreLoop hex r '0'
    else if c = '_' then
      if saw != '0' then false else underscoreLoop hex r '_'
    else if saw == '_' then false
    else underscoreLoop hex r '!'

/-- Go `underscoreOK`: every underscore stands between two digits, or between
the base prefix and a digit. -/
def underscoreOK (s : List Char) : Bool :=
  let s := match s with
    | '+' :: r => r
    | '-' :: r => r
    | r => r
  match s with
  | '0' :: c :: r =>
    if c = 'b' ∨ c = 'B' ∨ c = 'o' ∨ c = 'O' ∨ c = 'x' ∨ c = 'X' then
      underscoreLoop (c = 'x' ∨ c = 'X') r '0'
    else underscoreLoop false s '^'
  | _ => underscoreLoop false s '^'

/-- What `readFloat` reads from a text it accepts: the sign, the base, the
digits with their point, the exponent (decimal in base 10, binary in base 16)
and the text that is left. -/
structure Reading where
  neg : Bool
  hex : Bool
  mantissa : Nat
  fraction : Nat
  exponent : Int
  rest : List Char

/-- The optional base prefix of `readFloat`, "0x" or "0X" with a character
after it: whether the base is 16, and what follows the prefix. -/
def baseOf (s : List Char) : Bool × List Char :=
  match s with
  | '0' :: c :: d :: r => if c = 'x' ∨ c = 'X' then (true, d :: r) else (false, s)
  | r => (false, r)

/-- Go `readFloat`; `none` when `ok` is false. -/
def readFloat (s : List Char) : Option Reading :=
  if s = [] then none
  else
    let sign := splitSign s
    let base := baseOf sign.2
    let m := readDigits base.1 base.2 {}
    if m.1.sawdigits = false then none
    else
      let exponent : Option (Int × Bool × List Char) :=
        match m.2 with
        | [] => if base.1 then none else some (0, false, [])
        | c :: r =>
          if (if base.1 then c = 'p' ∨ c = 'P' else c = 'e' ∨ c = 'E') then readExponent r
          else if base.1 then none
          else some (0, false, c :: r)
      match exponent with
      | none => none
      | some e =>
        if (m.1.underscores ∨ e.2.1) ∧ underscoreOK (s.take (s.length - e.2.2.length)) = false
        then none
        else some ⟨sign.1, base.1, m.1.mantissa, m.1.fraction, e.1, e.2.2⟩

/-- The number a reading writes, as a fraction: the mantissa times 10 to the
exponent less the digits after the point; in base 16, the mantissa times 2 to
the exponent less four times the digits after the point. -/
def Reading.fraction_of (r : Reading) : Nat × Nat :=
  let e : Int := if r.hex then r.exponent - 4 * r.fraction else r.exponent - r.fraction
  let b : Nat := if r.hex then 2 else 10
  (r.mantissa * b ^ e.toNat, b ^ (-e).toNat)

/-- Go `strconv.ParseFloat(s, 64)`: the value and the error.  The text is a
special value, or a decimal or hexadecimal floating-point number in the syntax
of Go; "ParseFloat returns the nearest floating-point number rounded using
IEEE754 unbiased rounding", and an infinity with `ErrRange` when the number is
beyond the largest `float64`.  A text that is not read to its end is refused
with `ErrSyntax`. -/
def ParseFloat (s : String) : Binary64 × Option String :=
  match special s.data with
  | some (val, rest) =>
    if rest = [] then (val, none) else ({}, some (syntaxError "ParseFloat" s))
  | none =>
    match readFloat s.data with
    | none => ({}, some (syntaxError "ParseFloat" s))
    | some r =>
      if r.rest ≠ [] then ({}, some (syntaxError "ParseFloat" s))
      else
        let f := Binary64.round r.neg r.fraction_of.1 r.fraction_of.2
        if f.exponent = 2047 then (f, some (rangeError "ParseFloat" s)) else (f, none)

end strconv

namespace validation

/-- Go `(ci *CustomInt64) UnmarshalXML`; `text` is the outcome of
`d.DecodeElement(&s, &start)`.  Returns the value of `*ci` after the call and
the error. -/
def CustomInt64.UnmarshalXML (ci : CustomInt64) (text : Except String String) :
    CustomInt64 × Option String :=
  match text with
  | .error e => (ci, some e)
  | .ok s =>
    if s = "undefined" then
      ({ ci with Valid := false }, none)
    else
      match strconv.Atoi s with
      | .error e => (ci, some e)
      | .ok customI => ({ ci with Int64 := customI }, none)

end validation

namespace cian

/-- Go `(cf *CustomFloat64) UnmarshalXML`.  `cf` is the value of the field
`cf.Float64`, by its bits, and `text` the outcome of
`d.DecodeElement(&s, &start)`.  Returns the value of the field after the call
and the error. -/
def CustomFloat64.UnmarshalXML (cf : Binary64) (text : Except String String) :
    Binary64 × Option String :=
  match text with
  | .error e => (cf, some e)
  | .ok s =>
    let s := strings.ReplaceAll s "," "."
    match strconv.ParseFloat s with
    | (_, some e) => (cf, some e)
    | (float, none) => (float, none)

end cian
/-! ## The contract of `Check` and descriptions of its result -/

/-- The error contract of a call of `Check` on a Feed whose fetched flag is
`isGet`: an error exactly when the Feed is not fetched, then with the text
"feed not got" and a nil list; otherwise a list and a nil error. -/
def CheckContract (isGet : Bool) (r : CheckResult) : Prop :=
  (r.2 ≠ none ↔ isGet = false) ∧
  (isGet = false → r = (none, some "feed not got")) ∧
  (isGet = true → ∃ rs : List String, r = (some rs, none))

/-- The finding of a presence check without identifier: the message when the
value is empty, nothing otherwise. -/
def validation.stringFinding (path fieldName value : String) : List String :=
  if value = "" then ["field " ++ path ++ "." ++ fieldName ++ " is empty"] else []

/-- The finding of a positional presence check. -/
def validation.posFinding (idx : Nat) (path fieldName value : String) : List String :=
  if value = "" then
    ["field " ++ path ++ "[" ++ toString idx ++ "]." ++ fieldName ++ " is empty"]
  else []

/-- The finding of a presence check that names the listing: the identifier
part reads "InternalID not found" when the identifier is empty. -/
def validation.idFinding (ID path fieldName value : String) : List String :=
  if value = "" then
    ["field " ++ path ++ "." ++ fieldName ++ " is empty. "
      ++ (if ID = "" then "InternalID not found" else "InternalID: " ++ ID)]
  else []

/-- The finding of a zero check. -/
def validation.zeroFinding {V : Type} [Zero V] [DecidableEq V] (ID path fieldName : String)
    (value : V) : List String :=
  if value = 0 then
    ["field " ++ path ++ "." ++ fieldName ++ " is empty. InternalID: " ++ ID]
  else []

/-- The message list of the Avito ad `lot` at index `idx`, as the validation
pass is described: every check of the fixed sequence, in order, contributes its
message when it is triggered and nothing otherwise. -/
def avito.lotMessages (idx : Nat) (lot : avito.Ad) : List String :=
  validation.posFinding idx "Ad" "ID" lot.ID
  ++ validation.idFinding lot.ID "Ad" "ContactPhone" lot.ContactPhone
  ++ validation.idFinding lot.ID "Ad" "Description" lot.Description
  ++ validation.idFinding lot.ID "Ad" "Category" lot.Category
  ++ validation.zeroFinding lot.ID "Ad" "Price" lot.Price
  ++ validation.idFinding lot.ID "Ad" "OperationType" lot.OperationType
  ++ validation.idFinding lot.ID "Ad" "MarketType" lot.MarketType
  ++ validation.idFinding lot.ID "Ad" "HouseType" lot.HouseType
  ++ validation.zeroFinding lot.ID "Ad" "Floor" lot.Floor
  ++ validation.zeroFinding lot.ID "Ad" "Floors" lot.Floors
  ++ validation.idFinding lot.ID "Ad" "Rooms" lot.Rooms
  ++ validation.zeroFinding lot.ID "Ad" "Square" lot.Square
  ++ (if lot.LivingSpace = 0 ∧ lot.Rooms ≠ "Студия" then
        ["field LivingSpace is empty. InternalID: " ++ lot.ID] else [])
  ++ validation.idFinding lot.ID "Ad" "Status" lot.Status
  ++ validation.idFinding lot.ID "Ad" "NewDevelopmentId" lot.NewDevelopmentID
  ++ validation.idFinding lot.ID "Ad" "PropertyRights" lot.PropertyRights
  ++ validation.idFinding lot.ID "Ad" "Decoration" lot.Decoration
  ++ (if lot.Floor > lot.Floors then
        ["field Floor is bigger than Floors. InternalID: " ++ lot.ID] else [])
  ++ lot.Images.Image.enum.flatMap
      (fun p => validation.posFinding p.1 "Images.Image" "URL" p.2.URL)
  ++ (if lot.Images.Image.length < 3 ∨ lot.Images.Image.length > 40 then
        ["field Images.Image contains '" ++ toString lot.Images.Image.length
          ++ "' items. InternalID: " ++ lot.ID] else [])

/-! ### Reading messages -/

/-- Whether two character lists differ at a position both of them have. -/
def charsMismatch : List Char → List Char → Bool
  | a :: p, b :: q => a != b || charsMismatch p q
  | _, _ => false

/-- The string `s` begins with the string `p`. -/
def startsWith (p s : String) : Prop := p.data <+: s.data

/-- The string `sub` occurs in the string `s`. -/
def occursIn (sub s : String) : Prop := sub.data <:+: s.data

instance startsWith.decidable (p s : String) : Decidable (startsWith p s) := by
  unfold startsWith; infer_instance

instance occursIn.decidable (sub s : String) : Decidable (occursIn sub s) := by
  unfold occursIn; infer_instance

/-! ### The required string fields of an Avito ad -/

/-- The string fields of an Avito ad that `Check` passes to `CheckStringWithID`. -/
inductive avito.RequiredString
  | ContactPhone | Description | Category | OperationType | MarketType | HouseType
  | Rooms | Status | NewDevelopmentId | PropertyRights | Decoration
deriving DecidableEq

/-- The field name under which the check reports the field. -/
def avito.RequiredString.name : avito.RequiredString → String
  | .ContactPhone => "ContactPhone"
  | .Description => "Description"
  | .Category => "Category"
  | .OperationType => "OperationType"
  | .MarketType => "MarketType"
  | .HouseType => "HouseType"
  | .Rooms => "Rooms"
  | .Status => "Status"
  | .NewDevelopmentId => "NewDevelopmentId"
  | .PropertyRights => "PropertyRights"
  | .Decoration => "Decoration"

/-- The value of the field in an ad. -/
def avito.RequiredString.value : avito.RequiredString → avito.Ad → String
  | .ContactPhone, lot => lot.ContactPhone
  | .Description, lot => lot.Description
  | .Category, lot => lot.Category
  | .OperationType, lot => lot.OperationType
  | .MarketType, lot => lot.MarketType
  | .HouseType, lot => lot.HouseType
  | .Rooms, lot => lot.Rooms
  | .Status, lot => lot.Status
  | .NewDevelopmentId, lot => lot.NewDevelopmentID
  | .PropertyRights, lot => lot.PropertyRights
  | .Decoration, lot => lot.Decoration

/-- The message "field Ad.F is empty. InternalID: <id>". -/
def avito.requiredMsg (F : avito.RequiredString) (id : String) : String :=
  "field Ad." ++ F.name ++ " is empty. InternalID: " ++ id

/-- The positional message of an image whose URL is empty. -/
def avito.imageMsg (j : Nat) : String :=
  "field Images.Image[" ++ toString j ++ "].URL is empty"

/-! ### Sample feeds -/

/-- An Avito ad that passes every check. -/
def avito.sampleAd (id : String) : avito.Ad :=
  { ID := id, ContactPhone := "+7", Description := "d", Category := "c", OperationType := "o",
    Price := 100, Rooms := "2", Square := 30, LivingSpace := 20, Decoration := "x",
    Status := "s", Floor := 2, Floors := 5, HouseType := "h", MarketType := "m",
    PropertyRights := "p", NewDevelopmentID := "n",
    Images := { Image := [{ URL := "u1" }, { URL := "u2" }, { URL := "u3" }] } }

/-- Ten ads that pass every check, with identifiers "a0" to "a9". -/
def avito.sampleAds : List avito.Ad :=
  (List.range 10).map (fun i => avito.sampleAd ("a" ++ toString i))

/-- A fetched feed of eleven ads: the last one, "A7", has no contact phone and
two images, the first without URL. -/
def avito.sampleFeed : avito.Feed :=
  { isGet := true,
    Data := { Ad := avito.sampleAds ++
      [{ avito.sampleAd "A7" with
          ContactPhone := "", Images := { Image := [{ URL := "" }, { URL := "u" }] } }] } }

/-- A fetched feed of eleven ads: the last one has no identifier, no contact
phone and no price. -/
def avito.anonymousFeed : avito.Feed :=
  { isGet := true,
    Data := { Ad := avito.sampleAds ++
      [{ avito.sampleAd "" with ContactPhone := "", Price := 0 }] } }

/-! ### Realty: the messages of one offer -/

/-- The message list of the Realty offer `lot` at index `idx`, in the year
`year`: every check of the fixed sequence, in order, contributes its message
when it is triggered and nothing otherwise. -/
def realty.lotMessages (year : Int) (idx : Nat) (lot : realty.Offer) : List String :=
  (if lot.InternalID = "" then
      ["field InternalID is empty. Position: " ++ toString idx] else [])
  ++ (if !(realty.collectTags lot.Image).has "plan" then
      ["tag 'plan' for image is not found. InternalID: " ++ lot.InternalID] else [])
  ++ (if !(realty.collectTags lot.Image).has "floor-plan" then
      ["tag 'floor-plan' for image is not found. InternalID: " ++ lot.InternalID] else [])
  ++ validation.idFinding lot.InternalID "offer" "Type" lot.Type_
  ++ validation.idFinding lot.InternalID "offer" "PropertyType" lot.PropertyType
  ++ validation.idFinding lot.InternalID "offer" "CreationDate" lot.CreationDate
  ++ validation.idFinding lot.InternalID "offer.Location" "Country" lot.Location.Country
  ++ validation.idFinding lot.InternalID "offer.Location" "Address" lot.Location.Address
  ++ validation.idFinding lot.InternalID "offer.SalesAgent" "Phone" lot.SalesAgent.Phone
  ++ validation.idFinding lot.InternalID "offer.SalesAgent" "Category" lot.SalesAgent.Category
  ++ validation.idFinding lot.InternalID "offer" "DealStatus" lot.DealStatus
  ++ validation.zeroFinding lot.InternalID "offer.Price" "Value" lot.Price.Value
  ++ validation.idFinding lot.InternalID "offer.Price" "Currency" lot.Price.Currency
  ++ validation.zeroFinding lot.InternalID "offer.Area" "Value" lot.Area.Value
  ++ validation.idFinding lot.InternalID "offer.Area" "Unit" lot.Area.Unit
  ++ validation.zeroFinding lot.InternalID "offer" "Rooms" lot.Rooms
  ++ validation.idFinding lot.InternalID "offer" "NewFlat" lot.NewFlat
  ++ validation.zeroFinding lot.InternalID "offer" "Floor" lot.Floor
  ++ validation.zeroFinding lot.InternalID "offer" "FloorsTotal" lot.FloorsTotal
  ++ validation.idFinding lot.InternalID "offer" "BuildingName" lot.BuildingName
  ++ validation.zeroFinding lot.InternalID "offer" "YandexBuildingID" lot.YandexBuildingID
  ++ validation.idFinding lot.InternalID "offer" "BuildingState" lot.BuildingState
  ++ validation.zeroFinding lot.InternalID "offer" "BuiltYear" lot.BuiltYear
  ++ validation.zeroFinding lot.InternalID "offer" "ReadyQuarter" lot.ReadyQuarter
  ++ (if lot.LivingSpace.Value = 0 ∧ lot.OpenPlan ≠ "1" then
      ["field LivingSpace.Value is empty. InternalID: " ++ lot.InternalID] else [])
  ++ (if lot.BuiltYear < year ∧ lot.BuildingState = "unfinished" then
      ["BuildingState == unfinished for " ++ toString lot.BuiltYear
        ++ ". InternalID: " ++ lot.InternalID] else [])
  ++ (if lot.Floor > lot.FloorsTotal then
      ["field Floor is bigger than FloorsTotal. InternalID: " ++ lot.InternalID] else [])
  ++ (if (lot.RoomSpace.length : Int) > lot.Rooms then
      ["field RoomSpace contains more values than Rooms. InternalID: " ++ lot.InternalID]
      else [])
  ++ (if lot.Image.length < 3 then
      ["field Image contains '" ++ toString lot.Image.length
        ++ "' items. InternalID: " ++ lot.InternalID] else [])

/-- A fetched Realty feed of two offers with every field at its zero value. -/
def realty.blankFeed : realty.Feed :=
  { isGet := true, Data := { Offer := [{}, {}] } }

/-- A Realty offer that passes every check in a year up to 2030. -/
def realty.sampleOffer (id : String) : realty.Offer :=
  { InternalID := id, Image := [{ Tag := "plan" }, { Tag := "floor-plan" }, { Tag := "" }],
    Type_ := "продажа", PropertyType := "жилая", CreationDate := "2024-01-01",
    Location := { Country := "Россия", Address := "a" },
    SalesAgent := { Phone := "+7", Category := "developer" },
    DealStatus := "sale", Price := { Value := 100, Currency := "RUR" },
    Area := { Value := 30, Unit := "кв. м" }, Rooms := 2, NewFlat := "1", Floor := 2,
    FloorsTotal := 5, BuildingName := "b", YandexBuildingID := 7, BuildingState := "unfinished",
    BuiltYear := 2030, ReadyQuarter := 4, LivingSpace := { Value := 20 } }

/-- A fetched Realty feed of two valid offers. -/
def realty.sampleFeed : realty.Feed :=
  { isGet := true, Data := { Offer := [realty.sampleOffer "r1", realty.sampleOffer "r2"] } }

/-! ### DomClick: the messages of a flat, of a building and of the feed -/

/-- The message list of the DomClick flat `lot` at index `idx` of a building
with `floors` floors. -/
def domclick.lotMessages (floors : Int) (idx : Nat) (lot : domclick.Flat) : List String :=
  validation.posFinding idx "Flats.Flat" "FlatID" lot.FlatID
  ++ validation.zeroFinding lot.FlatID "Flats.Flat" "Floor" lot.Floor
  ++ (if lot.Room = none then
      ["Field Flats.Room is empty. InternalID: " ++ lot.FlatID] else [])
  ++ validation.idFinding lot.FlatID "Flats.Flat" "Plan" lot.Plan
  ++ validation.idFinding lot.FlatID "Flats.Flat" "Balcony" lot.Balcony
  ++ validation.zeroFinding lot.FlatID "Flats.Flat" "Price" lot.Price
  ++ validation.zeroFinding lot.FlatID "Flats.Flat" "Area" lot.Area
  ++ validation.zeroFinding lot.FlatID "Flats.Flat" "LivingArea" lot.LivingArea
  ++ (if lot.LivingArea = 0 then
      lot.RoomsArea.Area.enum.flatMap (fun p =>
        if p.2 = "" then
          ["Field Flats.Flat.RoomsArea.Area[" ++ toString p.1
            ++ "] is empty. InternalID: " ++ lot.FlatID]
        else [])
      else [])
  ++ validation.zeroFinding lot.FlatID "Flats.Flat" "KitchenArea" lot.KitchenArea
  ++ validation.idFinding lot.FlatID "Flats.Flat" "Bathroom" lot.Bathroom
  ++ (if lot.Floor > floors then
      ["Field Flats.Flat.Floor is bigger than building.Floors. InternalID: " ++ lot.FlatID]
      else [])

/-- The message list of the DomClick building at position `pos`, in the year
`year`: the checks of the building, then the messages of its flats in order. -/
def domclick.buildingMessages (year : Int) (pos : Nat) (building : domclick.Building) :
    List String :=
  validation.posFinding pos "Complex.Buildings.Building" "ID" building.ID
  ++ validation.idFinding building.ID "Complex.Buildings.Building" "Fz214" building.Fz214
  ++ validation.idFinding building.ID "Complex.Buildings.Building" "Name" building.Name
  ++ validation.zeroFinding building.ID "Complex.Buildings.Building" "Floors" building.Floors
  ++ validation.idFinding building.ID "Complex.Buildings.Building" "BuildingState"
      building.BuildingState
  ++ validation.zeroFinding building.ID "Complex.Buildings.Building" "BuiltYear"
      building.BuiltYear
  ++ validation.zeroFinding building.ID "Complex.Buildings.Building" "ReadyQuarter"
      building.ReadyQuarter
  ++ validation.idFinding building.ID "Complex.Buildings.Building" "BuildingType"
      building.BuildingType
  ++ (if building.BuiltYear < year ∧ building.BuildingState = "unfinished" then
      ["BuildingState == unfinished for " ++ toString building.BuiltYear
        ++ ". InternalID: " ++ building.ID] else [])
  ++ building.Flats.Flat.enum.flatMap (fun p => domclick.lotMessages building.Floors p.1 p.2)

/-- The message list of a DomClick complex, in the year `year`: the checks of
the complex, of its images, description and profits, the messages of its
buildings in order, then the checks of the sales information and developer. -/
def domclick.complexMessages (year : Int) (residence : domclick.Complex) : List String :=
  validation.stringFinding "Complex" "ID" residence.ID
  ++ validation.stringFinding "Complex" "Name" residence.Name
  ++ validation.stringFinding "Complex" "Address" residence.Address
  ++ validation.stringFinding "Complex" "Latitude" residence.Latitude
  ++ validation.stringFinding "Complex" "Longitude" residence.Longitude
  ++ residence.Images.Image.enum.flatMap
      (fun p => validation.posFinding p.1 "Complex.Images.Image" "Image" p.2)
  ++ validation.stringFinding "Complex.DescriptionMain" "Title" residence.DescriptionMain.Title
  ++ validation.stringFinding "Complex.DescriptionMain" "Text" residence.DescriptionMain.Text
  ++ residence.ProfitsMain.ProfitMain.enum.flatMap (fun p =>
      validation.posFinding p.1 "Complex.ProfitsMain.ProfitMain" "Title" p.2.Title
      ++ validation.posFinding p.1 "Complex.ProfitsMain.ProfitMain" "Text" p.2.Text
      ++ validation.posFinding p.1 "Complex.ProfitsMain.ProfitMain" "Image" p.2.Image)
  ++ residence.Buildings.Building.enum.flatMap
      (fun p => domclick.buildingMessages year p.1 p.2)
  ++ validation.stringFinding "Complex.SalesInfo" "SalesPhone" residence.SalesInfo.SalesPhone
  ++ validation.stringFinding "Complex.SalesInfo" "SalesAddress"
      residence.SalesInfo.SalesAddress
  ++ validation.stringFinding "Complex.SalesInfo" "SalesLatitude"
      residence.SalesInfo.SalesLatitude
  ++ validation.stringFinding "Complex.SalesInfo" "SalesLongitude"
      residence.SalesInfo.SalesLongitude
  ++ validation.stringFinding "Complex.Developer" "Name" residence.Developer.Name
  ++ validation.stringFinding "Complex.Developer" "Phone" residence.Developer.Phone
  ++ validation.stringFinding "Complex.Developer" "Site" residence.Developer.Site
  ++ validation.stringFinding "Complex.Developer" "Logo" residence.Developer.Logo

/-- The total number of flats of a DomClick feed, over all its buildings. -/
def domclick.flatCount (f : domclick.Feed) : Nat :=
  (f.Data.Complex.Buildings.Building.map (fun b => b.Flats.Flat.length)).sum

/-- A fetched DomClick feed with two buildings and no flat. -/
def domclick.noFlatFeed : domclick.Feed :=
  { isGet := true, Data := { Complex := { Buildings := { Building := [{}, {}] } } } }

/-- A fetched DomClick feed with one building of three flats. -/
def domclick.oneBuildingFeed : domclick.Feed :=
  { isGet := true,
    Data := { Complex := { Buildings := { Building :=
      [{ Flats := { Flat := [{ FlatID := "f1" }, { FlatID := "f2" }, { FlatID := "f3" }] } }] } } } }

/-! ### Reading the course of `Get` -/

/-- The upstream answers the header probe or the body fetch of the client `c`
for `url` with a status other than 200. -/
def Env.answersNon200 (env : Env) (c : Nat) (url : String) : Prop :=
  (∃ resp, env.Do c "HEAD" url = .ok resp ∧ resp.StatusCode ≠ 200) ∨
  (∃ resp, env.Do c "GET" url = .ok resp ∧ resp.StatusCode ≠ 200)

/-- The error of reading and decoding the body of a response into an Avito
`Data` holding `d`: the read error, the error of the parser, or the error of
`xml.Unmarshal`. -/
def avito.decodeError (parse : String → Except String avito.Document) (resp : Response)
    (d : avito.Data) : Option String :=
  match resp.Body with
  | .error e => some e
  | .ok body =>
    match parse body with
    | .error e => some e
    | .ok doc => (avito.Unmarshal doc d).2

/-- An upstream that answers every HEAD with `head` and every other request
with `get`; requests can always be built and no time text parses. -/
def Env.answering (head get : Response) : Env :=
  { NewRequestWithContext := fun _ _ => none,
    Do := fun _ method _ => if method = "HEAD" then .ok head else .ok get,
    ParseRFC1123 := fun _ => .error "parsing time",
    ParseRFC3339Nano := fun _ => .error "parsing time" }

/-- The response "404 Not Found". -/
def Response.notFound : Response := { Status := "404 Not Found", StatusCode := 404 }

/-- A response "200 OK" without `Last-Modified` header, with the given body. -/
def Response.okWith (body : String) : Response :=
  { Status := "200 OK", StatusCode := 200, Body := .ok body }

/-- The Avito sample feed, fetched, with a client. -/
def avito.fetchedFeed : avito.Feed := { avito.sampleFeed with client := some 0 }

/-- A parser of Avito payloads that reads the body "old" as one ad "old" and
every other body as one ad "new". -/
def avito.sampleParse (body : String) : Except String avito.Document :=
  if body = "old" then .ok { Ad := [avito.sampleAd "old"] }
  else .ok { Ad := [avito.sampleAd "new"] }

/-! ### Messages of the structural checks -/

/-- The message of a DomClick flat that lies above the floors of its building. -/
def domclick.floorMsg (id : String) : String :=
  "Field Flats.Flat.Floor is bigger than building.Floors. InternalID: " ++ id

/-- The message of an Avito ad whose number of images is out of range. -/
def avito.imagesCountMsg (n : Nat) (id : String) : String :=
  "field Images.Image contains '" ++ toString n ++ "' items. InternalID: " ++ id

/-- A DomClick building of 9 floors with two flats, "f1" on floor 10 and "f2"
on floor 9. -/
def domclick.nineFloors : domclick.Building :=
  { ID := "b1", Floors := 9,
    Flats := { Flat := [{ FlatID := "f1", Floor := 10 }, { FlatID := "f2", Floor := 9 }] } }

/-- A fetched DomClick feed with the building of 9 floors and a building of 20
floors without flats. -/
def domclick.sampleFeed : domclick.Feed :=
  { isGet := true,
    Data := { Complex := { Buildings := { Building :=
      [domclick.nineFloors, { ID := "b2", Floors := 20 }] } } } }

/-- The number of flats of the complex that carry the identifier `id` and lie
above the floors of their own building. -/
def domclick.floorExcessCount (residence : domclick.Complex) (id : String) : Nat :=
  (residence.Buildings.Building.map (fun building =>
    building.Flats.Flat.countP
      (fun lot => decide (lot.FlatID = id ∧ lot.Floor > building.Floors)))).sum

/-- Whether the Avito ad has a number of images outside the range 3..40. -/
def avito.imagesOutOfRange (lot : avito.Ad) : Prop :=
  lot.Images.Image.length < 3 ∨ lot.Images.Image.length > 40

instance avito.imagesOutOfRange.decidable (lot : avito.Ad) :
    Decidable (avito.imagesOutOfRange lot) := by
  unfold avito.imagesOutOfRange; infer_instance

/-! ### Texts of numbers -/

/-- A text that is a decimal integer: an optional sign followed by one or more
decimal digits. -/
def strconv.isDecimalInteger (s : String) : Bool :=
  match s.data with
  | [] => false
  | c :: ds =>
    if c = '-' ∨ c = '+' then !ds.isEmpty && ds.all Char.isDigit
    else (c :: ds).all Char.isDigit

/-! ### The contract of a validation primitive -/

/-- What a validation primitive does to the result list `rs`, returning `r`:
it returns false exactly when the value is empty; then the list is `rs` with the
one message `msg` appended at the end, and otherwise the list is `rs`; in both
cases the entries of `rs` stay, in place and order, at the beginning. -/
def validation.AppendsWhenEmpty (empty : Prop) (msg : String) (rs : List String)
    (r : Bool × List String) : Prop :=
  (r.1 = false ↔ empty) ∧ (empty → r.2 = rs ++ [msg]) ∧ (¬ empty → r.2 = rs) ∧ rs <+: r.2

/-! ### Avito: an ad without findings -/

/-- An Avito ad that satisfies every rule of the pass at once. -/
def avito.adValid (lot : avito.Ad) : Prop :=
  (lot.ID ≠ "" ∧ lot.ContactPhone ≠ "" ∧ lot.Description ≠ "" ∧ lot.Category ≠ ""
    ∧ lot.OperationType ≠ "" ∧ lot.MarketType ≠ "" ∧ lot.HouseType ≠ "" ∧ lot.Rooms ≠ ""
    ∧ lot.Status ≠ "" ∧ lot.NewDevelopmentID ≠ "" ∧ lot.PropertyRights ≠ ""
    ∧ lot.Decoration ≠ "")
  ∧ (lot.Price ≠ 0 ∧ lot.Floor ≠ 0 ∧ lot.Floors ≠ 0 ∧ lot.Square ≠ 0)
  ∧ (lot.LivingSpace ≠ 0 ∨ lot.Rooms = "Студия")
  ∧ lot.Floor ≤ lot.Floors
  ∧ (∀ image ∈ lot.Images.Image, image.URL ≠ "")
  ∧ (3 ≤ lot.Images.Image.length ∧ lot.Images.Image.length ≤ 40)

/-- A fetched Avito feed of eleven ads that pass every check. -/
def avito.validFeed : avito.Feed :=
  { isGet := true, Data := { Ad := avito.sampleAds ++ [avito.sampleAd "a10"] } }

/-! ### Messages of the cross-field rules -/

/-- The message of a Realty offer without an image tagged "plan". -/
def realty.planMsg (id : String) : String :=
  "tag 'plan' for image is not found. InternalID: " ++ id

/-- The message of a Realty offer without an image tagged "floor-plan". -/
def realty.floorPlanMsg (id : String) : String :=
  "tag 'floor-plan' for image is not found. InternalID: " ++ id

/-- One of the images carries the tag `t`. -/
def realty.hasTag (images : List realty.Image) (t : String) : Prop :=
  ∃ image ∈ images, image.Tag = t

instance realty.hasTag.decidable (images : List realty.Image) (t : String) :
    Decidable (realty.hasTag images t) := by
  unfold realty.hasTag; infer_instance

/-- The living-area message of an Avito ad. -/
def avito.livingMsg (id : String) : String :=
  "field LivingSpace is empty. InternalID: " ++ id

/-- The living-area message of a Realty offer. -/
def realty.livingMsg (id : String) : String :=
  "field LivingSpace.Value is empty. InternalID: " ++ id

/-- The message of the unfinished-building rule, for a built year and an
identifier. -/
def unfinishedMsg (builtYear : Int) (id : String) : String :=
  "BuildingState == unfinished for " ++ toString builtYear ++ ". InternalID: " ++ id

/-- A fetched Avito feed of eleven ads: the last two have no living space, one
of them is a studio. -/
def avito.studioFeed : avito.Feed :=
  { isGet := true,
    Data := { Ad := (avito.sampleAds.take 9) ++
      [{ avito.sampleAd "s1" with LivingSpace := 0, Rooms := "Студия" },
       { avito.sampleAd "s2" with LivingSpace := 0 }] } }

/-- A fetched Realty feed of four offers: "t1" is valid, "t2" has no living
space, "t3" has no living space and an open plan, "t4" has two images tagged
"plan" and none tagged "floor-plan". -/
def realty.mixedFeed : realty.Feed :=
  { isGet := true,
    Data := { Offer :=
      [realty.sampleOffer "t1",
       { realty.sampleOffer "t2" with LivingSpace := { Value := 0 } },
       { realty.sampleOffer "t3" with LivingSpace := { Value := 0 }, OpenPlan := "1" },
       { realty.sampleOffer "t4" with
          Image := [{ Tag := "plan" }, { Tag := "" }, { Tag := "plan" }] }] } }

/-- The unfinished-building rule: the built year lies before the year `year`
and the state reads "unfinished". -/
def unfinishedRule (year builtYear : Int) (state : String) : Prop :=
  builtYear < year ∧ state = "unfinished"

instance unfinishedRule.decidable (year builtYear : Int) (state : String) :
    Decidable (unfinishedRule year builtYear state) := by
  unfold unfinishedRule; infer_instance

/-- A fetched Realty feed of four offers in state "unfinished": built in 2023,
in 2024, in 2025 and without built year. -/
def realty.unfinishedFeed : realty.Feed :=
  { isGet := true,
    Data := { Offer :=
      [{ realty.sampleOffer "u1" with BuiltYear := 2023 },
       { realty.sampleOffer "u2" with BuiltYear := 2024 },
       { realty.sampleOffer "u3" with BuiltYear := 2025 },
       { realty.sampleOffer "u4" with BuiltYear := 0 }] } }

/-- A fetched DomClick feed of three buildings in state "unfinished", built in
2023, in 2024 and without built year, in an otherwise complete complex. -/
def domclick.unfinishedFeed : domclick.Feed :=
  { isGet := true,
    Data := { Complex :=
      { ID := "c", Name := "n", Latitude := "1", Longitude := "2", Address := "a",
        DescriptionMain := { Title := "t", Text := "x" },
        SalesInfo :=
          { SalesPhone := "p", SalesAddress := "a", SalesLatitude := "1",
            SalesLongitude := "2" },
        Developer := { Name := "d", Phone := "p", Site := "s", Logo := "l" },
        Buildings := { Building :=
          [{ ID := "b1", Fz214 := "1", Name := "n", Floors := 9, ReadyQuarter := 1,
             BuildingType := "t", BuildingState := "unfinished", BuiltYear := 2023 },
           { ID := "b2", Fz214 := "1", Name := "n", Floors := 9, ReadyQuarter := 1,
             BuildingType := "t", BuildingState := "unfinished", BuiltYear := 2024 },
           { ID := "b3", Fz214 := "1", Name := "n", Floors := 9, ReadyQuarter := 1,
             BuildingType := "t", BuildingState := "unfinished", BuiltYear := 0 }] } } } }

/-! ### DomClick: the room areas of a flat -/

/-- The message of an empty room-area entry at index `i`. -/
def domclick.roomMsg (i : Nat) (id : String) : String :=
  "Field Flats.Flat.RoomsArea.Area[" ++ toString i ++ "] is empty. InternalID: " ++ id

/-- The messages of the empty room-area entries of a flat, in index order. -/
def domclick.roomMessages (lot : domclick.Flat) : List String :=
  (lot.RoomsArea.Area.enum.filter (fun p => p.2 = "")).map
    (fun p => domclick.roomMsg p.1 lot.FlatID)

/-- The zero-check message of the living area of a flat. -/
def domclick.livingAreaMsg (id : String) : String :=
  "field Flats.Flat.LivingArea is empty. InternalID: " ++ id

/-- A flat without living area whose room areas at index 0 and 2 are empty. -/
def domclick.roomlessFlat : domclick.Flat :=
  { FlatID := "f1", Floor := 1, Room := some 2, Plan := "p", Balcony := "b", Price := 1,
    Area := 1, KitchenArea := 1, Bathroom := "b", RoomsArea := { Area := ["", "12", ""] } }

/-! ### CIAN: the messages of one object -/

/-- The message list of the CIAN object `lot` at index `idx`, in the year
`year`: every check of the fixed sequence, in order, contributes its message
when it is triggered and nothing otherwise.  The zero checks of `TotalArea` and
of the price see the values the call sites pass, `int(lot.TotalArea)` and
`int(lot.BargainTerms.Price.Float64)`. -/
def cian.lotMessages (year : Int) (idx : Nat) (lot : cian.Object) : List String :=
  (if lot.ExternalId = "" then
      ["field ExternalId is empty. Position: " ++ toString idx] else [])
  ++ validation.idFinding lot.ExternalId "object" "Address" lot.Address
  ++ validation.idFinding lot.ExternalId "object.Phones.PhoneSchema" "CountryCode"
      lot.Phones.PhoneSchema.CountryCode
  ++ validation.idFinding lot.ExternalId "object.Phones.PhoneSchema" "Number"
      lot.Phones.PhoneSchema.Number
  ++ validation.idFinding lot.ExternalId "object.LayoutPhoto.FullUrl" "IsDefault"
      lot.LayoutPhoto.FullUrl
  ++ validation.idFinding lot.ExternalId "object" "Category" lot.Category
  ++ lot.Photos.PhotoSchema.enum.flatMap
      (fun p => validation.posFinding p.1 "object.Photos.PhotoSchema" "FullUrl" p.2.FullUrl)
  ++ validation.zeroFinding lot.ExternalId "object" "FlatRoomsCount" lot.FlatRoomsCount
  ++ validation.zeroFinding lot.ExternalId "object" "TotalArea" (intOfFloat lot.TotalArea)
  ++ validation.zeroFinding lot.ExternalId "object" "FloorNumber" lot.FloorNumber
  ++ validation.zeroFinding lot.ExternalId "object.Building" "FloorsCount"
      lot.Building.FloorsCount
  ++ validation.zeroFinding lot.ExternalId "object.Building.Deadline" "Year"
      lot.Building.Deadline.Year
  ++ validation.idFinding lot.ExternalId "object.Building.Deadline" "Quarter"
      lot.Building.Deadline.Quarter
  ++ validation.zeroFinding lot.ExternalId "object.BargainTerms.Price" "Price"
      (intOfFloat lot.BargainTerms.Price.Float64)
  ++ validation.zeroFinding lot.ExternalId "object.JKSchema" "Id" lot.JKSchema.ID
  ++ validation.idFinding lot.ExternalId "object.JKSchema" "Name" lot.JKSchema.Name
  ++ validation.zeroFinding lot.ExternalId "object.JKSchema.House" "Id" lot.JKSchema.House.ID
  ++ validation.idFinding lot.ExternalId "object.JKSchema.House" "Name"
      lot.JKSchema.House.Name
  ++ (if lot.Building.Deadline.Year < year ∧ lot.Building.Deadline.IsComplete = false then
      ["field Building.Deadline is False for " ++ toString lot.Building.Deadline.Year
        ++ ". InternalID: " ++ lot.ExternalId] else [])
  ++ (if lot.FloorNumber > lot.Building.FloorsCount then
      ["field FloorNumber is greater than Building.FloorsCount. InternalID: "
        ++ lot.ExternalId] else [])
  ++ (if lot.Photos.PhotoSchema.length < 3 then
      ["field Photos.PhotoSchema contains '" ++ toString lot.Photos.PhotoSchema.length
        ++ "' items. InternalID: " ++ lot.ExternalId] else [])

/-- The zero-check message of the total area of a CIAN object. -/
def cian.areaMsg (id : String) : String :=
  "field object.TotalArea is empty. InternalID: " ++ id

/-- The zero-check message of the price of a CIAN object. -/
def cian.priceMsg (id : String) : String :=
  "field object.BargainTerms.Price.Price is empty. InternalID: " ++ id

/-- A CIAN object that passes every check in a year up to 2030. -/
def cian.sampleObject (id : String) : cian.Object :=
  { ExternalId := id, Address := "a",
    Phones := { PhoneSchema := { CountryCode := "+7", Number := "1" } },
    LayoutPhoto := { FullUrl := "u" }, Category := "c",
    Photos := { PhotoSchema := [{ FullUrl := "u1" }, { FullUrl := "u2" }, { FullUrl := "u3" }] },
    FlatRoomsCount := 2, TotalArea := 30, FloorNumber := 2,
    Building := { FloorsCount := 5, Deadline := { Quarter := "first", Year := 2030 } },
    BargainTerms := { Price := { Float64 := 100 } },
    JKSchema := { ID := 1, Name := "n", House := { ID := 2, Name := "h" } } }

/-- A CIAN object with a total area of 0.5 and a price of 0.5, valid otherwise. -/
def cian.halfObject : cian.Object :=
  { cian.sampleObject "c7" with
      TotalArea := 1 / 2, BargainTerms := { Price := { Float64 := 1 / 2 } } }

/-- A fetched CIAN feed of eleven objects, the last one with a total area of
0.5 and a price of 0.5. -/
def cian.halfFeed : cian.Feed :=
  { isGet := true,
    Data := { Object :=
      (List.range 10).map (fun i => cian.sampleObject ("c" ++ toString i))
        ++ [cian.halfObject] } }

/-! ### Reading a successful fetch -/

/-- The probe and the body fetch of the client `c` for `url` both succeed: the
requests can be built and the upstream answers the HEAD with `head` and the GET
with `get`, both with status 200. -/
def Env.fetches (env : Env) (c : Nat) (url : String) (head get : Response) : Prop :=
  env.NewRequestWithContext "HEAD" url = none ∧ env.Do c "HEAD" url = .ok head ∧
  head.StatusCode = 200 ∧
  env.NewRequestWithContext "GET" url = none ∧ env.Do c "GET" url = .ok get ∧
  get.StatusCode = 200

/-- An upstream that answers every HEAD with `head` and every other request
with `get`, and a clock text reader: as `Last-Modified` header the text "h" is
the time 7 and the text "zero" is the zero time; as generation date the text
"g" is the time 9; no other text parses. -/
def Env.dated (head get : Response) : Env :=
  { NewRequestWithContext := fun _ _ => none,
    Do := fun _ method _ => if method = "HEAD" then .ok head else .ok get,
    ParseRFC1123 := fun s =>
      if s = "h" then .ok 7 else if s = "zero" then .ok 0 else .error "parsing time",
    ParseRFC3339Nano := fun s => if s = "g" then .ok 9 else .error "parsing time" }

/-- A response "200 OK" with the given `Last-Modified` header and body. -/
def Response.okDated (lastModified body : String) : Response :=
  { Status := "200 OK", StatusCode := 200,
    Header := { entries := [("Last-Modified", lastModified)] }, Body := .ok body }

/-- A parser of Realty payloads: the body is the text of the generation date
of a payload without offers. -/
def realty.sampleParse (body : String) : Except String realty.Document :=
  .ok { children := [.generation_date body] }

/-- A CIAN payload as the feed format has it: the root holds a `feed_version`
element with the text "2" and eleven `object` elements. -/
def cian.samplePayload : cian.Document :=
  { Root := { Local := "feed" },
    children := .feed_version "2" ::
      (List.range 11).map (fun i => .object (cian.sampleObject ("c" ++ toString i))) }

/-- Whether a child of the root is a `feed_version` or an `object` element. -/
def cian.FeedChild.isListing : cian.FeedChild → Bool
  | .feed_version _ => true
  | .object _ => true
  | _ => false


/-! ### An ad without identifier -/

/-- The finding of a presence check that names the listing, for a listing
without identifier: the message ends in "InternalID not found". -/
def validation.notFoundFinding (path fieldName value : String) : List String :=
  if value = "" then ["field " ++ path ++ "." ++ fieldName ++ " is empty. InternalID not found"]
  else []

/-- The messages of an Avito ad without identifier that follow the message of
the ID field, as a function of the ad alone: the index of the ad is no input. -/
def avito.anonymousMessages (lot : avito.Ad) : List String :=
  validation.notFoundFinding "Ad" "ContactPhone" lot.ContactPhone
  ++ validation.notFoundFinding "Ad" "Description" lot.Description
  ++ validation.notFoundFinding "Ad" "Category" lot.Category
  ++ validation.zeroFinding "" "Ad" "Price" lot.Price
  ++ validation.notFoundFinding "Ad" "OperationType" lot.OperationType
  ++ validation.notFoundFinding "Ad" "MarketType" lot.MarketType
  ++ validation.notFoundFinding "Ad" "HouseType" lot.HouseType
  ++ validation.zeroFinding "" "Ad" "Floor" lot.Floor
  ++ validation.zeroFinding "" "Ad" "Floors" lot.Floors
  ++ validation.notFoundFinding "Ad" "Rooms" lot.Rooms
  ++ validation.zeroFinding "" "Ad" "Square" lot.Square
  ++ (if lot.LivingSpace = 0 ∧ lot.Rooms ≠ "Студия" then
        ["field LivingSpace is empty. InternalID: "] else [])
  ++ validation.notFoundFinding "Ad" "Status" lot.Status
  ++ validation.notFoundFinding "Ad" "NewDevelopmentId" lot.NewDevelopmentID
  ++ validation.notFoundFinding "Ad" "PropertyRights" lot.PropertyRights
  ++ validation.notFoundFinding "Ad" "Decoration" lot.Decoration
  ++ (if lot.Floor > lot.Floors then
        ["field Floor is bigger than Floors. InternalID: "] else [])
  ++ lot.Images.Image.enum.flatMap
      (fun p => validation.posFinding p.1 "Images.Image" "URL" p.2.URL)
  ++ (if lot.Images.Image.length < 3 ∨ lot.Images.Image.length > 40 then
        ["field Images.Image contains '" ++ toString lot.Images.Image.length
          ++ "' items. InternalID: "] else [])

/-! ### The texts `ParseFloat` accepts -/

/-- The characters a text that `ParseFloat` accepts can hold: the digits, the
signs, the point, the underscore, and the letters of the hexadecimal digits, of
the base prefix, of the exponents and of "infinity" and "nan". -/
def strconv.floatChar (c : Char) : Bool :=
  c.isDigit || "+-._abcdefABCDEFxXpPiInNtTyY".data.contains c

/-- Whether the text, after its optional sign, begins with a character that a
number or a special value can begin with: a digit, a point, an underscore or
one of `i`, `I`, `n`, `N`. -/
def strconv.startsNumber (s : List Char) : Bool :=
  match (strconv.splitSign s).2 with
  | [] => false
  | c :: _ => c.isDigit || "._iInN".data.contains c

/-- The text `l` is what was read, of characters a float text can hold and
with at most `dots` points, followed by `rest`. -/
def strconv.Eats (l rest : List Char) (dots : Nat) : Prop :=
  ∃ consumed, l = consumed ++ rest ∧ (∀ c ∈ consumed, strconv.floatChar c = true) ∧
    consumed.count '.' ≤ dots
/-! ## Basic facts on the embedding -/

theorem forRange_enumFrom_eq_append {α : Type} (body : Nat → α → List String → List String)
    (g : Nat → α → List String) (h : ∀ i x rs, body i x rs = rs ++ g i x)
    (xs : List α) (n : Nat) (rs : List String) :
    (xs.enumFrom n).foldl (fun acc p => body p.1 p.2 acc) rs
      = rs ++ (xs.enumFrom n).flatMap (fun p => g p.1 p.2) := by
  induction xs generalizing n rs with
  | nil => simp
  | cons x xs ih =>
    simp only [List.enumFrom_cons, List.foldl_cons, List.flatMap_cons]
    rw [ih, h, List.append_assoc]

/-- A loop whose body only appends messages computed from the index and the
element yields the concatenation of those message lists, in order. -/
theorem forRange_eq_append {α : Type} (body : Nat → α → List String → List String)
    (g : Nat → α → List String) (h : ∀ i x rs, body i x rs = rs ++ g i x)
    (xs : List α) (rs : List String) :
    forRange xs body rs = rs ++ xs.enum.flatMap (fun p => g p.1 p.2) := by
  unfold forRange List.enum
  exact forRange_enumFrom_eq_append body g h xs 0 rs

theorem avito_check_contract (f : avito.Feed) : CheckContract f.isGet (avito.Check f) := by
  unfold CheckContract avito.Check
  cases h : f.isGet <;> simp
  split_ifs <;> simp

theorem cian_check_contract (year : Int) (f : cian.Feed) :
    CheckContract f.isGet (cian.Check year f) := by
  unfold CheckContract cian.Check
  cases h : f.isGet <;> simp
  split_ifs <;> simp

theorem domclick_check_contract (year : Int) (f : domclick.Feed) :
    CheckContract f.isGet (domclick.Check year f) := by
  unfold CheckContract domclick.Check
  cases h : f.isGet <;> simp
  split_ifs <;> simp

theorem realty_check_contract (year : Int) (f : realty.Feed) :
    CheckContract f.isGet (realty.Check year f) := by
  unfold CheckContract realty.Check
  cases h : f.isGet <;> simp
  split_ifs <;> simp

theorem ite_append_right (c : Prop) [Decidable c] (rs l : List String) :
    (if c then rs ++ l else rs) = rs ++ (if c then l else []) := by
  split_ifs <;> simp

theorem validation.CheckString_eq (path fieldName value : String) (rs : List String) :
    validation.CheckString path fieldName value rs
      = (decide (value ≠ ""), rs ++ validation.stringFinding path fieldName value) := by
  unfold validation.CheckString validation.stringFinding
  split_ifs with h <;> simp [h]

theorem validation.CheckStringWithPos_eq (idx : Nat) (path fieldName value : String)
    (rs : List String) :
    validation.CheckStringWithPos idx path fieldName value rs
      = (decide (value ≠ ""), rs ++ validation.posFinding idx path fieldName value) := by
  unfold validation.CheckStringWithPos validation.posFinding
  split_ifs with h <;> simp [h]

theorem validation.CheckStringWithID_eq (ID path fieldName value : String)
    (rs : List String) :
    validation.CheckStringWithID ID path fieldName value rs
      = (decide (value ≠ ""), rs ++ validation.idFinding ID path fieldName value) := by
  unfold validation.CheckStringWithID validation.idFinding
  by_cases h : value = "" <;> simp [h]

theorem validation.CheckZeroWithID_eq {V : Type} [Zero V] [DecidableEq V]
    (ID path fieldName : String) (value : V) (rs : List String) :
    validation.CheckZeroWithID ID path fieldName value rs
      = (decide (value ≠ 0), rs ++ validation.zeroFinding ID path fieldName value) := by
  unfold validation.CheckZeroWithID validation.zeroFinding
  split_ifs with h <;> simp [h]

/-- The body of the Avito loop appends the message list of the ad. -/
theorem avito.checkLot_eq (idx : Nat) (lot : avito.Ad) (rs : List String) :
    avito.checkLot idx lot rs = rs ++ avito.lotMessages idx lot := by
  have himg := forRange_eq_append
    (fun idx (image : avito.Image) results =>
      results ++ validation.posFinding idx "Images.Image" "URL" image.URL)
    (fun idx image => validation.posFinding idx "Images.Image" "URL" image.URL)
    (fun i x rs => rfl)
  simp only [avito.checkLot, validation.CheckStringWithPos_eq,
    validation.CheckStringWithID_eq, validation.CheckZeroWithID_eq, ite_append_right]
  simp only [avito.lotMessages, himg, List.append_assoc]

/-- The result list of the Avito pass over more than ten ads. -/
theorem avito.Check_large (f : avito.Feed) (hget : f.isGet = true)
    (hlen : 10 < f.Data.Ad.length) :
    avito.Check f
      = (some (f.Data.Ad.enum.flatMap (fun p => avito.lotMessages p.1 p.2)), none) := by
  have h1 : ¬ f.Data.Ad.length < 2 := by omega
  have h2 : ¬ f.Data.Ad.length ≤ 10 := by omega
  simp only [avito.Check, hget, h1, h2, Bool.not_true, Bool.false_eq_true, if_false]
  rw [forRange_eq_append avito.checkLot avito.lotMessages avito.checkLot_eq]
  simp

/-! ### Strings -/

theorem chars_mismatch_elim : ∀ (p q x y : List Char),
    charsMismatch p q = true → p ++ x ≠ q ++ y
  | [], _, _, _, h => by simp [charsMismatch] at h
  | _ :: _, [], _, _, h => by simp [charsMismatch] at h
  | a :: p, b :: q, x, y, h => by
    simp only [charsMismatch, Bool.or_eq_true, bne_iff_ne] at h
    intro heq
    simp only [List.cons_append, List.cons.injEq] at heq
    rcases h with h | h
    · exact h heq.1
    · exact chars_mismatch_elim p q x y h heq.2

theorem startsWith_append (p x : String) : startsWith p (p ++ x) := by
  unfold startsWith; rw [String.data_append]; exact List.prefix_append _ _

theorem startsWith_of_eq_append (p x m : String) (h : m = p ++ x) : startsWith p m :=
  h ▸ startsWith_append p x

theorem startsWith_self (p : String) : startsWith p p := List.prefix_refl _

/-- Two beginnings that differ at a common position cannot begin one string. -/
theorem startsWith_clash (p q m : String) (h : charsMismatch p.data q.data = true) :
    startsWith p m → startsWith q m → False := by
  rintro ⟨x, hx⟩ ⟨y, hy⟩
  exact chars_mismatch_elim _ _ x y h (hx.trans hy.symm)

theorem occursIn_suffix (a s : String) : occursIn s (a ++ s) := by
  unfold occursIn; rw [String.data_append]; exact (List.suffix_append _ _).isInfix

theorem string_append_left_cancel (p x y : String) : p ++ x = p ++ y ↔ x = y := by
  constructor
  · intro h
    have := congrArg String.data h
    simp only [String.data_append, List.append_cancel_left_eq] at this
    exact String.ext this
  · rintro rfl; rfl

/-! ### Findings -/

theorem mem_ite_singleton (c : Prop) [Decidable c] (m a : String) :
    m ∈ (if c then [a] else []) ↔ c ∧ m = a := by
  split_ifs with h <;> simp [h]

theorem validation.mem_posFinding (m : String) (idx : Nat) (path fieldName value : String) :
    m ∈ validation.posFinding idx path fieldName value ↔
      value = "" ∧
        m = "field " ++ path ++ "[" ++ toString idx ++ "]." ++ fieldName ++ " is empty" :=
  mem_ite_singleton _ _ _

theorem validation.mem_idFinding (m ID path fieldName value : String) :
    m ∈ validation.idFinding ID path fieldName value ↔
      value = "" ∧ m = "field " ++ path ++ "." ++ fieldName ++ " is empty. "
        ++ (if ID = "" then "InternalID not found" else "InternalID: " ++ ID) :=
  mem_ite_singleton _ _ _

theorem validation.mem_zeroFinding {V : Type} [Zero V] [DecidableEq V]
    (m ID path fieldName : String) (value : V) :
    m ∈ validation.zeroFinding ID path fieldName value ↔
      value = 0 ∧ m = "field " ++ path ++ "." ++ fieldName ++ " is empty. InternalID: " ++ ID :=
  mem_ite_singleton _ _ _

theorem validation.mem_stringFinding (m path fieldName value : String) :
    m ∈ validation.stringFinding path fieldName value ↔
      value = "" ∧ m = "field " ++ path ++ "." ++ fieldName ++ " is empty" :=
  mem_ite_singleton _ _ _

theorem validation.startsWith_posFinding (m : String) (idx : Nat)
    (path fieldName value : String)
    (h : m ∈ validation.posFinding idx path fieldName value) :
    startsWith ("field " ++ path ++ "[") m := by
  rw [validation.mem_posFinding] at h
  exact startsWith_of_eq_append _ (toString idx ++ ("]." ++ (fieldName ++ " is empty"))) _
    (by rw [h.2]; simp only [String.append_assoc])

theorem validation.startsWith_idFinding (m ID path fieldName value : String)
    (h : m ∈ validation.idFinding ID path fieldName value) :
    startsWith ("field " ++ path ++ "." ++ fieldName ++ " is empty. InternalID") m := by
  rw [validation.mem_idFinding] at h
  by_cases hID : ID = ""
  · exact startsWith_of_eq_append _ " not found" _
      (by rw [h.2, if_pos hID]; simp only [String.append_assoc]; rfl)
  · exact startsWith_of_eq_append _ (": " ++ ID) _
      (by rw [h.2, if_neg hID]; simp only [String.append_assoc]; rfl)

theorem validation.startsWith_zeroFinding {V : Type} [Zero V] [DecidableEq V]
    (m ID path fieldName : String) (value : V)
    (h : m ∈ validation.zeroFinding ID path fieldName value) :
    startsWith ("field " ++ path ++ "." ++ fieldName ++ " is empty. InternalID: ") m := by
  rw [validation.mem_zeroFinding] at h
  exact startsWith_of_eq_append _ ID _ h.2

theorem validation.startsWith_stringFinding (m path fieldName value : String)
    (h : m ∈ validation.stringFinding path fieldName value) :
    startsWith ("field " ++ path ++ ".") m := by
  rw [validation.mem_stringFinding] at h
  exact startsWith_of_eq_append _ (fieldName ++ " is empty") _
    (by rw [h.2]; simp only [String.append_assoc])

/-! ### Avito: the messages of the required string fields -/

theorem avito.requiredMsg_startsWith (F : avito.RequiredString) (id : String) :
    startsWith ("field Ad." ++ F.name ++ " is empty. InternalID: ") (avito.requiredMsg F id) :=
  startsWith_append _ _

theorem avito.requiredString_clash (F G : avito.RequiredString) (h : F ≠ G) :
    charsMismatch ("field Ad." ++ F.name ++ " is empty. InternalID: ").data
      ("field " ++ "Ad" ++ "." ++ G.name ++ " is empty. InternalID").data = true := by
  cases F <;> cases G <;> first | exact absurd rfl h | rfl

theorem avito.requiredString_clash_not_found (F : avito.RequiredString) :
    charsMismatch ("field Ad." ++ F.name ++ " is empty. InternalID: ").data
      ("field " ++ "Ad" ++ "." ++ F.name ++ " is empty. " ++ "InternalID not found").data
        = true := by
  cases F <;> rfl

theorem avito.requiredMsg_eq (F : avito.RequiredString) (ID : String) :
    "field " ++ "Ad" ++ "." ++ F.name ++ " is empty. " ++ ("InternalID: " ++ ID)
      = avito.requiredMsg F ID := by
  unfold avito.requiredMsg
  cases F <;> simp only [avito.RequiredString.name, ← String.append_assoc] <;> rfl

/-- The message of the required field `F` for a non-empty identifier `id` is the
finding of the presence check of a field `G` only if `G` is `F`, the value is
empty and the identifier passed is `id`. -/
theorem avito.requiredMsg_mem_idFinding (F G : avito.RequiredString) (id ID v : String)
    (hid : id ≠ "") :
    avito.requiredMsg F id ∈ validation.idFinding ID "Ad" G.name v
      ↔ v = "" ∧ F = G ∧ ID = id := by
  constructor
  · intro h
    have hFG : F = G := by
      by_contra hne
      exact startsWith_clash _ _ _ (avito.requiredString_clash F G hne)
        (avito.requiredMsg_startsWith F id) (validation.startsWith_idFinding _ _ _ _ _ h)
    subst hFG
    rw [validation.mem_idFinding] at h
    by_cases hID : ID = ""
    · exfalso
      rw [if_pos hID] at h
      exact startsWith_clash _ _ _ (avito.requiredString_clash_not_found F)
        (avito.requiredMsg_startsWith F id) (h.2 ▸ startsWith_self _)
    · rw [if_neg hID, avito.requiredMsg_eq] at h
      unfold avito.requiredMsg at h
      exact ⟨h.1, rfl, ((string_append_left_cancel _ _ _).1 h.2).symm⟩
  · rintro ⟨hv, rfl, rfl⟩
    rw [validation.mem_idFinding, if_neg hid, avito.requiredMsg_eq]
    exact ⟨hv, rfl⟩

theorem avito.requiredMsg_not_mem_zeroFinding {V : Type} [Zero V] [DecidableEq V]
    (F : avito.RequiredString) (id ID Z : String) (v : V)
    (hZ : Z = "Price" ∨ Z = "Floor" ∨ Z = "Floors" ∨ Z = "Square") :
    avito.requiredMsg F id ∉ validation.zeroFinding ID "Ad" Z v := by
  intro h
  refine startsWith_clash _ _ _ ?_ (avito.requiredMsg_startsWith F id)
    (validation.startsWith_zeroFinding _ _ _ _ _ h)
  rcases hZ with rfl | rfl | rfl | rfl <;> cases F <;> rfl

/-- Every other message of an ad begins differently from the messages of the
required string fields. -/
theorem avito.requiredMsg_ne_of_startsWith (F : avito.RequiredString) (id q m : String)
    (hq : q = "field Ad[" ∨ q = "field LivingSpace" ∨ q = "field Floor"
      ∨ q = "field Images")
    (hm : startsWith q m) : avito.requiredMsg F id ≠ m := by
  intro h
  subst h
  refine startsWith_clash _ _ _ ?_ (avito.requiredMsg_startsWith F id) hm
  rcases hq with rfl | rfl | rfl | rfl <;> cases F <;> rfl

theorem avito.imageMsg_of_mem (m : String) (images : List avito.Image)
    (h : m ∈ images.enum.flatMap
      (fun p => validation.posFinding p.1 "Images.Image" "URL" p.2.URL)) :
    ∃ j, j < images.length ∧ m = avito.imageMsg j := by
  rw [List.mem_flatMap] at h
  obtain ⟨p, hp, hm⟩ := h
  rw [validation.mem_posFinding] at hm
  refine ⟨p.1, (List.mem_enum hp).1, ?_⟩
  rw [hm.2, avito.imageMsg]
  simp only [String.append_assoc]
  rfl

theorem avito.imageMsg_startsWith (j : Nat) : startsWith "field Images" (avito.imageMsg j) :=
  startsWith_of_eq_append _ (".Image[" ++ (toString j ++ "].URL is empty")) _
    (by unfold avito.imageMsg; simp only [← String.append_assoc]; rfl)

/-- Among the messages of one ad, the message of the required field `F` for a
non-empty identifier `id` appears exactly when the ad has that identifier and
an empty `F`. -/
theorem avito.requiredMsg_mem_lotMessages (F : avito.RequiredString) (id : String)
    (hid : id ≠ "") (idx : Nat) (lot : avito.Ad) :
    avito.requiredMsg F id ∈ avito.lotMessages idx lot ↔ lot.ID = id ∧ F.value lot = "" := by
  have hA : ∀ (G : avito.RequiredString) (v : String),
      avito.requiredMsg F id ∈ validation.idFinding lot.ID "Ad" G.name v
        ↔ v = "" ∧ F = G ∧ lot.ID = id :=
    fun G v => avito.requiredMsg_mem_idFinding F G id lot.ID v hid
  have h1 := hA .ContactPhone lot.ContactPhone
  have h2 := hA .Description lot.Description
  have h3 := hA .Category lot.Category
  have h4 := hA .OperationType lot.OperationType
  have h5 := hA .MarketType lot.MarketType
  have h6 := hA .HouseType lot.HouseType
  have h7 := hA .Rooms lot.Rooms
  have h8 := hA .Status lot.Status
  have h9 := hA .NewDevelopmentId lot.NewDevelopmentID
  have h10 := hA .PropertyRights lot.PropertyRights
  have h11 := hA .Decoration lot.Decoration
  simp only [avito.RequiredString.name] at h1 h2 h3 h4 h5 h6 h7 h8 h9 h10 h11
  have z1 : avito.requiredMsg F id ∉ validation.zeroFinding lot.ID "Ad" "Price" lot.Price :=
    avito.requiredMsg_not_mem_zeroFinding F id _ _ _ (by simp)
  have z2 : avito.requiredMsg F id ∉ validation.zeroFinding lot.ID "Ad" "Floor" lot.Floor :=
    avito.requiredMsg_not_mem_zeroFinding F id _ _ _ (by simp)
  have z3 : avito.requiredMsg F id ∉ validation.zeroFinding lot.ID "Ad" "Floors" lot.Floors :=
    avito.requiredMsg_not_mem_zeroFinding F id _ _ _ (by simp)
  have z4 : avito.requiredMsg F id ∉ validation.zeroFinding lot.ID "Ad" "Square" lot.Square :=
    avito.requiredMsg_not_mem_zeroFinding F id _ _ _ (by simp)
  have p1 : avito.requiredMsg F id ∉ validation.posFinding idx "Ad" "ID" lot.ID := fun h =>
    avito.requiredMsg_ne_of_startsWith F id _ _ (Or.inl rfl)
      (validation.startsWith_posFinding _ _ _ _ _ h) rfl
  have c1 : avito.requiredMsg F id ≠ "field LivingSpace is empty. InternalID: " ++ lot.ID :=
    avito.requiredMsg_ne_of_startsWith F id "field LivingSpace" _ (by simp)
      (startsWith_of_eq_append _ (" is empty. InternalID: " ++ lot.ID) _
        (by simp only [← String.append_assoc]; rfl))
  have c2 : avito.requiredMsg F id ≠ "field Floor is bigger than Floors. InternalID: " ++ lot.ID :=
    avito.requiredMsg_ne_of_startsWith F id "field Floor" _ (by simp)
      (startsWith_of_eq_append _ (" is bigger than Floors. InternalID: " ++ lot.ID) _
        (by simp only [← String.append_assoc]; rfl))
  have c3 : avito.requiredMsg F id ≠ "field Images.Image contains '"
      ++ toString lot.Images.Image.length ++ "' items. InternalID: " ++ lot.ID :=
    avito.requiredMsg_ne_of_startsWith F id "field Images" _ (by simp)
      (startsWith_of_eq_append _ (".Image contains '" ++ (toString lot.Images.Image.length
        ++ ("' items. InternalID: " ++ lot.ID))) _
        (by simp only [← String.append_assoc]; rfl))
  have i1 : avito.requiredMsg F id ∉ lot.Images.Image.enum.flatMap
      (fun p => validation.posFinding p.1 "Images.Image" "URL" p.2.URL) := fun h => by
    obtain ⟨j, _, hj⟩ := avito.imageMsg_of_mem _ _ h
    exact avito.requiredMsg_ne_of_startsWith F id "field Images" _ (by simp)
      (avito.imageMsg_startsWith j) hj
  simp only [avito.lotMessages, List.mem_append, mem_ite_singleton, h1, h2, h3, h4, h5, h6, h7,
    h8, h9, h10, h11, z1, z2, z3, z4, p1, c1, c2, c3, i1, and_false, false_or, or_false]
  clear h1 h2 h3 h4 h5 h6 h7 h8 h9 h10 h11 z1 z2 z3 z4 p1 c1 c2 c3 i1 hA
  cases F <;> simp [avito.RequiredString.value] <;> exact and_comm

/-! ### Avito: identifiers in messages -/

theorem validation.occursIn_idFinding (m ID path fieldName value : String) (hID : ID ≠ "")
    (h : m ∈ validation.idFinding ID path fieldName value) : occursIn ID m := by
  rw [validation.mem_idFinding, if_neg hID, ← String.append_assoc] at h
  rw [h.2]
  exact occursIn_suffix _ _

theorem validation.occursIn_zeroFinding {V : Type} [Zero V] [DecidableEq V]
    (m ID path fieldName : String) (value : V)
    (h : m ∈ validation.zeroFinding ID path fieldName value) : occursIn ID m := by
  rw [validation.mem_zeroFinding] at h
  rw [h.2]
  exact occursIn_suffix _ _

theorem occursIn_ite_singleton (c : Prop) [Decidable c] (a ID m : String)
    (h : m ∈ (if c then [a ++ ID] else [])) : occursIn ID m := by
  rw [mem_ite_singleton] at h
  rw [h.2]
  exact occursIn_suffix _ _

/-- Every message of an ad with a non-empty identifier carries the identifier,
except the positional messages of its images. -/
theorem avito.lotMessages_identified (idx : Nat) (lot : avito.Ad) (hid : lot.ID ≠ "") :
    ∀ m ∈ avito.lotMessages idx lot,
      occursIn lot.ID m ∨ ∃ j, j < lot.Images.Image.length ∧ m = avito.imageMsg j := by
  simp only [avito.lotMessages, List.forall_mem_append]
  repeat' apply And.intro
  all_goals intro m hm
  all_goals first
    | with_reducible exact Or.inl (validation.occursIn_idFinding _ _ _ _ _ hid hm)
    | with_reducible exact Or.inl (validation.occursIn_zeroFinding _ _ _ _ _ hm)
    | with_reducible exact Or.inl (occursIn_ite_singleton _ _ _ _ hm)
    | with_reducible exact Or.inr (avito.imageMsg_of_mem _ _ hm)
    | (rw [validation.mem_posFinding] at hm; exact absurd hm.1 hid)

theorem mem_enum_of_mem {α : Type} (xs : List α) (x : α) (h : x ∈ xs) :
    ∃ i, (i, x) ∈ xs.enum := by
  obtain ⟨i, hi, rfl⟩ := List.getElem_of_mem h
  exact ⟨i, List.mk_mem_enum_iff_getElem?.2 (List.getElem?_eq_getElem hi)⟩

theorem mem_of_mem_enum {α : Type} (xs : List α) (p : Nat × α) (h : p ∈ xs.enum) :
    p.2 ∈ xs := by
  have := List.mem_enum h
  rw [this.2]
  exact List.getElem_mem _

/-- An ad without identifier: its required string fields are reported with
"InternalID not found". -/
theorem avito.not_found_mem_lotMessages (F : avito.RequiredString) (idx : Nat) (lot : avito.Ad)
    (hid : lot.ID = "") (hF : F.value lot = "") :
    ("field Ad." ++ F.name ++ " is empty. InternalID not found") ∈ avito.lotMessages idx lot := by
  have key : ∀ v, v = "" →
      ("field Ad." ++ F.name ++ " is empty. InternalID not found")
        ∈ validation.idFinding lot.ID "Ad" F.name v := by
    intro v hv
    rw [validation.mem_idFinding, if_pos hid]
    refine ⟨hv, ?_⟩
    cases F <;> rfl
  simp only [avito.lotMessages, List.mem_append]
  cases F <;> simp only [avito.RequiredString.name, avito.RequiredString.value] at key hF ⊢ <;>
    simp only [key _ hF, true_or, or_true]

theorem avito.position_mem_lotMessages (idx : Nat) (lot : avito.Ad) (hid : lot.ID = "") :
    ("field Ad[" ++ toString idx ++ "].ID is empty") ∈ avito.lotMessages idx lot := by
  have key : ("field Ad[" ++ toString idx ++ "].ID is empty")
      ∈ validation.posFinding idx "Ad" "ID" lot.ID := by
    rw [validation.mem_posFinding]
    refine ⟨hid, ?_⟩
    simp only [String.append_assoc]
    rfl
  simp only [avito.lotMessages, List.mem_append, key, true_or]

/-! ### Realty -/

/-- The body of the Realty loop appends the message list of the offer. -/
theorem realty.checkLot_eq_offer (year : Int) (idx : Nat) (lot : realty.Offer) (rs : List String) :
    realty.checkLot year idx lot rs = rs ++ realty.lotMessages year idx lot := by
  simp only [realty.checkLot, validation.CheckStringWithID_eq, validation.CheckZeroWithID_eq,
    ite_append_right]
  simp only [realty.lotMessages, List.append_assoc]

/-- The result list of the Realty pass over at least two offers. -/
theorem realty.Check_many_offers (year : Int) (f : realty.Feed) (hget : f.isGet = true)
    (hlen : 2 ≤ f.Data.Offer.length) :
    realty.Check year f
      = (some (f.Data.Offer.enum.flatMap (fun p => realty.lotMessages year p.1 p.2)), none) := by
  have h1 : ¬ f.Data.Offer.length < 2 := by omega
  simp only [realty.Check, hget, h1, Bool.not_true, Bool.false_eq_true, if_false]
  rw [forRange_eq_append (realty.checkLot year) (realty.lotMessages year)
    (realty.checkLot_eq_offer year)]
  simp

/-! ### Messages about the feed as a whole begin with "fe", findings do not -/

theorem not_feed_of_startsWith (q m : String) (hq : charsMismatch q.data "fe".data = true)
    (h : startsWith q m) : ¬ startsWith "fe" m :=
  fun h2 => startsWith_clash q "fe" m hq h h2

theorem startsWith_fi (x : String) : startsWith "fi" ("field " ++ x) :=
  startsWith_of_eq_append _ ("eld " ++ x) _ (by rw [← String.append_assoc]; rfl)

theorem validation.stringFinding_not_feed (path fieldName value : String) :
    ∀ m ∈ validation.stringFinding path fieldName value, ¬ startsWith "fe" m := by
  intro m hm
  rw [validation.mem_stringFinding] at hm
  refine not_feed_of_startsWith "fi" m rfl ?_
  rw [hm.2]; simp only [String.append_assoc]; exact startsWith_fi _

theorem validation.posFinding_not_feed (idx : Nat) (path fieldName value : String) :
    ∀ m ∈ validation.posFinding idx path fieldName value, ¬ startsWith "fe" m := by
  intro m hm
  rw [validation.mem_posFinding] at hm
  refine not_feed_of_startsWith "fi" m rfl ?_
  rw [hm.2]; simp only [String.append_assoc]; exact startsWith_fi _

theorem validation.idFinding_not_feed (ID path fieldName value : String) :
    ∀ m ∈ validation.idFinding ID path fieldName value, ¬ startsWith "fe" m := by
  intro m hm
  rw [validation.mem_idFinding] at hm
  refine not_feed_of_startsWith "fi" m rfl ?_
  rw [hm.2]; simp only [String.append_assoc]; exact startsWith_fi _

theorem validation.zeroFinding_not_feed {V : Type} [Zero V] [DecidableEq V]
    (ID path fieldName : String) (value : V) :
    ∀ m ∈ validation.zeroFinding ID path fieldName value, ¬ startsWith "fe" m := by
  intro m hm
  rw [validation.mem_zeroFinding] at hm
  refine not_feed_of_startsWith "fi" m rfl ?_
  rw [hm.2]; simp only [String.append_assoc]; exact startsWith_fi _

/-- A conditional message whose text begins with a literal that differs from
"fe" at one of the first two characters. -/
theorem ite_singleton_not_feed (c : Prop) [Decidable c] (q x : String)
    (hq : charsMismatch q.data "fe".data = true) :
    ∀ m ∈ (if c then [q ++ x] else []), ¬ startsWith "fe" m := by
  intro m hm
  rw [mem_ite_singleton] at hm
  exact not_feed_of_startsWith q m hq (startsWith_of_eq_append _ x _ hm.2)

theorem ite_singleton_not_feed3 (c : Prop) [Decidable c] (q x y z : String)
    (hq : charsMismatch q.data "fe".data = true) :
    ∀ m ∈ (if c then [q ++ x ++ y ++ z] else []), ¬ startsWith "fe" m := by
  intro m hm
  rw [mem_ite_singleton] at hm
  exact not_feed_of_startsWith q m hq
    (startsWith_of_eq_append _ (x ++ (y ++ z)) _ (by rw [hm.2]; simp only [String.append_assoc]))

/-- No message of a Realty offer begins with "fe". -/
theorem realty.offerMessages_not_feed (year : Int) (idx : Nat) (lot : realty.Offer) :
    ∀ m ∈ realty.lotMessages year idx lot, ¬ startsWith "fe" m := by
  simp only [realty.lotMessages, List.forall_mem_append]
  repeat' apply And.intro
  all_goals first
    | with_reducible exact validation.idFinding_not_feed _ _ _ _
    | with_reducible exact validation.zeroFinding_not_feed _ _ _ _
    | ((with_reducible refine ite_singleton_not_feed3 _ _ _ _ _ ?_); rfl)
    | ((with_reducible refine ite_singleton_not_feed _ _ _ ?_); rfl)

/-! ### DomClick -/

/-- The body of the loop over the flats appends the message list of the flat. -/
theorem domclick.checkLot_eq_flat (floors : Int) (idx : Nat) (lot : domclick.Flat)
    (rs : List String) :
    domclick.checkLot floors idx lot rs = rs ++ domclick.lotMessages floors idx lot := by
  have hrooms := forRange_eq_append
    (fun i (room : String) results =>
      if room = "" then
        results ++ ["Field Flats.Flat.RoomsArea.Area[" ++ toString i
          ++ "] is empty. InternalID: " ++ lot.FlatID]
      else results)
    (fun i room =>
      if room = "" then
        ["Field Flats.Flat.RoomsArea.Area[" ++ toString i
          ++ "] is empty. InternalID: " ++ lot.FlatID]
      else [])
    (fun i x rs => ite_append_right _ _ _)
  simp only [domclick.checkLot, validation.CheckStringWithPos_eq,
    validation.CheckStringWithID_eq, validation.CheckZeroWithID_eq, hrooms]
  by_cases h : lot.LivingArea = 0
  · simp only [h, ne_eq, not_true_eq_false, decide_False, Bool.not_false, if_true,
      ite_append_right]
    simp only [domclick.lotMessages, h, if_true, List.append_assoc]
  · simp only [h, ne_eq, not_false_eq_true, decide_True, Bool.not_true, Bool.false_eq_true,
      if_false, ite_append_right]
    simp only [domclick.lotMessages, h, if_false, List.append_assoc, List.nil_append]

theorem domclick.checkLots_eq (flats : List domclick.Flat) (floors : Int) (rs : List String) :
    domclick.checkLots flats floors rs
      = rs ++ flats.enum.flatMap (fun p => domclick.lotMessages floors p.1 p.2) :=
  forRange_eq_append (domclick.checkLot floors) (domclick.lotMessages floors)
    (domclick.checkLot_eq_flat floors) flats rs

/-- The body of the loop over the buildings appends the message list of the
building. -/
theorem domclick.checkBuilding_eq (year : Int) (pos : Nat) (building : domclick.Building)
    (rs : List String) :
    domclick.checkBuilding year pos building rs
      = rs ++ domclick.buildingMessages year pos building := by
  simp only [domclick.checkBuilding, validation.CheckStringWithPos_eq,
    validation.CheckStringWithID_eq, validation.CheckZeroWithID_eq, ite_append_right]
  simp only [domclick.checkLots_eq, domclick.buildingMessages, List.append_assoc]

/-- The result list of the DomClick pass over at least two buildings. -/
theorem domclick.Check_many_buildings (year : Int) (f : domclick.Feed) (hget : f.isGet = true)
    (hlen : 2 ≤ f.Data.Complex.Buildings.Building.length) :
    domclick.Check year f = (some (domclick.complexMessages year f.Data.Complex), none) := by
  have h1 : ¬ f.Data.Complex.Buildings.Building.length < 2 := by omega
  have himg := forRange_eq_append
    (fun idx (image : String) results =>
      results ++ validation.posFinding idx "Complex.Images.Image" "Image" image)
    (fun idx image => validation.posFinding idx "Complex.Images.Image" "Image" image)
    (fun i x rs => rfl)
  have hprofit := forRange_eq_append
    (fun idx (profit : domclick.Profit) results =>
      results ++ validation.posFinding idx "Complex.ProfitsMain.ProfitMain" "Title" profit.Title
        ++ validation.posFinding idx "Complex.ProfitsMain.ProfitMain" "Text" profit.Text
        ++ validation.posFinding idx "Complex.ProfitsMain.ProfitMain" "Image" profit.Image)
    (fun idx profit =>
      validation.posFinding idx "Complex.ProfitsMain.ProfitMain" "Title" profit.Title
        ++ validation.posFinding idx "Complex.ProfitsMain.ProfitMain" "Text" profit.Text
        ++ validation.posFinding idx "Complex.ProfitsMain.ProfitMain" "Image" profit.Image)
    (fun i x rs => by simp only [List.append_assoc])
  have hbuild := forRange_eq_append (domclick.checkBuilding year)
    (domclick.buildingMessages year) (domclick.checkBuilding_eq year)
  simp only [domclick.Check, hget, h1, Bool.not_true, Bool.false_eq_true, if_false,
    validation.CheckString_eq, validation.CheckStringWithPos_eq, himg, hprofit, hbuild]
  simp only [domclick.complexMessages, List.append_assoc, List.nil_append]

theorem forall_mem_flatMap {α : Type} (xs : List α) (g : α → List String)
    (P : String → Prop) (h : ∀ a, ∀ m ∈ g a, P m) : ∀ m ∈ xs.flatMap g, P m := by
  intro m hm
  rw [List.mem_flatMap] at hm
  obtain ⟨a, _, ha⟩ := hm
  exact h a m ha

theorem ite_list_not_feed (c : Prop) [Decidable c] (l : List String)
    (h : ∀ m ∈ l, ¬ startsWith "fe" m) :
    ∀ m ∈ (if c then l else []), ¬ startsWith "fe" m := by
  split_ifs
  · exact h
  · simp

/-- No message of a DomClick flat begins with "fe". -/
theorem domclick.flatMessages_not_feed (floors : Int) (idx : Nat) (lot : domclick.Flat) :
    ∀ m ∈ domclick.lotMessages floors idx lot, ¬ startsWith "fe" m := by
  simp only [domclick.lotMessages, List.forall_mem_append]
  repeat' apply And.intro
  all_goals first
    | with_reducible exact validation.idFinding_not_feed _ _ _ _
    | with_reducible exact validation.zeroFinding_not_feed _ _ _ _
    | with_reducible exact validation.posFinding_not_feed _ _ _ _
    | ((with_reducible refine ite_singleton_not_feed _ _ _ ?_); rfl)
    | exact ite_list_not_feed _ _ (forall_mem_flatMap _ _ _
        (fun p => ite_singleton_not_feed3 _ _ _ _ _ rfl))

/-- No message of a DomClick building begins with "fe". -/
theorem domclick.buildingMessages_not_feed (year : Int) (pos : Nat)
    (building : domclick.Building) :
    ∀ m ∈ domclick.buildingMessages year pos building, ¬ startsWith "fe" m := by
  simp only [domclick.buildingMessages, List.forall_mem_append]
  repeat' apply And.intro
  all_goals first
    | with_reducible exact validation.idFinding_not_feed _ _ _ _
    | with_reducible exact validation.zeroFinding_not_feed _ _ _ _
    | with_reducible exact validation.posFinding_not_feed _ _ _ _
    | ((with_reducible refine ite_singleton_not_feed3 _ _ _ _ _ ?_); rfl)
    | exact forall_mem_flatMap _ _ _ (fun p => domclick.flatMessages_not_feed _ _ _)

/-- No message of a DomClick complex begins with "fe". -/
theorem domclick.complexMessages_not_feed (year : Int) (residence : domclick.Complex) :
    ∀ m ∈ domclick.complexMessages year residence, ¬ startsWith "fe" m := by
  simp only [domclick.complexMessages, List.forall_mem_append]
  repeat' apply And.intro
  all_goals first
    | with_reducible exact validation.stringFinding_not_feed _ _ _
    | exact forall_mem_flatMap _ _ _ (fun p => validation.posFinding_not_feed _ _ _ _)
    | exact forall_mem_flatMap _ _ _ (fun p => domclick.buildingMessages_not_feed _ _ _)
    | (refine forall_mem_flatMap _ _ _ (fun p => ?_)
       simp only [List.forall_mem_append]
       exact ⟨⟨validation.posFinding_not_feed _ _ _ _, validation.posFinding_not_feed _ _ _ _⟩,
         validation.posFinding_not_feed _ _ _ _⟩)

theorem feed_count_startsWith (n : Nat) :
    startsWith "fe" ("feed contains only " ++ toString n ++ " items") := by
  have e : "feed contains only " = "fe" ++ "ed contains only " := by decide
  rw [e]
  exact startsWith_of_eq_append _ ("ed contains only " ++ (toString n ++ " items")) _
    (by simp only [String.append_assoc])

/-- No message of the Realty pass over the offers begins with "fe". -/
theorem realty.messages_not_feed (year : Int) (offers : List realty.Offer) :
    ∀ m ∈ offers.enum.flatMap (fun p => realty.lotMessages year p.1 p.2),
      ¬ startsWith "fe" m :=
  forall_mem_flatMap _ _ _ (fun p => realty.offerMessages_not_feed year p.1 p.2)

/-! ### Fetching -/

theorem transport.GetOnlyHeader_some (env : Env) (c : Nat) (url : String) :
    ∃ r, transport.GetOnlyHeader env (some c) url = .ok r ∧
      (r.err = none → ∃ resp, r.response = some resp ∧ resp.StatusCode = 200 ∧
        env.NewRequestWithContext "HEAD" url = none ∧
        env.Do c "HEAD" url = .ok resp ∧ r.sent = [("HEAD", url)]) ∧
      (∀ e, r.err = some e → r.sent = [] ∨ r.sent = [("HEAD", url)]) ∧
      (∀ resp, env.Do c "HEAD" url = .ok resp → resp.StatusCode ≠ 200 → r.err ≠ none) := by
  cases h1 : env.NewRequestWithContext "HEAD" url with
  | some e => simp [transport.GetOnlyHeader, h1]
  | none =>
    cases h2 : env.Do c "HEAD" url with
    | error e => simp [transport.GetOnlyHeader, h1, h2]
    | ok resp =>
      by_cases h3 : resp.StatusCode = 200
      · simp [transport.GetOnlyHeader, h1, h2, h3]
      · simp [transport.GetOnlyHeader, h1, h2, h3]

theorem transport.GetResponse_some (env : Env) (c : Nat) (url : String) :
    ∃ r, transport.GetResponse env (some c) url = .ok r ∧
      (r.err = none → ∃ resp, r.response = some resp ∧ resp.StatusCode = 200 ∧
        env.NewRequestWithContext "GET" url = none ∧
        env.Do c "GET" url = .ok resp ∧ r.sent = [("GET", url)]) ∧
      (∀ e, r.err = some e → r.sent = [] ∨ r.sent = [("GET", url)]) ∧
      (∀ resp, env.Do c "GET" url = .ok resp → resp.StatusCode ≠ 200 → r.err ≠ none) := by
  cases h1 : env.NewRequestWithContext "GET" url with
  | some e => simp [transport.GetResponse, h1]
  | none =>
    cases h2 : env.Do c "GET" url with
    | error e => simp [transport.GetResponse, h1, h2]
    | ok resp =>
      by_cases h3 : resp.StatusCode = 200
      · simp [transport.GetResponse, h1, h2, h3]
      · simp [transport.GetResponse, h1, h2, h3]

/-- `GetInfo` on a Feed with a client returns; it assigns at most
`LastModified`, and nothing when it fails. -/
theorem avito_GetInfo_some (env : Env) (f : avito.Feed) (c : Nat) (hc : f.client = some c) :
    ∃ i, avito.GetInfo env f = .ok i ∧
      (∃ t, i.feed = { f with LastModified := t }) ∧
      (i.err = none → i.sent = [("HEAD", f.url)]) ∧
      (∀ e, i.err = some e → i.feed = f ∧ (i.sent = [] ∨ i.sent = [("HEAD", f.url)])) ∧
      (∀ resp, env.Do c "HEAD" f.url = .ok resp → resp.StatusCode ≠ 200 → i.err ≠ none) := by
  obtain ⟨r, hr, hok, hsent, hbad⟩ := transport.GetOnlyHeader_some env c f.url
  rcases r with ⟨ro, re, rs⟩
  cases re with
  | some e =>
    refine ⟨⟨some e, f, rs⟩, by simp [avito.GetInfo, hc, hr], ⟨f.LastModified, rfl⟩, by simp, ?_,
      by simp⟩
    intro e' _
    exact ⟨rfl, hsent e rfl⟩
  | none =>
    obtain ⟨resp, hresp, h200, -, hdo, hs⟩ := hok rfl
    simp only at hresp hs
    subst hresp hs
    have hb : ∀ resp', env.Do c "HEAD" f.url = .ok resp' → resp'.StatusCode ≠ 200 → False :=
      fun resp' h1 h2 => hbad resp' h1 h2 rfl
    by_cases hattr : resp.Header.Get "Last-Modified" = ""
    · exact ⟨⟨none, f, _⟩,
        by simp [avito.GetInfo, transport.HeaderLastModified, hc, hr, hattr],
        ⟨f.LastModified, rfl⟩, fun _ => rfl, by simp, fun r1 h1 h2 => (hb r1 h1 h2).elim⟩
    · cases hp : env.ParseRFC1123 (resp.Header.Get "Last-Modified") with
      | error e =>
        exact ⟨⟨some e, f, _⟩,
          by simp [avito.GetInfo, transport.HeaderLastModified, hc, hr, hattr, hp],
          ⟨f.LastModified, rfl⟩, by simp, fun e' _ => ⟨rfl, Or.inr rfl⟩, by simp⟩
      | ok t =>
        exact ⟨⟨none, { f with LastModified := t }, _⟩,
          by simp [avito.GetInfo, transport.HeaderLastModified, hc, hr, hattr, hp],
          ⟨t, rfl⟩, fun _ => rfl, by simp, fun r1 h1 h2 => (hb r1 h1 h2).elim⟩

/-- The course of `Get` on a Feed with a client: the probe, then the body
fetch, then the statements after it. -/
theorem avito_Get_some (env : Env) (parse : String → Except String avito.Document)
    (f : avito.Feed) (c : Nat) (hc : f.client = some c) :
    ∃ i, avito.GetInfo env f = .ok i ∧
      (∃ t, i.feed = { f with LastModified := t }) ∧
      (i.err = none → i.sent = [("HEAD", f.url)]) ∧
      (∀ e, i.err = some e → i.feed = f ∧ (i.sent = [] ∨ i.sent = [("HEAD", f.url)])) ∧
      (∀ resp, env.Do c "HEAD" f.url = .ok resp → resp.StatusCode ≠ 200 → i.err ≠ none) ∧
      (∀ e, i.err = some e → avito.Get env parse f
        = .ok ⟨some ("can't get feed info. Error:" ++ e), i.feed, i.sent⟩) ∧
      (i.err = none → ∃ g, transport.GetResponse env f.client f.url = .ok g ∧
        (∀ e, g.err = some e → g.sent = [] ∨ g.sent = [("GET", f.url)]) ∧
        (∀ resp, env.Do c "GET" f.url = .ok resp → resp.StatusCode ≠ 200 → g.err ≠ none) ∧
        (∀ e, g.err = some e → avito.Get env parse f
          = .ok ⟨some ("can't get feed data. Error:" ++ e), i.feed, i.sent ++ g.sent⟩) ∧
        (g.err = none → ∃ resp, g.response = some resp ∧ env.Do c "GET" f.url = .ok resp ∧
          g.sent = [("GET", f.url)] ∧
          avito.Get env parse f
            = .ok (avito.Get.finish parse resp i.feed (i.sent ++ g.sent)))) := by
  obtain ⟨i, hi, ht, hs, he, hbad⟩ := avito_GetInfo_some env f c hc
  refine ⟨i, hi, ht, hs, he, hbad, ?_, ?_⟩
  · intro e h
    simp [avito.Get, hi, h]
  · intro h
    obtain ⟨t, hfeed⟩ := ht
    have hcl : i.feed.client = f.client := by rw [hfeed]
    have hurl : i.feed.url = f.url := by rw [hfeed]
    obtain ⟨g, hg, hok, hsent, hgbad⟩ := transport.GetResponse_some env c f.url
    rw [← hc] at hg
    refine ⟨g, hg, hsent, hgbad, ?_, ?_⟩
    · intro e hge
      simp [avito.Get, hi, h, hcl, hurl, hg, hge]
    · intro hge
      obtain ⟨resp, hresp, -, -, hdo, hgs⟩ := hok hge
      exact ⟨resp, hresp, hdo, hgs, by simp [avito.Get, hi, h, hcl, hurl, hg, hge, hresp]⟩

/-- `GetInfo` on a Feed with a client returns; it assigns at most
`LastModified`, and nothing when it fails. -/
theorem cian_GetInfo_some (env : Env) (f : cian.Feed) (c : Nat) (hc : f.client = some c) :
    ∃ i, cian.GetInfo env f = .ok i ∧
      (∃ t, i.feed = { f with LastModified := t }) ∧
      (i.err = none → i.sent = [("HEAD", f.url)]) ∧
      (∀ e, i.err = some e → i.feed = f ∧ (i.sent = [] ∨ i.sent = [("HEAD", f.url)])) ∧
      (∀ resp, env.Do c "HEAD" f.url = .ok resp → resp.StatusCode ≠ 200 → i.err ≠ none) := by
  obtain ⟨r, hr, hok, hsent, hbad⟩ := transport.GetOnlyHeader_some env c f.url
  rcases r with ⟨ro, re, rs⟩
  cases re with
  | some e =>
    refine ⟨⟨some e, f, rs⟩, by simp [cian.GetInfo, hc, hr], ⟨f.LastModified, rfl⟩, by simp, ?_,
      by simp⟩
    intro e' _
    exact ⟨rfl, hsent e rfl⟩
  | none =>
    obtain ⟨resp, hresp, h200, -, hdo, hs⟩ := hok rfl
    simp only at hresp hs
    subst hresp hs
    have hb : ∀ resp', env.Do c "HEAD" f.url = .ok resp' → resp'.StatusCode ≠ 200 → False :=
      fun resp' h1 h2 => hbad resp' h1 h2 rfl
    by_cases hattr : resp.Header.Get "Last-Modified" = ""
    · exact ⟨⟨none, f, _⟩,
        by simp [cian.GetInfo, transport.HeaderLastModified, hc, hr, hattr],
        ⟨f.LastModified, rfl⟩, fun _ => rfl, by simp, fun r1 h1 h2 => (hb r1 h1 h2).elim⟩
    · cases hp : env.ParseRFC1123 (resp.Header.Get "Last-Modified") with
      | error e =>
        exact ⟨⟨some e, f, _⟩,
          by simp [cian.GetInfo, transport.HeaderLastModified, hc, hr, hattr, hp],
          ⟨f.LastModified, rfl⟩, by simp, fun e' _ => ⟨rfl, Or.inr rfl⟩, by simp⟩
      | ok t =>
        exact ⟨⟨none, { f with LastModified := t }, _⟩,
          by simp [cian.GetInfo, transport.HeaderLastModified, hc, hr, hattr, hp],
          ⟨t, rfl⟩, fun _ => rfl, by simp, fun r1 h1 h2 => (hb r1 h1 h2).elim⟩

/-- The course of `Get` on a Feed with a client: the probe, then the body
fetch, then the statements after it. -/
theorem cian_Get_some (env : Env) (parse : String → Except String cian.Document)
    (f : cian.Feed) (c : Nat) (hc : f.client = some c) :
    ∃ i, cian.GetInfo env f = .ok i ∧
      (∃ t, i.feed = { f with LastModified := t }) ∧
      (i.err = none → i.sent = [("HEAD", f.url)]) ∧
      (∀ e, i.err = some e → i.feed = f ∧ (i.sent = [] ∨ i.sent = [("HEAD", f.url)])) ∧
      (∀ resp, env.Do c "HEAD" f.url = .ok resp → resp.StatusCode ≠ 200 → i.err ≠ none) ∧
      (∀ e, i.err = some e → cian.Get env parse f
        = .ok ⟨some ("can't get feed info. Error:" ++ e), i.feed, i.sent⟩) ∧
      (i.err = none → ∃ g, transport.GetResponse env f.client f.url = .ok g ∧
        (∀ e, g.err = some e → g.sent = [] ∨ g.sent = [("GET", f.url)]) ∧
        (∀ resp, env.Do c "GET" f.url = .ok resp → resp.StatusCode ≠ 200 → g.err ≠ none) ∧
        (∀ e, g.err = some e → cian.Get env parse f
          = .ok ⟨some ("can't get feed data. Error:" ++ e), i.feed, i.sent ++ g.sent⟩) ∧
        (g.err = none → ∃ resp, g.response = some resp ∧ env.Do c "GET" f.url = .ok resp ∧
          g.sent = [("GET", f.url)] ∧
          cian.Get env parse f
            = .ok (cian.Get.finish parse resp i.feed (i.sent ++ g.sent)))) := by
  obtain ⟨i, hi, ht, hs, he, hbad⟩ := cian_GetInfo_some env f c hc
  refine ⟨i, hi, ht, hs, he, hbad, ?_, ?_⟩
  · intro e h
    simp [cian.Get, hi, h]
  · intro h
    obtain ⟨t, hfeed⟩ := ht
    have hcl : i.feed.client = f.client := by rw [hfeed]
    have hurl : i.feed.url = f.url := by rw [hfeed]
    obtain ⟨g, hg, hok, hsent, hgbad⟩ := transport.GetResponse_some env c f.url
    rw [← hc] at hg
    refine ⟨g, hg, hsent, hgbad, ?_, ?_⟩
    · intro e hge
      simp [cian.Get, hi, h, hcl, hurl, hg, hge]
    · intro hge
      obtain ⟨resp, hresp, -, -, hdo, hgs⟩ := hok hge
      exact ⟨resp, hresp, hdo, hgs, by simp [cian.Get, hi, h, hcl, hurl, hg, hge, hresp]⟩

/-- `GetInfo` on a Feed with a client returns; it assigns at most
`LastModified`, and nothing when it fails. -/
theorem realty_GetInfo_some (env : Env) (f : realty.Feed) (c : Nat) (hc : f.client = some c) :
    ∃ i, realty.GetInfo env f = .ok i ∧
      (∃ t, i.feed = { f with LastModified := t }) ∧
      (i.err = none → i.sent = [("HEAD", f.url)]) ∧
      (∀ e, i.err = some e → i.feed = f ∧ (i.sent = [] ∨ i.sent = [("HEAD", f.url)])) ∧
      (∀ resp, env.Do c "HEAD" f.url = .ok resp → resp.StatusCode ≠ 200 → i.err ≠ none) := by
  obtain ⟨r, hr, hok, hsent, hbad⟩ := transport.GetOnlyHeader_some env c f.url
  rcases r with ⟨ro, re, rs⟩
  cases re with
  | some e =>
    refine ⟨⟨some e, f, rs⟩, by simp [realty.GetInfo, hc, hr], ⟨f.LastModified, rfl⟩, by simp, ?_,
      by simp⟩
    intro e' _
    exact ⟨rfl, hsent e rfl⟩
  | none =>
    obtain ⟨resp, hresp, h200, -, hdo, hs⟩ := hok rfl
    simp only at hresp hs
    subst hresp hs
    have hb : ∀ resp', env.Do c "HEAD" f.url = .ok resp' → resp'.StatusCode ≠ 200 → False :=
      fun resp' h1 h2 => hbad resp' h1 h2 rfl
    by_cases hattr : resp.Header.Get "Last-Modified" = ""
    · exact ⟨⟨none, f, _⟩,
        by simp [realty.GetInfo, transport.HeaderLastModified, hc, hr, hattr],
        ⟨f.LastModified, rfl⟩, fun _ => rfl, by simp, fun r1 h1 h2 => (hb r1 h1 h2).elim⟩
    · cases hp : env.ParseRFC1123 (resp.Header.Get "Last-Modified") with
      | error e =>
        exact ⟨⟨some e, f, _⟩,
          by simp [realty.GetInfo, transport.HeaderLastModified, hc, hr, hattr, hp],
          ⟨f.LastModified, rfl⟩, by simp, fun e' _ => ⟨rfl, Or.inr rfl⟩, by simp⟩
      | ok t =>
        exact ⟨⟨none, { f with LastModified := t }, _⟩,
          by simp [realty.GetInfo, transport.HeaderLastModified, hc, hr, hattr, hp],
          ⟨t, rfl⟩, fun _ => rfl, by simp, fun r1 h1 h2 => (hb r1 h1 h2).elim⟩

/-- The course of `Get` on a Feed with a client: the probe, then the body
fetch, then the statements after it. -/
theorem realty_Get_some (env : Env) (parse : String → Except String realty.Document)
    (f : realty.Feed) (c : Nat) (hc : f.client = some c) :
    ∃ i, realty.GetInfo env f = .ok i ∧
      (∃ t, i.feed = { f with LastModified := t }) ∧
      (i.err = none → i.sent = [("HEAD", f.url)]) ∧
      (∀ e, i.err = some e → i.feed = f ∧ (i.sent = [] ∨ i.sent = [("HEAD", f.url)])) ∧
      (∀ resp, env.Do c "HEAD" f.url = .ok resp → resp.StatusCode ≠ 200 → i.err ≠ none) ∧
      (∀ e, i.err = some e → realty.Get env parse f
        = .ok ⟨some ("can't get feed info. Error:" ++ e), i.feed, i.sent⟩) ∧
      (i.err = none → ∃ g, transport.GetResponse env f.client f.url = .ok g ∧
        (∀ e, g.err = some e → g.sent = [] ∨ g.sent = [("GET", f.url)]) ∧
        (∀ resp, env.Do c "GET" f.url = .ok resp → resp.StatusCode ≠ 200 → g.err ≠ none) ∧
        (∀ e, g.err = some e → realty.Get env parse f
          = .ok ⟨some ("can't get feed data. Error:" ++ e), i.feed, i.sent ++ g.sent⟩) ∧
        (g.err = none → ∃ resp, g.response = some resp ∧ env.Do c "GET" f.url = .ok resp ∧
          g.sent = [("GET", f.url)] ∧
          realty.Get env parse f
            = .ok (realty.Get.finish env parse resp i.feed (i.sent ++ g.sent)))) := by
  obtain ⟨i, hi, ht, hs, he, hbad⟩ := realty_GetInfo_some env f c hc
  refine ⟨i, hi, ht, hs, he, hbad, ?_, ?_⟩
  · intro e h
    simp [realty.Get, hi, h]
  · intro h
    obtain ⟨t, hfeed⟩ := ht
    have hcl : i.feed.client = f.client := by rw [hfeed]
    have hurl : i.feed.url = f.url := by rw [hfeed]
    obtain ⟨g, hg, hok, hsent, hgbad⟩ := transport.GetResponse_some env c f.url
    rw [← hc] at hg
    refine ⟨g, hg, hsent, hgbad, ?_, ?_⟩
    · intro e hge
      simp [realty.Get, hi, h, hcl, hurl, hg, hge]
    · intro hge
      obtain ⟨resp, hresp, -, -, hdo, hgs⟩ := hok hge
      exact ⟨resp, hresp, hdo, hgs, by simp [realty.Get, hi, h, hcl, hurl, hg, hge, hresp]⟩

/-- The statements of the Avito `Get` after the body fetch: with an error the
fetched flag is as before, without one it is set and the ads of the payload
have been appended to those the Feed held. -/
theorem avito_finish_spec (parse : String → Except String avito.Document) (resp : Response)
    (f : avito.Feed) (sent : List Request) :
    (avito.Get.finish parse resp f sent).sent = sent ∧
    (avito.Get.finish parse resp f sent).err = avito.decodeError parse resp f.Data ∧
    ((avito.Get.finish parse resp f sent).err ≠ none →
      (avito.Get.finish parse resp f sent).feed.isGet = f.isGet) ∧
    ((avito.Get.finish parse resp f sent).err = none →
      (avito.Get.finish parse resp f sent).feed.isGet = true ∧
      ∃ body doc, resp.Body = .ok body ∧ parse body = .ok doc ∧
        (avito.Get.finish parse resp f sent).feed.Data.Ad = f.Data.Ad ++ doc.Ad) := by
  cases hb : resp.Body with
  | error e => simp [avito.Get.finish, avito.decodeError, hb]
  | ok body =>
    cases hp : parse body with
    | error e => simp [avito.Get.finish, avito.decodeError, hb, hp]
    | ok doc =>
      cases hu : (avito.Unmarshal doc f.Data).2 with
      | some e => simp [avito.Get.finish, avito.decodeError, hb, hp, hu]
      | none =>
        have hAd : (avito.Unmarshal doc f.Data).1.Ad = f.Data.Ad ++ doc.Ad := by
          unfold avito.Unmarshal at hu ⊢
          split_ifs at hu ⊢ with hroot
          all_goals rfl
        simp [avito.Get.finish, avito.decodeError, hb, hp, hu, hAd]

theorem cian_decodeChild_isGet (children : List cian.FeedChild) (f : cian.Feed) :
    (children.foldl cian.Feed.decodeChild f).isGet = f.isGet := by
  induction children generalizing f with
  | nil => rfl
  | cons x xs ih =>
    rw [List.foldl_cons, ih]
    cases x <;> rfl

theorem cian_finish_spec (parse : String → Except String cian.Document) (resp : Response)
    (f : cian.Feed) (sent : List Request) :
    (cian.Get.finish parse resp f sent).sent = sent ∧
    ((cian.Get.finish parse resp f sent).err ≠ none →
      (cian.Get.finish parse resp f sent).feed.isGet = f.isGet) ∧
    ((cian.Get.finish parse resp f sent).err = none →
      (cian.Get.finish parse resp f sent).feed.isGet = true) := by
  cases hb : resp.Body with
  | error e => simp [cian.Get.finish, hb]
  | ok body =>
    cases hp : parse body with
    | error e => simp [cian.Get.finish, hb, hp]
    | ok doc =>
      cases hu : (cian.Unmarshal doc f).2 with
      | some e =>
        have hu2 : doc.err = some e := hu
        simp [cian.Get.finish, hb, hp, hu2, cian.Unmarshal, cian_decodeChild_isGet]
      | none =>
        have hu2 : doc.err = none := hu
        simp [cian.Get.finish, hb, hp, hu2, cian.Unmarshal]

theorem realty_finish_spec (env : Env) (parse : String → Except String realty.Document)
    (resp : Response) (f : realty.Feed) (sent : List Request) :
    (realty.Get.finish env parse resp f sent).sent = sent ∧
    ((realty.Get.finish env parse resp f sent).err ≠ none →
      (realty.Get.finish env parse resp f sent).feed.isGet = f.isGet) ∧
    ((realty.Get.finish env parse resp f sent).err = none →
      (realty.Get.finish env parse resp f sent).feed.isGet = true) := by
  cases hb : resp.Body with
  | error e => simp [realty.Get.finish, hb]
  | ok body =>
    cases hp : parse body with
    | error e => simp [realty.Get.finish, hb, hp]
    | ok doc =>
      cases hu : (realty.Unmarshal doc f.Data).2 with
      | some e => simp [realty.Get.finish, hb, hp, hu]
      | none =>
        by_cases hz : f.LastModified.IsZero = true
        · cases ht : env.ParseRFC3339Nano (realty.Unmarshal doc f.Data).1.GenerationDate with
          | error e => simp [realty.Get.finish, hb, hp, hu, hz, ht]
          | ok t => simp [realty.Get.finish, hb, hp, hu, hz, ht]
        · simp [realty.Get.finish, hb, hp, hu, hz]

theorem domclick_finish_spec (env : Env)
    (unmarshal : String → domclick.Data → domclick.Data × Option String)
    (resp : Response) (f : domclick.Feed) (sent : List Request) :
    (domclick.Get.finish env unmarshal resp f sent).sent = sent ∧
    ((domclick.Get.finish env unmarshal resp f sent).err ≠ none →
      (domclick.Get.finish env unmarshal resp f sent).feed.isGet = f.isGet) ∧
    ((domclick.Get.finish env unmarshal resp f sent).err = none →
      (domclick.Get.finish env unmarshal resp f sent).feed.isGet = true) := by
  by_cases hattr : resp.Header.Get "Last-Modified" = ""
  · cases hb : resp.Body with
    | error e => simp [domclick.Get.finish, transport.HeaderLastModified, hattr, hb]
    | ok body =>
      cases hu : (unmarshal body f.Data).2 with
      | some e => simp [domclick.Get.finish, transport.HeaderLastModified, hattr, hb, hu]
      | none => simp [domclick.Get.finish, transport.HeaderLastModified, hattr, hb, hu]
  · cases hp : env.ParseRFC1123 (resp.Header.Get "Last-Modified") with
    | error e => simp [domclick.Get.finish, transport.HeaderLastModified, hattr, hp]
    | ok t =>
      cases hb : resp.Body with
      | error e => simp [domclick.Get.finish, transport.HeaderLastModified, hattr, hp, hb]
      | ok body =>
        cases hu : (unmarshal body { f with LastModified := t }.Data).2 with
        | some e => simp [domclick.Get.finish, transport.HeaderLastModified, hattr, hp, hb, hu]
        | none => simp [domclick.Get.finish, transport.HeaderLastModified, hattr, hp, hb, hu]

/-- A non-200 answer to the probe or to the body fetch makes `Get` return an
error; the fetched flag stays as it was. -/
theorem avito_Get_fails (env : Env) (parse : String → Except String avito.Document)
    (f : avito.Feed) (c : Nat) (hc : f.client = some c) (hn : env.answersNon200 c f.url) :
    ∃ r e, avito.Get env parse f = .ok r ∧ r.err = some e ∧ r.feed.isGet = f.isGet := by
  obtain ⟨i, -, ⟨t, ht⟩, -, hie, hbad, hfail, hnext⟩ := avito_Get_some env parse f c hc
  cases hi : i.err with
  | some e => exact ⟨_, _, hfail e hi, rfl, by rw [(hie e hi).1]⟩
  | none =>
    obtain ⟨g, -, -, hgbad, hgfail, -⟩ := hnext hi
    have hig : i.feed.isGet = f.isGet := by rw [ht]
    cases hg : g.err with
    | some e => exact ⟨_, _, hgfail e hg, rfl, hig⟩
    | none =>
      exfalso
      rcases hn with ⟨resp, h1, h2⟩ | ⟨resp, h1, h2⟩
      · exact hbad resp h1 h2 hi
      · exact hgbad resp h1 h2 hg

/-- A non-200 answer to the probe or to the body fetch makes `Get` return an
error; the fetched flag stays as it was. -/
theorem cian_Get_fails (env : Env) (parse : String → Except String cian.Document)
    (f : cian.Feed) (c : Nat) (hc : f.client = some c) (hn : env.answersNon200 c f.url) :
    ∃ r e, cian.Get env parse f = .ok r ∧ r.err = some e ∧ r.feed.isGet = f.isGet := by
  obtain ⟨i, -, ⟨t, ht⟩, -, hie, hbad, hfail, hnext⟩ := cian_Get_some env parse f c hc
  cases hi : i.err with
  | some e => exact ⟨_, _, hfail e hi, rfl, by rw [(hie e hi).1]⟩
  | none =>
    obtain ⟨g, -, -, hgbad, hgfail, -⟩ := hnext hi
    have hig : i.feed.isGet = f.isGet := by rw [ht]
    cases hg : g.err with
    | some e => exact ⟨_, _, hgfail e hg, rfl, hig⟩
    | none =>
      exfalso
      rcases hn with ⟨resp, h1, h2⟩ | ⟨resp, h1, h2⟩
      · exact hbad resp h1 h2 hi
      · exact hgbad resp h1 h2 hg

/-- A non-200 answer to the probe or to the body fetch makes `Get` return an
error; the fetched flag stays as it was. -/
theorem realty_Get_fails (env : Env) (parse : String → Except String realty.Document)
    (f : realty.Feed) (c : Nat) (hc : f.client = some c) (hn : env.answersNon200 c f.url) :
    ∃ r e, realty.Get env parse f = .ok r ∧ r.err = some e ∧ r.feed.isGet = f.isGet := by
  obtain ⟨i, -, ⟨t, ht⟩, -, hie, hbad, hfail, hnext⟩ := realty_Get_some env parse f c hc
  cases hi : i.err with
  | some e => exact ⟨_, _, hfail e hi, rfl, by rw [(hie e hi).1]⟩
  | none =>
    obtain ⟨g, -, -, hgbad, hgfail, -⟩ := hnext hi
    have hig : i.feed.isGet = f.isGet := by rw [ht]
    cases hg : g.err with
    | some e => exact ⟨_, _, hgfail e hg, rfl, hig⟩
    | none =>
      exfalso
      rcases hn with ⟨resp, h1, h2⟩ | ⟨resp, h1, h2⟩
      · exact hbad resp h1 h2 hi
      · exact hgbad resp h1 h2 hg

/-! ### Messages that begin differently -/

theorem not_startsWith_of_startsWith (p q m : String)
    (h : charsMismatch p.data q.data = true) (hp : startsWith p m) : ¬ startsWith q m :=
  fun hq => startsWith_clash p q m h hp hq

theorem validation.stringFinding_avoids (q : String)
    (hq : charsMismatch "fi".data q.data = true) (path fieldName value : String) :
    ∀ m ∈ validation.stringFinding path fieldName value, ¬ startsWith q m := by
  intro m hm
  rw [validation.mem_stringFinding] at hm
  refine not_startsWith_of_startsWith "fi" q m hq ?_
  rw [hm.2]; simp only [String.append_assoc]; exact startsWith_fi _

theorem validation.posFinding_avoids (q : String)
    (hq : charsMismatch "fi".data q.data = true) (idx : Nat) (path fieldName value : String) :
    ∀ m ∈ validation.posFinding idx path fieldName value, ¬ startsWith q m := by
  intro m hm
  rw [validation.mem_posFinding] at hm
  refine not_startsWith_of_startsWith "fi" q m hq ?_
  rw [hm.2]; simp only [String.append_assoc]; exact startsWith_fi _

theorem validation.idFinding_avoids (q : String)
    (hq : charsMismatch "fi".data q.data = true) (ID path fieldName value : String) :
    ∀ m ∈ validation.idFinding ID path fieldName value, ¬ startsWith q m := by
  intro m hm
  rw [validation.mem_idFinding] at hm
  refine not_startsWith_of_startsWith "fi" q m hq ?_
  rw [hm.2]; simp only [String.append_assoc]; exact startsWith_fi _

theorem validation.zeroFinding_avoids {V : Type} [Zero V] [DecidableEq V] (q : String)
    (hq : charsMismatch "fi".data q.data = true) (ID path fieldName : String) (value : V) :
    ∀ m ∈ validation.zeroFinding ID path fieldName value, ¬ startsWith q m := by
  intro m hm
  rw [validation.mem_zeroFinding] at hm
  refine not_startsWith_of_startsWith "fi" q m hq ?_
  rw [hm.2]; simp only [String.append_assoc]; exact startsWith_fi _

theorem ite_singleton_avoids (q : String) (c : Prop) [Decidable c] (p x : String)
    (hq : charsMismatch p.data q.data = true) :
    ∀ m ∈ (if c then [p ++ x] else []), ¬ startsWith q m := by
  intro m hm
  rw [mem_ite_singleton] at hm
  exact not_startsWith_of_startsWith p q m hq (startsWith_of_eq_append _ x _ hm.2)

theorem ite_singleton_avoids3 (q : String) (c : Prop) [Decidable c] (p x y z : String)
    (hq : charsMismatch p.data q.data = true) :
    ∀ m ∈ (if c then [p ++ x ++ y ++ z] else []), ¬ startsWith q m := by
  intro m hm
  rw [mem_ite_singleton] at hm
  exact not_startsWith_of_startsWith p q m hq
    (startsWith_of_eq_append _ (x ++ (y ++ z)) _ (by rw [hm.2]; simp only [String.append_assoc]))

theorem ite_list_avoids (q : String) (c : Prop) [Decidable c] (l : List String)
    (h : ∀ m ∈ l, ¬ startsWith q m) :
    ∀ m ∈ (if c then l else []), ¬ startsWith q m := by
  split_ifs
  · exact h
  · simp

theorem mem_append_iff_right (S : String → Prop) (m : String) (l1 l2 : List String)
    (h : ∀ x ∈ l1, ¬ S x) (hm : S m) : m ∈ l1 ++ l2 ↔ m ∈ l2 := by
  rw [List.mem_append]
  exact ⟨fun h' => h'.elim (fun h1 => absurd hm (h m h1)) id, Or.inr⟩

theorem mem_append_iff_left (S : String → Prop) (m : String) (l1 l2 : List String)
    (h : ∀ x ∈ l2, ¬ S x) (hm : S m) : m ∈ l1 ++ l2 ↔ m ∈ l1 := by
  rw [List.mem_append]
  exact ⟨fun h' => h'.elim id (fun h2 => absurd hm (h m h2)), Or.inl⟩

theorem count_append_eq_right (S : String → Prop) (m : String) (l1 l2 : List String)
    (h : ∀ x ∈ l1, ¬ S x) (hm : S m) : (l1 ++ l2).count m = l2.count m := by
  rw [List.count_append, List.count_eq_zero.2 (fun h1 => h m h1 hm), Nat.zero_add]

theorem count_append_eq_left (S : String → Prop) (m : String) (l1 l2 : List String)
    (h : ∀ x ∈ l2, ¬ S x) (hm : S m) : (l1 ++ l2).count m = l1.count m := by
  rw [List.count_append, List.count_eq_zero.2 (fun h2 => h m h2 hm), Nat.add_zero]

theorem count_ite_singleton (c : Prop) [Decidable c] (m a : String) :
    (if c then [a] else []).count m = if c ∧ a = m then 1 else 0 := by
  by_cases hc : c
  · by_cases ha : a = m
    · simp [hc, ha]
    · rw [if_pos hc, if_neg (fun h => ha h.2)]
      exact List.count_eq_zero.2 (fun h => ha (List.mem_singleton.1 h).symm)
  · simp [hc]

theorem count_enumFrom_flatMap {α : Type} (g : Nat × α → List String) (m : String)
    (c : α → Bool) (h : ∀ p, (g p).count m = if c p.2 = true then 1 else 0) (xs : List α) :
    ∀ n, ((xs.enumFrom n).flatMap g).count m = xs.countP c := by
  induction xs with
  | nil => intro n; simp
  | cons x xs ih =>
    intro n
    rw [List.enumFrom_cons, List.flatMap_cons, List.count_append, ih (n + 1), h (n, x),
      List.countP_cons, Nat.add_comm]

/-- Counting a message in the concatenation of per-item lists, when each item
contributes it once or not at all. -/
theorem count_enum_flatMap {α : Type} (xs : List α) (g : Nat × α → List String) (m : String)
    (c : α → Bool) (h : ∀ p, (g p).count m = if c p.2 = true then 1 else 0) :
    (xs.enum.flatMap g).count m = xs.countP c :=
  count_enumFrom_flatMap g m c h xs 0

theorem count_enumFrom_flatMap_sum {α : Type} (g : Nat × α → List String) (m : String)
    (k : α → Nat) (h : ∀ p, (g p).count m = k p.2) (xs : List α) :
    ∀ n, ((xs.enumFrom n).flatMap g).count m = (xs.map k).sum := by
  induction xs with
  | nil => intro n; simp
  | cons x xs ih =>
    intro n
    rw [List.enumFrom_cons, List.flatMap_cons, List.count_append, ih (n + 1), h (n, x),
      List.map_cons, List.sum_cons]

/-- Counting a message in the concatenation of per-item lists. -/
theorem count_enum_flatMap_sum {α : Type} (xs : List α) (g : Nat × α → List String)
    (m : String) (k : α → Nat) (h : ∀ p, (g p).count m = k p.2) :
    (xs.enum.flatMap g).count m = (xs.map k).sum :=
  count_enumFrom_flatMap_sum g m k h xs 0

theorem validation.idFinding_avoids_path (q ID path fieldName value : String)
    (hq : charsMismatch ("field " ++ path ++ ".").data q.data = true) :
    ∀ m ∈ validation.idFinding ID path fieldName value, ¬ startsWith q m := by
  intro m hm
  rw [validation.mem_idFinding] at hm
  refine not_startsWith_of_startsWith _ q m hq (startsWith_of_eq_append _
    (fieldName ++ (" is empty. "
      ++ (if ID = "" then "InternalID not found" else "InternalID: " ++ ID))) _ ?_)
  rw [hm.2]; simp only [String.append_assoc]

theorem validation.zeroFinding_avoids_path {V : Type} [Zero V] [DecidableEq V]
    (q ID path fieldName : String) (value : V)
    (hq : charsMismatch ("field " ++ path ++ ".").data q.data = true) :
    ∀ m ∈ validation.zeroFinding ID path fieldName value, ¬ startsWith q m := by
  intro m hm
  rw [validation.mem_zeroFinding] at hm
  refine not_startsWith_of_startsWith _ q m hq (startsWith_of_eq_append _
    (fieldName ++ (" is empty. InternalID: " ++ ID)) _ ?_)
  rw [hm.2]; simp only [String.append_assoc]

theorem validation.posFinding_avoids_path (q : String) (idx : Nat)
    (path fieldName value : String)
    (hq : charsMismatch ("field " ++ path ++ "[").data q.data = true) :
    ∀ m ∈ validation.posFinding idx path fieldName value, ¬ startsWith q m :=
  fun m hm => not_startsWith_of_startsWith _ q m hq
    (validation.startsWith_posFinding m idx path fieldName value hm)

/-! ### DomClick: the floor message -/

theorem domclick.floorMsg_startsWith (id : String) :
    startsWith "Field Flats.Flat.F" (domclick.floorMsg id) :=
  startsWith_of_eq_append _
    ("loor is bigger than building.Floors. InternalID: " ++ id) _
    (by unfold domclick.floorMsg; rw [← String.append_assoc]; rfl)

theorem domclick.floorMsg_inj (a b : String) :
    domclick.floorMsg a = domclick.floorMsg b ↔ a = b :=
  string_append_left_cancel _ _ _

/-- The messages of a flat other than the floor message. -/
theorem domclick.lotMessages_split_floor (floors : Int) (idx : Nat) (lot : domclick.Flat) :
    ∃ others, (∀ m ∈ others, ¬ startsWith "Field Flats.Flat.F" m) ∧
      domclick.lotMessages floors idx lot
        = others ++ (if lot.Floor > floors then [domclick.floorMsg lot.FlatID] else []) := by
  refine ⟨
    validation.posFinding idx "Flats.Flat" "FlatID" lot.FlatID
    ++ validation.zeroFinding lot.FlatID "Flats.Flat" "Floor" lot.Floor
    ++ (if lot.Room = none then
        ["Field Flats.Room is empty. InternalID: " ++ lot.FlatID] else [])
    ++ validation.idFinding lot.FlatID "Flats.Flat" "Plan" lot.Plan
    ++ validation.idFinding lot.FlatID "Flats.Flat" "Balcony" lot.Balcony
    ++ validation.zeroFinding lot.FlatID "Flats.Flat" "Price" lot.Price
    ++ validation.zeroFinding lot.FlatID "Flats.Flat" "Area" lot.Area
    ++ validation.zeroFinding lot.FlatID "Flats.Flat" "LivingArea" lot.LivingArea
    ++ (if lot.LivingArea = 0 then
        lot.RoomsArea.Area.enum.flatMap (fun p =>
          if p.2 = "" then
            ["Field Flats.Flat.RoomsArea.Area[" ++ toString p.1
              ++ "] is empty. InternalID: " ++ lot.FlatID]
          else [])
        else [])
    ++ validation.zeroFinding lot.FlatID "Flats.Flat" "KitchenArea" lot.KitchenArea
    ++ validation.idFinding lot.FlatID "Flats.Flat" "Bathroom" lot.Bathroom, ?_, rfl⟩
  have hq : charsMismatch "fi".data "Field Flats.Flat.F".data = true := rfl
  simp only [List.forall_mem_append]
  repeat' apply And.intro
  all_goals first
    | with_reducible exact validation.idFinding_avoids _ hq _ _ _ _
    | with_reducible exact validation.zeroFinding_avoids _ hq _ _ _ _
    | with_reducible exact validation.posFinding_avoids _ hq _ _ _ _
    | ((with_reducible refine ite_singleton_avoids _ _ _ _ ?_); rfl)
    | exact ite_list_avoids _ _ _ (forall_mem_flatMap _ _ _
        (fun p => ite_singleton_avoids3 _ _ _ _ _ _ (by rfl)))

theorem domclick.floorMsg_mem_lotMessages (id : String) (floors : Int) (idx : Nat)
    (lot : domclick.Flat) :
    domclick.floorMsg id ∈ domclick.lotMessages floors idx lot
      ↔ lot.FlatID = id ∧ lot.Floor > floors := by
  obtain ⟨others, hav, heq⟩ := domclick.lotMessages_split_floor floors idx lot
  rw [heq, mem_append_iff_right _ _ _ _ hav (domclick.floorMsg_startsWith id),
    mem_ite_singleton, domclick.floorMsg_inj]
  constructor
  · rintro ⟨h1, h2⟩
    exact ⟨h2.symm, h1⟩
  · rintro ⟨h1, h2⟩
    exact ⟨h2, h1.symm⟩

theorem domclick.floorMsg_count_lotMessages (floors : Int) (idx : Nat)
    (lot : domclick.Flat) :
    (domclick.lotMessages floors idx lot).count (domclick.floorMsg lot.FlatID)
      = if lot.Floor > floors then 1 else 0 := by
  obtain ⟨others, hav, heq⟩ := domclick.lotMessages_split_floor floors idx lot
  rw [heq, count_append_eq_right _ _ _ _ hav (domclick.floorMsg_startsWith _)]
  split_ifs <;> simp

theorem domclick.floorMsg_mem_buildingMessages (id : String) (year : Int) (pos : Nat)
    (building : domclick.Building) :
    domclick.floorMsg id ∈ domclick.buildingMessages year pos building
      ↔ ∃ lot ∈ building.Flats.Flat, lot.FlatID = id ∧ lot.Floor > building.Floors := by
  have hav : ∀ m ∈
      validation.posFinding pos "Complex.Buildings.Building" "ID" building.ID
      ++ validation.idFinding building.ID "Complex.Buildings.Building" "Fz214" building.Fz214
      ++ validation.idFinding building.ID "Complex.Buildings.Building" "Name" building.Name
      ++ validation.zeroFinding building.ID "Complex.Buildings.Building" "Floors"
          building.Floors
      ++ validation.idFinding building.ID "Complex.Buildings.Building" "BuildingState"
          building.BuildingState
      ++ validation.zeroFinding building.ID "Complex.Buildings.Building" "BuiltYear"
          building.BuiltYear
      ++ validation.zeroFinding building.ID "Complex.Buildings.Building" "ReadyQuarter"
          building.ReadyQuarter
      ++ validation.idFinding building.ID "Complex.Buildings.Building" "BuildingType"
          building.BuildingType
      ++ (if building.BuiltYear < year ∧ building.BuildingState = "unfinished" then
          ["BuildingState == unfinished for " ++ toString building.BuiltYear
            ++ ". InternalID: " ++ building.ID] else []),
      ¬ startsWith "Field Flats.Flat.F" m := by
    have hq : charsMismatch "fi".data "Field Flats.Flat.F".data = true := rfl
    simp only [List.forall_mem_append]
    repeat' apply And.intro
    all_goals first
      | with_reducible exact validation.idFinding_avoids _ hq _ _ _ _
      | with_reducible exact validation.zeroFinding_avoids _ hq _ _ _ _
      | with_reducible exact validation.posFinding_avoids _ hq _ _ _ _
      | ((with_reducible refine ite_singleton_avoids3 _ _ _ _ _ _ ?_); rfl)
  unfold domclick.buildingMessages
  rw [mem_append_iff_right _ _ _ _ hav (domclick.floorMsg_startsWith id), List.mem_flatMap]
  constructor
  · rintro ⟨p, hp, hm⟩
    exact ⟨p.2, mem_of_mem_enum _ p hp,
      (domclick.floorMsg_mem_lotMessages id _ _ _).1 hm⟩
  · rintro ⟨lot, hlot, h⟩
    obtain ⟨i, hi⟩ := mem_enum_of_mem _ lot hlot
    exact ⟨(i, lot), hi, (domclick.floorMsg_mem_lotMessages id _ _ _).2 h⟩

theorem domclick.floorMsg_mem_complexMessages (id : String) (year : Int)
    (residence : domclick.Complex) :
    domclick.floorMsg id ∈ domclick.complexMessages year residence
      ↔ ∃ building ∈ residence.Buildings.Building, ∃ lot ∈ building.Flats.Flat,
          lot.FlatID = id ∧ lot.Floor > building.Floors := by
  have hS := domclick.floorMsg_startsWith id
  have hq : charsMismatch "fi".data "Field Flats.Flat.F".data = true := rfl
  have hs : ∀ path fieldName value, ∀ m ∈ validation.stringFinding path fieldName value,
      ¬ startsWith "Field Flats.Flat.F" m :=
    fun path fieldName value => validation.stringFinding_avoids _ (by rfl) path fieldName value
  have hfront : ∀ m ∈
      validation.stringFinding "Complex" "ID" residence.ID
      ++ validation.stringFinding "Complex" "Name" residence.Name
      ++ validation.stringFinding "Complex" "Address" residence.Address
      ++ validation.stringFinding "Complex" "Latitude" residence.Latitude
      ++ validation.stringFinding "Complex" "Longitude" residence.Longitude
      ++ residence.Images.Image.enum.flatMap
          (fun p => validation.posFinding p.1 "Complex.Images.Image" "Image" p.2)
      ++ validation.stringFinding "Complex.DescriptionMain" "Title"
          residence.DescriptionMain.Title
      ++ validation.stringFinding "Complex.DescriptionMain" "Text"
          residence.DescriptionMain.Text
      ++ residence.ProfitsMain.ProfitMain.enum.flatMap (fun p =>
          validation.posFinding p.1 "Complex.ProfitsMain.ProfitMain" "Title" p.2.Title
          ++ validation.posFinding p.1 "Complex.ProfitsMain.ProfitMain" "Text" p.2.Text
          ++ validation.posFinding p.1 "Complex.ProfitsMain.ProfitMain" "Image" p.2.Image),
      ¬ startsWith "Field Flats.Flat.F" m := by
    simp only [List.forall_mem_append]
    repeat' apply And.intro
    all_goals first
      | with_reducible exact hs _ _ _
      | exact forall_mem_flatMap _ _ _
          (fun p => validation.posFinding_avoids _ hq _ _ _ _)
      | (refine forall_mem_flatMap _ _ _ (fun p => ?_)
         simp only [List.forall_mem_append]
         exact ⟨⟨validation.posFinding_avoids _ hq _ _ _ _,
           validation.posFinding_avoids _ hq _ _ _ _⟩,
           validation.posFinding_avoids _ hq _ _ _ _⟩)
  unfold domclick.complexMessages
  rw [mem_append_iff_left _ _ _ _ (hs _ _ _) hS, mem_append_iff_left _ _ _ _ (hs _ _ _) hS,
    mem_append_iff_left _ _ _ _ (hs _ _ _) hS, mem_append_iff_left _ _ _ _ (hs _ _ _) hS,
    mem_append_iff_left _ _ _ _ (hs _ _ _) hS, mem_append_iff_left _ _ _ _ (hs _ _ _) hS,
    mem_append_iff_left _ _ _ _ (hs _ _ _) hS, mem_append_iff_left _ _ _ _ (hs _ _ _) hS,
    mem_append_iff_right _ _ _ _ hfront hS, List.mem_flatMap]
  constructor
  · rintro ⟨p, hp, hm⟩
    exact ⟨p.2, mem_of_mem_enum _ p hp,
      (domclick.floorMsg_mem_buildingMessages id year _ _).1 hm⟩
  · rintro ⟨building, hb, h⟩
    obtain ⟨i, hi⟩ := mem_enum_of_mem _ building hb
    exact ⟨(i, building), hi, (domclick.floorMsg_mem_buildingMessages id year _ _).2 h⟩

theorem domclick.floorMsg_count_lot (id : String) (floors : Int) (idx : Nat)
    (lot : domclick.Flat) :
    (domclick.lotMessages floors idx lot).count (domclick.floorMsg id)
      = if decide (lot.FlatID = id ∧ lot.Floor > floors) = true then 1 else 0 := by
  obtain ⟨others, hav, heq⟩ := domclick.lotMessages_split_floor floors idx lot
  rw [heq, count_append_eq_right _ _ _ _ hav (domclick.floorMsg_startsWith _),
    count_ite_singleton]
  simp only [domclick.floorMsg_inj, decide_eq_true_eq, and_comm]

theorem domclick.floorMsg_count_building (id : String) (year : Int) (pos : Nat)
    (building : domclick.Building) :
    (domclick.buildingMessages year pos building).count (domclick.floorMsg id)
      = building.Flats.Flat.countP
          (fun lot => decide (lot.FlatID = id ∧ lot.Floor > building.Floors)) := by
  have hm : startsWith "Field Flats.Flat.F" (domclick.floorMsg id) :=
    domclick.floorMsg_startsWith id
  have hq : charsMismatch "fi".data "Field Flats.Flat.F".data = true := rfl
  unfold domclick.buildingMessages
  rw [count_append_eq_right (startsWith "Field Flats.Flat.F") _ _ _ ?_ hm]
  · exact count_enum_flatMap _ _ _ _
      (fun p => domclick.floorMsg_count_lot id building.Floors p.1 p.2)
  · simp only [List.forall_mem_append]
    repeat' apply And.intro
    all_goals first
      | with_reducible exact validation.idFinding_avoids _ hq _ _ _ _
      | with_reducible exact validation.zeroFinding_avoids _ hq _ _ _ _
      | with_reducible exact validation.posFinding_avoids _ hq _ _ _ _
      | ((with_reducible refine ite_singleton_avoids3 _ _ _ _ _ _ ?_); rfl)

theorem domclick.floorMsg_count_complex (id : String) (year : Int)
    (residence : domclick.Complex) :
    (domclick.complexMessages year residence).count (domclick.floorMsg id)
      = domclick.floorExcessCount residence id := by
  have hS := domclick.floorMsg_startsWith id
  have hq : charsMismatch "fi".data "Field Flats.Flat.F".data = true := rfl
  have hs : ∀ path fieldName value, ∀ m ∈ validation.stringFinding path fieldName value,
      ¬ startsWith "Field Flats.Flat.F" m :=
    fun path fieldName value => validation.stringFinding_avoids _ hq path fieldName value
  unfold domclick.complexMessages domclick.floorExcessCount
  rw [count_append_eq_left _ _ _ _ (hs _ _ _) hS, count_append_eq_left _ _ _ _ (hs _ _ _) hS,
    count_append_eq_left _ _ _ _ (hs _ _ _) hS, count_append_eq_left _ _ _ _ (hs _ _ _) hS,
    count_append_eq_left _ _ _ _ (hs _ _ _) hS, count_append_eq_left _ _ _ _ (hs _ _ _) hS,
    count_append_eq_left _ _ _ _ (hs _ _ _) hS, count_append_eq_left _ _ _ _ (hs _ _ _) hS,
    count_append_eq_right (startsWith "Field Flats.Flat.F") _ _ _ ?_ hS]
  · exact count_enum_flatMap_sum _ _ _ _
      (fun p => domclick.floorMsg_count_building id year p.1 p.2)
  · simp only [List.forall_mem_append]
    repeat' apply And.intro
    all_goals first
      | with_reducible exact hs _ _ _
      | exact forall_mem_flatMap _ _ _
          (fun p => validation.posFinding_avoids _ hq _ _ _ _)
      | (refine forall_mem_flatMap _ _ _ (fun p => ?_)
         simp only [List.forall_mem_append]
         exact ⟨⟨validation.posFinding_avoids _ hq _ _ _ _,
           validation.posFinding_avoids _ hq _ _ _ _⟩,
           validation.posFinding_avoids _ hq _ _ _ _⟩)

/-! ### Avito: the image-count message -/

theorem avito.imagesCountMsg_startsWith (n : Nat) (id : String) :
    startsWith "field Images.Image c" (avito.imagesCountMsg n id) :=
  startsWith_of_eq_append _
    ("ontains '" ++ (toString n ++ ("' items. InternalID: " ++ id))) _
    (by unfold avito.imagesCountMsg; simp only [← String.append_assoc]; rfl)

/-- The messages of an ad other than the image-count message. -/
theorem avito.lotMessages_split_images (idx : Nat) (lot : avito.Ad) :
    ∃ others, (∀ m ∈ others, ¬ startsWith "field Images.Image c" m) ∧
      avito.lotMessages idx lot
        = others ++ (if avito.imagesOutOfRange lot then
            [avito.imagesCountMsg lot.Images.Image.length lot.ID] else []) := by
  refine ⟨
    validation.posFinding idx "Ad" "ID" lot.ID
    ++ validation.idFinding lot.ID "Ad" "ContactPhone" lot.ContactPhone
    ++ validation.idFinding lot.ID "Ad" "Description" lot.Description
    ++ validation.idFinding lot.ID "Ad" "Category" lot.Category
    ++ validation.zeroFinding lot.ID "Ad" "Price" lot.Price
    ++ validation.idFinding lot.ID "Ad" "OperationType" lot.OperationType
    ++ validation.idFinding lot.ID "Ad" "MarketType" lot.MarketType
    ++ validation.idFinding lot.ID "Ad" "HouseType" lot.HouseType
    ++ validation.zeroFinding lot.ID "Ad" "Floor" lot.Floor
    ++ validation.zeroFinding lot.ID "Ad" "Floors" lot.Floors
    ++ validation.idFinding lot.ID "Ad" "Rooms" lot.Rooms
    ++ validation.zeroFinding lot.ID "Ad" "Square" lot.Square
    ++ (if lot.LivingSpace = 0 ∧ lot.Rooms ≠ "Студия" then
          ["field LivingSpace is empty. InternalID: " ++ lot.ID] else [])
    ++ validation.idFinding lot.ID "Ad" "Status" lot.Status
    ++ validation.idFinding lot.ID "Ad" "NewDevelopmentId" lot.NewDevelopmentID
    ++ validation.idFinding lot.ID "Ad" "PropertyRights" lot.PropertyRights
    ++ validation.idFinding lot.ID "Ad" "Decoration" lot.Decoration
    ++ (if lot.Floor > lot.Floors then
          ["field Floor is bigger than Floors. InternalID: " ++ lot.ID] else [])
    ++ lot.Images.Image.enum.flatMap
        (fun p => validation.posFinding p.1 "Images.Image" "URL" p.2.URL), ?_, rfl⟩
  have hq1 : charsMismatch ("field " ++ "Ad" ++ ".").data "field Images.Image c".data = true :=
    rfl
  have hq2 : charsMismatch ("field " ++ "Ad" ++ "[").data "field Images.Image c".data = true :=
    rfl
  have hq3 : charsMismatch ("field " ++ "Images.Image" ++ "[").data
      "field Images.Image c".data = true := rfl
  simp only [List.forall_mem_append]
  repeat' apply And.intro
  all_goals first
    | with_reducible exact validation.idFinding_avoids_path _ _ _ _ _ hq1
    | with_reducible exact validation.zeroFinding_avoids_path _ _ _ _ _ hq1
    | with_reducible exact validation.posFinding_avoids_path _ _ _ _ _ hq2
    | ((with_reducible refine ite_singleton_avoids _ _ _ _ ?_); rfl)
    | exact forall_mem_flatMap _ _ _
        (fun p => validation.posFinding_avoids_path _ _ _ _ _ hq3)

theorem avito.imagesCountMsg_count_lot (m : String)
    (hm : startsWith "field Images.Image c" m) (idx : Nat) (lot : avito.Ad) :
    (avito.lotMessages idx lot).count m
      = if decide (avito.imagesOutOfRange lot
          ∧ avito.imagesCountMsg lot.Images.Image.length lot.ID = m) = true then 1 else 0 := by
  obtain ⟨others, hav, heq⟩ := avito.lotMessages_split_images idx lot
  rw [heq, count_append_eq_right _ _ _ _ hav hm, count_ite_singleton]
  simp only [decide_eq_true_eq]

theorem avito.imagesCountMsg_mem_lot (m : String)
    (hm : startsWith "field Images.Image c" m) (idx : Nat) (lot : avito.Ad) :
    m ∈ avito.lotMessages idx lot
      ↔ avito.imagesOutOfRange lot
          ∧ m = avito.imagesCountMsg lot.Images.Image.length lot.ID := by
  obtain ⟨others, hav, heq⟩ := avito.lotMessages_split_images idx lot
  rw [heq, mem_append_iff_right _ _ _ _ hav hm, mem_ite_singleton]

/-! ### The custom decoders -/

theorem strconv.splitSign_minus (r : List Char) : strconv.splitSign ('-' :: r) = (true, r) :=
  rfl

theorem strconv.splitSign_plus (r : List Char) : strconv.splitSign ('+' :: r) = (false, r) :=
  rfl

theorem strconv.splitSign_nil : strconv.splitSign [] = (false, []) := rfl

theorem strconv.splitSign_cons (c : Char) (r : List Char) (h1 : c ≠ '-') (h2 : c ≠ '+') :
    strconv.splitSign (c :: r) = (false, c :: r) := by
  unfold strconv.splitSign
  split
  · rename_i heq
    exact absurd (List.cons.inj heq).1 h1
  · rename_i heq
    exact absurd (List.cons.inj heq).1 h2
  · rfl

theorem Char.not_sign_of_isDigit (c : Char) (h : c.isDigit = true) : c ≠ '-' ∧ c ≠ '+' := by
  constructor <;> (rintro rfl; revert h; decide)

theorem Char.not_comma_of_isDigit (c : Char) (h : c.isDigit = true) : c ≠ ',' := by
  rintro rfl; revert h; decide

theorem strings.replaceChars_comma (fuel : Nat) :
    ∀ l : List Char, l.length ≤ fuel →
      strings.replaceChars [','] ['.'] fuel l = l.map (fun c => if c = ',' then '.' else c) := by
  induction fuel with
  | zero =>
    intro l hl
    have : l = [] := List.length_eq_zero.1 (Nat.le_zero.1 hl)
    subst this; rfl
  | succ n ih =>
    intro l hl
    cases l with
    | nil => rfl
    | cons c l =>
      have hl2 : l.length ≤ n := Nat.le_of_succ_le_succ hl
      by_cases hc : c = ','
      · subst hc
        simp [strings.replaceChars, ih l hl2]
      · have hc2 : ¬ ',' = c := fun h => hc h.symm
        simp [strings.replaceChars, ih l hl2, hc, hc2]

theorem strings.ReplaceAll_comma (s : String) :
    strings.ReplaceAll s "," "." = ⟨s.data.map (fun c => if c = ',' then '.' else c)⟩ := by
  have h : ("," : String) ≠ "" := by decide
  unfold strings.ReplaceAll
  rw [if_neg h]
  exact congrArg String.mk (strings.replaceChars_comma _ _ (Nat.le_refl _))

theorem map_comma_digits (a : List Char) (ha : a.all Char.isDigit = true) :
    a.map (fun c => if c = ',' then '.' else c) = a := by
  induction a with
  | nil => rfl
  | cons c a ih =>
    rw [List.all_cons, Bool.and_eq_true] at ha
    rw [List.map_cons, ih ha.2, if_neg (Char.not_comma_of_isDigit c ha.1)]

theorem strconv.splitSign_digits_point (a b : List Char) (ha : a.all Char.isDigit = true) :
    strconv.splitSign (a ++ '.' :: b) = (false, a ++ '.' :: b) := by
  cases a with
  | nil => rfl
  | cons c a =>
    rw [List.all_cons, Bool.and_eq_true] at ha
    exact strconv.splitSign_cons c _ (Char.not_sign_of_isDigit c ha.1).1
      (Char.not_sign_of_isDigit c ha.1).2

theorem strings.ReplaceAll_comma_decimal (a b : List Char)
    (ha : a.all Char.isDigit = true) (hb : b.all Char.isDigit = true) :
    strings.ReplaceAll ⟨a ++ ',' :: b⟩ "," "." = ⟨a ++ '.' :: b⟩ := by
  rw [strings.ReplaceAll_comma]
  simp only [List.map_append, List.map_cons, map_comma_digits a ha, map_comma_digits b hb,
    if_true]

theorem strconv.Atoi_of_no_digits (s : String)
    (h : ¬ ((strconv.splitSign s.data).2 ≠ []
      ∧ (strconv.splitSign s.data).2.all Char.isDigit = true)) :
    strconv.Atoi s = .error (strconv.syntaxError "Atoi" s) := by
  unfold strconv.Atoi
  exact if_neg h

/-- A text that is not a decimal integer is refused by `Atoi`. -/
theorem strconv.Atoi_not_decimal (s : String) (h : strconv.isDecimalInteger s = false) :
    strconv.Atoi s = .error (strconv.syntaxError "Atoi" s) := by
  refine strconv.Atoi_of_no_digits s ?_
  unfold strconv.isDecimalInteger at h
  cases hs : s.data with
  | nil =>
    rw [strconv.splitSign_nil]
    exact fun h' => h'.1 rfl
  | cons c ds =>
    rw [hs] at h
    by_cases h1 : c = '-'
    · subst h1
      simp only [true_or, if_true] at h
      rw [strconv.splitSign_minus]
      rintro ⟨hne, hall⟩
      rw [hall, Bool.and_true, Bool.not_eq_false', List.isEmpty_iff] at h
      exact hne h
    · by_cases h2 : c = '+'
      · subst h2
        simp only [or_true, if_true] at h
        rw [strconv.splitSign_plus]
        rintro ⟨hne, hall⟩
        rw [hall, Bool.and_true, Bool.not_eq_false', List.isEmpty_iff] at h
        exact hne h
      · simp only [h1, h2, or_self, if_false] at h
        rw [strconv.splitSign_cons c ds h1 h2]
        rintro ⟨_, hall⟩
        rw [h] at hall
        exact Bool.false_ne_true hall

/-! ### Findings that are absent -/

theorem ite_singleton_eq_nil (c : Prop) [Decidable c] (a : String) :
    (if c then [a] else []) = [] ↔ ¬ c := by
  split_ifs with h <;> simp [h]

theorem validation.posFinding_eq_nil (idx : Nat) (path fieldName value : String) :
    validation.posFinding idx path fieldName value = [] ↔ value ≠ "" :=
  ite_singleton_eq_nil _ _

theorem validation.idFinding_eq_nil (ID path fieldName value : String) :
    validation.idFinding ID path fieldName value = [] ↔ value ≠ "" :=
  ite_singleton_eq_nil _ _

theorem validation.zeroFinding_eq_nil {V : Type} [Zero V] [DecidableEq V]
    (ID path fieldName : String) (value : V) :
    validation.zeroFinding ID path fieldName value = [] ↔ value ≠ 0 :=
  ite_singleton_eq_nil _ _

theorem flatMap_enum_eq_nil {α : Type} (xs : List α) (g : Nat × α → List String)
    (P : α → Prop) (h : ∀ p, g p = [] ↔ P p.2) :
    xs.enum.flatMap g = [] ↔ ∀ x ∈ xs, P x := by
  rw [List.flatMap_eq_nil_iff]
  constructor
  · intro hall x hx
    obtain ⟨i, hi⟩ := mem_enum_of_mem xs x hx
    exact (h (i, x)).1 (hall (i, x) hi)
  · intro hall p hp
    exact (h p).2 (hall p.2 (mem_of_mem_enum xs p hp))

/-- An Avito ad yields no message exactly when it satisfies every rule. -/
theorem avito.lotMessages_eq_nil (idx : Nat) (lot : avito.Ad) :
    avito.lotMessages idx lot = [] ↔ avito.adValid lot := by
  have himg := flatMap_enum_eq_nil lot.Images.Image
    (fun p => validation.posFinding p.1 "Images.Image" "URL" p.2.URL)
    (fun image => image.URL ≠ "")
    (fun p => validation.posFinding_eq_nil _ _ _ _)
  simp only [avito.lotMessages, List.append_eq_nil, validation.posFinding_eq_nil,
    validation.idFinding_eq_nil, validation.zeroFinding_eq_nil, ite_singleton_eq_nil, himg]
  unfold avito.adValid
  constructor
  · rintro ⟨⟨⟨⟨⟨⟨⟨⟨⟨⟨⟨⟨⟨⟨⟨⟨⟨⟨⟨h1, h2⟩, h3⟩, h4⟩, h5⟩, h6⟩, h7⟩, h8⟩, h9⟩, h10⟩, h11⟩, h12⟩,
      h13⟩, h14⟩, h15⟩, h16⟩, h17⟩, h18⟩, h19⟩, h20⟩
    refine ⟨⟨h1, h2, h3, h4, h6, h7, h8, h11, h14, h15, h16, h17⟩, ⟨h5, h9, h10, h12⟩, ?_,
      not_lt.1 h18, h19, ?_⟩
    · by_cases hl : lot.LivingSpace = 0
      · exact Or.inr (not_not.1 (fun hr => h13 ⟨hl, hr⟩))
      · exact Or.inl hl
    · omega
  · rintro ⟨⟨h1, h2, h3, h4, h6, h7, h8, h11, h14, h15, h16, h17⟩, ⟨h5, h9, h10, h12⟩, h13,
      h18, h19, h20⟩
    refine ⟨⟨⟨⟨⟨⟨⟨⟨⟨⟨⟨⟨⟨⟨⟨⟨⟨⟨⟨h1, h2⟩, h3⟩, h4⟩, h5⟩, h6⟩, h7⟩, h8⟩, h9⟩, h10⟩, h11⟩, h12⟩,
      ?_⟩, h14⟩, h15⟩, h16⟩, h17⟩, not_lt.2 h18⟩, h19⟩, ?_⟩
    · rintro ⟨hl, hr⟩
      exact h13.elim (fun h => h hl) (fun h => hr h)
    · omega

/-! ### Telling one rule's message from the others -/

theorem avoid_elim (q : String) (l : List String) (C : String → Prop)
    (h : ∀ x ∈ l, ¬ startsWith q x) : ∀ x ∈ l, startsWith q x → C x :=
  fun x hx hs => absurd hs (h x hx)

theorem validation.idFinding_avoids_field (q ID path fieldName value : String)
    (hq : charsMismatch ("field " ++ path ++ "." ++ fieldName).data q.data = true) :
    ∀ m ∈ validation.idFinding ID path fieldName value, ¬ startsWith q m := by
  intro m hm
  rw [validation.mem_idFinding] at hm
  refine not_startsWith_of_startsWith _ q m hq (startsWith_of_eq_append _
    (" is empty. " ++ (if ID = "" then "InternalID not found" else "InternalID: " ++ ID)) _ ?_)
  rw [hm.2]; simp only [String.append_assoc]

theorem validation.zeroFinding_avoids_field {V : Type} [Zero V] [DecidableEq V]
    (q ID path fieldName : String) (value : V)
    (hq : charsMismatch ("field " ++ path ++ "." ++ fieldName).data q.data = true) :
    ∀ m ∈ validation.zeroFinding ID path fieldName value, ¬ startsWith q m := by
  intro m hm
  rw [validation.mem_zeroFinding] at hm
  refine not_startsWith_of_startsWith _ q m hq (startsWith_of_eq_append _
    (" is empty. InternalID: " ++ ID) _ ?_)
  rw [hm.2]; simp only [String.append_assoc]

theorem validation.idFinding_elim (q ID path fieldName value : String) (C : String → Prop)
    (hq : charsMismatch ("field " ++ path ++ "." ++ fieldName).data q.data = true) :
    ∀ x ∈ validation.idFinding ID path fieldName value, startsWith q x → C x :=
  avoid_elim q _ C (validation.idFinding_avoids_field q ID path fieldName value hq)

theorem validation.zeroFinding_elim {V : Type} [Zero V] [DecidableEq V]
    (q ID path fieldName : String) (value : V) (C : String → Prop)
    (hq : charsMismatch ("field " ++ path ++ "." ++ fieldName).data q.data = true) :
    ∀ x ∈ validation.zeroFinding ID path fieldName value, startsWith q x → C x :=
  avoid_elim q _ C (validation.zeroFinding_avoids_field q ID path fieldName value hq)

theorem validation.posFinding_elim (q : String) (idx : Nat) (path fieldName value : String)
    (C : String → Prop)
    (hq : charsMismatch ("field " ++ path ++ "[").data q.data = true) :
    ∀ x ∈ validation.posFinding idx path fieldName value, startsWith q x → C x :=
  avoid_elim q _ C (validation.posFinding_avoids_path q idx path fieldName value hq)

theorem validation.stringFinding_elim (q path fieldName value : String) (C : String → Prop)
    (hq : charsMismatch "fi".data q.data = true) :
    ∀ x ∈ validation.stringFinding path fieldName value, startsWith q x → C x :=
  avoid_elim q _ C (validation.stringFinding_avoids q hq path fieldName value)

theorem ite_singleton_elim (q : String) (c : Prop) [Decidable c] (p x : String)
    (C : String → Prop) (hq : charsMismatch p.data q.data = true) :
    ∀ m ∈ (if c then [p ++ x] else []), startsWith q m → C m :=
  avoid_elim q _ C (ite_singleton_avoids q c p x hq)

theorem ite_singleton_elim3 (q : String) (c : Prop) [Decidable c] (p x y z : String)
    (C : String → Prop) (hq : charsMismatch p.data q.data = true) :
    ∀ m ∈ (if c then [p ++ x ++ y ++ z] else []), startsWith q m → C m :=
  avoid_elim q _ C (ite_singleton_avoids3 q c p x y z hq)

theorem flatMap_elim {α : Type} (q : String) (xs : List α) (g : α → List String)
    (C : String → Prop) (h : ∀ a, ∀ m ∈ g a, startsWith q m → C m) :
    ∀ m ∈ xs.flatMap g, startsWith q m → C m :=
  forall_mem_flatMap xs g (fun m => startsWith q m → C m) h

theorem mem_flatMap_enum_iff {α : Type} (xs : List α) (g : Nat × α → List String)
    (m : String) (P : α → Prop) (h : ∀ p, m ∈ g p ↔ P p.2) :
    m ∈ xs.enum.flatMap g ↔ ∃ x ∈ xs, P x := by
  rw [List.mem_flatMap]
  constructor
  · rintro ⟨p, hp, hm⟩
    exact ⟨p.2, mem_of_mem_enum xs p hp, (h p).1 hm⟩
  · rintro ⟨x, hx, hP⟩
    obtain ⟨i, hi⟩ := mem_enum_of_mem xs x hx
    exact ⟨(i, x), hi, (h (i, x)).2 hP⟩

/-! ### The living-area rule -/

theorem avito.livingMsg_startsWith_ad (id : String) :
    startsWith "field L" (avito.livingMsg id) :=
  startsWith_of_eq_append _ ("ivingSpace is empty. InternalID: " ++ id) _
    (by unfold avito.livingMsg; rw [← String.append_assoc]; rfl)

/-- Among the messages of an ad, those beginning "field L" come from the
living-area rule. -/
theorem avito.living_rule_only_ad (idx : Nat) (lot : avito.Ad) :
    ∀ m ∈ avito.lotMessages idx lot, startsWith "field L" m →
      m ∈ (if lot.LivingSpace = 0 ∧ lot.Rooms ≠ "Студия" then
        ["field LivingSpace is empty. InternalID: " ++ lot.ID] else []) := by
  simp only [avito.lotMessages, List.forall_mem_append]
  repeat' apply And.intro
  all_goals first
    | ((with_reducible refine validation.idFinding_elim _ _ _ _ _ _ ?_); rfl)
    | ((with_reducible refine validation.zeroFinding_elim _ _ _ _ _ _ ?_); rfl)
    | ((with_reducible refine validation.posFinding_elim _ _ _ _ _ _ ?_); rfl)
    | (with_reducible exact fun x hx _ => hx)
    | ((with_reducible refine ite_singleton_elim _ _ _ _ _ ?_); rfl)
    | exact flatMap_elim _ _ _ _ (fun p => validation.posFinding_elim _ _ _ _ _ _ rfl)

theorem avito.livingMsg_mem_ad (id : String) (idx : Nat) (lot : avito.Ad) :
    avito.livingMsg id ∈ avito.lotMessages idx lot
      ↔ lot.ID = id ∧ lot.LivingSpace = 0 ∧ lot.Rooms ≠ "Студия" := by
  constructor
  · intro h
    have h2 := avito.living_rule_only_ad idx lot _ h (avito.livingMsg_startsWith_ad id)
    rw [mem_ite_singleton] at h2
    exact ⟨((string_append_left_cancel _ _ _).1 h2.2).symm, h2.1⟩
  · rintro ⟨rfl, hc⟩
    have h2 : avito.livingMsg lot.ID ∈ (if lot.LivingSpace = 0 ∧ lot.Rooms ≠ "Студия" then
        ["field LivingSpace is empty. InternalID: " ++ lot.ID] else []) :=
      (mem_ite_singleton _ _ _).2 ⟨hc, rfl⟩
    simp only [avito.lotMessages, List.mem_append]
    simp only [h2, true_or, or_true]

theorem realty.livingMsg_startsWith_offer (id : String) :
    startsWith "field L" (realty.livingMsg id) :=
  startsWith_of_eq_append _ ("ivingSpace.Value is empty. InternalID: " ++ id) _
    (by unfold realty.livingMsg; rw [← String.append_assoc]; rfl)

/-- Among the messages of an offer, those beginning "field L" come from the
living-area rule. -/
theorem realty.living_rule_only_offer (year : Int) (idx : Nat) (lot : realty.Offer) :
    ∀ m ∈ realty.lotMessages year idx lot, startsWith "field L" m →
      m ∈ (if lot.LivingSpace.Value = 0 ∧ lot.OpenPlan ≠ "1" then
        ["field LivingSpace.Value is empty. InternalID: " ++ lot.InternalID] else []) := by
  simp only [realty.lotMessages, List.forall_mem_append]
  repeat' apply And.intro
  all_goals first
    | ((with_reducible refine validation.idFinding_elim _ _ _ _ _ _ ?_); rfl)
    | ((with_reducible refine validation.zeroFinding_elim _ _ _ _ _ _ ?_); rfl)
    | (with_reducible exact fun x hx _ => hx)
    | ((with_reducible refine ite_singleton_elim _ _ _ _ _ ?_); rfl)

theorem realty.livingMsg_mem_offer (id : String) (year : Int) (idx : Nat)
    (lot : realty.Offer) :
    realty.livingMsg id ∈ realty.lotMessages year idx lot
      ↔ lot.InternalID = id ∧ lot.LivingSpace.Value = 0 ∧ lot.OpenPlan ≠ "1" := by
  constructor
  · intro h
    have h2 := realty.living_rule_only_offer year idx lot _ h (realty.livingMsg_startsWith_offer id)
    rw [mem_ite_singleton] at h2
    exact ⟨((string_append_left_cancel _ _ _).1 h2.2).symm, h2.1⟩
  · rintro ⟨rfl, hc⟩
    have h2 : realty.livingMsg lot.InternalID ∈
        (if lot.LivingSpace.Value = 0 ∧ lot.OpenPlan ≠ "1" then
          ["field LivingSpace.Value is empty. InternalID: " ++ lot.InternalID] else []) :=
      (mem_ite_singleton _ _ _).2 ⟨hc, rfl⟩
    simp only [realty.lotMessages, List.mem_append]
    simp only [h2, true_or, or_true]

/-! ### The image tags of a Realty offer -/

theorem lookup_filter_ne (m : StringBoolMap) (k t : String) (h : t ≠ k) :
    (m.filter (fun e => e.1 ≠ k)).lookup t = m.lookup t := by
  induction m with
  | nil => rfl
  | cons e m ih =>
    obtain ⟨a, b⟩ := e
    by_cases he : a = k
    · have h2 : (t == a) = false := by rw [he]; simpa using h
      have hf : List.filter (fun e : String × Bool => decide (e.1 ≠ k)) ((a, b) :: m)
          = List.filter (fun e : String × Bool => decide (e.1 ≠ k)) m := by
        simp [List.filter, he]
      rw [hf, ih, List.lookup_cons, h2]
    · have hf : List.filter (fun e : String × Bool => decide (e.1 ≠ k)) ((a, b) :: m)
          = (a, b) :: List.filter (fun e : String × Bool => decide (e.1 ≠ k)) m := by
        simp [List.filter, he]
      rw [hf, List.lookup_cons, List.lookup_cons, ih]

theorem StringBoolMap.has_store (m : StringBoolMap) (k t : String) (v : Bool) :
    (m.store k v).has t = true ↔ t = k ∨ m.has t = true := by
  unfold StringBoolMap.store StringBoolMap.has
  by_cases h : t = k
  · subst h
    simp [List.lookup_cons]
  · have hne : (t == k) = false := by simpa using h
    rw [List.lookup_cons, hne, lookup_filter_ne m k t h]
    simp only [h, false_or]

theorem StringBoolMap.has_of_index (m : StringBoolMap) (t : String)
    (h : m.index t = true) : m.has t = true := by
  unfold StringBoolMap.index at h
  unfold StringBoolMap.has
  cases hl : m.lookup t with
  | none => rw [hl] at h; exact absurd h (by decide)
  | some v => rfl

theorem realty.collectTags_fold (images : List realty.Image) (t : String) :
    ∀ tags : StringBoolMap,
      (images.foldl (fun tags image =>
          if tags.index image.Tag then tags else tags.store image.Tag true) tags).has t = true
        ↔ tags.has t = true ∨ realty.hasTag images t := by
  unfold realty.hasTag
  induction images with
  | nil => intro tags; simp
  | cons image images ih =>
    intro tags
    rw [List.foldl_cons, ih]
    by_cases hidx : tags.index image.Tag = true
    · simp only [hidx, if_true, List.mem_cons, exists_eq_or_imp]
      constructor
      · rintro (h | h)
        · exact Or.inl h
        · exact Or.inr (Or.inr h)
      · rintro (h | h | h)
        · exact Or.inl h
        · exact Or.inl (h ▸ StringBoolMap.has_of_index tags image.Tag hidx)
        · exact Or.inr h
    · simp only [hidx, Bool.false_eq_true, if_false, List.mem_cons, exists_eq_or_imp,
        StringBoolMap.has_store]
      constructor
      · rintro ((h | h) | h)
        · exact Or.inr (Or.inl h.symm)
        · exact Or.inl h
        · exact Or.inr (Or.inr h)
      · rintro (h | h | h)
        · exact Or.inl (Or.inr h)
        · exact Or.inl (Or.inl h.symm)
        · exact Or.inr h

/-- The tag set built by the pass holds a tag exactly when an image carries it. -/
theorem realty.collectTags_has (images : List realty.Image) (t : String) :
    (realty.collectTags images).has t = true ↔ realty.hasTag images t := by
  unfold realty.collectTags
  rw [realty.collectTags_fold images t []]
  simp [StringBoolMap.has]

theorem realty.planMsg_startsWith (id : String) : startsWith "tag 'p" (realty.planMsg id) :=
  startsWith_of_eq_append _ ("lan' for image is not found. InternalID: " ++ id) _
    (by unfold realty.planMsg; rw [← String.append_assoc]; rfl)

theorem realty.floorPlanMsg_startsWith (id : String) :
    startsWith "tag 'f" (realty.floorPlanMsg id) :=
  startsWith_of_eq_append _ ("loor-plan' for image is not found. InternalID: " ++ id) _
    (by unfold realty.floorPlanMsg; rw [← String.append_assoc]; rfl)

theorem realty.plan_rule_only (year : Int) (idx : Nat) (lot : realty.Offer) :
    ∀ m ∈ realty.lotMessages year idx lot, startsWith "tag 'p" m →
      m ∈ (if !(realty.collectTags lot.Image).has "plan" then
        ["tag 'plan' for image is not found. InternalID: " ++ lot.InternalID] else []) := by
  simp only [realty.lotMessages, List.forall_mem_append]
  repeat' apply And.intro
  all_goals first
    | ((with_reducible refine validation.idFinding_elim _ _ _ _ _ _ ?_); rfl)
    | ((with_reducible refine validation.zeroFinding_elim _ _ _ _ _ _ ?_); rfl)
    | (with_reducible exact fun x hx _ => hx)
    | ((with_reducible refine ite_singleton_elim _ _ _ _ _ ?_); rfl)

theorem realty.floor_plan_rule_only (year : Int) (idx : Nat) (lot : realty.Offer) :
    ∀ m ∈ realty.lotMessages year idx lot, startsWith "tag 'f" m →
      m ∈ (if !(realty.collectTags lot.Image).has "floor-plan" then
        ["tag 'floor-plan' for image is not found. InternalID: " ++ lot.InternalID]
        else []) := by
  simp only [realty.lotMessages, List.forall_mem_append]
  repeat' apply And.intro
  all_goals first
    | ((with_reducible refine validation.idFinding_elim _ _ _ _ _ _ ?_); rfl)
    | ((with_reducible refine validation.zeroFinding_elim _ _ _ _ _ _ ?_); rfl)
    | (with_reducible exact fun x hx _ => hx)
    | ((with_reducible refine ite_singleton_elim _ _ _ _ _ ?_); rfl)

theorem not_has_iff (tags : StringBoolMap) (t : String) (images : List realty.Image)
    (h : tags.has t = true ↔ realty.hasTag images t) :
    (!tags.has t) = true ↔ ¬ realty.hasTag images t := by
  rw [← h]
  cases tags.has t <;> simp

theorem realty.planMsg_mem_lotMessages (id : String) (year : Int) (idx : Nat)
    (lot : realty.Offer) :
    realty.planMsg id ∈ realty.lotMessages year idx lot
      ↔ lot.InternalID = id ∧ ¬ realty.hasTag lot.Image "plan" := by
  have hc := not_has_iff _ "plan" lot.Image (realty.collectTags_has lot.Image "plan")
  constructor
  · intro h
    have h2 := realty.plan_rule_only year idx lot _ h (realty.planMsg_startsWith id)
    rw [mem_ite_singleton] at h2
    exact ⟨((string_append_left_cancel _ _ _).1 h2.2).symm, hc.1 h2.1⟩
  · rintro ⟨rfl, hn⟩
    have h2 : realty.planMsg lot.InternalID ∈
        (if !(realty.collectTags lot.Image).has "plan" then
          ["tag 'plan' for image is not found. InternalID: " ++ lot.InternalID] else []) :=
      (mem_ite_singleton _ _ _).2 ⟨hc.2 hn, rfl⟩
    simp only [realty.lotMessages, List.mem_append]
    simp only [h2, true_or, or_true]

theorem realty.floorPlanMsg_mem_lotMessages (id : String) (year : Int) (idx : Nat)
    (lot : realty.Offer) :
    realty.floorPlanMsg id ∈ realty.lotMessages year idx lot
      ↔ lot.InternalID = id ∧ ¬ realty.hasTag lot.Image "floor-plan" := by
  have hc := not_has_iff _ "floor-plan" lot.Image
    (realty.collectTags_has lot.Image "floor-plan")
  constructor
  · intro h
    have h2 := realty.floor_plan_rule_only year idx lot _ h (realty.floorPlanMsg_startsWith id)
    rw [mem_ite_singleton] at h2
    exact ⟨((string_append_left_cancel _ _ _).1 h2.2).symm, hc.1 h2.1⟩
  · rintro ⟨rfl, hn⟩
    have h2 : realty.floorPlanMsg lot.InternalID ∈
        (if !(realty.collectTags lot.Image).has "floor-plan" then
          ["tag 'floor-plan' for image is not found. InternalID: " ++ lot.InternalID]
          else []) :=
      (mem_ite_singleton _ _ _).2 ⟨hc.2 hn, rfl⟩
    simp only [realty.lotMessages, List.mem_append]
    simp only [h2, true_or, or_true]

/-! ### The unfinished-building rule -/

theorem unfinishedMsg_startsWith (builtYear : Int) (id : String) :
    startsWith "Bu" (unfinishedMsg builtYear id) :=
  startsWith_of_eq_append _
    ("ildingState == unfinished for " ++ (toString builtYear ++ (". InternalID: " ++ id))) _
    (by unfold unfinishedMsg; simp only [← String.append_assoc]; rfl)

/-- Among the messages of an offer, those beginning "Bu" come from the
unfinished-building rule. -/
theorem realty.unfinished_rule_only_offer (year : Int) (idx : Nat) (lot : realty.Offer) :
    ∀ m ∈ realty.lotMessages year idx lot, startsWith "Bu" m →
      m ∈ (if lot.BuiltYear < year ∧ lot.BuildingState = "unfinished" then
        ["BuildingState == unfinished for " ++ toString lot.BuiltYear
          ++ ". InternalID: " ++ lot.InternalID] else []) := by
  simp only [realty.lotMessages, List.forall_mem_append]
  repeat' apply And.intro
  all_goals first
    | ((with_reducible refine validation.idFinding_elim _ _ _ _ _ _ ?_); rfl)
    | ((with_reducible refine validation.zeroFinding_elim _ _ _ _ _ _ ?_); rfl)
    | (with_reducible exact fun x hx _ => hx)
    | ((with_reducible refine ite_singleton_elim _ _ _ _ _ ?_); rfl)

theorem realty.unfinished_mem_lotMessages (m : String) (hm : startsWith "Bu" m) (year : Int)
    (idx : Nat) (lot : realty.Offer) :
    m ∈ realty.lotMessages year idx lot
      ↔ unfinishedRule year lot.BuiltYear lot.BuildingState
          ∧ m = unfinishedMsg lot.BuiltYear lot.InternalID := by
  constructor
  · intro h
    have h2 := realty.unfinished_rule_only_offer year idx lot _ h hm
    rw [mem_ite_singleton] at h2
    exact h2
  · rintro ⟨hc, rfl⟩
    have h2 : unfinishedMsg lot.BuiltYear lot.InternalID ∈
        (if lot.BuiltYear < year ∧ lot.BuildingState = "unfinished" then
          ["BuildingState == unfinished for " ++ toString lot.BuiltYear
            ++ ". InternalID: " ++ lot.InternalID] else []) :=
      (mem_ite_singleton _ _ _).2 ⟨hc, rfl⟩
    simp only [realty.lotMessages, List.mem_append]
    simp only [h2, true_or, or_true]

theorem realty.builtYear_zero_mem_lotMessages (year : Int) (idx : Nat) (lot : realty.Offer)
    (h : lot.BuiltYear = 0) :
    ("field offer.BuiltYear is empty. InternalID: " ++ lot.InternalID)
      ∈ realty.lotMessages year idx lot := by
  have h2 : ("field offer.BuiltYear is empty. InternalID: " ++ lot.InternalID)
      ∈ validation.zeroFinding lot.InternalID "offer" "BuiltYear" lot.BuiltYear :=
    (validation.mem_zeroFinding _ _ _ _ _).2 ⟨h, rfl⟩
  simp only [realty.lotMessages, List.mem_append]
  simp only [h2, true_or, or_true]

/-- No message of a DomClick flat begins "Bu". -/
theorem domclick.flat_avoids_Bu (floors : Int) (idx : Nat) (lot : domclick.Flat) :
    ∀ m ∈ domclick.lotMessages floors idx lot, ¬ startsWith "Bu" m := by
  have hq : charsMismatch "fi".data "Bu".data = true := rfl
  simp only [domclick.lotMessages, List.forall_mem_append]
  repeat' apply And.intro
  all_goals first
    | with_reducible exact validation.idFinding_avoids _ hq _ _ _ _
    | with_reducible exact validation.zeroFinding_avoids _ hq _ _ _ _
    | with_reducible exact validation.posFinding_avoids _ hq _ _ _ _
    | ((with_reducible refine ite_singleton_avoids _ _ _ _ ?_); rfl)
    | exact ite_list_avoids _ _ _ (forall_mem_flatMap _ _ _
        (fun p => ite_singleton_avoids3 _ _ _ _ _ _ (by rfl)))

/-- Among the messages of a building, those beginning "Bu" come from the
unfinished-building rule. -/
theorem domclick.unfinished_rule_only_building (year : Int) (pos : Nat) (building : domclick.Building) :
    ∀ m ∈ domclick.buildingMessages year pos building, startsWith "Bu" m →
      m ∈ (if building.BuiltYear < year ∧ building.BuildingState = "unfinished" then
        ["BuildingState == unfinished for " ++ toString building.BuiltYear
          ++ ". InternalID: " ++ building.ID] else []) := by
  simp only [domclick.buildingMessages, List.forall_mem_append]
  repeat' apply And.intro
  all_goals first
    | ((with_reducible refine validation.idFinding_elim _ _ _ _ _ _ ?_); rfl)
    | ((with_reducible refine validation.zeroFinding_elim _ _ _ _ _ _ ?_); rfl)
    | ((with_reducible refine validation.posFinding_elim _ _ _ _ _ _ ?_); rfl)
    | (with_reducible exact fun x hx _ => hx)
    | exact flatMap_elim _ _ _ _ (fun p => avoid_elim _ _ _ (domclick.flat_avoids_Bu _ _ _))

theorem domclick.unfinished_mem_buildingMessages (m : String) (hm : startsWith "Bu" m)
    (year : Int) (pos : Nat) (building : domclick.Building) :
    m ∈ domclick.buildingMessages year pos building
      ↔ unfinishedRule year building.BuiltYear building.BuildingState
          ∧ m = unfinishedMsg building.BuiltYear building.ID := by
  constructor
  · intro h
    have h2 := domclick.unfinished_rule_only_building year pos building _ h hm
    rw [mem_ite_singleton] at h2
    exact h2
  · rintro ⟨hc, rfl⟩
    have h2 : unfinishedMsg building.BuiltYear building.ID ∈
        (if building.BuiltYear < year ∧ building.BuildingState = "unfinished" then
          ["BuildingState == unfinished for " ++ toString building.BuiltYear
            ++ ". InternalID: " ++ building.ID] else []) :=
      (mem_ite_singleton _ _ _).2 ⟨hc, rfl⟩
    simp only [domclick.buildingMessages, List.mem_append]
    simp only [h2, true_or, or_true]

theorem domclick.builtYear_zero_mem_buildingMessages (year : Int) (pos : Nat)
    (building : domclick.Building) (h : building.BuiltYear = 0) :
    ("field Complex.Buildings.Building.BuiltYear is empty. InternalID: " ++ building.ID)
      ∈ domclick.buildingMessages year pos building := by
  have h2 : ("field Complex.Buildings.Building.BuiltYear is empty. InternalID: "
        ++ building.ID)
      ∈ validation.zeroFinding building.ID "Complex.Buildings.Building" "BuiltYear"
          building.BuiltYear :=
    (validation.mem_zeroFinding _ _ _ _ _).2 ⟨h, rfl⟩
  simp only [domclick.buildingMessages, List.mem_append]
  simp only [h2, true_or, or_true]

/-- Among the messages of a complex, those beginning "Bu" are messages of its
buildings. -/
theorem domclick.unfinished_mem_complexMessages (m : String) (hm : startsWith "Bu" m)
    (year : Int) (residence : domclick.Complex) :
    m ∈ domclick.complexMessages year residence
      ↔ ∃ building ∈ residence.Buildings.Building,
          unfinishedRule year building.BuiltYear building.BuildingState
            ∧ m = unfinishedMsg building.BuiltYear building.ID := by
  have hq : charsMismatch "fi".data "Bu".data = true := rfl
  have key : ∀ x ∈ domclick.complexMessages year residence, startsWith "Bu" x →
      x ∈ residence.Buildings.Building.enum.flatMap
        (fun p => domclick.buildingMessages year p.1 p.2) := by
    simp only [domclick.complexMessages, List.forall_mem_append]
    repeat' apply And.intro
    all_goals first
      | with_reducible exact validation.stringFinding_elim _ _ _ _ _ hq
      | (with_reducible exact fun x hx _ => hx)
      | exact flatMap_elim _ _ _ _ (fun p => validation.posFinding_elim _ _ _ _ _ _ rfl)
      | (refine flatMap_elim _ _ _ _ (fun p => ?_)
         simp only [List.forall_mem_append]
         exact ⟨⟨validation.posFinding_elim _ _ _ _ _ _ rfl,
           validation.posFinding_elim _ _ _ _ _ _ rfl⟩,
           validation.posFinding_elim _ _ _ _ _ _ rfl⟩)
  have hb := mem_flatMap_enum_iff residence.Buildings.Building
    (fun p => domclick.buildingMessages year p.1 p.2) m
    (fun building => unfinishedRule year building.BuiltYear building.BuildingState
      ∧ m = unfinishedMsg building.BuiltYear building.ID)
    (fun p => domclick.unfinished_mem_buildingMessages m hm year p.1 p.2)
  constructor
  · intro h
    exact hb.1 (key m h hm)
  · intro h
    have h2 := hb.2 h
    simp only [domclick.complexMessages, List.mem_append]
    simp only [h2, true_or, or_true]

/-! ### DomClick: the room areas of a flat -/

theorem flatMap_ite_eq_map_filter {α : Type} (xs : List α) (c : α → Prop) [DecidablePred c]
    (g : α → String) :
    xs.flatMap (fun p => if c p then [g p] else []) = (xs.filter (fun p => decide (c p))).map g := by
  induction xs with
  | nil => rfl
  | cons x xs ih =>
    rw [List.flatMap_cons, ih]
    by_cases h : c x
    · simp [List.filter, h]
    · simp [List.filter, h]

theorem domclick.roomMessages_eq (lot : domclick.Flat) :
    lot.RoomsArea.Area.enum.flatMap (fun p =>
        if p.2 = "" then
          ["Field Flats.Flat.RoomsArea.Area[" ++ toString p.1
            ++ "] is empty. InternalID: " ++ lot.FlatID]
        else [])
      = domclick.roomMessages lot :=
  flatMap_ite_eq_map_filter lot.RoomsArea.Area.enum (fun p => p.2 = "")
    (fun p => domclick.roomMsg p.1 lot.FlatID)

/-- The checks of a flat before the living area yield no room-area message. -/
theorem domclick.before_living_avoids (idx : Nat) (lot : domclick.Flat) :
    ∀ m ∈ validation.posFinding idx "Flats.Flat" "FlatID" lot.FlatID
        ++ validation.zeroFinding lot.FlatID "Flats.Flat" "Floor" lot.Floor
        ++ (if lot.Room = none then
            ["Field Flats.Room is empty. InternalID: " ++ lot.FlatID] else [])
        ++ validation.idFinding lot.FlatID "Flats.Flat" "Plan" lot.Plan
        ++ validation.idFinding lot.FlatID "Flats.Flat" "Balcony" lot.Balcony
        ++ validation.zeroFinding lot.FlatID "Flats.Flat" "Price" lot.Price
        ++ validation.zeroFinding lot.FlatID "Flats.Flat" "Area" lot.Area,
      ¬ startsWith "Field Flats.Flat.R" m := by
  have hq : charsMismatch "fi".data "Field Flats.Flat.R".data = true := rfl
  simp only [List.forall_mem_append]
  repeat' apply And.intro
  all_goals first
    | with_reducible exact validation.idFinding_avoids _ hq _ _ _ _
    | with_reducible exact validation.zeroFinding_avoids _ hq _ _ _ _
    | with_reducible exact validation.posFinding_avoids _ hq _ _ _ _
    | ((with_reducible refine ite_singleton_avoids _ _ _ _ ?_); rfl)

/-- The checks of a flat after the room areas yield no room-area message. -/
theorem domclick.after_rooms_avoids (floors : Int) (lot : domclick.Flat) :
    ∀ m ∈ validation.zeroFinding lot.FlatID "Flats.Flat" "KitchenArea" lot.KitchenArea
        ++ validation.idFinding lot.FlatID "Flats.Flat" "Bathroom" lot.Bathroom
        ++ (if lot.Floor > floors then
            ["Field Flats.Flat.Floor is bigger than building.Floors. InternalID: " ++ lot.FlatID]
            else []),
      ¬ startsWith "Field Flats.Flat.R" m := by
  have hq : charsMismatch "fi".data "Field Flats.Flat.R".data = true := rfl
  simp only [List.forall_mem_append]
  repeat' apply And.intro
  all_goals first
    | with_reducible exact validation.idFinding_avoids _ hq _ _ _ _
    | with_reducible exact validation.zeroFinding_avoids _ hq _ _ _ _
    | ((with_reducible refine ite_singleton_avoids _ _ _ _ ?_); rfl)

theorem domclick.lotMessages_living_zero (floors : Int) (idx : Nat) (lot : domclick.Flat)
    (h : lot.LivingArea = 0) :
    domclick.lotMessages floors idx lot
      = (validation.posFinding idx "Flats.Flat" "FlatID" lot.FlatID
        ++ validation.zeroFinding lot.FlatID "Flats.Flat" "Floor" lot.Floor
        ++ (if lot.Room = none then
            ["Field Flats.Room is empty. InternalID: " ++ lot.FlatID] else [])
        ++ validation.idFinding lot.FlatID "Flats.Flat" "Plan" lot.Plan
        ++ validation.idFinding lot.FlatID "Flats.Flat" "Balcony" lot.Balcony
        ++ validation.zeroFinding lot.FlatID "Flats.Flat" "Price" lot.Price
        ++ validation.zeroFinding lot.FlatID "Flats.Flat" "Area" lot.Area)
        ++ [domclick.livingAreaMsg lot.FlatID] ++ domclick.roomMessages lot
        ++ (validation.zeroFinding lot.FlatID "Flats.Flat" "KitchenArea" lot.KitchenArea
          ++ validation.idFinding lot.FlatID "Flats.Flat" "Bathroom" lot.Bathroom
          ++ (if lot.Floor > floors then
              ["Field Flats.Flat.Floor is bigger than building.Floors. InternalID: "
                ++ lot.FlatID]
              else [])) := by
  have hz : validation.zeroFinding lot.FlatID "Flats.Flat" "LivingArea" lot.LivingArea
      = [domclick.livingAreaMsg lot.FlatID] := by
    unfold validation.zeroFinding domclick.livingAreaMsg
    rw [if_pos h]
    rfl
  unfold domclick.lotMessages
  rw [hz, if_pos h, domclick.roomMessages_eq]
  simp only [List.append_assoc]

theorem domclick.lotMessages_living_nonzero (floors : Int) (idx : Nat) (lot : domclick.Flat)
    (h : lot.LivingArea ≠ 0) :
    ∀ m ∈ domclick.lotMessages floors idx lot, ¬ startsWith "Field Flats.Flat.R" m := by
  have hq : charsMismatch "fi".data "Field Flats.Flat.R".data = true := rfl
  unfold domclick.lotMessages
  rw [if_neg h]
  simp only [List.forall_mem_append]
  repeat' apply And.intro
  all_goals first
    | with_reducible exact validation.idFinding_avoids _ hq _ _ _ _
    | with_reducible exact validation.zeroFinding_avoids _ hq _ _ _ _
    | with_reducible exact validation.posFinding_avoids _ hq _ _ _ _
    | ((with_reducible refine ite_singleton_avoids _ _ _ _ ?_); rfl)
    | exact fun m hm => absurd hm (List.not_mem_nil m)

/-! ### CIAN -/

/-- The body of the CIAN loop appends the message list of the object. -/
theorem cian.checkLot_eq_object (year : Int) (idx : Nat) (lot : cian.Object)
    (rs : List String) :
    cian.checkLot year idx lot rs = rs ++ cian.lotMessages year idx lot := by
  have himg := forRange_eq_append
    (fun idx (photoSchema : cian.PhotoSchema) results =>
      results ++ validation.posFinding idx "object.Photos.PhotoSchema" "FullUrl"
        photoSchema.FullUrl)
    (fun idx photoSchema => validation.posFinding idx "object.Photos.PhotoSchema" "FullUrl"
      photoSchema.FullUrl)
    (fun i x rs => rfl)
  simp only [cian.checkLot, validation.CheckStringWithPos_eq,
    validation.CheckStringWithID_eq, validation.CheckZeroWithID_eq, ite_append_right]
  simp only [cian.lotMessages, himg, List.append_assoc]

/-- The result list of the CIAN pass over more than ten objects. -/
theorem cian.Check_large_feed (year : Int) (f : cian.Feed) (hget : f.isGet = true)
    (hlen : 10 < f.Data.Object.length) :
    cian.Check year f
      = (some (f.Data.Object.enum.flatMap (fun p => cian.lotMessages year p.1 p.2)), none) := by
  have h1 : ¬ f.Data.Object.length < 2 := by omega
  have h2 : ¬ f.Data.Object.length ≤ 10 := by omega
  simp only [cian.Check, hget, h1, h2, Bool.not_true, Bool.false_eq_true, if_false]
  rw [forRange_eq_append (cian.checkLot year) (cian.lotMessages year)
    (cian.checkLot_eq_object year)]
  simp

theorem cian.areaMsg_startsWith (id : String) : startsWith "field object.T" (cian.areaMsg id) :=
  startsWith_of_eq_append _ ("otalArea is empty. InternalID: " ++ id) _
    (by unfold cian.areaMsg; rw [← String.append_assoc]; rfl)

theorem cian.priceMsg_startsWith (id : String) :
    startsWith "field object.Ba" (cian.priceMsg id) :=
  startsWith_of_eq_append _ ("rgainTerms.Price.Price is empty. InternalID: " ++ id) _
    (by unfold cian.priceMsg; rw [← String.append_assoc]; rfl)

/-- Among the messages of an object, those beginning "field object.T" come from
the zero check of the total area. -/
theorem cian.area_rule_only (year : Int) (idx : Nat) (lot : cian.Object) :
    ∀ m ∈ cian.lotMessages year idx lot, startsWith "field object.T" m →
      m ∈ validation.zeroFinding lot.ExternalId "object" "TotalArea"
        (intOfFloat lot.TotalArea) := by
  simp only [cian.lotMessages, List.forall_mem_append]
  repeat' apply And.intro
  all_goals first
    | ((with_reducible refine validation.idFinding_elim _ _ _ _ _ _ ?_); rfl)
    | ((with_reducible refine validation.zeroFinding_elim _ _ _ _ _ _ ?_); rfl)
    | (with_reducible exact fun x hx _ => hx)
    | ((with_reducible refine ite_singleton_elim _ _ _ _ _ ?_); rfl)
    | exact flatMap_elim _ _ _ _ (fun p => validation.posFinding_elim _ _ _ _ _ _ rfl)

/-- Among the messages of an object, those beginning "field object.Ba" come
from the zero check of the price. -/
theorem cian.price_rule_only (year : Int) (idx : Nat) (lot : cian.Object) :
    ∀ m ∈ cian.lotMessages year idx lot, startsWith "field object.Ba" m →
      m ∈ validation.zeroFinding lot.ExternalId "object.BargainTerms.Price" "Price"
        (intOfFloat lot.BargainTerms.Price.Float64) := by
  simp only [cian.lotMessages, List.forall_mem_append]
  repeat' apply And.intro
  all_goals first
    | ((with_reducible refine validation.idFinding_elim _ _ _ _ _ _ ?_); rfl)
    | ((with_reducible refine validation.zeroFinding_elim _ _ _ _ _ _ ?_); rfl)
    | (with_reducible exact fun x hx _ => hx)
    | ((with_reducible refine ite_singleton_elim _ _ _ _ _ ?_); rfl)
    | exact flatMap_elim _ _ _ _ (fun p => validation.posFinding_elim _ _ _ _ _ _ rfl)

theorem cian.areaMsg_mem_lotMessages (id : String) (year : Int) (idx : Nat)
    (lot : cian.Object) :
    cian.areaMsg id ∈ cian.lotMessages year idx lot
      ↔ lot.ExternalId = id ∧ intOfFloat lot.TotalArea = 0 := by
  constructor
  · intro h
    have h2 := cian.area_rule_only year idx lot _ h (cian.areaMsg_startsWith id)
    rw [validation.mem_zeroFinding] at h2
    refine ⟨((string_append_left_cancel
      "field object.TotalArea is empty. InternalID: " _ _).1 ?_).symm, h2.1⟩
    exact h2.2.trans (by simp only [String.append_assoc]; rfl)
  · rintro ⟨rfl, hc⟩
    have h2 : cian.areaMsg lot.ExternalId ∈
        validation.zeroFinding lot.ExternalId "object" "TotalArea"
          (intOfFloat lot.TotalArea) :=
      (validation.mem_zeroFinding _ _ _ _ _).2
        ⟨hc, by unfold cian.areaMsg; simp only [String.append_assoc]; rfl⟩
    simp only [cian.lotMessages, List.mem_append]
    simp only [h2, true_or, or_true]

theorem cian.priceMsg_mem_lotMessages (id : String) (year : Int) (idx : Nat)
    (lot : cian.Object) :
    cian.priceMsg id ∈ cian.lotMessages year idx lot
      ↔ lot.ExternalId = id ∧ intOfFloat lot.BargainTerms.Price.Float64 = 0 := by
  constructor
  · intro h
    have h2 := cian.price_rule_only year idx lot _ h (cian.priceMsg_startsWith id)
    rw [validation.mem_zeroFinding] at h2
    refine ⟨((string_append_left_cancel
      "field object.BargainTerms.Price.Price is empty. InternalID: " _ _).1 ?_).symm, h2.1⟩
    exact h2.2.trans (by simp only [String.append_assoc]; rfl)
  · rintro ⟨rfl, hc⟩
    have h2 : cian.priceMsg lot.ExternalId ∈
        validation.zeroFinding lot.ExternalId "object.BargainTerms.Price" "Price"
          (intOfFloat lot.BargainTerms.Price.Float64) :=
      (validation.mem_zeroFinding _ _ _ _ _).2
        ⟨hc, by unfold cian.priceMsg; simp only [String.append_assoc]; rfl⟩
    simp only [cian.lotMessages, List.mem_append]
    simp only [h2, true_or, or_true]

/-- The conversion `int(x)` gives 0 exactly for the values strictly between -1
and 1. -/
theorem intOfFloat_eq_zero (x : ℚ) : intOfFloat x = 0 ↔ -1 < x ∧ x < 1 := by
  unfold intOfFloat
  have hden : (0 : Int) < x.den := by exact_mod_cast x.den_pos
  have h1 : x < 1 ↔ x.num < x.den := Rat.lt_one_iff_num_lt_denom
  have h2 : -1 < x ↔ -(x.den : Int) < x.num := by
    have h3 : (-x) < 1 ↔ (-x).num < (-x).den := Rat.lt_one_iff_num_lt_denom
    rw [Rat.neg_num, Rat.neg_den] at h3
    constructor
    · intro h
      have := h3.1 (by linarith)
      omega
    · intro h
      have := h3.2 (by omega)
      linarith
  rw [h1, h2]
  constructor
  · intro h
    by_cases hn : 0 ≤ x.num
    · have hmul := Int.tdiv_add_tmod x.num x.den
      rw [h, mul_zero, zero_add] at hmul
      have hlt := Int.tmod_lt_of_pos x.num hden
      omega
    · have hneg : Int.tdiv (-x.num) x.den = 0 := by rw [Int.neg_tdiv, h, neg_zero]
      have hmul := Int.tdiv_add_tmod (-x.num) x.den
      rw [hneg, mul_zero, zero_add] at hmul
      have hlt := Int.tmod_lt_of_pos (-x.num) hden
      omega
  · rintro ⟨hlo, hhi⟩
    by_cases hn : 0 ≤ x.num
    · exact Int.tdiv_eq_zero_of_lt hn hhi
    · have hneg : Int.tdiv (-x.num) x.den = 0 := Int.tdiv_eq_zero_of_lt (by omega) (by omega)
      rw [Int.neg_tdiv] at hneg
      omega

/-! ### Realty: the freshness fallback -/

/-- The course of the Realty `Get` when the probe and the body fetch succeed. -/
theorem realty_Get_fetched (env : Env) (parse : String → Except String realty.Document)
    (f : realty.Feed) (c : Nat) (head get : Response) (hc : f.client = some c)
    (hf : env.fetches c f.url head get) :
    realty.Get env parse f =
      if head.Header.Get "Last-Modified" ≠ "" then
        match env.ParseRFC1123 (head.Header.Get "Last-Modified") with
        | .error e => .ok ⟨some ("can't get feed info. Error:" ++ e), f, [("HEAD", f.url)]⟩
        | .ok t =>
          .ok (realty.Get.finish env parse get { f with LastModified := t }
            [("HEAD", f.url), ("GET", f.url)])
      else
        .ok (realty.Get.finish env parse get f [("HEAD", f.url), ("GET", f.url)]) := by
  obtain ⟨h1, h2, h3, h4, h5, h6⟩ := hf
  by_cases hattr : head.Header.Get "Last-Modified" = ""
  · simp [realty.Get, realty.GetInfo, transport.GetOnlyHeader, transport.GetResponse,
      transport.HeaderLastModified, hc, h1, h2, h3, h4, h5, h6, hattr]
  · cases hp : env.ParseRFC1123 (head.Header.Get "Last-Modified") with
    | error e =>
      simp [realty.Get, realty.GetInfo, transport.GetOnlyHeader,
        transport.HeaderLastModified, hc, h1, h2, h3, hattr, hp]
    | ok t =>
      simp [realty.Get, realty.GetInfo, transport.GetOnlyHeader, transport.GetResponse,
        transport.HeaderLastModified, hc, h1, h2, h3, h4, h5, h6, hattr, hp]

/-- The statements after the body fetch when the body decodes: the fallback
runs exactly when `LastModified` is the zero time. -/
theorem realty_finish_decoded (env : Env) (parse : String → Except String realty.Document)
    (get : Response) (f : realty.Feed) (sent : List Request) (body : String)
    (doc : realty.Document) (hb : get.Body = .ok body) (hp : parse body = .ok doc)
    (hd : doc.err = none) :
    (f.LastModified ≠ 0 →
      realty.Get.finish env parse get f sent
        = ⟨none, { f with Data := (realty.Unmarshal doc f.Data).1, isGet := true }, sent⟩) ∧
    (f.LastModified = 0 →
      (∀ t, env.ParseRFC3339Nano (realty.Unmarshal doc f.Data).1.GenerationDate = .ok t →
        realty.Get.finish env parse get f sent
          = ⟨none, { f with Data := (realty.Unmarshal doc f.Data).1, LastModified := t,
                            isGet := true }, sent⟩) ∧
      (∀ e, env.ParseRFC3339Nano (realty.Unmarshal doc f.Data).1.GenerationDate = .error e →
        realty.Get.finish env parse get f sent
          = ⟨some e, { f with Data := (realty.Unmarshal doc f.Data).1, LastModified := 0 },
              sent⟩)) := by
  have hu : (realty.Unmarshal doc f.Data).2 = none := hd
  refine ⟨?_, ?_⟩
  · intro hz
    have hz2 : Time.IsZero f.LastModified = false := by
      unfold Time.IsZero; simpa using hz
    simp [realty.Get.finish, hb, hp, hu, hz2]
  · intro hz
    have hz2 : Time.IsZero f.LastModified = true := by
      unfold Time.IsZero; simpa using hz
    refine ⟨?_, ?_⟩
    · intro t ht
      simp [realty.Get.finish, hb, hp, hu, hz2, ht]
    · intro e he
      simp [realty.Get.finish, hb, hp, hu, hz2, he]

/-! ### CIAN: what `Get` decodes -/

/-- Decoding into the `Feed` skips the `feed_version` and `object` elements. -/
theorem cian_listing_children_skipped (children : List cian.FeedChild) (f : cian.Feed)
    (h : ∀ ch ∈ children, ch.isListing = true) :
    children.foldl cian.Feed.decodeChild f = f := by
  induction children generalizing f with
  | nil => rfl
  | cons x xs ih =>
    have hx := h x (List.mem_cons_self x xs)
    have hxs : ∀ ch ∈ xs, ch.isListing = true :=
      fun ch hch => h ch (List.mem_cons_of_mem x hch)
    rw [List.foldl_cons]
    cases x with
    | LastModified t => exact absurd hx Bool.false_ne_true
    | Data children => exact absurd hx Bool.false_ne_true
    | feed_version text => exact ih f hxs
    | object o => exact ih f hxs
    | other name => exact absurd hx Bool.false_ne_true

/-- The statements after the body fetch, when they return nil: the body was
read and decoded into the `Feed`. -/
theorem cian_finish_ok (parse : String → Except String cian.Document) (resp : Response)
    (f : cian.Feed) (sent : List Request)
    (h : (cian.Get.finish parse resp f sent).err = none) :
    ∃ body doc, resp.Body = .ok body ∧ parse body = .ok doc ∧ doc.err = none ∧
      (cian.Get.finish parse resp f sent).feed
        = { doc.children.foldl cian.Feed.decodeChild f with isGet := true } := by
  cases hb : resp.Body with
  | error e => simp [cian.Get.finish, hb] at h
  | ok body =>
    cases hp : parse body with
    | error e => simp [cian.Get.finish, hb, hp] at h
    | ok doc =>
      cases hu : doc.err with
      | some e => simp [cian.Get.finish, hb, hp, cian.Unmarshal, hu] at h
      | none =>
        exact ⟨body, doc, rfl, hp, hu, by simp [cian.Get.finish, hb, hp, cian.Unmarshal, hu]⟩


/-! ### An ad without identifier -/

theorem validation.idFinding_empty_id (path fieldName value : String) :
    validation.idFinding "" path fieldName value
      = validation.notFoundFinding path fieldName value := by
  unfold validation.idFinding validation.notFoundFinding
  by_cases h : value = ""
  · simp only [h, if_true, String.append_assoc]
    rfl
  · simp only [h, if_false]

/-- The messages of an ad without identifier: the positional message of the ID
field, then messages that do not depend on the index. -/
theorem avito.lotMessages_anonymous (idx : Nat) (lot : avito.Ad) (hid : lot.ID = "") :
    avito.lotMessages idx lot
      = ("field Ad[" ++ toString idx ++ "].ID is empty") :: avito.anonymousMessages lot := by
  have hpos : validation.posFinding idx "Ad" "ID" ""
      = ["field Ad[" ++ toString idx ++ "].ID is empty"] := by
    simp only [validation.posFinding, if_true, String.append_assoc]
    rfl
  simp only [avito.lotMessages, avito.anonymousMessages, hpos, hid,
    validation.idFinding_empty_id, String.append_empty, List.append_assoc,
    List.singleton_append, List.cons_append, List.nil_append]

/-- The list around an entry of an enumeration. -/
theorem enum_split {α : Type} (xs : List α) (i : Nat) (x : α) (h : (i, x) ∈ xs.enum) :
    xs.enum = xs.enum.take i ++ (i, x) :: xs.enum.drop (i + 1) := by
  have hi := List.mk_mem_enum_iff_getElem?.1 h
  obtain ⟨hlt, hx⟩ := List.getElem?_eq_some_iff.1 hi
  have hlt2 : i < xs.enum.length := by simpa using hlt
  have hget : xs.enum[i] = (i, x) := by
    simp [List.getElem_enum, hx]
  rw [← hget, ← List.drop_eq_getElem_cons hlt2, List.take_append_drop]

theorem avito.notFound_mem_anonymous (F : avito.RequiredString) (lot : avito.Ad)
    (hF : F.value lot = "") :
    ("field Ad." ++ F.name ++ " is empty. InternalID not found")
      ∈ avito.anonymousMessages lot := by
  have key : ∀ v, v = "" →
      ("field Ad." ++ F.name ++ " is empty. InternalID not found")
        ∈ validation.notFoundFinding "Ad" F.name v := by
    intro v hv
    simp only [validation.notFoundFinding, hv, if_true, List.mem_singleton, String.append_assoc]
    rfl
  cases F <;>
    simp only [avito.anonymousMessages, List.mem_append] <;>
    simp only [avito.RequiredString.value] at hF <;>
    have := key _ hF <;>
    simp only [avito.RequiredString.name] at this <;>
    tauto

/-! ### What `ParseFloat` reads -/

section

open strconv

theorem mem_of_subset_decide (c : Char) (l1 l2 : List Char) (h : ∀ x ∈ l1, x ∈ l2)
    (hc : c ∈ l1) : c ∈ l2 := h c hc

theorem Char.toLower_mem_special (c : Char)
    (h : c.toLower ∈ "infinity".data ∨ c.toLower ∈ "nan".data) :
    c ∈ "infintyaINFTYA".data := by
  unfold Char.toLower at h
  by_cases hc : c.toNat ≥ 65 ∧ c.toNat ≤ 90
  · simp only [hc, and_self, if_true] at h
    obtain ⟨n, hn⟩ : ∃ n, c.toNat = n := ⟨_, rfl⟩
    have hcn : c = Char.ofNat n := by rw [← hn, Char.ofNat_toNat]
    rw [hn] at h hc
    subst hcn
    obtain ⟨h1, h2⟩ := hc
    clear hn
    interval_cases n <;> revert h <;> decide
  · simp only [hc, if_false] at h
    rcases h with h | h
    · exact mem_of_subset_decide c _ _ (by decide) h
    · exact mem_of_subset_decide c _ _ (by decide) h

theorem strconv.floatChar_of_special (c : Char) (h : c ∈ "infintyaINFTYA".data) :
    floatChar c = true ∧ c ≠ '.' := by
  have h1 : ∀ x ∈ "infintyaINFTYA".data, floatChar x = true ∧ x ≠ '.' := by decide
  exact h1 c h

/-- What `commonPrefixLenIgnoreCase` counts are characters that fold to those
of the prefix. -/
theorem strconv.commonPrefix_take (p : List Char) :
    ∀ s : List Char, ∀ c ∈ s.take (commonPrefixLenIgnoreCase s p), c.toLower ∈ p := by
  induction p with
  | nil =>
    intro s c hc
    cases s <;> simp [commonPrefixLenIgnoreCase] at hc
  | cons q p ih =>
    intro s c hc
    cases s with
    | nil => simp [commonPrefixLenIgnoreCase] at hc
    | cons d s =>
      unfold commonPrefixLenIgnoreCase at hc
      by_cases hd : d.toLower = q
      · rw [if_pos hd, List.take_succ_cons, List.mem_cons] at hc
        rcases hc with rfl | hc
        · rw [hd]; exact List.mem_cons_self _ _
        · exact List.mem_cons_of_mem _ (ih s c hc)
      · rw [if_neg hd] at hc
        simp at hc

theorem strconv.eats_refl (l : List Char) (d : Nat) : Eats l l d :=
  ⟨[], rfl, by simp, by simp⟩

theorem strconv.eats_cons (c : Char) (l rest : List Char) (d : Nat) (hc : floatChar c = true)
    (hd : c ≠ '.') (h : Eats l rest d) : Eats (c :: l) rest d := by
  obtain ⟨consumed, h1, h2, h3⟩ := h
  refine ⟨c :: consumed, by rw [h1]; rfl, ?_, ?_⟩
  · intro x hx
    rcases List.mem_cons.1 hx with rfl | hx
    · exact hc
    · exact h2 x hx
  · rw [List.count_cons_of_ne (fun h => hd h.symm)]
    exact h3

theorem strconv.eats_cons_dot (l rest : List Char) (h : Eats l rest 0) :
    Eats ('.' :: l) rest 1 := by
  obtain ⟨consumed, h1, h2, h3⟩ := h
  refine ⟨'.' :: consumed, by rw [h1]; rfl, ?_, ?_⟩
  · intro x hx
    rcases List.mem_cons.1 hx with rfl | hx
    · decide
    · exact h2 x hx
  · rw [List.count_cons_self]
    omega

theorem strconv.eats_mono (l rest : List Char) (d e : Nat) (hde : d ≤ e) (h : Eats l rest d) :
    Eats l rest e := by
  obtain ⟨consumed, h1, h2, h3⟩ := h
  exact ⟨consumed, h1, h2, le_trans h3 hde⟩

theorem strconv.eats_trans (l m rest : List Char) (d e : Nat) (h1 : Eats l m d)
    (h2 : Eats m rest e) : Eats l rest (d + e) := by
  obtain ⟨c1, ha, hb, hc⟩ := h1
  obtain ⟨c2, ha2, hb2, hc2⟩ := h2
  refine ⟨c1 ++ c2, by rw [ha, ha2, List.append_assoc], ?_, ?_⟩
  · intro x hx
    rcases List.mem_append.1 hx with hx | hx
    · exact hb x hx
    · exact hb2 x hx
  · rw [List.count_append]
    omega

/-- A text that was read to its end holds only characters of a float text and
at most `dots` points. -/
theorem strconv.eats_all (l : List Char) (d : Nat) (h : Eats l [] d) :
    (∀ c ∈ l, floatChar c = true) ∧ l.count '.' ≤ d := by
  obtain ⟨consumed, h1, h2, h3⟩ := h
  rw [List.append_nil] at h1
  subst h1
  exact ⟨h2, h3⟩

theorem Char.floatChar_of_isDigit (c : Char) (h : c.isDigit = true) :
    floatChar c = true ∧ c ≠ '.' := by
  refine ⟨by simp [floatChar, h], ?_⟩
  rintro rfl; revert h; decide

theorem strconv.floatChar_of_isHexLetter (c : Char) (h : isHexLetter c = true) :
    floatChar c = true ∧ c ≠ '.' := by
  have h1 : ∀ x ∈ "abcdefABCDEF".data, floatChar x = true ∧ x ≠ '.' := by decide
  apply h1
  simpa [isHexLetter] using h

theorem strconv.readDigits_eats (hex : Bool) :
    ∀ (l : List Char) (st : Mantissa),
      Eats l (readDigits hex l st).2 (if st.sawdot then 0 else 1) := by
  intro l
  induction l with
  | nil => intro st; exact eats_refl _ _
  | cons c r ih =>
    intro st
    unfold readDigits
    by_cases h1 : c = '_'
    · rw [if_pos h1]
      subst h1
      exact eats_cons _ _ _ _ (by decide) (by decide) (ih _)
    · rw [if_neg h1]
      by_cases h2 : c = '.'
      · rw [if_pos h2]
        subst h2
        by_cases h3 : st.sawdot = true
        · rw [if_pos h3]
          exact eats_refl _ _
        · rw [if_neg h3]
          have := ih { st with sawdot := true }
          simp only [if_true] at this
          simp only [h3, Bool.false_eq_true, if_false]
          exact eats_cons_dot _ _ this
      · rw [if_neg h2]
        by_cases h3 : c.isDigit = true
        · rw [if_pos h3]
          exact eats_cons _ _ _ _ (Char.floatChar_of_isDigit c h3).1 h2 (ih _)
        · rw [if_neg h3]
          by_cases h4 : hex = true ∧ isHexLetter c = true
          · rw [if_pos h4]
            exact eats_cons _ _ _ _ (floatChar_of_isHexLetter c h4.2).1 h2 (ih _)
          · rw [if_neg h4]
            exact eats_refl _ _

theorem strconv.readExponentDigits_eats :
    ∀ (l : List Char) (e : Nat) (u : Bool), Eats l (readExponentDigits l e u).2.2 0 := by
  intro l
  induction l with
  | nil => intro e u; exact eats_refl _ _
  | cons c r ih =>
    intro e u
    unfold readExponentDigits
    by_cases h1 : c.isDigit = true
    · rw [if_pos h1]
      exact eats_cons _ _ _ _ (Char.floatChar_of_isDigit c h1).1
        (Char.floatChar_of_isDigit c h1).2 (ih _ _)
    · rw [if_neg h1]
      by_cases h2 : c = '_'
      · rw [if_pos h2]
        subst h2
        exact eats_cons _ _ _ _ (by decide) (by decide) (ih _ _)
      · rw [if_neg h2]
        exact eats_refl _ _

theorem strconv.exponentSign_eats (s : List Char) : Eats s (exponentSign s).2 0 := by
  unfold exponentSign
  split
  · exact eats_cons _ _ _ _ (by decide) (by decide) (eats_refl _ _)
  · exact eats_cons _ _ _ _ (by decide) (by decide) (eats_refl _ _)
  · exact eats_refl _ _

theorem strconv.readExponent_eats (s : List Char) (e : Int × Bool × List Char)
    (h : readExponent s = some e) : Eats s e.2.2 0 := by
  unfold readExponent at h
  have hs := exponentSign_eats s
  cases hp : (exponentSign s).2 with
  | nil => simp [hp] at h
  | cons c r =>
    rw [hp] at hs
    by_cases hc : c.isDigit = true
    · simp only [hp, hc, if_true, Option.some.injEq] at h
      rw [← h]
      exact eats_trans _ _ _ 0 0 hs (readExponentDigits_eats _ _ _)
    · simp [hp, hc] at h

theorem strconv.splitSign_eats (s : List Char) : Eats s (splitSign s).2 0 := by
  unfold splitSign
  split
  · exact eats_cons _ _ _ _ (by decide) (by decide) (eats_refl _ _)
  · exact eats_cons _ _ _ _ (by decide) (by decide) (eats_refl _ _)
  · exact eats_refl _ _

theorem strconv.baseOf_eats (s : List Char) : Eats s (baseOf s).2 0 := by
  unfold baseOf
  split
  · rename_i c d r
    by_cases hc : c = 'x' ∨ c = 'X'
    · rw [if_pos hc]
      refine eats_cons _ _ _ _ (by decide) (by decide) (eats_cons _ _ _ _ ?_ ?_ (eats_refl _ _))
      · rcases hc with rfl | rfl <;> decide
      · rcases hc with rfl | rfl <;> decide
    · rw [if_neg hc]
      exact eats_refl _ _
  · exact eats_refl _ _

/-- What `readFloat` reads holds only characters of a float text and at most
one point. -/
theorem strconv.readFloat_eats (s : List Char) (r : Reading) (h : readFloat s = some r) :
    Eats s r.rest 1 := by
  unfold readFloat at h
  by_cases hs : s = []
  · simp [hs] at h
  · rw [if_neg hs] at h
    simp only at h
    have h1 := splitSign_eats s
    have h2 := baseOf_eats (splitSign s).2
    have h3 := readDigits_eats (baseOf (splitSign s).2).1 (baseOf (splitSign s).2).2 {}
    simp only [Bool.false_eq_true, if_false] at h3
    have h123 : Eats s (readDigits (baseOf (splitSign s).2).1
        (baseOf (splitSign s).2).2 {}).2 1 := by
      have := eats_trans _ _ _ _ _ (eats_trans _ _ _ _ _ h1 h2) h3
      simpa using this
    by_cases hd : (readDigits (baseOf (splitSign s).2).1
        (baseOf (splitSign s).2).2 {}).1.sawdigits = false
    · simp [hd] at h
    · rw [if_neg hd] at h
      generalize hm : readDigits (baseOf (splitSign s).2).1
        (baseOf (splitSign s).2).2 {} = m at h h123
      generalize hb : (baseOf (splitSign s).2).1 = hex at h
      -- the exponent
      have hexp : ∀ e : Int × Bool × List Char,
          (match m.2 with
            | [] => if hex = true then none else some (0, false, [])
            | c :: r =>
              if (if hex = true then c = 'p' ∨ c = 'P' else c = 'e' ∨ c = 'E') then readExponent r
              else if hex = true then none
              else some (0, false, c :: r)) = some e → Eats m.2 e.2.2 0 := by
        intro e he
        cases hm2 : m.2 with
        | nil =>
          rw [hm2] at he
          by_cases hh : hex = true
          · simp [hh] at he
          · simp only [hh, if_false, Option.some.injEq, Bool.false_eq_true] at he
            rw [← he]
            exact eats_refl _ _
        | cons c r =>
          rw [hm2] at he
          simp only at he
          by_cases hc : (if hex = true then c = 'p' ∨ c = 'P' else c = 'e' ∨ c = 'E')
          · rw [if_pos hc] at he
            have hfc : floatChar c = true ∧ c ≠ '.' := by
              by_cases hh : hex = true
              · simp only [hh, if_true] at hc
                rcases hc with rfl | rfl <;> decide
              · simp only [hh, if_false, Bool.false_eq_true] at hc
                rcases hc with rfl | rfl <;> decide
            exact eats_cons _ _ _ _ hfc.1 hfc.2 (readExponent_eats r e he)
          · rw [if_neg hc] at he
            by_cases hh : hex = true
            · simp [hh] at he
            · simp only [hh, if_false, Option.some.injEq, Bool.false_eq_true] at he
              rw [← he]
              exact eats_refl _ _
      split at h
      · exact absurd h (by simp)
      · rename_i e he
        split at h
        · exact absurd h (by simp)
        · simp only [Option.some.injEq] at h
          rw [← h]
          have := eats_trans _ _ _ _ _ h123 (hexp e he)
          simpa using this

theorem strconv.take_all_floatChar (t : List Char) (n m : Nat) (hnm : n ≤ m)
    (h : ∀ c ∈ t.take m, c.toLower ∈ "infinity".data ∨ c.toLower ∈ "nan".data) :
    Eats t (t.drop n) 0 := by
  refine ⟨t.take n, (List.take_append_drop n t).symm, ?_, ?_⟩
  · intro c hc
    have hc2 : c ∈ t.take m := by
      rw [← Nat.min_eq_left hnm, ← List.take_take] at hc
      exact List.mem_of_mem_take hc
    exact (floatChar_of_special c (Char.toLower_mem_special c (h c hc2))).1
  · rw [Nat.le_zero, List.count_eq_zero]
    intro hc
    have hc2 : '.' ∈ t.take m := by
      rw [← Nat.min_eq_left hnm, ← List.take_take] at hc
      exact List.mem_of_mem_take hc
    exact (floatChar_of_special _ (Char.toLower_mem_special _ (h _ hc2))).2 rfl

/-- The part of `special` after the sign. -/
theorem strconv.special_infinity_eats (negative : Bool) (t rest : List Char) (v : Binary64)
    (h : (if (if 3 < commonPrefixLenIgnoreCase t "infinity".data
              ∧ commonPrefixLenIgnoreCase t "infinity".data < 8 then 3
            else commonPrefixLenIgnoreCase t "infinity".data) = 3
          ∨ (if 3 < commonPrefixLenIgnoreCase t "infinity".data
              ∧ commonPrefixLenIgnoreCase t "infinity".data < 8 then 3
            else commonPrefixLenIgnoreCase t "infinity".data) = 8 then
        some (Binary64.Inf negative,
          t.drop (if 3 < commonPrefixLenIgnoreCase t "infinity".data
              ∧ commonPrefixLenIgnoreCase t "infinity".data < 8 then 3
            else commonPrefixLenIgnoreCase t "infinity".data))
      else none) = some (v, rest)) : Eats t rest 0 := by
  generalize hn : commonPrefixLenIgnoreCase t "infinity".data = n at h
  have hall : ∀ c ∈ t.take n, c.toLower ∈ "infinity".data ∨ c.toLower ∈ "nan".data := by
    intro c hc
    rw [← hn] at hc
    exact Or.inl (commonPrefix_take _ t c hc)
  have hle : (if 3 < n ∧ n < 8 then 3 else n) ≤ n := by
    split <;> omega
  generalize (if 3 < n ∧ n < 8 then 3 else n) = k at h hle
  by_cases hk : k = 3 ∨ k = 8
  · rw [if_pos hk] at h
    simp only [Option.some.injEq, Prod.mk.injEq] at h
    rw [← h.2]
    exact take_all_floatChar t _ n hle hall
  · rw [if_neg hk] at h
    exact absurd h (by simp)

theorem strconv.special_eats (s rest : List Char) (v : Binary64)
    (h : special s = some (v, rest)) : Eats s rest 0 := by
  unfold special at h
  simp only at h
  split at h
  · exact absurd h (by simp)
  · exact eats_cons _ _ _ _ (by decide) (by decide) (special_infinity_eats _ _ _ _ h)
  · exact eats_cons _ _ _ _ (by decide) (by decide) (special_infinity_eats _ _ _ _ h)
  · rename_i c t _ _
    split at h
    · exact special_infinity_eats _ _ _ _ h
    · split at h
      · split at h
        · rename_i h3
          simp only [Option.some.injEq, Prod.mk.injEq] at h
          rw [← h.2]
          refine take_all_floatChar (c :: t) 3 3 (le_refl _) ?_
          intro x hx
          rw [← h3] at hx
          exact Or.inr (commonPrefix_take _ _ x hx)
        · exact absurd h (by simp)
      · exact absurd h (by simp)

/-- A text that `ParseFloat` accepts holds only characters of a float text, at
most one of them a point. -/
theorem strconv.ParseFloat_accepts (s : String) (f : Binary64)
    (h : ParseFloat s = (f, none)) :
    (∀ c ∈ s.data, floatChar c = true) ∧ s.data.count '.' ≤ 1 := by
  unfold ParseFloat at h
  split at h
  · rename_i val rest hsp
    by_cases hr : rest = []
    · subst hr
      exact eats_all _ _ (eats_mono _ _ 0 1 (by omega) (special_eats _ _ _ hsp))
    · rw [if_neg hr] at h
      simp at h
  · split at h
    · simp at h
    · rename_i r hrf
      by_cases hr : r.rest ≠ []
      · rw [if_pos hr] at h
        simp at h
      · have hr2 : r.rest = [] := not_not.1 hr
        have := readFloat_eats _ r hrf
        rw [hr2] at this
        exact eats_all _ _ this

theorem Char.toLower_eq_i (c : Char) (h : c.toLower = 'i') : c = 'i' ∨ c = 'I' := by
  have := Char.toLower_mem_special c (Or.inl (by rw [h]; decide))
  have key : ∀ x ∈ "infintyaINFTYA".data, x.toLower = 'i' → x = 'i' ∨ x = 'I' := by decide
  exact key c this h

theorem strconv.commonPrefix_zero (c : Char) (t p : List Char) (h : c.toLower ≠ 'i') :
    commonPrefixLenIgnoreCase (c :: t) ('i' :: p) = 0 := by
  unfold commonPrefixLenIgnoreCase
  rw [if_neg h]

theorem strconv.special_infinity_none (negative : Bool) (t : List Char)
    (h : ∀ c r, t = c :: r → c ≠ 'i' ∧ c ≠ 'I') :
    (if (if 3 < commonPrefixLenIgnoreCase t "infinity".data
              ∧ commonPrefixLenIgnoreCase t "infinity".data < 8 then 3
            else commonPrefixLenIgnoreCase t "infinity".data) = 3
          ∨ (if 3 < commonPrefixLenIgnoreCase t "infinity".data
              ∧ commonPrefixLenIgnoreCase t "infinity".data < 8 then 3
            else commonPrefixLenIgnoreCase t "infinity".data) = 8 then
        some (Binary64.Inf negative,
          t.drop (if 3 < commonPrefixLenIgnoreCase t "infinity".data
              ∧ commonPrefixLenIgnoreCase t "infinity".data < 8 then 3
            else commonPrefixLenIgnoreCase t "infinity".data))
      else none) = none := by
  have h0 : commonPrefixLenIgnoreCase t "infinity".data = 0 := by
    cases t with
    | nil => rfl
    | cons c r =>
      refine commonPrefix_zero c r _ ?_
      intro hc
      rcases Char.toLower_eq_i c hc with h1 | h1
      · exact (h c r rfl).1 h1
      · exact (h c r rfl).2 h1
  simp [h0]

/-- A text that does not begin like a number or a special value is no special
value. -/
theorem strconv.special_none (s : List Char) (h : startsNumber s = false) :
    special s = none := by
  unfold startsNumber at h
  unfold special
  simp only
  split
  · rfl
  · rename_i t
    refine special_infinity_none _ t ?_
    rintro c r rfl
    rw [splitSign_plus] at h
    simp only [Bool.or_eq_false_iff] at h
    constructor <;> (rintro rfl; revert h; decide)
  · rename_i t
    refine special_infinity_none _ t ?_
    rintro c r rfl
    rw [splitSign_minus] at h
    simp only [Bool.or_eq_false_iff] at h
    constructor <;> (rintro rfl; revert h; decide)
  · rename_i c t h1 h2
    have h1' : c ≠ '+' := h1
    have h2' : c ≠ '-' := h2
    rw [splitSign_cons c t h2' h1'] at h
    simp only [Bool.or_eq_false_iff] at h
    have hi : ¬ (c = 'i' ∨ c = 'I') := by
      rintro (rfl | rfl) <;> revert h <;> decide
    have hn : ¬ (c = 'n' ∨ c = 'N') := by
      rintro (rfl | rfl) <;> revert h <;> decide
    rw [if_neg hi, if_neg hn]

/-- A text that does not begin like a number is no number. -/
theorem strconv.readFloat_none (s : List Char) (h : startsNumber s = false) :
    readFloat s = none := by
  unfold startsNumber at h
  unfold readFloat
  by_cases hs : s = []
  · rw [if_pos hs]
  · rw [if_neg hs]
    simp only
    cases hp : (splitSign s).2 with
    | nil => rfl
    | cons c r =>
      rw [hp] at h
      simp only [Bool.or_eq_false_iff] at h
      have hb : baseOf (c :: r) = (false, c :: r) := by
        unfold baseOf
        split
        · rename_i heq
          have : c = '0' := (List.cons.inj heq).1
          subst this
          exact absurd h.1 (by decide)
        · rfl
      have hd : readDigits false (c :: r) {} = ({}, c :: r) := by
        unfold readDigits
        have h1 : c ≠ '_' := by rintro rfl; revert h; decide
        have h2 : c ≠ '.' := by rintro rfl; revert h; decide
        have h3 : ¬ c.isDigit = true := by rw [h.1]; decide
        simp [h1, h2, h3]
      rw [hb]
      simp only [hd, if_true]

theorem strconv.ParseFloat_not_started (s : String) (h : startsNumber s.data = false) :
    ParseFloat s = ({}, some (syntaxError "ParseFloat" s)) := by
  unfold ParseFloat
  rw [special_none _ h, readFloat_none _ h]

/-- `ParseFloat` returns an error on a text with a character that no float
text holds, on a text with two points, and on a text that does not begin like
a number. -/
theorem strconv.ParseFloat_rejects (s : String)
    (h : (∃ c ∈ s.data, floatChar c = false) ∨ 2 ≤ s.data.count '.'
      ∨ startsNumber s.data = false) :
    ∃ e, (ParseFloat s).2 = some e := by
  cases hp : (ParseFloat s).2 with
  | some e => exact ⟨e, rfl⟩
  | none =>
    exfalso
    have hacc := ParseFloat_accepts s (ParseFloat s).1 (by rw [← hp])
    rcases h with ⟨c, hc, hf⟩ | h | h
    · rw [hacc.1 c hc] at hf
      exact absurd hf (by decide)
    · have := hacc.2
      omega
    · rw [ParseFloat_not_started s h] at hp
      exact absurd hp (by simp)

theorem count_map_comma (l : List Char) :
    (l.map (fun c => if c = ',' then '.' else c)).count '.' = l.count ',' + l.count '.' := by
  induction l with
  | nil => rfl
  | cons c l ih =>
    rw [List.map_cons]
    by_cases h1 : c = ','
    · subst h1
      rw [if_pos rfl, List.count_cons_self, List.count_cons_self, ih,
        List.count_cons_of_ne (by decide)]
      omega
    · rw [if_neg h1]
      by_cases h2 : c = '.'
      · subst h2
        rw [List.count_cons_self, List.count_cons_self, ih, List.count_cons_of_ne (by decide)]
        omega
      · rw [List.count_cons_of_ne (fun h => h2 h.symm), List.count_cons_of_ne (fun h => h2 h.symm),
          List.count_cons_of_ne (fun h => h1 h.symm), ih]

/-- The decoder returns the error of `ParseFloat` and leaves the value as it
was. -/
theorem cian.UnmarshalXML_of_error (cf : Binary64) (s e : String)
    (h : (strconv.ParseFloat (strings.ReplaceAll s "," ".")).2 = some e) :
    cian.CustomFloat64.UnmarshalXML cf (.ok s) = (cf, some e) := by
  unfold cian.CustomFloat64.UnmarshalXML
  simp only
  split
  · rename_i f e' heq
    rw [heq] at h
    simp only [Option.some.injEq] at h
    rw [h]
  · rename_i f heq
    rw [heq] at h
    exact absurd h (by simp)

/-- The decoder stores the value `ParseFloat` returns without error. -/
theorem cian.UnmarshalXML_of_value (cf f : Binary64) (s : String)
    (h : strconv.ParseFloat (strings.ReplaceAll s "," ".") = (f, none)) :
    cian.CustomFloat64.UnmarshalXML cf (.ok s) = (f, none) := by
  unfold cian.CustomFloat64.UnmarshalXML
  simp only [h]

theorem strconv.digitsValue_eq_foldl (ds : List Char) :
    digitsValue ds = ds.foldl (fun n c => n * 10 + (c.toNat - '0'.toNat)) 0 := by
  unfold digitsValue
  congr 1
  funext n c
  rw [Nat.mul_comm]

/-- The digit loop over decimal digits. -/
theorem strconv.readDigits_digits (ds : List Char) (hds : ds.all Char.isDigit = true) :
    ∀ (rest : List Char) (st : Mantissa),
      readDigits false (ds ++ rest) st
        = readDigits false rest
            { mantissa := ds.foldl (fun n c => n * 10 + (c.toNat - '0'.toNat)) st.mantissa,
              fraction := if st.sawdot then st.fraction + ds.length else st.fraction,
              sawdot := st.sawdot,
              sawdigits := st.sawdigits || !ds.isEmpty,
              underscores := st.underscores } := by
  induction ds with
  | nil =>
    intro rest st
    simp
  | cons c ds ih =>
    intro rest st
    rw [List.all_cons, Bool.and_eq_true] at hds
    have h1 : c ≠ '_' := by rintro rfl; exact absurd hds.1 (by decide)
    have h2 : c ≠ '.' := by rintro rfl; exact absurd hds.1 (by decide)
    rw [List.cons_append, readDigits, if_neg h1, if_neg h2, if_pos hds.1, ih hds.2]
    congr 1
    cases hsd : st.sawdot <;> simp [hsd, Nat.add_assoc, Nat.add_comm 1]

/-- The digit loop over digits, a point and digits. -/
theorem strconv.readDigits_digits_point (a b : List Char) (ha : a.all Char.isDigit = true)
    (hb : b.all Char.isDigit = true) :
    readDigits false (a ++ '.' :: b) {}
      = ({ mantissa := digitsValue (a ++ b), fraction := b.length, sawdot := true,
           sawdigits := !a.isEmpty || !b.isEmpty, underscores := false }, []) := by
  rw [readDigits_digits a ha]
  have hb2 := readDigits_digits b hb []
  rw [List.append_nil] at hb2
  rw [readDigits]
  simp only [Bool.false_eq_true, if_false, Char.reduceEq, if_true]
  rw [hb2, digitsValue_eq_foldl, List.foldl_append]
  simp [readDigits]

theorem strconv.baseOf_digits_point (a b : List Char) (ha : a.all Char.isDigit = true) :
    baseOf (a ++ '.' :: b) = (false, a ++ '.' :: b) := by
  unfold baseOf
  split
  · rename_i c d r heq
    have hc : c.isDigit = true ∨ c = '.' := by
      cases a with
      | nil =>
        simp only [List.nil_append, List.cons.injEq] at heq
        exact absurd heq.1 (by decide)
      | cons x a =>
        cases a with
        | nil =>
          simp only [List.cons_append, List.nil_append, List.cons.injEq] at heq
          exact Or.inr heq.2.1.symm
        | cons y a =>
          simp only [List.cons_append, List.cons.injEq] at heq
          rw [List.all_cons, List.all_cons, Bool.and_eq_true, Bool.and_eq_true] at ha
          exact Or.inl (heq.2.1 ▸ ha.2.1)
    have hx : ¬ (c = 'x' ∨ c = 'X') := by
      rintro (rfl | rfl) <;> rcases hc with h | h <;> revert h <;> decide
    rw [if_neg hx]
  · rfl

theorem strconv.special_cons_none (c : Char) (t : List Char) (h : c ∉ "+-iInN".data) :
    special (c :: t) = none := by
  have h1 : c ≠ '+' := by rintro rfl; exact h (by decide)
  have h2 : c ≠ '-' := by rintro rfl; exact h (by decide)
  have h3 : ¬ (c = 'i' ∨ c = 'I') := by rintro (rfl | rfl) <;> exact h (by decide)
  have h4 : ¬ (c = 'n' ∨ c = 'N') := by rintro (rfl | rfl) <;> exact h (by decide)
  have key : ∀ s : List Char, s = c :: t → special s = none := by
    intro s hs
    unfold special
    simp only
    split
    · rfl
    · exact absurd (List.cons.inj hs).1.symm h1
    · exact absurd (List.cons.inj hs).1.symm h2
    · rename_i c' t' _ _
      have : c' = c := (List.cons.inj hs).1
      subst this
      rw [if_neg h3, if_neg h4]
  exact key _ rfl

theorem strconv.special_digits_point (a b : List Char) (ha : a.all Char.isDigit = true) :
    special (a ++ '.' :: b) = none := by
  cases a with
  | nil => exact special_cons_none _ _ (by decide)
  | cons c a =>
    rw [List.all_cons, Bool.and_eq_true] at ha
    refine special_cons_none _ _ ?_
    intro hc
    have key : ∀ x ∈ "+-iInN".data, x.isDigit = false := by decide
    rw [key c hc] at ha
    exact absurd ha.1 (by decide)

/-- What `readFloat` reads from digits, a point and digits. -/
theorem strconv.readFloat_digits_point (a b : List Char) (ha : a.all Char.isDigit = true)
    (hb : b.all Char.isDigit = true) (hne : a ≠ [] ∨ b ≠ []) :
    readFloat (a ++ '.' :: b)
      = some ⟨false, false, digitsValue (a ++ b), b.length, 0, []⟩ := by
  have hs : a ++ '.' :: b ≠ [] := by simp
  have hsaw : (!a.isEmpty || !b.isEmpty) = true := by
    rcases hne with h | h
    · cases a with
      | nil => exact absurd rfl h
      | cons _ _ => rfl
    · cases b with
      | nil => exact absurd rfl h
      | cons _ _ => simp
  unfold readFloat
  rw [if_neg hs]
  simp only [splitSign_digits_point a b ha, baseOf_digits_point a b ha,
    readDigits_digits_point a b ha hb, hsaw]
  simp

/-- The value and the error of `ParseFloat` on digits, a point and digits: the
rounded number, with a range error when the rounding is an infinity. -/
theorem strconv.ParseFloat_digits_point (a b : List Char) (ha : a.all Char.isDigit = true)
    (hb : b.all Char.isDigit = true) (hne : a ≠ [] ∨ b ≠ []) :
    ParseFloat ⟨a ++ '.' :: b⟩
      = if (Binary64.round false (digitsValue (a ++ b)) (10 ^ b.length)).exponent = 2047 then
          (Binary64.round false (digitsValue (a ++ b)) (10 ^ b.length),
            some (rangeError "ParseFloat" ⟨a ++ '.' :: b⟩))
        else (Binary64.round false (digitsValue (a ++ b)) (10 ^ b.length), none) := by
  unfold ParseFloat
  simp only [special_digits_point a b ha, readFloat_digits_point a b ha hb hne,
    Reading.fraction_of]
  simp

theorem Char.digit_le_nine (c : Char) (h : c.isDigit = true) : c.toNat - '0'.toNat ≤ 9 := by
  simp only [Char.isDigit, Bool.and_eq_true, decide_eq_true_eq] at h
  have h2 : c.val.toNat ≤ 57 := h.2
  have : c.toNat = c.val.toNat := rfl
  have h0 : '0'.toNat = 48 := rfl
  omega

theorem strconv.foldl_digits_lt (ds : List Char) (hds : ds.all Char.isDigit = true) :
    ∀ n : Nat, ds.foldl (fun n c => 10 * n + (c.toNat - '0'.toNat)) n
      < (n + 1) * 10 ^ ds.length := by
  induction ds with
  | nil => intro n; simp
  | cons c ds ih =>
    intro n
    rw [List.all_cons, Bool.and_eq_true] at hds
    have hc := Char.digit_le_nine c hds.1
    rw [List.foldl_cons, List.length_cons, pow_succ]
    calc _ < (10 * n + (c.toNat - '0'.toNat) + 1) * 10 ^ ds.length := ih hds.2 _
      _ ≤ (n + 1) * (10 ^ ds.length * 10) := by
        have : 10 * n + (c.toNat - '0'.toNat) + 1 ≤ (n + 1) * 10 := by omega
        calc _ ≤ (n + 1) * 10 * 10 ^ ds.length := Nat.mul_le_mul_right _ this
          _ = _ := by ring

/-- Digits write a number below the power of ten of their count. -/
theorem strconv.digitsValue_lt (ds : List Char) (hds : ds.all Char.isDigit = true) :
    digitsValue ds < 10 ^ ds.length := by
  have := foldl_digits_lt ds hds 0
  simpa [digitsValue] using this

/-- `ParseFloat` on texts that are no float text: a unit after the number, two
points, the empty text, an exponent without digits, a hexadecimal mantissa
without exponent, an underscore that does not separate digits. -/
theorem strconv.ParseFloat_refused :
    ParseFloat "100rub" = ({}, some (syntaxError "ParseFloat" "100rub")) ∧
    ParseFloat "1.234.50" = ({}, some (syntaxError "ParseFloat" "1.234.50")) ∧
    ParseFloat "" = ({}, some (syntaxError "ParseFloat" "")) ∧
    ParseFloat "1e" = ({}, some (syntaxError "ParseFloat" "1e")) ∧
    ParseFloat "0x1" = ({}, some (syntaxError "ParseFloat" "0x1")) ∧
    ParseFloat "_1" = ({}, some (syntaxError "ParseFloat" "_1")) := by
  refine ⟨by decide, by decide, by decide, by decide, by decide, by decide⟩

/-- `ParseFloat` on float texts: an exponent, underscores between digits, a
hexadecimal number, a negative zero, the special values, and a number half-way
between two values, `2 ^ 53 + 1`, which is rounded to the even one, `2 ^ 53`. -/
theorem strconv.ParseFloat_accepted :
    ParseFloat "1e5" = ({ exponent := 1039, fraction := 0x86A0000000000 }, none) ∧
    ParseFloat "1_000.5" = ({ exponent := 1032, fraction := 0xF440000000000 }, none) ∧
    ParseFloat "0x1p-2" = ({ exponent := 1021 }, none) ∧
    ParseFloat "-0" = ({ sign := true }, none) ∧
    ParseFloat "-Infinity" = (Binary64.Inf true, none) ∧
    ParseFloat "nan" = (Binary64.NaN, none) ∧
    ParseFloat "9007199254740993" = ({ exponent := 1076 }, none) := by
  refine ⟨by decide, by decide, by decide, by decide, by decide, by decide, by decide⟩

set_option exponentiation.threshold 2000 in
set_option maxRecDepth 100000 in
/-- `ParseFloat` beyond the range of `float64`: a number too small is rounded to
zero without error, a number too large gives an infinity with `ErrRange`. -/
theorem strconv.ParseFloat_range :
    ParseFloat "1e-400" = ({}, none) ∧
    ParseFloat "1e309" = (Binary64.Inf false, some (rangeError "ParseFloat" "1e309")) := by
  refine ⟨by decide, by decide⟩

end

/-! ### The rounding to `float64` -/

namespace Binary64

theorem bitLength_zero (fuel : Nat) : bitLength fuel 0 = 0 := by
  cases fuel <;> simp [bitLength]

/-- The binary digits of a positive number. -/
theorem bitLength_spec : ∀ (fuel n : Nat), n ≤ fuel → 0 < n →
    2 ^ (bitLength fuel n - 1) ≤ n ∧ n < 2 ^ bitLength fuel n ∧ 0 < bitLength fuel n := by
  intro fuel
  induction fuel with
  | zero => intro n h1 h2; omega
  | succ fuel ih =>
    intro n h1 h2
    have hn : n ≠ 0 := by omega
    rw [bitLength, if_neg hn]
    by_cases h : n / 2 = 0
    · have h1n : n = 1 := by omega
      rw [h, bitLength_zero]
      subst h1n
      decide
    · have hle : n / 2 ≤ fuel := by omega
      obtain ⟨h3, h4, h5⟩ := ih (n / 2) hle (by omega)
      refine ⟨?_, ?_, by omega⟩
      · have : bitLength fuel (n / 2) + 1 - 1 = (bitLength fuel (n / 2) - 1) + 1 := by omega
        rw [this, pow_succ]
        omega
      · rw [pow_succ]
        omega

/-- The bounds of a positive number by powers of 2, in the rationals. -/
theorem bitLength_bounds (n : Nat) (hn : 0 < n) :
    (2 : ℚ) ^ ((bitLength n n : ℤ) - 1) ≤ n ∧ (n : ℚ) < 2 ^ (bitLength n n : ℤ) := by
  obtain ⟨h1, h2, h3⟩ := bitLength_spec n n (le_refl _) hn
  constructor
  · have : ((bitLength n n : ℤ) - 1) = ((bitLength n n - 1 : ℕ) : ℤ) := by omega
    rw [this, zpow_natCast]
    exact_mod_cast h1
  · rw [zpow_natCast]
    exact_mod_cast h2

/-- The scaled fraction the rounding works on is the value times `2 ^ s`. -/
theorem scaled_eq (num den : Nat) (hden : 0 < den) (s : ℤ) :
    ((num * 2 ^ s.toNat : ℕ) : ℚ) / ((den * 2 ^ (-s).toNat : ℕ) : ℚ)
      = (num : ℚ) / den * 2 ^ s := by
  have hd : (den : ℚ) ≠ 0 := by positivity
  rcases le_total 0 s with h | h
  · obtain ⟨k, rfl⟩ := Int.eq_ofNat_of_zero_le h
    have h1 : (-(k : ℤ)).toNat = 0 := by omega
    rw [h1, Int.toNat_ofNat, zpow_natCast]
    push_cast
    field_simp
  · obtain ⟨k, hk⟩ := Int.eq_ofNat_of_zero_le (neg_nonneg.2 h)
    have h1 : s.toNat = 0 := by omega
    have h2 : s = -(k : ℤ) := by omega
    rw [h1, hk, Int.toNat_ofNat, h2, zpow_neg, zpow_natCast]
    push_cast
    field_simp

/-- The nearest integer is nearest: no integer is nearer to the fraction. -/
theorem nearestEven_nearest (N D : Nat) (hD : 0 < D) (k : ℤ) :
    |(nearestEven N D : ℚ) - (N : ℚ) / D| ≤ |(k : ℚ) - (N : ℚ) / D| := by
  have hDq : (0 : ℚ) < D := by exact_mod_cast hD
  have hdm := Nat.div_add_mod N D
  have hmod := Nat.mod_lt N hD
  set qt := N / D with hqt
  set rem := N % D with hrem
  have ht : (N : ℚ) / D = qt + (rem : ℚ) / D := by
    rw [← hdm]
    push_cast
    field_simp
    ring
  have hr0 : 0 ≤ (rem : ℚ) / D := by positivity
  have hr1 : (rem : ℚ) / D < 1 := by
    rw [div_lt_one hDq]
    exact_mod_cast hmod
  rw [ht]
  have hk : k ≤ (qt : ℤ) ∨ (qt : ℤ) + 1 ≤ k := by omega
  have hlow : (rem : ℚ) / D ≤ |(k : ℚ) - (qt + (rem : ℚ) / D)|
      ∨ 1 - (rem : ℚ) / D ≤ |(k : ℚ) - (qt + (rem : ℚ) / D)| := by
    rcases hk with h | h
    · left
      have hq : (k : ℚ) ≤ qt := by exact_mod_cast h
      have := neg_le_abs ((k : ℚ) - (qt + (rem : ℚ) / D))
      linarith
    · right
      have hq : (qt : ℚ) + 1 ≤ k := by exact_mod_cast h
      have := le_abs_self ((k : ℚ) - (qt + (rem : ℚ) / D))
      linarith
  unfold nearestEven
  simp only [← hqt, ← hrem]
  by_cases h1 : 2 * rem < D
  · rw [if_pos h1]
    have h1q : 2 * ((rem : ℚ) / D) < 1 := by
      rw [← mul_div_assoc, div_lt_one hDq]
      exact_mod_cast h1
    rw [abs_le]
    rcases hlow with h | h <;> constructor <;> linarith
  · rw [if_neg h1]
    by_cases h2 : D < 2 * rem
    · rw [if_pos h2]
      have h2q : 1 < 2 * ((rem : ℚ) / D) := by
        rw [← mul_div_assoc, one_lt_div hDq]
        exact_mod_cast h2
      push_cast
      rw [abs_le]
      rcases hlow with h | h <;> constructor <;> linarith
    · rw [if_neg h2]
      have h3 : 2 * rem = D := by omega
      have h3q : 2 * ((rem : ℚ) / D) = 1 := by
        rw [← mul_div_assoc, div_eq_one_iff_eq hDq.ne']
        exact_mod_cast h3
      by_cases h4 : qt % 2 = 0
      · rw [if_pos h4]
        rw [abs_le]
        rcases hlow with h | h <;> constructor <;> linarith
      · rw [if_neg h4]
        push_cast
        rw [abs_le]
        rcases hlow with h | h <;> constructor <;> linarith

/-- The nearest integer lies between the quotient and its successor. -/
theorem nearestEven_bounds (N D : Nat) :
    N / D ≤ nearestEven N D ∧ nearestEven N D ≤ N / D + 1 := by
  unfold nearestEven
  simp only
  split
  · omega
  · split
    · omega
    · split <;> omega

end Binary64

namespace Binary64

/-- The shift brings the value below `2 ^ 53`, and to at least `2 ^ 52` unless
the unit is that of the subnormal values. -/
theorem shift_spec (num den : Nat) (hn : 0 < num) (hd : 0 < den) :
    shift num den ≤ 1074 ∧
    (num : ℚ) / den * 2 ^ (shift num den) < 2 ^ 53 ∧
    (shift num den < 1074 → (2 : ℚ) ^ 52 ≤ (num : ℚ) / den * 2 ^ (shift num den)) := by
  obtain ⟨hn1, hn2⟩ := bitLength_bounds num hn
  obtain ⟨hd1, hd2⟩ := bitLength_bounds den hd
  have hnq : (0 : ℚ) < num := by exact_mod_cast hn
  have hdq : (0 : ℚ) < den := by exact_mod_cast hd
  have h2 : (2 : ℚ) ≠ 0 := by norm_num
  have hq : (0 : ℚ) < (num : ℚ) / den := div_pos hnq hdq
  generalize hbn : (bitLength num num : ℤ) = bn at hn1 hn2
  generalize hbd : (bitLength den den : ℤ) = bd at hd1 hd2
  -- the value between two powers of 2
  have hhi : (num : ℚ) / den < 2 ^ (bn - bd + 1) := by
    have e : bn - bd + 1 = bn - (bd - 1) := by ring
    rw [e, zpow_sub₀ h2, div_lt_div_iff₀ hdq (zpow_pos (by norm_num) _)]
    calc (num : ℚ) * 2 ^ (bd - 1) ≤ num * den := by
          exact mul_le_mul_of_nonneg_left hd1 hnq.le
      _ < 2 ^ bn * den := by
          exact mul_lt_mul_of_pos_right hn2 hdq
  have hlo : (2 : ℚ) ^ (bn - 1 - bd) ≤ (num : ℚ) / den := by
    rw [zpow_sub₀ h2, div_le_div_iff₀ (zpow_pos (by norm_num) _) hdq]
    calc (2 : ℚ) ^ (bn - 1) * den ≤ num * den := by
          exact mul_le_mul_of_nonneg_right hn1 hdq.le
      _ ≤ num * 2 ^ bd := by
          exact mul_le_mul_of_nonneg_left hd2.le hnq.le
  -- the first candidate
  have hQ0 : (num : ℚ) / den * 2 ^ (52 + bd - bn) < 2 ^ 53 := by
    have e : (2 : ℚ) ^ (53 : ℕ) = 2 ^ (bn - bd + 1) * 2 ^ (52 + bd - bn) := by
      rw [← zpow_add₀ h2, ← zpow_natCast]
      congr 1
      push_cast
      ring
    rw [e]
    exact mul_lt_mul_of_pos_right hhi (zpow_pos (by norm_num) _)
  have hQ1 : (2 : ℚ) ^ 52 ≤ (num : ℚ) / den * 2 ^ (52 + bd - bn + 1) := by
    have e : (2 : ℚ) ^ (52 : ℕ) = 2 ^ (bn - 1 - bd) * 2 ^ (52 + bd - bn + 1) := by
      rw [← zpow_add₀ h2, ← zpow_natCast]
      congr 1
      push_cast
      ring
    rw [e]
    exact mul_le_mul_of_nonneg_right hlo (zpow_pos (by norm_num) _).le
  have hstep : (num : ℚ) / den * 2 ^ (52 + bd - bn + 1)
      = 2 * ((num : ℚ) / den * 2 ^ (52 + bd - bn)) := by
    rw [zpow_add_one₀ h2]
    ring
  -- the test of the definition
  have htest : (2 ^ 52 * (den * 2 ^ (-(52 + bd - bn)).toNat) ≤ num * 2 ^ (52 + bd - bn).toNat)
      ↔ (2 : ℚ) ^ 52 ≤ (num : ℚ) / den * 2 ^ (52 + bd - bn) := by
    rw [← scaled_eq num den hd, le_div_iff₀ (by positivity)]
    constructor
    · intro h
      exact_mod_cast h
    · intro h
      exact_mod_cast h
  have hmono : ∀ a b : ℤ, a ≤ b →
      (num : ℚ) / den * 2 ^ a ≤ (num : ℚ) / den * 2 ^ b := by
    intro a b hab
    exact mul_le_mul_of_nonneg_left (zpow_le_zpow_right₀ (by norm_num) hab) hq.le
  unfold shift
  simp only [hbn, hbd]
  by_cases ht : 2 ^ 52 * (den * 2 ^ (-(52 + bd - bn)).toNat) ≤ num * 2 ^ (52 + bd - bn).toNat
  · rw [if_pos ht]
    refine ⟨min_le_right _ _, lt_of_le_of_lt (hmono _ _ (min_le_left _ _)) hQ0, ?_⟩
    intro hlt
    have : min (52 + bd - bn) 1074 = 52 + bd - bn := by
      rcases min_choice (52 + bd - bn) 1074 with h | h
      · exact h
      · rw [h] at hlt; exact absurd hlt (lt_irrefl _)
    rw [this]
    exact htest.1 ht
  · rw [if_neg ht]
    have hlt0 : (num : ℚ) / den * 2 ^ (52 + bd - bn) < 2 ^ 52 := by
      rw [htest] at ht
      exact not_le.1 ht
    have hQ1' : (num : ℚ) / den * 2 ^ (52 + bd - bn + 1) < 2 ^ 53 := by
      rw [hstep]
      have : (2 : ℚ) ^ 53 = 2 * 2 ^ 52 := by norm_num
      rw [this]
      linarith
    refine ⟨min_le_right _ _, lt_of_le_of_lt (hmono _ _ (min_le_left _ _)) hQ1', ?_⟩
    intro hlt
    have : min (52 + bd - bn + 1) 1074 = 52 + bd - bn + 1 := by
      rcases min_choice (52 + bd - bn + 1) 1074 with h | h
      · exact h
      · rw [h] at hlt; exact absurd hlt (lt_irrefl _)
    rw [this]
    exact hQ1

end Binary64

namespace Binary64

/-- The unit `2 ^ u / 2 ^ 1074` of a rounding. -/
theorem unit_pos (u : Nat) : (0 : ℚ) < 2 ^ u / 2 ^ 1074 := by positivity

/-- A finite value is a multiple of the unit `2 ^ u / 2 ^ 1074`, or it is
below `2 ^ 52` units. -/
theorem magnitude_unit (y : Binary64) (hy : y.isFinite) (u : Nat) :
    (∃ k : ℕ, y.magnitude = k * (2 ^ u / 2 ^ 1074)) ∨
    (0 < u ∧ y.magnitude < 2 ^ 52 * (2 ^ u / 2 ^ 1074)) := by
  obtain ⟨-, hf⟩ := hy
  have hfq : (y.fraction : ℚ) < 2 ^ 52 := by exact_mod_cast hf
  unfold magnitude
  by_cases he : y.exponent = 0
  · rw [if_pos he]
    by_cases hu : u = 0
    · left
      refine ⟨y.fraction, ?_⟩
      rw [hu]
      ring
    · right
      refine ⟨Nat.pos_of_ne_zero hu, ?_⟩
      rw [← mul_div_assoc, div_lt_div_iff_of_pos_right (by positivity)]
      have : (1 : ℚ) ≤ 2 ^ u := one_le_pow₀ (by norm_num)
      nlinarith
  · rw [if_neg he]
    by_cases hu : u ≤ y.exponent - 1
    · left
      refine ⟨(2 ^ 52 + y.fraction) * 2 ^ (y.exponent - 1 - u), ?_⟩
      have : y.exponent - 1 = (y.exponent - 1 - u) + u := by omega
      rw [this, pow_add]
      push_cast
      have : y.exponent - 1 - u + u - u = y.exponent - 1 - u := by omega
      rw [this]
      ring
    · right
      refine ⟨by omega, ?_⟩
      rw [← mul_div_assoc, div_lt_div_iff_of_pos_right (by positivity)]
      have h1 : (2 : ℚ) ^ (y.exponent - 1) * 2 ≤ 2 ^ u := by
        rw [← pow_succ]
        exact pow_le_pow_right₀ (by norm_num) (by omega)
      have h2 : (0 : ℚ) < 2 ^ (y.exponent - 1) := by positivity
      push_cast
      nlinarith

theorem magnitude_subnormal (y : Binary64) (h : y.exponent = 0) :
    y.magnitude = (y.fraction : ℚ) / 2 ^ 1074 := by
  unfold magnitude
  rw [if_pos h]

theorem magnitude_normal (y : Binary64) (h : y.exponent ≠ 0) :
    y.magnitude = ((2 ^ 52 + y.fraction : ℕ) : ℚ) * 2 ^ (y.exponent - 1) / 2 ^ 1074 := by
  unfold magnitude
  rw [if_neg h]

theorem magnitude_nonneg (y : Binary64) : 0 ≤ y.magnitude := by
  unfold magnitude
  split <;> positivity

end Binary64

namespace Binary64

/-- The value the rounding returns when it is no infinity: the nearest integer
`m` of the scaled fraction, in units of `2 ^ u / 2 ^ 1074`. -/
theorem round_value (num den : Nat) (hn : 0 < num) (hd : 0 < den)
    (hfin : (round false num den).exponent < 2047) :
    (round false num den).isFinite ∧ (round false num den).sign = false ∧
    (round false num den).magnitude
      = (nearestEven (num * 2 ^ (shift num den).toNat) (den * 2 ^ (-(shift num den)).toNat) : ℚ)
          * (2 ^ (1074 - shift num den).toNat / 2 ^ 1074) := by
  obtain ⟨hs1, hs2, hs3⟩ := shift_spec num den hn hd
  have hD : 0 < den * 2 ^ (-(shift num den)).toNat := by positivity
  have hDq : (0 : ℚ) < ((den * 2 ^ (-(shift num den)).toNat : ℕ) : ℚ) := by exact_mod_cast hD
  rw [← scaled_eq num den hd] at hs2 hs3
  obtain ⟨hb1, hb2⟩ := nearestEven_bounds (num * 2 ^ (shift num den).toNat)
    (den * 2 ^ (-(shift num den)).toNat)
  -- the quotient is below 2 ^ 53
  have hq53 : num * 2 ^ (shift num den).toNat / (den * 2 ^ (-(shift num den)).toNat) < 2 ^ 53 := by
    rw [Nat.div_lt_iff_lt_mul hD]
    rw [div_lt_iff₀ hDq] at hs2
    exact_mod_cast hs2
  -- and at least 2 ^ 52 for a normal value
  have hq52 : shift num den < 1074 →
      2 ^ 52 ≤ num * 2 ^ (shift num den).toNat / (den * 2 ^ (-(shift num den)).toNat) := by
    intro h
    rw [Nat.le_div_iff_mul_le hD]
    have := hs3 h
    rw [le_div_iff₀ hDq] at this
    exact_mod_cast this
  have hnum : num ≠ 0 := by omega
  generalize hm : nearestEven (num * 2 ^ (shift num den).toNat)
    (den * 2 ^ (-(shift num den)).toNat) = m at hb1 hb2
  generalize hqt : num * 2 ^ (shift num den).toNat / (den * 2 ^ (-(shift num den)).toNat) = qt
    at hb1 hb2 hq53 hq52
  have hx : (assemble false m (shift num den)).exponent < 2047 := by
    unfold round at hfin
    rw [if_neg hnum] at hfin
    simp only [hm] at hfin
    by_contra hx
    rw [if_neg hx] at hfin
    exact absurd hfin (by decide)
  have hround : round false num den = assemble false m (shift num den) := by
    unfold round
    rw [if_neg hnum]
    simp only [hm]
    rw [if_pos hx]
  rw [hround]
  generalize hs : shift num den = s at *
  unfold assemble at hx ⊢
  by_cases h1 : m < 2 ^ 52
  · -- a subnormal value
    rw [if_pos h1]
    have hs74 : s = 1074 := by
      by_contra hne
      have := hq52 (lt_of_le_of_ne hs1 hne)
      omega
    refine ⟨⟨by norm_num, h1⟩, rfl, ?_⟩
    rw [hs74]
    have hu0 : ((1074 : ℤ) - 1074).toNat = 0 := by omega
    rw [magnitude_subnormal _ rfl, hu0, pow_zero, mul_one_div]
  · rw [if_neg h1] at hx ⊢
    by_cases h2 : m < 2 ^ 53
    · rw [if_pos h2] at hx ⊢
      refine ⟨⟨hx, by simp only; omega⟩, rfl, ?_⟩
      have he : (1075 - s).toNat ≠ 0 := by omega
      have he1 : (1075 - s).toNat - 1 = (1074 - s).toNat := by omega
      have hmm : 2 ^ 52 + (m - 2 ^ 52) = m := by omega
      rw [magnitude_normal _ he]
      simp only [he1, hmm]
      rw [mul_div_assoc]
    · rw [if_neg h2] at hx ⊢
      have hm53 : m = 2 ^ 53 := by omega
      refine ⟨⟨hx, by norm_num⟩, rfl, ?_⟩
      have he : (1076 - s).toNat ≠ 0 := by omega
      have he1 : (1076 - s).toNat - 1 = (1074 - s).toNat + 1 := by omega
      rw [magnitude_normal _ he, hm53]
      simp only [he1]
      generalize (2 : ℚ) ^ 1074 = P
      rw [pow_succ (2 : ℚ) (1074 - s).toNat, pow_succ (2 : ℕ) 52]
      push_cast
      ring

/-- The value is the scaled fraction in units of `2 ^ u / 2 ^ 1074`. -/
theorem scaled_unit (num den : Nat) (hd : 0 < den) (s : ℤ) (hs : s ≤ 1074) :
    (num : ℚ) / den
      = ((num * 2 ^ s.toNat : ℕ) : ℚ) / ((den * 2 ^ (-s).toNat : ℕ) : ℚ)
          * (2 ^ (1074 - s).toNat / 2 ^ 1074) := by
  rw [scaled_eq num den hd]
  have h2 : (2 : ℚ) ≠ 0 := by norm_num
  have e1 : ((2 : ℚ) ^ (1074 - s).toNat) = 2 ^ ((1074 : ℤ) - s) := by
    rw [← zpow_natCast]
    congr 1
    omega
  have e2 : ((2 : ℚ) ^ (1074 : ℕ)) = 2 ^ (1074 : ℤ) := by
    rw [← zpow_natCast]
    rfl
  rw [e1, e2, ← zpow_sub₀ h2, mul_assoc, ← zpow_add₀ h2]
  have : s + (1074 - s - 1074) = 0 := by ring
  rw [this, zpow_zero, mul_one]

/-- The rounding is nearest: when it is no infinity, it is a finite value, and
no finite value is nearer to the fraction. -/
theorem round_nearest (num den : Nat) (hd : 0 < den)
    (hfin : (round false num den).exponent < 2047) :
    (round false num den).isFinite ∧
    ∀ y : Binary64, y.isFinite →
      |(round false num den).toRat - (num : ℚ) / den| ≤ |y.toRat - (num : ℚ) / den| := by
  by_cases hn : num = 0
  · subst hn
    have : round false 0 den = {} := by simp [round]
    rw [this]
    refine ⟨by decide, ?_⟩
    intro y _
    simp [toRat, magnitude]
  · have hn' : 0 < num := Nat.pos_of_ne_zero hn
    obtain ⟨hxf, hxs, hxm⟩ := round_value num den hn' hd hfin
    obtain ⟨hs1, hs2, hs3⟩ := shift_spec num den hn' hd
    refine ⟨hxf, ?_⟩
    intro y hy
    have hq := scaled_unit num den hd (shift num den) hs1
    have hD : 0 < den * 2 ^ (-(shift num den)).toNat := by positivity
    rw [← scaled_eq num den hd] at hs2 hs3
    have hx : (round false num den).toRat = (round false num den).magnitude := by
      unfold toRat
      rw [hxs]
      rfl
    rw [hx, hxm]
    generalize hw : ((2 : ℚ) ^ (1074 - shift num den).toNat / 2 ^ 1074) = w at hq ⊢
    have hwpos : 0 < w := by rw [← hw]; exact unit_pos _
    generalize hm : (nearestEven (num * 2 ^ (shift num den).toNat)
      (den * 2 ^ (-(shift num den)).toNat) : ℚ) = m
    have hne := nearestEven_nearest (num * 2 ^ (shift num den).toNat)
      (den * 2 ^ (-(shift num den)).toNat) hD
    rw [hm] at hne
    generalize ht : ((num * 2 ^ (shift num den).toNat : ℕ) : ℚ)
      / ((den * 2 ^ (-(shift num den)).toNat : ℕ) : ℚ) = t at hq hne hs2 hs3
    have ht0 : 0 ≤ t := by rw [← ht]; positivity
    rw [hq]
    have hleft : |m * w - t * w| = w * |m - t| := by
      rw [← sub_mul, abs_mul, abs_of_pos hwpos, mul_comm]
    rw [hleft]
    have hymag := magnitude_nonneg y
    by_cases hys : y.sign = true
    · -- a negative value is farther than zero
      have h0 := hne 0
      simp only [Int.cast_zero, zero_sub, abs_neg, abs_of_nonneg ht0] at h0
      have : y.toRat = -y.magnitude := by unfold toRat; rw [if_pos hys]
      rw [this]
      have h1 : t * w ≤ |(-y.magnitude) - t * w| := by
        have := neg_le_abs ((-y.magnitude) - t * w)
        have htw : 0 ≤ t * w := mul_nonneg ht0 hwpos.le
        linarith
      calc w * |m - t| ≤ w * t := mul_le_mul_of_nonneg_left h0 hwpos.le
        _ = t * w := mul_comm _ _
        _ ≤ _ := h1
    · have : y.toRat = y.magnitude := by unfold toRat; rw [if_neg hys]
      rw [this]
      rcases magnitude_unit y hy (1074 - shift num den).toNat with ⟨k, hk⟩ | ⟨hu, hlt⟩
      · rw [hw] at hk
        rw [hk, ← sub_mul, abs_mul, abs_of_pos hwpos, mul_comm w]
        have := hne (k : ℤ)
        simp only [Int.cast_natCast] at this
        exact mul_le_mul_of_nonneg_right this hwpos.le
      · rw [hw] at hlt
        have hslt : shift num den < 1074 := by omega
        have ht52 := hs3 hslt
        have h52 : |m - t| ≤ t - 2 ^ 52 := by
          have h := hne ((2 : ℤ) ^ 52)
          have hcast : (((2 : ℤ) ^ 52 : ℤ) : ℚ) = 2 ^ 52 := by push_cast; rfl
          rw [hcast, abs_sub_comm (2 ^ 52) t,
            abs_of_nonneg (show (0 : ℚ) ≤ t - 2 ^ 52 by linarith)] at h
          exact h
        have h1 : t * w - y.magnitude ≤ |y.magnitude - t * w| := by
          have := neg_le_abs (y.magnitude - t * w)
          linarith
        have h2 : w * (t - 2 ^ 52) = t * w - 2 ^ 52 * w := by ring
        calc w * |m - t| ≤ w * (t - 2 ^ 52) := mul_le_mul_of_nonneg_left h52 hwpos.le
          _ ≤ t * w - y.magnitude := by rw [h2]; linarith
          _ ≤ _ := h1

end Binary64

namespace Binary64

/-- The nearest integer of a fraction is at most half a unit above it. -/
theorem nearestEven_le_half (N D : Nat) (hD : 0 < D) :
    (nearestEven N D : ℚ) - 1 / 2 ≤ (N : ℚ) / D := by
  have h := nearestEven_nearest N D hD ((nearestEven N D : ℤ) - 1)
  have hc : (((nearestEven N D : ℤ) - 1 : ℤ) : ℚ) = (nearestEven N D : ℚ) - 1 := by
    push_cast; ring
  rw [hc] at h
  have h2 := le_abs_self ((nearestEven N D : ℚ) - (N : ℚ) / D)
  rcases abs_cases ((nearestEven N D : ℚ) - 1 - (N : ℚ) / D) with ⟨h3, _⟩ | ⟨h3, _⟩ <;>
    linarith

/-- A fraction below `10 ^ 308` does not round to an infinity. -/
theorem round_below_range (num den : Nat) (hd : 0 < den)
    (hq : (num : ℚ) / den < 10 ^ 308) :
    (round false num den).exponent < 2047 := by
  by_cases hn : num = 0
  · subst hn
    simp [round]
  · have hn' : 0 < num := Nat.pos_of_ne_zero hn
    obtain ⟨hs1, hs2, hs3⟩ := shift_spec num den hn' hd
    have hD : 0 < den * 2 ^ (-(shift num den)).toNat := by positivity
    have hhalf := nearestEven_le_half (num * 2 ^ (shift num den).toNat)
      (den * 2 ^ (-(shift num den)).toNat) hD
    rw [scaled_eq num den hd] at hhalf
    obtain ⟨hb1, hb2⟩ := nearestEven_bounds (num * 2 ^ (shift num den).toNat)
      (den * 2 ^ (-(shift num den)).toNat)
    have hdq : (0 : ℚ) < den := by exact_mod_cast hd
    have hq0 : (0 : ℚ) < (num : ℚ) / den := by positivity
    unfold round
    rw [if_neg hn]
    simp only
    generalize hm : nearestEven (num * 2 ^ (shift num den).toNat)
      (den * 2 ^ (-(shift num den)).toNat) = m at hhalf hb1 hb2
    generalize hs : shift num den = s at *
    have h2 : (2 : ℚ) ≠ 0 := by norm_num
    -- the value in terms of the scaled value
    have hval : ∀ L : ℚ, L ≤ (num : ℚ) / den * 2 ^ s → s ≤ -971 →
        L * 2 ^ 971 ≤ (num : ℚ) / den := by
      intro L hL hs971
      have hp : (0 : ℚ) < 2 ^ (-s) := zpow_pos (by norm_num) _
      have e : (num : ℚ) / den = (num : ℚ) / den * 2 ^ s * 2 ^ (-s) := by
        rw [mul_assoc, ← zpow_add₀ h2, add_neg_cancel, zpow_zero, mul_one]
      have hmono : (2 : ℚ) ^ (971 : ℕ) ≤ 2 ^ (-s) := by
        rw [← zpow_natCast]
        exact zpow_le_zpow_right₀ (by norm_num) (by push_cast; omega)
      have hL0 : 0 ≤ (num : ℚ) / den * 2 ^ s := by positivity
      by_cases hLn : L ≤ 0
      · have : L * 2 ^ 971 ≤ 0 := mul_nonpos_of_nonpos_of_nonneg hLn (by positivity)
        linarith
      · rw [e]
        exact mul_le_mul hL hmono (by positivity) hL0
    have hbig : ¬ (s ≤ -971 ∧ (2 : ℚ) ^ 53 - 1 / 2 ≤ (num : ℚ) / den * 2 ^ s) := by
      rintro ⟨h1, h2'⟩
      have := hval _ h2' h1
      have hnum : (10 : ℚ) ^ 308 < (2 ^ 53 - 1 / 2) * 2 ^ 971 := by norm_num
      linarith
    have hs972 : -972 < s := by
      by_contra hcon
      have hlt : s < 1074 := by omega
      have h52 := hs3 hlt
      have hs' : s + 1 ≤ -971 := by omega
      have hstep : (2 : ℚ) ^ 53 ≤ (num : ℚ) / den * 2 ^ (s + 1) := by
        rw [zpow_add_one₀ h2]
        have : (2 : ℚ) ^ 53 = 2 ^ 52 * 2 := by norm_num
        rw [this, ← mul_assoc]
        exact mul_le_mul_of_nonneg_right h52 (by norm_num)
      have hval' : ∀ L : ℚ, L ≤ (num : ℚ) / den * 2 ^ (s + 1) → s + 1 ≤ -971 →
          L * 2 ^ 971 ≤ (num : ℚ) / den := by
        intro L hL hs971
        have e : (num : ℚ) / den = (num : ℚ) / den * 2 ^ (s + 1) * 2 ^ (-(s + 1)) := by
          rw [mul_assoc, ← zpow_add₀ h2, add_neg_cancel, zpow_zero, mul_one]
        have hmono : (2 : ℚ) ^ (971 : ℕ) ≤ 2 ^ (-(s + 1)) := by
          rw [← zpow_natCast]
          exact zpow_le_zpow_right₀ (by norm_num) (by push_cast; omega)
        have hL0 : 0 ≤ (num : ℚ) / den * 2 ^ (s + 1) := by positivity
        by_cases hLn : L ≤ 0
        · have : L * 2 ^ 971 ≤ 0 := mul_nonpos_of_nonpos_of_nonneg hLn (by positivity)
          linarith
        · rw [e]
          exact mul_le_mul hL hmono (by positivity) hL0
      have := hval' _ hstep hs'
      have hnum : (10 : ℚ) ^ 308 < 2 ^ 53 * 2 ^ 971 := by norm_num
      linarith
    have hx : (assemble false m s).exponent < 2047 := by
      unfold assemble
      by_cases h1 : m < 2 ^ 52
      · rw [if_pos h1]; norm_num
      · rw [if_neg h1]
        by_cases h2' : m < 2 ^ 53
        · rw [if_pos h2']
          simp only
          omega
        · rw [if_neg h2']
          simp only
          have hs970 : -971 < s := by
            by_contra hcon
            refine hbig ⟨by omega, ?_⟩
            have hm53 : (2 : ℚ) ^ 53 ≤ m := by exact_mod_cast not_lt.1 h2'
            have := hhalf
            linarith
          omega
    rw [if_pos hx]
    exact hx

end Binary64

namespace Binary64

/-- The nearest integer is at most half a unit from the fraction. -/
theorem nearestEven_half (N D : Nat) (hD : 0 < D) :
    |(nearestEven N D : ℚ) - (N : ℚ) / D| ≤ 1 / 2 := by
  have h1 := nearestEven_nearest N D hD ((nearestEven N D : ℤ) - 1)
  have h2 := nearestEven_nearest N D hD ((nearestEven N D : ℤ) + 1)
  have hc1 : (((nearestEven N D : ℤ) - 1 : ℤ) : ℚ) = (nearestEven N D : ℚ) - 1 := by
    push_cast; ring
  have hc2 : (((nearestEven N D : ℤ) + 1 : ℤ) : ℚ) = (nearestEven N D : ℚ) + 1 := by
    push_cast; ring
  rw [hc1] at h1
  rw [hc2] at h2
  rw [abs_le]
  rcases abs_cases ((nearestEven N D : ℚ) - (N : ℚ) / D) with ⟨h3, _⟩ | ⟨h3, _⟩ <;>
    rcases abs_cases ((nearestEven N D : ℚ) - 1 - (N : ℚ) / D) with ⟨h4, _⟩ | ⟨h4, _⟩ <;>
    rcases abs_cases ((nearestEven N D : ℚ) + 1 - (N : ℚ) / D) with ⟨h5, _⟩ | ⟨h5, _⟩ <;>
    constructor <;> linarith

/-- Half a unit from the fraction, the nearest integer is the even one. -/
theorem nearestEven_tie (N D : Nat) (hD : 0 < D)
    (h : |(nearestEven N D : ℚ) - (N : ℚ) / D| = 1 / 2) : nearestEven N D % 2 = 0 := by
  have hDq : (0 : ℚ) < D := by exact_mod_cast hD
  have hdm := Nat.div_add_mod N D
  have hmod := Nat.mod_lt N hD
  set qt := N / D with hqt
  set rem := N % D with hrem
  have ht : (N : ℚ) / D = qt + (rem : ℚ) / D := by
    rw [← hdm]
    push_cast
    field_simp
    ring
  have hr0 : 0 ≤ (rem : ℚ) / D := by positivity
  have hr1 : (rem : ℚ) / D < 1 := by
    rw [div_lt_one hDq]
    exact_mod_cast hmod
  rw [ht] at h
  unfold nearestEven at h ⊢
  simp only [← hqt, ← hrem] at h ⊢
  by_cases h1 : 2 * rem < D
  · exfalso
    rw [if_pos h1] at h
    have h1q : 2 * ((rem : ℚ) / D) < 1 := by
      rw [← mul_div_assoc, div_lt_one hDq]
      exact_mod_cast h1
    rcases abs_cases ((qt : ℚ) - (qt + (rem : ℚ) / D)) with ⟨h3, _⟩ | ⟨h3, _⟩ <;> linarith
  · rw [if_neg h1] at h ⊢
    by_cases h2 : D < 2 * rem
    · exfalso
      rw [if_pos h2] at h
      have h2q : 1 < 2 * ((rem : ℚ) / D) := by
        rw [← mul_div_assoc, one_lt_div hDq]
        exact_mod_cast h2
      push_cast at h
      rcases abs_cases ((qt : ℚ) + 1 - (qt + (rem : ℚ) / D)) with ⟨h3, _⟩ | ⟨h3, _⟩ <;> linarith
    · rw [if_neg h2]
      by_cases h4 : qt % 2 = 0
      · rw [if_pos h4]
        exact h4
      · rw [if_neg h4]
        omega

/-- The fraction field of an assembled value has the parity of the integer. -/
theorem assemble_fraction_even (negative : Bool) (m : Nat) (s : Int) (hm : m % 2 = 0) :
    (assemble negative m s).fraction % 2 = 0 := by
  unfold assemble
  by_cases h1 : m < 2 ^ 52
  · rw [if_pos h1]
    exact hm
  · rw [if_neg h1]
    by_cases h2 : m < 2 ^ 53
    · rw [if_pos h2]
      simp only
      omega
    · rw [if_neg h2]
      rfl

/-- The rounding is to even: when a finite value with another value is as near
to the fraction as the rounding, the fraction field of the rounding is even. -/
theorem round_ties_even (num den : Nat) (hd : 0 < den)
    (hfin : (round false num den).exponent < 2047) (y : Binary64) (hy : y.isFinite)
    (hne : y.toRat ≠ (round false num den).toRat)
    (htie : |y.toRat - (num : ℚ) / den| = |(round false num den).toRat - (num : ℚ) / den|) :
    (round false num den).fraction % 2 = 0 := by
  by_cases hn : num = 0
  · subst hn
    simp [round]
  · have hn' : 0 < num := Nat.pos_of_ne_zero hn
    obtain ⟨-, hxs, hxm⟩ := round_value num den hn' hd hfin
    obtain ⟨hs1, hs2, hs3⟩ := shift_spec num den hn' hd
    have hq := scaled_unit num den hd (shift num den) hs1
    have hD : 0 < den * 2 ^ (-(shift num den)).toNat := by positivity
    rw [← scaled_eq num den hd] at hs2 hs3
    have hx : (round false num den).toRat = (round false num den).magnitude := by
      unfold toRat
      rw [hxs]
      rfl
    rw [hx, hxm] at hne htie
    have hnear := nearestEven_nearest (num * 2 ^ (shift num den).toNat)
      (den * 2 ^ (-(shift num den)).toNat) hD
    have hhalf := nearestEven_half (num * 2 ^ (shift num den).toNat)
      (den * 2 ^ (-(shift num den)).toNat) hD
    have htieEven := nearestEven_tie (num * 2 ^ (shift num den).toNat)
      (den * 2 ^ (-(shift num den)).toNat) hD
    -- the rounding is the assembled value
    have hround : round false num den
        = assemble false (nearestEven (num * 2 ^ (shift num den).toNat)
            (den * 2 ^ (-(shift num den)).toNat)) (shift num den) := by
      have hfin' := hfin
      unfold round at hfin' ⊢
      rw [if_neg hn] at hfin' ⊢
      simp only at hfin' ⊢
      split
      · rfl
      · rename_i hx'
        rw [if_neg hx'] at hfin'
        exact absurd hfin' (by decide)
    rw [hround]
    apply assemble_fraction_even
    apply htieEven
    -- the distance is half a unit
    generalize hw : ((2 : ℚ) ^ (1074 - shift num den).toNat / 2 ^ 1074) = w at hq hne htie
    have hwpos : 0 < w := by rw [← hw]; exact unit_pos _
    generalize hm : (nearestEven (num * 2 ^ (shift num den).toNat)
      (den * 2 ^ (-(shift num den)).toNat) : ℚ) = m at hne htie hnear hhalf ⊢
    have hm0 : 0 ≤ m := by rw [← hm]; positivity
    generalize ht : ((num * 2 ^ (shift num den).toNat : ℕ) : ℚ)
      / ((den * 2 ^ (-(shift num den)).toNat : ℕ) : ℚ) = t at hq hnear hhalf hs2 hs3 ⊢
    have ht0 : 0 ≤ t := by rw [← ht]; positivity
    rw [hq] at htie
    have hright : |m * w - t * w| = w * |m - t| := by
      rw [← sub_mul, abs_mul, abs_of_pos hwpos, mul_comm]
    rw [hright] at htie
    have hymag := magnitude_nonneg y
    apply le_antisymm hhalf
    by_cases hys : y.sign = true
    · -- a negative value: the tie is with zero
      have hyr : y.toRat = -y.magnitude := by unfold toRat; rw [if_pos hys]
      rw [hyr] at htie hne
      have h0 := hnear 0
      simp only [Int.cast_zero, zero_sub, abs_neg, abs_of_nonneg ht0] at h0
      have htw : 0 ≤ t * w := mul_nonneg ht0 hwpos.le
      have habs : |(-y.magnitude) - t * w| = y.magnitude + t * w := by
        rw [abs_of_nonpos (by linarith)]
        ring
      rw [habs] at htie
      have h1 : w * |m - t| ≤ w * t := mul_le_mul_of_nonneg_left h0 hwpos.le
      have hmag0 : y.magnitude = 0 := by nlinarith
      have hmt : |m - t| = t := by
        have : w * |m - t| = w * t := by rw [← htie, hmag0]; ring
        exact mul_left_cancel₀ hwpos.ne' this
      have hmne : m ≠ 0 := by
        intro h
        apply hne
        rw [hmag0, h]
        ring
      -- m is a positive integer at distance t from t, and at most 1/2 from it
      have hm1 : 1 ≤ m := by
        rw [← hm] at hmne ⊢
        have : nearestEven (num * 2 ^ (shift num den).toNat)
            (den * 2 ^ (-(shift num den)).toNat) ≠ 0 := by
          intro h; apply hmne; rw [h]; rfl
        exact_mod_cast Nat.one_le_iff_ne_zero.2 this
      rcases abs_cases (m - t) with ⟨h3, _⟩ | ⟨h3, _⟩ <;> linarith
    · have hyr : y.toRat = y.magnitude := by unfold toRat; rw [if_neg hys]
      rw [hyr] at htie hne
      rcases magnitude_unit y hy (1074 - shift num den).toNat with ⟨k, hk⟩ | ⟨hu, hlt⟩
      · rw [hw] at hk
        rw [hk, ← sub_mul, abs_mul, abs_of_pos hwpos, mul_comm] at htie
        have hkt : |(k : ℚ) - t| = |m - t| := mul_left_cancel₀ hwpos.ne' htie
        have hkm : (k : ℚ) ≠ m := by
          intro h
          apply hne
          rw [hk, h]
        -- two different integers equally near to t are one unit apart at least
        have hint : (1 : ℚ) ≤ |(k : ℚ) - m| := by
          rw [← hm] at hkm ⊢
          have hkn : (k : ℤ) ≠ (nearestEven (num * 2 ^ (shift num den).toNat)
              (den * 2 ^ (-(shift num den)).toNat) : ℤ) := by
            intro h
            apply hkm
            exact_mod_cast h
          have : (1 : ℤ) ≤ |(k : ℤ) - (nearestEven (num * 2 ^ (shift num den).toNat)
              (den * 2 ^ (-(shift num den)).toNat) : ℤ)| :=
            Int.one_le_abs (sub_ne_zero.2 hkn)
          exact_mod_cast this
        rcases abs_cases ((k : ℚ) - t) with ⟨h3, _⟩ | ⟨h3, _⟩ <;>
          rcases abs_cases (m - t) with ⟨h4, _⟩ | ⟨h4, _⟩ <;>
          rcases abs_cases ((k : ℚ) - m) with ⟨h5, _⟩ | ⟨h5, _⟩ <;>
          linarith
      · exfalso
        rw [hw] at hlt
        have hslt : shift num den < 1074 := by omega
        have ht52 := hs3 hslt
        have h52 : |m - t| ≤ t - 2 ^ 52 := by
          have h := hnear ((2 : ℤ) ^ 52)
          have hcast : (((2 : ℤ) ^ 52 : ℤ) : ℚ) = 2 ^ 52 := by push_cast; rfl
          rw [hcast, abs_sub_comm (2 ^ 52) t,
            abs_of_nonneg (show (0 : ℚ) ≤ t - 2 ^ 52 by linarith)] at h
          exact h
        have h1 : t * w - y.magnitude ≤ |y.magnitude - t * w| := by
          have := neg_le_abs (y.magnitude - t * w)
          linarith
        have h2 : w * (t - 2 ^ 52) = t * w - 2 ^ 52 * w := by ring
        have h3 : w * |m - t| ≤ w * (t - 2 ^ 52) := mul_le_mul_of_nonneg_left h52 hwpos.le
        linarith

end Binary64

/-! ## Claims -/

/-- C1. For each of the four platform Feeds and every Feed state (and every
clock year), `Check` returns an error exactly when `isGet` is false: then the
error is "feed not got" with a nil list whatever `Data` holds, and with `isGet`
true it returns a list and a nil error whatever `Data` holds. -/
theorem C1_check_errors_iff_not_fetched (year : Int) (fa : avito.Feed) (fc : cian.Feed)
    (fd : domclick.Feed) (fr : realty.Feed) :
    CheckContract fa.isGet (avito.Check fa) ∧
    CheckContract fc.isGet (cian.Check year fc) ∧
    CheckContract fd.isGet (domclick.Check year fd) ∧
    CheckContract fr.isGet (realty.Check year fr) :=
  ⟨avito_check_contract fa, cian_check_contract year fc,
    domclick_check_contract year fd, realty_check_contract year fr⟩

/-- C2. For every fetched Avito, CIAN or Realty Feed whose listing list
(`Data.Ad`, `Data.Object`, `Data.Offer`) has length 0 or 1, `Check` returns
exactly the one-element list ["feed is empty"] and a nil error. -/
theorem C2_short_feed_is_empty (year : Int) (fa : avito.Feed) (fc : cian.Feed)
    (fr : realty.Feed)
    (ha : fa.isGet = true) (hc : fc.isGet = true) (hr : fr.isGet = true)
    (hla : fa.Data.Ad.length ≤ 1) (hlc : fc.Data.Object.length ≤ 1)
    (hlr : fr.Data.Offer.length ≤ 1) :
    avito.Check fa = (some ["feed is empty"], none) ∧
    cian.Check year fc = (some ["feed is empty"], none) ∧
    realty.Check year fr = (some ["feed is empty"], none) := by
  refine ⟨?_, ?_, ?_⟩
  · have h : fa.Data.Ad.length < 2 := by omega
    simp [avito.Check, ha, h, validation.MsgEmptyFeed]
  · have h : fc.Data.Object.length < 2 := by omega
    simp [cian.Check, hc, h, validation.MsgEmptyFeed]
  · have h : fr.Data.Offer.length < 2 := by omega
    simp [realty.Check, hr, h, validation.MsgEmptyFeed]

/-- Witness of C2: an Avito feed with one ad, a CIAN feed with no object and a
Realty feed with one offer, all fetched. -/
theorem C2_short_feed_is_empty_witness :
    avito.Check { isGet := true, Data := { Ad := [{ ID := "a1" }] } }
        = (some ["feed is empty"], none) ∧
    cian.Check 2024 { isGet := true } = (some ["feed is empty"], none) ∧
    realty.Check 2024 { isGet := true, Data := { Offer := [{ InternalID := "r1" }] } }
        = (some ["feed is empty"], none) :=
  C2_short_feed_is_empty 2024 _ _ _ rfl rfl rfl (by decide) (by decide) (by decide)

/-- C3 fails as stated: the guard of the DomClick `Check` counts buildings, not
flats.  A fetched feed with two buildings and no flat at all does not get
["feed is empty"], and a fetched feed with one building of three flats does. -/
theorem C3_guard_counts_buildings :
    domclick.flatCount domclick.noFlatFeed = 0 ∧
    domclick.Check 2024 domclick.noFlatFeed ≠ (some ["feed is empty"], none) ∧
    domclick.flatCount domclick.oneBuildingFeed = 3 ∧
    domclick.Check 2024 domclick.oneBuildingFeed = (some ["feed is empty"], none) := by
  refine ⟨by decide, by decide, by decide, by decide⟩

/-- C3, amended. For every fetched DomClick Feed whose number of buildings is
0 or 1, `Check` returns exactly ["feed is empty"]; and for every fetched
DomClick Feed with at least two buildings, `Check` returns a list that is not
["feed is empty"] and does not contain that message. -/
theorem C3_empty_iff_few_buildings (year : Int) (f : domclick.Feed) (hget : f.isGet = true) :
    (f.Data.Complex.Buildings.Building.length ≤ 1 →
      domclick.Check year f = (some ["feed is empty"], none)) ∧
    (2 ≤ f.Data.Complex.Buildings.Building.length →
      ∃ rs, domclick.Check year f = (some rs, none) ∧
        rs ≠ ["feed is empty"] ∧ "feed is empty" ∉ rs) := by
  constructor
  · intro hlen
    have h : f.Data.Complex.Buildings.Building.length < 2 := by omega
    simp [domclick.Check, hget, h, validation.MsgEmptyFeed]
  · intro hlen
    have hnot : "feed is empty" ∉ domclick.complexMessages year f.Data.Complex := fun hm =>
      domclick.complexMessages_not_feed year f.Data.Complex _ hm (by decide)
    refine ⟨_, domclick.Check_many_buildings year f hget hlen, ?_, hnot⟩
    intro heq
    rw [heq] at hnot
    exact hnot (List.mem_singleton_self _)

/-- Witness of C3 (amended): one building of three flats, and two buildings
without flats. -/
theorem C3_empty_iff_few_buildings_witness :
    domclick.Check 2024 domclick.oneBuildingFeed = (some ["feed is empty"], none) ∧
    ∃ rs, domclick.Check 2024 domclick.noFlatFeed = (some rs, none) ∧
      rs ≠ ["feed is empty"] ∧ "feed is empty" ∉ rs :=
  ⟨(C3_empty_iff_few_buildings 2024 domclick.oneBuildingFeed rfl).1 (by decide),
   (C3_empty_iff_few_buildings 2024 domclick.noFlatFeed rfl).2 (by decide)⟩

/-- C4. For every fetched Avito or CIAN Feed with N listings, 2 <= N <= 10,
`Check` returns exactly the one-element list ["feed contains only N items"]
(N in decimal) and a nil error: the result is determined by N alone, whatever
the listings contain. -/
theorem C4_small_feed_reports_count (year : Int) (fa : avito.Feed) (fc : cian.Feed)
    (ha : fa.isGet = true) (hc : fc.isGet = true)
    (hla : 2 ≤ fa.Data.Ad.length ∧ fa.Data.Ad.length ≤ 10)
    (hlc : 2 ≤ fc.Data.Object.length ∧ fc.Data.Object.length ≤ 10) :
    avito.Check fa
      = (some ["feed contains only " ++ toString fa.Data.Ad.length ++ " items"], none) ∧
    cian.Check year fc
      = (some ["feed contains only " ++ toString fc.Data.Object.length ++ " items"], none) := by
  refine ⟨?_, ?_⟩
  · have h1 : ¬ fa.Data.Ad.length < 2 := by omega
    simp [avito.Check, ha, h1, hla.2]
  · have h1 : ¬ fc.Data.Object.length < 2 := by omega
    simp [cian.Check, hc, h1, hlc.2]

/-- Witness of C4: an Avito feed of three ads with empty fields and a CIAN
feed of ten objects; the results are the count messages for 3 and 10. -/
theorem C4_small_feed_reports_count_witness :
    avito.Check { isGet := true, Data := { Ad := List.replicate 3 {} } }
        = (some ["feed contains only 3 items"], none) ∧
    cian.Check 2024 { isGet := true, Data := { Object := List.replicate 10 {} } }
        = (some ["feed contains only 10 items"], none) :=
  C4_small_feed_reports_count 2024
    { isGet := true, Data := { Ad := List.replicate 3 {} } }
    { isGet := true, Data := { Object := List.replicate 10 {} } }
    rfl rfl (by decide) (by decide)

/-- C5 fails as stated: the Realty `Check` has no count guard.  On a fetched
feed of two valid offers it returns the empty list, and on a fetched feed of
two blank offers it returns 52 messages of the per-offer checks, among them
"field offer.Type is empty. InternalID not found"; neither result is the count
message. -/
theorem C5_realty_has_no_count_guard :
    realty.Check 2024 realty.sampleFeed = (some [], none) ∧
    ∃ rs, realty.Check 2024 realty.blankFeed = (some rs, none) ∧ rs.length = 52 ∧
      "field offer.Type is empty. InternalID not found" ∈ rs ∧
      "feed contains only 2 items" ∉ rs := by
  refine ⟨by decide, _, rfl, by decide, by decide, by decide⟩

/-- C5, amended. For every fetched Realty Feed with N offers, 2 <= N <= 10,
`Check` runs the per-offer checks: its result is the concatenation, in offer
order, of the message lists of the offers, and the count message
"feed contains only N items" is not in it. -/
theorem C5_realty_small_feed_checked (year : Int) (f : realty.Feed)
    (hget : f.isGet = true)
    (hlen : 2 ≤ f.Data.Offer.length ∧ f.Data.Offer.length ≤ 10) :
    ∃ rs, realty.Check year f = (some rs, none) ∧
      rs = f.Data.Offer.enum.flatMap (fun p => realty.lotMessages year p.1 p.2) ∧
      ("feed contains only " ++ toString f.Data.Offer.length ++ " items") ∉ rs := by
  refine ⟨_, realty.Check_many_offers year f hget hlen.1, rfl, ?_⟩
  intro hm
  have h := realty.messages_not_feed year f.Data.Offer _ hm
  exact h (feed_count_startsWith _)

/-- Witness of C5 (amended): the feed of two blank offers. -/
theorem C5_realty_small_feed_checked_witness :
    ∃ rs, realty.Check 2024 realty.blankFeed = (some rs, none) ∧
      rs = realty.blankFeed.Data.Offer.enum.flatMap
        (fun p => realty.lotMessages 2024 p.1 p.2) ∧
      ("feed contains only " ++ toString realty.blankFeed.Data.Offer.length ++ " items") ∉ rs :=
  C5_realty_small_feed_checked 2024 realty.blankFeed rfl (by decide)

/-- C6. For every fetched Avito Feed with more than 10 ads, every required
string field F and every non-empty identifier `id`: the result of `Check`
contains "field Ad.F is empty. InternalID: <id>" if and only if some ad with
identifier `id` has an empty F.  In particular an ad with a non-empty ID and an
empty F yields the message whatever its other fields hold. -/
theorem C6_required_string_message (f : avito.Feed) (hget : f.isGet = true)
    (hlen : 10 < f.Data.Ad.length) (F : avito.RequiredString) (id : String)
    (hid : id ≠ "") :
    ∃ rs, avito.Check f = (some rs, none) ∧
      (avito.requiredMsg F id ∈ rs ↔ ∃ lot ∈ f.Data.Ad, lot.ID = id ∧ F.value lot = "") := by
  refine ⟨_, avito.Check_large f hget hlen, ?_⟩
  rw [List.mem_flatMap]
  constructor
  · rintro ⟨p, hp, hm⟩
    have hmem : p.2 ∈ f.Data.Ad := by
      have := List.mem_enum hp
      rw [this.2]
      exact List.getElem_mem _
    exact ⟨p.2, hmem, (avito.requiredMsg_mem_lotMessages F id hid p.1 p.2).1 hm⟩
  · rintro ⟨lot, hlot, h⟩
    obtain ⟨i, hi, rfl⟩ := List.getElem_of_mem hlot
    refine ⟨(i, f.Data.Ad[i]), ?_, (avito.requiredMsg_mem_lotMessages F id hid i _).2 h⟩
    exact List.mk_mem_enum_iff_getElem?.2 (List.getElem?_eq_getElem hi)

/-- Witness of C6: in the sample feed the ad "A7" has no contact phone. -/
theorem C6_required_string_message_witness :
    ∃ rs, avito.Check avito.sampleFeed = (some rs, none) ∧
      (avito.requiredMsg avito.RequiredString.ContactPhone "A7" ∈ rs ↔
        ∃ lot ∈ avito.sampleFeed.Data.Ad,
          lot.ID = "A7" ∧ avito.RequiredString.ContactPhone.value lot = "") :=
  C6_required_string_message avito.sampleFeed rfl (by decide)
    avito.RequiredString.ContactPhone "A7" (by decide)

/-- C7 fails as stated: in the sample feed every ad has a non-empty ID, and the
result holds the message "field Images.Image[0].URL is empty", produced for an
image of the ad "A7"; the identifier of no ad of the feed occurs in it. -/
theorem C7_image_message_without_id :
    avito.sampleFeed.isGet = true ∧ 10 < avito.sampleFeed.Data.Ad.length ∧
    (∀ lot ∈ avito.sampleFeed.Data.Ad, lot.ID ≠ "") ∧
    avito.Check avito.sampleFeed
      = (some ["field Ad.ContactPhone is empty. InternalID: A7",
               "field Images.Image[0].URL is empty",
               "field Images.Image contains '2' items. InternalID: A7"], none) ∧
    (∀ lot ∈ avito.sampleFeed.Data.Ad,
      ¬ occursIn lot.ID "field Images.Image[0].URL is empty") := by
  refine ⟨rfl, by decide, by decide, by decide, by decide⟩

/-- C7, amended. For every fetched Avito Feed with more than 10 ads in which
every ad has a non-empty ID, every message of the result of `Check` belongs to
the message list of some ad of the feed and either contains the ID of that ad or
is the positional message "field Images.Image[j].URL is empty" of one of the
images of that ad. -/
theorem C7_messages_carry_id_except_images (f : avito.Feed) (hget : f.isGet = true)
    (hlen : 10 < f.Data.Ad.length) (hids : ∀ lot ∈ f.Data.Ad, lot.ID ≠ "") :
    ∃ rs, avito.Check f = (some rs, none) ∧
      ∀ m ∈ rs, ∃ p ∈ f.Data.Ad.enum, m ∈ avito.lotMessages p.1 p.2 ∧
        (occursIn p.2.ID m ∨ ∃ j, j < p.2.Images.Image.length ∧ m = avito.imageMsg j) := by
  refine ⟨_, avito.Check_large f hget hlen, ?_⟩
  intro m hm
  rw [List.mem_flatMap] at hm
  obtain ⟨p, hp, hmp⟩ := hm
  exact ⟨p, hp, hmp,
    avito.lotMessages_identified p.1 p.2 (hids p.2 (mem_of_mem_enum _ p hp)) m hmp⟩

/-- Witness of C7 (amended), on the sample feed. -/
theorem C7_messages_carry_id_except_images_witness :
    ∃ rs, avito.Check avito.sampleFeed = (some rs, none) ∧
      ∀ m ∈ rs, ∃ p ∈ avito.sampleFeed.Data.Ad.enum, m ∈ avito.lotMessages p.1 p.2 ∧
        (occursIn p.2.ID m ∨ ∃ j, j < p.2.Images.Image.length ∧ m = avito.imageMsg j) :=
  C7_messages_carry_id_except_images avito.sampleFeed rfl (by decide) (by decide)

/-- C8 fails as stated: in this feed the ad at index 10 has an empty ID, no
contact phone and no price.  Only the message of the ID field reports the
position; the string-presence message ends in "InternalID not found" and the
zero-check message in an empty identifier, and neither contains "10". -/
theorem C8_no_position_in_messages :
    avito.anonymousFeed.isGet = true ∧ 10 < avito.anonymousFeed.Data.Ad.length ∧
    avito.Check avito.anonymousFeed
      = (some ["field Ad[10].ID is empty",
               "field Ad.ContactPhone is empty. InternalID not found",
               "field Ad.Price is empty. InternalID: "], none) ∧
    ¬ occursIn (toString 10) "field Ad.ContactPhone is empty. InternalID not found" ∧
    ¬ occursIn (toString 10) "field Ad.Price is empty. InternalID: " := by
  refine ⟨rfl, by decide, by decide, by decide, by decide⟩

/-- C8, amended. For every fetched Avito Feed with more than 10 ads and every
ad whose ID is empty, at index `i`: the result of `Check` is the messages of the
ads before it, then "field Ad[i].ID is empty", then the list
`avito.anonymousMessages` of the ad, then the messages of the ads after it.  The
index is no input of `avito.anonymousMessages`: the position is reported in the
message of the ID field only.  Every string-presence check of the ad appends
nothing when its field is filled and otherwise the one text
"field Ad.F is empty. InternalID not found", which the result then holds and
which carries neither a position nor an identifier: it is the same for every
ad and holds no digit. -/
theorem C8_empty_id_messages (f : avito.Feed) (hget : f.isGet = true)
    (hlen : 10 < f.Data.Ad.length) (i : Nat) (lot : avito.Ad)
    (hmem : (i, lot) ∈ f.Data.Ad.enum) (hid : lot.ID = "") :
    ∃ rs, avito.Check f = (some rs, none) ∧
      rs = (f.Data.Ad.enum.take i).flatMap (fun p => avito.lotMessages p.1 p.2)
        ++ ("field Ad[" ++ toString i ++ "].ID is empty") :: avito.anonymousMessages lot
        ++ (f.Data.Ad.enum.drop (i + 1)).flatMap (fun p => avito.lotMessages p.1 p.2) ∧
      ∀ F : avito.RequiredString,
        (∀ results : List String,
          (validation.CheckStringWithID lot.ID "Ad" F.name (F.value lot) results).2
            = results ++ (if F.value lot = "" then
                ["field Ad." ++ F.name ++ " is empty. InternalID not found"] else [])) ∧
        (F.value lot = "" →
          ("field Ad." ++ F.name ++ " is empty. InternalID not found") ∈ rs) ∧
        (∀ c ∈ ("field Ad." ++ F.name ++ " is empty. InternalID not found").data,
          c.isDigit = false) := by
  refine ⟨_, avito.Check_large f hget hlen, ?_, ?_⟩
  · conv_lhs => rw [enum_split f.Data.Ad i lot hmem]
    rw [List.flatMap_append, List.flatMap_cons, avito.lotMessages_anonymous i lot hid]
    simp only [List.append_assoc, List.cons_append]
  · intro F
    refine ⟨?_, ?_, ?_⟩
    · intro results
      rw [validation.CheckStringWithID_eq, hid, validation.idFinding_empty_id]
      simp only [validation.notFoundFinding, String.append_assoc]
      rfl
    · intro hF
      rw [List.mem_flatMap]
      exact ⟨(i, lot), hmem, avito.not_found_mem_lotMessages F i lot hid hF⟩
    · cases F <;> decide

/-- Witness of C8 (amended): the last ad of the feed, at index 10. -/
theorem C8_empty_id_messages_witness :
    ∃ rs, avito.Check avito.anonymousFeed = (some rs, none) ∧
      rs = (avito.anonymousFeed.Data.Ad.enum.take 10).flatMap
            (fun p => avito.lotMessages p.1 p.2)
        ++ ("field Ad[" ++ toString 10 ++ "].ID is empty")
          :: avito.anonymousMessages { avito.sampleAd "" with ContactPhone := "", Price := 0 }
        ++ (avito.anonymousFeed.Data.Ad.enum.drop (10 + 1)).flatMap
            (fun p => avito.lotMessages p.1 p.2) ∧
      ∀ F : avito.RequiredString,
        (∀ results : List String,
          (validation.CheckStringWithID
              ({ avito.sampleAd "" with ContactPhone := "", Price := 0 } : avito.Ad).ID "Ad" F.name
              (F.value { avito.sampleAd "" with ContactPhone := "", Price := 0 }) results).2
            = results ++
              (if F.value { avito.sampleAd "" with ContactPhone := "", Price := 0 } = "" then
                ["field Ad." ++ F.name ++ " is empty. InternalID not found"] else [])) ∧
        (F.value { avito.sampleAd "" with ContactPhone := "", Price := 0 } = "" →
          ("field Ad." ++ F.name ++ " is empty. InternalID not found") ∈ rs) ∧
        (∀ c ∈ ("field Ad." ++ F.name ++ " is empty. InternalID not found").data,
          c.isDigit = false) :=
  C8_empty_id_messages avito.anonymousFeed rfl (by decide) 10
    { avito.sampleAd "" with ContactPhone := "", Price := 0 } (by decide) rfl

/-- C10. For every fetched Avito Feed with more than 10 ads, the result of
`Check` is the concatenation, in ad order, of the per-ad message lists
`avito.lotMessages i ad`, each a function of the index and the ad alone that
lists the triggered checks in the fixed check order; the loop of the source,
which threads one result list through every check, suppresses nothing. -/
theorem C10_result_is_concatenation (f : avito.Feed) (hget : f.isGet = true)
    (hlen : 10 < f.Data.Ad.length) :
    avito.Check f
      = (some (f.Data.Ad.enum.flatMap (fun p => avito.lotMessages p.1 p.2)), none) :=
  avito.Check_large f hget hlen

/-- Witness of C10: on the sample feed the ten valid ads contribute nothing and
the last ad contributes its three messages, in check order. -/
theorem C10_result_is_concatenation_witness :
    avito.Check avito.sampleFeed
      = (some (avito.sampleFeed.Data.Ad.enum.flatMap (fun p => avito.lotMessages p.1 p.2)),
          none) ∧
    avito.sampleFeed.Data.Ad.enum.flatMap (fun p => avito.lotMessages p.1 p.2)
      = ["field Ad.ContactPhone is empty. InternalID: A7",
         "field Images.Image[0].URL is empty",
         "field Images.Image contains '2' items. InternalID: A7"] :=
  ⟨C10_result_is_concatenation avito.sampleFeed rfl (by decide), by decide⟩

/-- C11 fails as stated for a Feed fetched before: `Get` never clears the
fetched flag.  On the fetched Avito sample feed, with an upstream that answers
the probe with "404 Not Found", `Get` returns the wrapped probe error and the
Feed keeps `isGet = true`; the following `Check` succeeds on the data the Feed
still holds. -/
theorem C11_failed_get_after_fetch :
    Env.answersNon200 (Env.answering Response.notFound Response.notFound) 0
      avito.fetchedFeed.url ∧
    ∃ r, avito.Get (Env.answering Response.notFound Response.notFound)
        avito.sampleParse avito.fetchedFeed = .ok r ∧
      r.err = some "can't get feed info. Error:feed not availible. Status:404 Not Found" ∧
      r.feed.isGet = true ∧
      avito.Check r.feed
        = (some ["field Ad.ContactPhone is empty. InternalID: A7",
                 "field Images.Image[0].URL is empty",
                 "field Images.Image contains '2' items. InternalID: A7"], none) :=
  ⟨Or.inl ⟨Response.notFound, rfl, by decide⟩, _, rfl, rfl, rfl, by decide⟩

/-- C11, amended. For Avito, CIAN and Realty Feeds with a client, in any prior
state: if the upstream answers the header probe or the body fetch with a
status other than 200, `Get` returns an error and leaves the fetched flag as it
was.  A Feed that was not fetched stays unfetched and the following `Check`
fails with "feed not got"; a Feed that was fetched stays fetched and the
following `Check` returns a list. -/
theorem C11_failed_get_keeps_flag (env : Env) (year : Int) (c : Nat)
    (pa : String → Except String avito.Document) (pc : String → Except String cian.Document)
    (pr : String → Except String realty.Document)
    (fa : avito.Feed) (fc : cian.Feed) (fr : realty.Feed)
    (hca : fa.client = some c) (hcc : fc.client = some c) (hcr : fr.client = some c)
    (hna : env.answersNon200 c fa.url) (hnc : env.answersNon200 c fc.url)
    (hnr : env.answersNon200 c fr.url) :
    (∃ r e, avito.Get env pa fa = .ok r ∧ r.err = some e ∧ r.feed.isGet = fa.isGet ∧
      CheckContract fa.isGet (avito.Check r.feed)) ∧
    (∃ r e, cian.Get env pc fc = .ok r ∧ r.err = some e ∧ r.feed.isGet = fc.isGet ∧
      CheckContract fc.isGet (cian.Check year r.feed)) ∧
    (∃ r e, realty.Get env pr fr = .ok r ∧ r.err = some e ∧ r.feed.isGet = fr.isGet ∧
      CheckContract fr.isGet (realty.Check year r.feed)) := by
  refine ⟨?_, ?_, ?_⟩
  · obtain ⟨r, e, hr, he, hg⟩ := avito_Get_fails env pa fa c hca hna
    exact ⟨r, e, hr, he, hg, hg ▸ avito_check_contract r.feed⟩
  · obtain ⟨r, e, hr, he, hg⟩ := cian_Get_fails env pc fc c hcc hnc
    exact ⟨r, e, hr, he, hg, hg ▸ cian_check_contract year r.feed⟩
  · obtain ⟨r, e, hr, he, hg⟩ := realty_Get_fails env pr fr c hcr hnr
    exact ⟨r, e, hr, he, hg, hg ▸ realty_check_contract year r.feed⟩

/-- Witness of C11 (amended): three Feeds with a client that were never fetched
and an upstream that answers every request with "404 Not Found". -/
theorem C11_failed_get_keeps_flag_witness :
    (∃ r e, avito.Get (Env.answering Response.notFound Response.notFound)
        avito.sampleParse { client := some 0 } = .ok r ∧ r.err = some e ∧
      r.feed.isGet = false ∧ CheckContract false (avito.Check r.feed)) ∧
    (∃ r e, cian.Get (Env.answering Response.notFound Response.notFound)
        (fun _ => .error "EOF") { client := some 0 } = .ok r ∧ r.err = some e ∧
      r.feed.isGet = false ∧ CheckContract false (cian.Check 2024 r.feed)) ∧
    (∃ r e, realty.Get (Env.answering Response.notFound Response.notFound)
        (fun _ => .error "EOF") { client := some 0 } = .ok r ∧ r.err = some e ∧
      r.feed.isGet = false ∧ CheckContract false (realty.Check 2024 r.feed)) :=
  C11_failed_get_keeps_flag (Env.answering Response.notFound Response.notFound) 2024 0
    avito.sampleParse (fun _ => .error "EOF") (fun _ => .error "EOF")
    { client := some 0 } { client := some 0 } { client := some 0 } rfl rfl rfl
    (Or.inl ⟨Response.notFound, rfl, by decide⟩)
    (Or.inl ⟨Response.notFound, rfl, by decide⟩)
    (Or.inl ⟨Response.notFound, rfl, by decide⟩)

/-- C13 fails as stated: the DomClick `Get` sends no header probe and wraps no
error.  With an upstream that would answer a HEAD with "404 Not Found" and
answers the GET with "200 OK", `Get` succeeds after the single GET; with an
upstream that answers the GET with "404 Not Found", the error of the transport
is returned as it is, without "can't get feed data". -/
theorem C13_domclick_get_has_no_probe :
    (∃ r, domclick.Get (Env.answering Response.notFound (Response.okWith ""))
        (fun _ d => (d, none)) { client := some 0 } = .ok r ∧
      r.err = none ∧ r.sent = [("GET", "")] ∧ r.feed.isGet = true) ∧
    (∃ r, domclick.Get (Env.answering (Response.okWith "") Response.notFound)
        (fun _ d => (d, none)) { client := some 0 } = .ok r ∧
      r.err = some "feed not availible. Status:404 Not Found" ∧ r.sent = [("GET", "")] ∧
      r.feed.isGet = false) :=
  ⟨⟨_, rfl, rfl, rfl, rfl⟩, ⟨_, rfl, rfl, rfl, rfl⟩⟩

/-- C13, amended. For a DomClick Feed with a client, `Get` sends no header
probe: the only request it sends is the GET of the body fetch.  A failure of the
body fetch is returned as it is, unwrapped, and leaves the Feed as it was.
After a successful fetch the `Last-Modified` header of the GET response is read:
when it is present and its date does not parse, the error of `time.Parse` is
returned as it is and the Feed is left as it was; otherwise the Feed takes the
parsed date (or keeps its own when the header is absent), the body is read and
decoded, and the read error or the error of `xml.Unmarshal` is returned as it
is.  `Get` returns nil exactly when none of these steps fails, and marks the
Feed fetched then and only then. -/
theorem C13_domclick_get_sequence (env : Env)
    (unmarshal : String → domclick.Data → domclick.Data × Option String)
    (f : domclick.Feed) (c : Nat) (hc : f.client = some c) :
    ∃ g r, transport.GetResponse env f.client f.url = .ok g ∧
      domclick.Get env unmarshal f = .ok r ∧
      r.sent = g.sent ∧ (∀ q ∈ r.sent, q = ("GET", f.url)) ∧
      (∀ e, g.err = some e → r.err = some e ∧ r.feed = f) ∧
      (g.err = none → ∃ resp, g.response = some resp ∧
        (∀ e, resp.Header.Get "Last-Modified" ≠ "" →
          env.ParseRFC1123 (resp.Header.Get "Last-Modified") = .error e →
          r.err = some e ∧ r.feed = f) ∧
        (∀ t, (resp.Header.Get "Last-Modified" = "" ∧ t = f.LastModified) ∨
            (resp.Header.Get "Last-Modified" ≠ "" ∧
              env.ParseRFC1123 (resp.Header.Get "Last-Modified") = .ok t) →
          (∀ e, resp.Body = .error e →
            r.err = some e ∧ r.feed = { f with LastModified := t }) ∧
          (∀ body, resp.Body = .ok body →
            r.err = (unmarshal body f.Data).2 ∧
            r.feed = { f with LastModified := t, Data := (unmarshal body f.Data).1,
                              isGet := f.isGet || (unmarshal body f.Data).2.isNone }))) ∧
      (r.err = none → r.feed.isGet = true) ∧
      (r.err ≠ none → r.feed.isGet = f.isGet) := by
  obtain ⟨g, hg, hok, hsent, -⟩ := transport.GetResponse_some env c f.url
  rw [← hc] at hg
  cases hgerr : g.err with
  | some e =>
    have hget : domclick.Get env unmarshal f = .ok ⟨some e, f, g.sent⟩ := by
      simp [domclick.Get, hg, hgerr]
    refine ⟨g, _, hg, hget, rfl, ?_, ?_, by simp [hgerr], by simp, by simp⟩
    · intro q hq
      rcases hsent e hgerr with h | h <;> simp_all
    · intro e' he'
      rw [hgerr] at he'
      cases he'
      exact ⟨rfl, rfl⟩
  | none =>
    obtain ⟨resp, hresp, -, -, -, hgs⟩ := hok hgerr
    have hget : domclick.Get env unmarshal f
        = .ok (domclick.Get.finish env unmarshal resp f g.sent) := by
      simp [domclick.Get, hg, hgerr, hresp]
    obtain ⟨hfs, hferr, hfok⟩ := domclick_finish_spec env unmarshal resp f g.sent
    refine ⟨g, _, hg, hget, hfs, ?_, by simp [hgerr], ?_, hfok, hferr⟩
    · intro q hq
      rw [hfs, hgs] at hq
      simpa using hq
    · intro _
      refine ⟨resp, hresp, ?_, ?_⟩
      · intro e hne hparse
        simp [domclick.Get.finish, transport.HeaderLastModified, hne, hparse]
      · intro t ht
        refine ⟨?_, ?_⟩
        · intro e hbody
          rcases ht with ⟨h0, rfl⟩ | ⟨hne, hparse⟩
          · simp [domclick.Get.finish, transport.HeaderLastModified, h0, hbody]
          · simp [domclick.Get.finish, transport.HeaderLastModified, hne, hparse, hbody]
        · intro body hbody
          rcases ht with ⟨h0, rfl⟩ | ⟨hne, hparse⟩
          · cases hu : (unmarshal body f.Data).2 <;>
              simp [domclick.Get.finish, transport.HeaderLastModified, h0, hbody, hu]
          · cases hu : (unmarshal body f.Data).2 <;>
              simp [domclick.Get.finish, transport.HeaderLastModified, hne, hparse, hbody, hu]

/-- Witness of C13 (amended): a Feed with a client and an upstream that answers
the GET with "200 OK". -/
theorem C13_domclick_get_sequence_witness :
    ∃ g r, transport.GetResponse (Env.answering Response.notFound (Response.okWith ""))
        (some 0) "" = .ok g ∧
      domclick.Get (Env.answering Response.notFound (Response.okWith ""))
        (fun _ d => (d, none)) { client := some 0 } = .ok r ∧
      r.sent = g.sent ∧ (∀ q ∈ r.sent, q = ("GET", "")) ∧
      (r.err = none → r.feed.isGet = true) :=
  (C13_domclick_get_sequence (Env.answering Response.notFound (Response.okWith ""))
      (fun _ d => (d, none)) { client := some 0 } 0 rfl).elim
    (fun g h => h.elim (fun r hr => ⟨g, r, hr.1, hr.2.1, hr.2.2.1, hr.2.2.2.1,
      hr.2.2.2.2.2.2.1⟩))

/-- C14 fails as stated: `Get` decodes into the `Data` the Feed holds, and
`xml.Unmarshal` extends a slice it finds.  A first `Get` of a payload with the
ad "old" and a second `Get` of a payload with the one ad "new" both succeed, and
the Feed then holds two ads, "old" and "new". -/
theorem C14_second_get_appends :
    ∃ r1 r2,
      avito.Get (Env.answering (Response.okWith "") (Response.okWith "old"))
        avito.sampleParse { client := some 0 } = .ok r1 ∧ r1.err = none ∧
      r1.feed.Data.Ad = [avito.sampleAd "old"] ∧
      avito.Get (Env.answering (Response.okWith "") (Response.okWith "new"))
        avito.sampleParse r1.feed = .ok r2 ∧ r2.err = none ∧
      r2.feed.Data.Ad = [avito.sampleAd "old", avito.sampleAd "new"] ∧
      avito.Check r2.feed = (some ["feed contains only 2 items"], none) :=
  ⟨_, _, rfl, rfl, rfl, rfl, rfl, rfl, by decide⟩

/-- C14, amended. `Get` does not reset `Data`: for an Avito Feed with a client
that holds decoded data, a successful `Get` of a payload with k ads leaves
`Data.Ad` holding the ads it held before followed by those k ads, in order, and
marks the Feed fetched; so `Check` after the second `Get` depends on both
payloads. -/
theorem C14_get_appends_ads (env : Env) (parse : String → Except String avito.Document)
    (f : avito.Feed) (c : Nat) (hc : f.client = some c)
    (r : Returned avito.Feed) (hr : avito.Get env parse f = .ok r) (hnil : r.err = none) :
    ∃ resp body doc, env.Do c "GET" f.url = .ok resp ∧ resp.Body = .ok body ∧
      parse body = .ok doc ∧
      r.feed.Data.Ad = f.Data.Ad ++ doc.Ad ∧
      r.feed.Data.Ad.length = f.Data.Ad.length + doc.Ad.length ∧
      r.feed.isGet = true := by
  obtain ⟨i, hi, ⟨t, ht⟩, -, -, -, hfail, hnext⟩ := avito_Get_some env parse f c hc
  have hdata : i.feed.Data = f.Data := by rw [ht]
  cases hierr : i.err with
  | some e =>
    rw [hfail e hierr] at hr
    cases hr
    simp at hnil
  | none =>
    obtain ⟨g, -, -, -, hgfail, hgnext⟩ := hnext hierr
    cases hgerr : g.err with
    | some e =>
      rw [hgfail e hgerr] at hr
      cases hr
      simp at hnil
    | none =>
      obtain ⟨resp, -, hdo, -, hget⟩ := hgnext hgerr
      rw [hget] at hr
      cases hr
      obtain ⟨-, -, -, hfok⟩ := avito_finish_spec parse resp i.feed (i.sent ++ g.sent)
      obtain ⟨hflag, body, doc, hb, hp, hAd⟩ := hfok hnil
      rw [hdata] at hAd
      exact ⟨resp, body, doc, hdo, hb, hp, hAd, by rw [hAd, List.length_append], hflag⟩

/-- Witness of C14 (amended): the Avito sample feed of eleven ads, with a
client, and a successful `Get` of a payload with one ad. -/
theorem C14_get_appends_ads_witness :
    ∃ resp body doc,
      (Env.answering (Response.okWith "") (Response.okWith "new")).Do 0 "GET"
        avito.fetchedFeed.url = .ok resp ∧
      resp.Body = .ok body ∧ avito.sampleParse body = .ok doc ∧
      (avito.Get.finish avito.sampleParse (Response.okWith "new") avito.fetchedFeed
        [("HEAD", ""), ("GET", "")]).feed.Data.Ad = avito.fetchedFeed.Data.Ad ++ doc.Ad ∧
      (avito.Get.finish avito.sampleParse (Response.okWith "new") avito.fetchedFeed
        [("HEAD", ""), ("GET", "")]).feed.Data.Ad.length
          = avito.fetchedFeed.Data.Ad.length + doc.Ad.length ∧
      (avito.Get.finish avito.sampleParse (Response.okWith "new") avito.fetchedFeed
        [("HEAD", ""), ("GET", "")]).feed.isGet = true :=
  C14_get_appends_ads (Env.answering (Response.okWith "") (Response.okWith "new"))
    avito.sampleParse avito.fetchedFeed 0 rfl _ rfl rfl

/-- C15 fails as stated, in two ways.  The decoder does not remove spaces:
"1 234,50" becomes "1 234.50", which `ParseFloat` refuses because of the space;
the decoder returns that error and the value, 7 here, stays as it was.  And the
decoded value is a `float64`, not the number the text writes: "0,1" decodes
without error to the value with the bits 0x3FB999999999999A, which is
3602879701896397 / 2 ^ 55 and not 1/10. -/
theorem C15_space_is_not_removed :
    cian.CustomFloat64.UnmarshalXML { exponent := 1025, fraction := 2 ^ 51 + 2 ^ 50 }
        (.ok "1 234,50")
      = ({ exponent := 1025, fraction := 2 ^ 51 + 2 ^ 50 },
          some "strconv.ParseFloat: parsing \"1 234.50\": invalid syntax") ∧
    cian.CustomFloat64.UnmarshalXML {} (.ok "0,1")
      = ({ exponent := 1019, fraction := 0x999999999999A }, none) ∧
    ({ exponent := 1019, fraction := 0x999999999999A } : Binary64).toRat
      = 3602879701896397 / 2 ^ 55 ∧
    ({ exponent := 1019, fraction := 0x999999999999A } : Binary64).toRat ≠ 1 / 10 := by
  refine ⟨by decide, by decide, ?_, ?_⟩
  · norm_num [Binary64.toRat, Binary64.magnitude]
  · norm_num [Binary64.toRat, Binary64.magnitude]

/-- C15, amended. For a price text made of decimal digits with one comma as
decimal separator and no other character, with a digit on at least one side:
when the rounding of the number the text writes (the comma read as a decimal
point) to `float64` is finite, the decoder returns no error and stores that
rounding, which is a finite `float64` such that no finite `float64` is nearer
to the number, and whose fraction field is even when another finite `float64`
is as near; when the rounding is an infinity, the decoder returns the range
error of `ParseFloat` and leaves the value as it was.  With at most 308 digits
before the comma the rounding is finite. -/
theorem C15_comma_decimal_decodes (cf : Binary64) (a b : List Char)
    (ha : a.all Char.isDigit = true) (hb : b.all Char.isDigit = true)
    (hne : a ≠ [] ∨ b ≠ []) :
    ((Binary64.round false (strconv.digitsValue (a ++ b)) (10 ^ b.length)).exponent < 2047 →
      cian.CustomFloat64.UnmarshalXML cf (.ok ⟨a ++ ',' :: b⟩)
        = (Binary64.round false (strconv.digitsValue (a ++ b)) (10 ^ b.length), none) ∧
      (Binary64.round false (strconv.digitsValue (a ++ b)) (10 ^ b.length)).isFinite ∧
      ∀ y : Binary64, y.isFinite →
        |(Binary64.round false (strconv.digitsValue (a ++ b)) (10 ^ b.length)).toRat
            - (strconv.digitsValue (a ++ b) : ℚ) / 10 ^ b.length|
          ≤ |y.toRat - (strconv.digitsValue (a ++ b) : ℚ) / 10 ^ b.length| ∧
        (y.toRat ≠ (Binary64.round false (strconv.digitsValue (a ++ b)) (10 ^ b.length)).toRat →
          |y.toRat - (strconv.digitsValue (a ++ b) : ℚ) / 10 ^ b.length|
            = |(Binary64.round false (strconv.digitsValue (a ++ b)) (10 ^ b.length)).toRat
                - (strconv.digitsValue (a ++ b) : ℚ) / 10 ^ b.length| →
          (Binary64.round false (strconv.digitsValue (a ++ b)) (10 ^ b.length)).fraction % 2
            = 0)) ∧
    (¬ (Binary64.round false (strconv.digitsValue (a ++ b)) (10 ^ b.length)).exponent < 2047 →
      cian.CustomFloat64.UnmarshalXML cf (.ok ⟨a ++ ',' :: b⟩)
        = (cf, some (strconv.rangeError "ParseFloat" ⟨a ++ '.' :: b⟩))) ∧
    (a.length ≤ 308 →
      (Binary64.round false (strconv.digitsValue (a ++ b)) (10 ^ b.length)).exponent < 2047) := by
  have hden : 0 < 10 ^ b.length := by positivity
  have hparse := strconv.ParseFloat_digits_point a b ha hb hne
  have hrep := strings.ReplaceAll_comma_decimal a b ha hb
  refine ⟨?_, ?_, ?_⟩
  · intro hfin
    have hne2047 : (Binary64.round false (strconv.digitsValue (a ++ b)) (10 ^ b.length)).exponent
        ≠ 2047 := by omega
    rw [if_neg hne2047] at hparse
    have hnear := Binary64.round_nearest (strconv.digitsValue (a ++ b)) (10 ^ b.length) hden hfin
    refine ⟨cian.UnmarshalXML_of_value cf _ _ (by rw [hrep]; exact hparse), hnear.1, ?_⟩
    intro y hy
    have hle := hnear.2 y hy
    have htie := Binary64.round_ties_even (strconv.digitsValue (a ++ b)) (10 ^ b.length) hden
      hfin y hy
    rw [Nat.cast_pow, Nat.cast_ofNat] at hle htie
    exact ⟨hle, htie⟩
  · intro hinf
    have h2047 : (Binary64.round false (strconv.digitsValue (a ++ b)) (10 ^ b.length)).exponent
        = 2047 := by
      by_contra hcon
      apply hinf
      unfold Binary64.round at hcon ⊢
      split
      · decide
      · rename_i hnum
        rw [if_neg hnum] at hcon
        simp only at hcon ⊢
        split
        · assumption
        · rename_i hx
          rw [if_neg hx] at hcon
          exact absurd rfl hcon
    rw [if_pos h2047] at hparse
    exact cian.UnmarshalXML_of_error cf _ _ (by rw [hrep, hparse])
  · intro hlen
    refine Binary64.round_below_range _ _ hden ?_
    have hlt := strconv.digitsValue_lt (a ++ b) (by
      rw [List.all_append, ha, hb]; rfl)
    rw [List.length_append, pow_add] at hlt
    have hltq : ((strconv.digitsValue (a ++ b) : ℕ) : ℚ) < (10 : ℚ) ^ a.length * 10 ^ b.length := by
      exact_mod_cast hlt
    have hbq : (0 : ℚ) < 10 ^ b.length := by positivity
    rw [Nat.cast_pow, Nat.cast_ofNat, div_lt_iff₀ hbq]
    calc ((strconv.digitsValue (a ++ b) : ℕ) : ℚ) < (10 : ℚ) ^ a.length * 10 ^ b.length := hltq
      _ ≤ 10 ^ 308 * 10 ^ b.length :=
        mul_le_mul_of_nonneg_right (pow_le_pow_right₀ (by norm_num) hlen) hbq.le

/-- Witness of C15 (amended): "1234,50" decodes without error to the `float64`
with the bits 0x40934A0000000000, which is 1234.5. -/
theorem C15_comma_decimal_decodes_witness :
    cian.CustomFloat64.UnmarshalXML {} (.ok "1234,50")
      = ({ exponent := 1033, fraction := 0x34A0000000000 }, none) ∧
    ({ exponent := 1033, fraction := 0x34A0000000000 } : Binary64).toRat = 2469 / 2 :=
  ⟨((C15_comma_decimal_decodes {} "1234".data "50".data (by decide) (by decide)
      (Or.inl (by decide))).1 (by decide)).1,
    by norm_num [Binary64.toRat, Binary64.magnitude]⟩

/-- C16 fails as stated for letters: "NaN", "Inf" and "Infinity" are texts of
letters and write no number, yet `ParseFloat` accepts them; the decoder returns
no error and stores the special value, which is not finite. -/
theorem C16_special_values_accepted :
    "NaN".data.all Char.isAlpha = true ∧ "Inf".data.all Char.isAlpha = true ∧
    "Infinity".data.all Char.isAlpha = true ∧
    cian.CustomFloat64.UnmarshalXML {} (.ok "NaN") = (Binary64.NaN, none) ∧
    cian.CustomFloat64.UnmarshalXML {} (.ok "Inf") = (Binary64.Inf false, none) ∧
    cian.CustomFloat64.UnmarshalXML {} (.ok "Infinity") = (Binary64.Inf false, none) ∧
    ¬ Binary64.NaN.isFinite ∧ ¬ (Binary64.Inf false).isFinite := by
  refine ⟨by decide, by decide, by decide, by decide, by decide, by decide, by decide,
    by decide⟩

/-- C16, amended. Whenever `ParseFloat` returns an error for the text with its
commas replaced by points, the decoder returns that error and leaves the value
as it was; otherwise it returns no error and stores the value of `ParseFloat`.
`ParseFloat` returns an error, among others, for the empty text, for every text
with a character that no float text holds, for every text with two or more
decimal separators, and for every text that after an optional sign does not
begin with a digit, a point, an underscore or one of `i`, `I`, `n`, `N`.  It
accepts "NaN", "Inf" and "Infinity", which the decoder stores whatever the value
was. -/
theorem C16_malformed_price_rejected (cf : Binary64) (s : String) :
    (∀ e, (strconv.ParseFloat (strings.ReplaceAll s "," ".")).2 = some e →
      cian.CustomFloat64.UnmarshalXML cf (.ok s) = (cf, some e)) ∧
    (∀ float, strconv.ParseFloat (strings.ReplaceAll s "," ".") = (float, none) →
      cian.CustomFloat64.UnmarshalXML cf (.ok s) = (float, none)) ∧
    (s = "" ∨ (∃ c ∈ s.data, c ≠ ',' ∧ strconv.floatChar c = false)
        ∨ 2 ≤ s.data.count ',' + s.data.count '.'
        ∨ strconv.startsNumber (strings.ReplaceAll s "," ".").data = false →
      ∃ e, cian.CustomFloat64.UnmarshalXML cf (.ok s) = (cf, some e)) ∧
    cian.CustomFloat64.UnmarshalXML cf (.ok "NaN") = (Binary64.NaN, none) ∧
    cian.CustomFloat64.UnmarshalXML cf (.ok "Inf") = (Binary64.Inf false, none) ∧
    cian.CustomFloat64.UnmarshalXML cf (.ok "Infinity") = (Binary64.Inf false, none) := by
  refine ⟨fun e he => cian.UnmarshalXML_of_error cf s e he,
    fun float hf => cian.UnmarshalXML_of_value cf float s hf, ?_,
    cian.UnmarshalXML_of_value cf _ _ (by decide),
    cian.UnmarshalXML_of_value cf _ _ (by decide),
    cian.UnmarshalXML_of_value cf _ _ (by decide)⟩
  intro h
  have hrej : ∃ e, (strconv.ParseFloat (strings.ReplaceAll s "," ".")).2 = some e := by
    apply strconv.ParseFloat_rejects
    rcases h with rfl | ⟨c, hc, hcomma, hf⟩ | h | h
    · exact Or.inr (Or.inr (by decide))
    · left
      refine ⟨c, ?_, hf⟩
      rw [strings.ReplaceAll_comma]
      simp only [List.mem_map]
      exact ⟨c, hc, by rw [if_neg hcomma]⟩
    · right; left
      rw [strings.ReplaceAll_comma]
      simp only
      rw [count_map_comma]
      exact h
    · exact Or.inr (Or.inr h)
  obtain ⟨e, he⟩ := hrej
  exact ⟨e, cian.UnmarshalXML_of_error cf s e he⟩

/-- Witness of C16 (amended): "abc", "", "1,234,50", "100rub" and "1 234,50"
are refused, and the value, 1 here, stays as it was. -/
theorem C16_malformed_price_rejected_witness :
    (∃ e, cian.CustomFloat64.UnmarshalXML { exponent := 1023 } (.ok "abc")
      = ({ exponent := 1023 }, some e)) ∧
    (∃ e, cian.CustomFloat64.UnmarshalXML { exponent := 1023 } (.ok "")
      = ({ exponent := 1023 }, some e)) ∧
    (∃ e, cian.CustomFloat64.UnmarshalXML { exponent := 1023 } (.ok "1,234,50")
      = ({ exponent := 1023 }, some e)) ∧
    (∃ e, cian.CustomFloat64.UnmarshalXML { exponent := 1023 } (.ok "100rub")
      = ({ exponent := 1023 }, some e)) ∧
    (∃ e, cian.CustomFloat64.UnmarshalXML { exponent := 1023 } (.ok "1 234,50")
      = ({ exponent := 1023 }, some e)) :=
  ⟨(C16_malformed_price_rejected { exponent := 1023 } "abc").2.2.1
      (Or.inr (Or.inr (Or.inr (by decide)))),
    (C16_malformed_price_rejected { exponent := 1023 } "").2.2.1 (Or.inl rfl),
    (C16_malformed_price_rejected { exponent := 1023 } "1,234,50").2.2.1
      (Or.inr (Or.inr (Or.inl (by decide)))),
    (C16_malformed_price_rejected { exponent := 1023 } "100rub").2.2.1
      (Or.inr (Or.inl ⟨'r', by decide, by decide, by decide⟩)),
    (C16_malformed_price_rejected { exponent := 1023 } "1 234,50").2.2.1
      (Or.inr (Or.inl ⟨' ', by decide, by decide, by decide⟩))⟩

/-- C17. The Realty yandex-house-id decoder, on the text "undefined", returns
no error, sets `Valid` to false and leaves `Int64` as it was. On every other
text that is not a decimal integer it returns the syntax error of `Atoi` and
leaves both fields unchanged; "", "abc" and "Undefined" are such texts. -/
theorem C17_undefined_and_malformed (ci : validation.CustomInt64) :
    validation.CustomInt64.UnmarshalXML ci (.ok "undefined")
      = ({ Int64 := ci.Int64, Valid := false }, none) ∧
    (∀ s, s ≠ "undefined" → strconv.isDecimalInteger s = false →
      validation.CustomInt64.UnmarshalXML ci (.ok s)
        = (ci, some (strconv.syntaxError "Atoi" s))) ∧
    (∀ s ∈ ["", "abc", "Undefined"],
      s ≠ "undefined" ∧ strconv.isDecimalInteger s = false) := by
  refine ⟨rfl, ?_, by decide⟩
  intro s hs hdec
  unfold validation.CustomInt64.UnmarshalXML
  simp only [hs, if_false, strconv.Atoi_not_decimal s hdec]

/-- C18 fails in the code: decoding the text "42" into a fresh value stores 42
but leaves `Valid` false, and no call of the decoder ever sets `Valid`: a result
with `Valid` true had it true before. -/
theorem C18_valid_flag_never_set :
    validation.CustomInt64.UnmarshalXML { Int64 := 0, Valid := false } (.ok "42")
      = ({ Int64 := 42, Valid := false }, none) ∧
    ∀ (ci : validation.CustomInt64) (text : Except String String),
      (validation.CustomInt64.UnmarshalXML ci text).1.Valid = true → ci.Valid = true := by
  refine ⟨by decide, ?_⟩
  intro ci text
  unfold validation.CustomInt64.UnmarshalXML
  cases text with
  | error e => exact id
  | ok s =>
    by_cases hs : s = "undefined"
    · simp only [hs, if_true]
      intro h
      exact absurd h Bool.false_ne_true
    · simp only [hs, if_false]
      cases strconv.Atoi s with
      | error e => exact id
      | ok v => exact id

/-- C19. For every fetched DomClick Feed with at least two buildings, `Check`
returns a list in which, for every identifier, the message
"Field Flats.Flat.Floor is bigger than building.Floors. InternalID: <id>" occurs
as many times as there are flats with that identifier whose floor exceeds the
floors of their own building: each such flat contributes the message once, and a
flat whose floor is at most the floors of its own building contributes none,
whatever the floors of the other buildings are. In particular the message of
every flat above its building is in the result. -/
theorem C19_floor_above_building (year : Int) (f : domclick.Feed) (hget : f.isGet = true)
    (hlen : 2 ≤ f.Data.Complex.Buildings.Building.length) :
    ∃ rs, domclick.Check year f = (some rs, none) ∧
      (∀ id, rs.count (domclick.floorMsg id) = domclick.floorExcessCount f.Data.Complex id) ∧
      (∀ building ∈ f.Data.Complex.Buildings.Building, ∀ idx lot,
        (idx, lot) ∈ building.Flats.Flat.enum →
        (domclick.lotMessages building.Floors idx lot).count (domclick.floorMsg lot.FlatID)
            = (if lot.Floor > building.Floors then 1 else 0) ∧
          (lot.Floor > building.Floors → domclick.floorMsg lot.FlatID ∈ rs) ∧
          (lot.Floor ≤ building.Floors →
            ∀ id, domclick.floorMsg id ∉ domclick.lotMessages building.Floors idx lot)) := by
  refine ⟨_, domclick.Check_many_buildings year f hget hlen,
    fun id => domclick.floorMsg_count_complex id year _, ?_⟩
  intro building hb idx lot hlot
  refine ⟨domclick.floorMsg_count_lotMessages _ _ _, ?_, ?_⟩
  · intro h
    exact (domclick.floorMsg_mem_complexMessages _ year _).2
      ⟨building, hb, lot, mem_of_mem_enum _ (idx, lot) hlot, rfl, h⟩
  · intro h id hmem
    exact absurd ((domclick.floorMsg_mem_lotMessages id _ _ _).1 hmem).2 (not_lt.2 h)

/-- Witness of C19: in the sample feed the flat "f1" on floor 10 of the building
of 9 floors is reported once, and the flat "f2" on floor 9 is not reported,
although the other building has 20 floors. -/
theorem C19_floor_above_building_witness :
    (∃ rs, domclick.Check 2025 domclick.sampleFeed = (some rs, none) ∧
      (∀ id, rs.count (domclick.floorMsg id)
        = domclick.floorExcessCount domclick.sampleFeed.Data.Complex id) ∧
      (∀ building ∈ domclick.sampleFeed.Data.Complex.Buildings.Building, ∀ idx lot,
        (idx, lot) ∈ building.Flats.Flat.enum →
        (domclick.lotMessages building.Floors idx lot).count (domclick.floorMsg lot.FlatID)
            = (if lot.Floor > building.Floors then 1 else 0) ∧
          (lot.Floor > building.Floors → domclick.floorMsg lot.FlatID ∈ rs) ∧
          (lot.Floor ≤ building.Floors →
            ∀ id, domclick.floorMsg id ∉ domclick.lotMessages building.Floors idx lot))) ∧
    domclick.floorExcessCount domclick.sampleFeed.Data.Complex "f1" = 1 ∧
    domclick.floorExcessCount domclick.sampleFeed.Data.Complex "f2" = 0 :=
  ⟨C19_floor_above_building 2025 domclick.sampleFeed rfl (by decide),
    by decide, by decide⟩

/-- C20. For every fetched Avito Feed with more than 10 ads, `Check` returns a
list in which every message beginning "field Images.Image c" occurs as many
times as there are ads with fewer than 3 or more than 40 images whose message
"field Images.Image contains 'n' items. InternalID: <ID>" it is. For an ad with
n images: when n < 3 or n > 40 its message is in the result, once among the
messages of that ad; when 3 ≤ n ≤ 40 no message of that ad begins
"field Images.Image c". -/
theorem C20_image_count_message (f : avito.Feed) (hget : f.isGet = true)
    (hlen : 10 < f.Data.Ad.length) :
    ∃ rs, avito.Check f = (some rs, none) ∧
      (∀ m, startsWith "field Images.Image c" m →
        rs.count m = f.Data.Ad.countP (fun lot => decide (avito.imagesOutOfRange lot
          ∧ avito.imagesCountMsg lot.Images.Image.length lot.ID = m))) ∧
      (∀ idx lot, (idx, lot) ∈ f.Data.Ad.enum →
        ((lot.Images.Image.length < 3 ∨ lot.Images.Image.length > 40) →
          avito.imagesCountMsg lot.Images.Image.length lot.ID ∈ rs ∧
          (avito.lotMessages idx lot).count
            (avito.imagesCountMsg lot.Images.Image.length lot.ID) = 1) ∧
        (¬ (lot.Images.Image.length < 3 ∨ lot.Images.Image.length > 40) →
          ∀ m ∈ avito.lotMessages idx lot, ¬ startsWith "field Images.Image c" m)) := by
  refine ⟨_, avito.Check_large f hget hlen, ?_, ?_⟩
  · intro m hm
    exact count_enum_flatMap _ _ _ _ (fun p => avito.imagesCountMsg_count_lot m hm p.1 p.2)
  · intro idx lot hlot
    constructor
    · intro h
      have hS := avito.imagesCountMsg_startsWith lot.Images.Image.length lot.ID
      refine ⟨?_, ?_⟩
      · rw [List.mem_flatMap]
        exact ⟨(idx, lot), hlot, (avito.imagesCountMsg_mem_lot _ hS idx lot).2 ⟨h, rfl⟩⟩
      · rw [avito.imagesCountMsg_count_lot _ hS idx lot]
        exact if_pos (decide_eq_true ⟨h, rfl⟩)
    · intro h m hm hS
      exact h ((avito.imagesCountMsg_mem_lot m hS idx lot).1 hm).1

/-- Witness of C20, on the sample feed: its ad "A7" has 2 images and is
reported, the other ads have 3 images and are not. -/
theorem C20_image_count_message_witness :
    (∃ rs, avito.Check avito.sampleFeed = (some rs, none) ∧
      (∀ m, startsWith "field Images.Image c" m →
        rs.count m = avito.sampleFeed.Data.Ad.countP (fun lot =>
          decide (avito.imagesOutOfRange lot
            ∧ avito.imagesCountMsg lot.Images.Image.length lot.ID = m))) ∧
      (∀ idx lot, (idx, lot) ∈ avito.sampleFeed.Data.Ad.enum →
        ((lot.Images.Image.length < 3 ∨ lot.Images.Image.length > 40) →
          avito.imagesCountMsg lot.Images.Image.length lot.ID ∈ rs ∧
          (avito.lotMessages idx lot).count
            (avito.imagesCountMsg lot.Images.Image.length lot.ID) = 1) ∧
        (¬ (lot.Images.Image.length < 3 ∨ lot.Images.Image.length > 40) →
          ∀ m ∈ avito.lotMessages idx lot, ¬ startsWith "field Images.Image c" m))) ∧
    avito.sampleFeed.Data.Ad.map (fun lot => lot.Images.Image.length)
      = [3, 3, 3, 3, 3, 3, 3, 3, 3, 3, 2] :=
  ⟨C20_image_count_message avito.sampleFeed rfl (by decide), by decide⟩

/-- C21 fails in the code. The CIAN call sites pass `int(lot.TotalArea)` and
`int(lot.BargainTerms.Price.Float64)` to the zero check, so for every fetched
CIAN Feed with more than 10 objects the message
"field object.TotalArea is empty. InternalID: <id>" is produced for an object
exactly when its TotalArea lies strictly between -1 and 1, and
"field object.BargainTerms.Price.Price is empty. InternalID: <id>" exactly when
its decoded price does: a non-zero fractional value such as 0.5 is reported as
empty. -/
theorem C21_zero_check_truncates (year : Int) (f : cian.Feed) (hget : f.isGet = true)
    (hlen : 10 < f.Data.Object.length) :
    ∃ rs, cian.Check year f = (some rs, none) ∧
      rs = f.Data.Object.enum.flatMap (fun p => cian.lotMessages year p.1 p.2) ∧
      (∀ idx lot,
        (cian.areaMsg lot.ExternalId ∈ cian.lotMessages year idx lot
          ↔ -1 < lot.TotalArea ∧ lot.TotalArea < 1) ∧
        (cian.priceMsg lot.ExternalId ∈ cian.lotMessages year idx lot
          ↔ -1 < lot.BargainTerms.Price.Float64 ∧ lot.BargainTerms.Price.Float64 < 1)) ∧
      (∀ id, cian.areaMsg id ∈ rs
        ↔ ∃ lot ∈ f.Data.Object, lot.ExternalId = id ∧ -1 < lot.TotalArea ∧ lot.TotalArea < 1) ∧
      (∀ id, cian.priceMsg id ∈ rs
        ↔ ∃ lot ∈ f.Data.Object, lot.ExternalId = id ∧
            -1 < lot.BargainTerms.Price.Float64 ∧ lot.BargainTerms.Price.Float64 < 1) := by
  refine ⟨_, cian.Check_large_feed year f hget hlen, rfl, ?_, ?_, ?_⟩
  · intro idx lot
    constructor
    · rw [cian.areaMsg_mem_lotMessages, intOfFloat_eq_zero]
      exact and_iff_right rfl
    · rw [cian.priceMsg_mem_lotMessages, intOfFloat_eq_zero]
      exact and_iff_right rfl
  · intro id
    refine mem_flatMap_enum_iff _ _ _ _ (fun p => ?_)
    rw [cian.areaMsg_mem_lotMessages, intOfFloat_eq_zero]
  · intro id
    refine mem_flatMap_enum_iff _ _ _ _ (fun p => ?_)
    rw [cian.priceMsg_mem_lotMessages, intOfFloat_eq_zero]

/-- Witness of C21, at the failing input: in a fetched feed of eleven objects
the object "c7" has a total area of 0.5 and a price of 0.5, both non-zero, and
`Check` reports both fields of "c7" as empty. -/
theorem C21_zero_check_truncates_witness :
    ∃ rs, cian.Check 2024 cian.halfFeed = (some rs, none) ∧
      cian.halfObject ∈ cian.halfFeed.Data.Object ∧
      cian.halfObject.ExternalId = "c7" ∧
      cian.halfObject.TotalArea = 1 / 2 ∧ cian.halfObject.TotalArea ≠ 0 ∧
      cian.halfObject.BargainTerms.Price.Float64 = 1 / 2 ∧
      cian.halfObject.BargainTerms.Price.Float64 ≠ 0 ∧
      "field object.TotalArea is empty. InternalID: c7" ∈ rs ∧
      "field object.BargainTerms.Price.Price is empty. InternalID: c7" ∈ rs :=
  (C21_zero_check_truncates 2024 cian.halfFeed rfl (by decide)).elim
    (fun rs h =>
      have hmem : cian.halfObject ∈ cian.halfFeed.Data.Object :=
        List.mem_append_right _ (List.mem_singleton.2 rfl)
      have hlo : (-1 : ℚ) < 1 / 2 := by norm_num
      have hhi : (1 / 2 : ℚ) < 1 := by norm_num
      have hne : (1 / 2 : ℚ) ≠ 0 := by norm_num
      ⟨rs, h.1, hmem, rfl, rfl, hne, rfl, hne,
        (h.2.2.2.1 "c7").2 ⟨cian.halfObject, hmem, rfl, hlo, hhi⟩,
        (h.2.2.2.2 "c7").2 ⟨cian.halfObject, hmem, rfl, hlo, hhi⟩⟩)

/-- C22 fails as stated for `CheckStringWithID` with an empty identifier: the
appended message ends in "InternalID not found", not in "InternalID: " followed
by the identifier. -/
theorem C22_empty_id_message :
    validation.CheckStringWithID "" "p" "f" "" ["x"]
      = (false, ["x", "field p.f is empty. InternalID not found"]) ∧
    "field p.f is empty. InternalID not found" ≠ "field p.f is empty. InternalID: " ++ "" := by
  constructor <;> decide

/-- C22, amended. Each validation primitive, for every input and every prior
result list `rs`, returns false exactly when the value is empty (strings) or
equal to 0 (numbers); in that case the list becomes `rs` with exactly one
message appended at the end, and otherwise the list is `rs`; the entries of `rs`
are never changed or reordered. The message is "field <path>.<field> is empty"
for `CheckString`, "field <path>[<idx>].<field> is empty" for
`CheckStringWithPos`, "field <path>.<field> is empty. InternalID: <id>" for
`CheckZeroWithID` and for `CheckStringWithID` with a non-empty identifier, and
"field <path>.<field> is empty. InternalID not found" for `CheckStringWithID`
with an empty identifier. -/
theorem C22_primitives_append_one_message (idx : Nat) (ID path fieldName value : String)
    (n : Int) (x : ℚ) (rs : List String) :
    validation.AppendsWhenEmpty (value = "")
      ("field " ++ path ++ "." ++ fieldName ++ " is empty") rs
      (validation.CheckString path fieldName value rs) ∧
    validation.AppendsWhenEmpty (value = "")
      ("field " ++ path ++ "[" ++ toString idx ++ "]." ++ fieldName ++ " is empty") rs
      (validation.CheckStringWithPos idx path fieldName value rs) ∧
    validation.AppendsWhenEmpty (value = "")
      (if ID = "" then "field " ++ path ++ "." ++ fieldName ++ " is empty. InternalID not found"
        else "field " ++ path ++ "." ++ fieldName ++ " is empty. InternalID: " ++ ID) rs
      (validation.CheckStringWithID ID path fieldName value rs) ∧
    validation.AppendsWhenEmpty (n = 0)
      ("field " ++ path ++ "." ++ fieldName ++ " is empty. InternalID: " ++ ID) rs
      (validation.CheckZeroWithID ID path fieldName n rs) ∧
    validation.AppendsWhenEmpty (x = 0)
      ("field " ++ path ++ "." ++ fieldName ++ " is empty. InternalID: " ++ ID) rs
      (validation.CheckZeroWithID ID path fieldName x rs) := by
  unfold validation.AppendsWhenEmpty
  refine ⟨?_, ?_, ?_, ?_, ?_⟩
  · unfold validation.CheckString
    by_cases h : value = "" <;> simp [h]
  · unfold validation.CheckStringWithPos
    by_cases h : value = "" <;> simp [h]
  · unfold validation.CheckStringWithID
    by_cases h : value = "" <;> by_cases hID : ID = "" <;> simp [h, hID]
    all_goals (simp only [String.append_assoc]; rfl)
  · unfold validation.CheckZeroWithID
    by_cases h : n = 0 <;> simp [h]
  · unfold validation.CheckZeroWithID
    by_cases h : x = 0 <;> simp [h]

/-- C23. For every fetched Avito Feed with more than 10 ads, `Check` returns
the empty list if and only if every ad satisfies all rules at once; and a
fetched feed of eleven ads with the empty result exists. -/
theorem C23_empty_result_iff_all_valid (f : avito.Feed) (hget : f.isGet = true)
    (hlen : 10 < f.Data.Ad.length) :
    (avito.Check f = (some [], none) ↔ ∀ lot ∈ f.Data.Ad, avito.adValid lot) ∧
    ∃ g : avito.Feed, g.isGet = true ∧ 10 < g.Data.Ad.length ∧
      avito.Check g = (some [], none) := by
  refine ⟨?_, avito.validFeed, rfl, by decide, by decide⟩
  rw [avito.Check_large f hget hlen]
  have h := flatMap_enum_eq_nil f.Data.Ad (fun p => avito.lotMessages p.1 p.2) avito.adValid
    (fun p => avito.lotMessages_eq_nil p.1 p.2)
  constructor
  · intro he
    exact h.1 (Option.some.inj (congrArg Prod.fst he))
  · intro hv
    rw [h.2 hv]

/-- Witness of C23: the feed of eleven valid ads. -/
theorem C23_empty_result_iff_all_valid_witness :
    (avito.Check avito.validFeed = (some [], none)
      ↔ ∀ lot ∈ avito.validFeed.Data.Ad, avito.adValid lot) ∧
    ∃ g : avito.Feed, g.isGet = true ∧ 10 < g.Data.Ad.length ∧
      avito.Check g = (some [], none) :=
  C23_empty_result_iff_all_valid avito.validFeed rfl (by decide)

/-- C24. For every fetched Realty Feed with at least two offers, `Check`
returns the concatenation of the message lists of the offers, and for every
offer its list contains "tag 'plan' for image is not found. InternalID: <id>"
exactly when none of its images has tag "plan", and
"tag 'floor-plan' for image is not found. InternalID: <id>" exactly when none
has tag "floor-plan"; so the result contains such a message for an identifier
exactly when an offer with that identifier lacks the tag. The tag set depends
only on which tags occur among the images: repeated tags and the order of the
images do not change it. -/
theorem C24_missing_tag_messages (year : Int) (f : realty.Feed) (hget : f.isGet = true)
    (hlen : 2 ≤ f.Data.Offer.length) :
    ∃ rs, realty.Check year f = (some rs, none) ∧
      rs = f.Data.Offer.enum.flatMap (fun p => realty.lotMessages year p.1 p.2) ∧
      (∀ idx lot,
        (realty.planMsg lot.InternalID ∈ realty.lotMessages year idx lot
          ↔ ¬ realty.hasTag lot.Image "plan") ∧
        (realty.floorPlanMsg lot.InternalID ∈ realty.lotMessages year idx lot
          ↔ ¬ realty.hasTag lot.Image "floor-plan")) ∧
      (∀ id, realty.planMsg id ∈ rs
        ↔ ∃ lot ∈ f.Data.Offer, lot.InternalID = id ∧ ¬ realty.hasTag lot.Image "plan") ∧
      (∀ id, realty.floorPlanMsg id ∈ rs
        ↔ ∃ lot ∈ f.Data.Offer,
            lot.InternalID = id ∧ ¬ realty.hasTag lot.Image "floor-plan") ∧
      (∀ (images images' : List realty.Image),
        (∀ u, realty.hasTag images u ↔ realty.hasTag images' u) →
        ∀ t, (realty.collectTags images).has t = (realty.collectTags images').has t) := by
  refine ⟨_, realty.Check_many_offers year f hget hlen, rfl, ?_, ?_, ?_, ?_⟩
  · intro idx lot
    constructor
    · rw [realty.planMsg_mem_lotMessages]
      exact and_iff_right rfl
    · rw [realty.floorPlanMsg_mem_lotMessages]
      exact and_iff_right rfl
  · intro id
    exact mem_flatMap_enum_iff _ _ _ _
      (fun p => realty.planMsg_mem_lotMessages id year p.1 p.2)
  · intro id
    exact mem_flatMap_enum_iff _ _ _ _
      (fun p => realty.floorPlanMsg_mem_lotMessages id year p.1 p.2)
  · intro images images' h t
    rw [Bool.eq_iff_iff, realty.collectTags_has, realty.collectTags_has]
    exact h t

/-- Witness of C24: in the feed of four offers only "t4", whose images are
tagged "plan", "" and "plan", lacks a tag, the tag "floor-plan". -/
theorem C24_missing_tag_messages_witness :
    (∃ rs, realty.Check 2024 realty.mixedFeed = (some rs, none) ∧
      rs = realty.mixedFeed.Data.Offer.enum.flatMap
        (fun p => realty.lotMessages 2024 p.1 p.2) ∧
      (∀ idx lot,
        (realty.planMsg lot.InternalID ∈ realty.lotMessages 2024 idx lot
          ↔ ¬ realty.hasTag lot.Image "plan") ∧
        (realty.floorPlanMsg lot.InternalID ∈ realty.lotMessages 2024 idx lot
          ↔ ¬ realty.hasTag lot.Image "floor-plan")) ∧
      (∀ id, realty.planMsg id ∈ rs
        ↔ ∃ lot ∈ realty.mixedFeed.Data.Offer,
            lot.InternalID = id ∧ ¬ realty.hasTag lot.Image "plan") ∧
      (∀ id, realty.floorPlanMsg id ∈ rs
        ↔ ∃ lot ∈ realty.mixedFeed.Data.Offer,
            lot.InternalID = id ∧ ¬ realty.hasTag lot.Image "floor-plan") ∧
      (∀ (images images' : List realty.Image),
        (∀ u, realty.hasTag images u ↔ realty.hasTag images' u) →
        ∀ t, (realty.collectTags images).has t = (realty.collectTags images').has t)) ∧
    realty.Check 2024 realty.mixedFeed
      = (some ["field LivingSpace.Value is empty. InternalID: t2",
               "tag 'floor-plan' for image is not found. InternalID: t4"], none) :=
  ⟨C24_missing_tag_messages 2024 realty.mixedFeed rfl (by decide), by decide⟩

/-- C25. Living-area rule. For every fetched Avito Feed with more than 10 ads
and every ad, the message list of the ad contains
"field LivingSpace is empty. InternalID: <ID>" exactly when LivingSpace = 0 and
Rooms is not "Студия"; for every fetched Realty Feed with at least two offers
and every offer, the message list of the offer contains
"field LivingSpace.Value is empty. InternalID: <id>" exactly when
LivingSpace.Value = 0 and OpenPlan is not "1". The result of `Check` is the
concatenation of these lists, so it contains the message for an identifier
exactly when a listing with that identifier triggers the rule. -/
theorem C25_living_area_rule (fa : avito.Feed) (hga : fa.isGet = true)
    (hla : 10 < fa.Data.Ad.length) (year : Int) (fr : realty.Feed) (hgr : fr.isGet = true)
    (hlr : 2 ≤ fr.Data.Offer.length) :
    (∃ rs, avito.Check fa = (some rs, none) ∧
      rs = fa.Data.Ad.enum.flatMap (fun p => avito.lotMessages p.1 p.2) ∧
      (∀ idx lot, avito.livingMsg lot.ID ∈ avito.lotMessages idx lot
        ↔ lot.LivingSpace = 0 ∧ lot.Rooms ≠ "Студия") ∧
      (∀ id, avito.livingMsg id ∈ rs
        ↔ ∃ lot ∈ fa.Data.Ad, lot.ID = id ∧ lot.LivingSpace = 0 ∧ lot.Rooms ≠ "Студия")) ∧
    (∃ rs, realty.Check year fr = (some rs, none) ∧
      rs = fr.Data.Offer.enum.flatMap (fun p => realty.lotMessages year p.1 p.2) ∧
      (∀ idx lot, realty.livingMsg lot.InternalID ∈ realty.lotMessages year idx lot
        ↔ lot.LivingSpace.Value = 0 ∧ lot.OpenPlan ≠ "1") ∧
      (∀ id, realty.livingMsg id ∈ rs
        ↔ ∃ lot ∈ fr.Data.Offer,
            lot.InternalID = id ∧ lot.LivingSpace.Value = 0 ∧ lot.OpenPlan ≠ "1")) := by
  refine ⟨⟨_, avito.Check_large fa hga hla, rfl, ?_, ?_⟩,
    ⟨_, realty.Check_many_offers year fr hgr hlr, rfl, ?_, ?_⟩⟩
  · intro idx lot
    rw [avito.livingMsg_mem_ad]
    exact and_iff_right rfl
  · intro id
    exact mem_flatMap_enum_iff _ _ _ _
      (fun p => avito.livingMsg_mem_ad id p.1 p.2)
  · intro idx lot
    rw [realty.livingMsg_mem_offer]
    exact and_iff_right rfl
  · intro id
    exact mem_flatMap_enum_iff _ _ _ _
      (fun p => realty.livingMsg_mem_offer id year p.1 p.2)

/-- Witness of C25: an Avito feed in which the studio "s1" and the ad "s2" have
no living space, and a Realty feed in which "t2" and the open-plan offer "t3"
have none; only "s2" and "t2" are reported. -/
theorem C25_living_area_rule_witness :
    ((∃ rs, avito.Check avito.studioFeed = (some rs, none) ∧
      rs = avito.studioFeed.Data.Ad.enum.flatMap (fun p => avito.lotMessages p.1 p.2) ∧
      (∀ idx lot, avito.livingMsg lot.ID ∈ avito.lotMessages idx lot
        ↔ lot.LivingSpace = 0 ∧ lot.Rooms ≠ "Студия") ∧
      (∀ id, avito.livingMsg id ∈ rs
        ↔ ∃ lot ∈ avito.studioFeed.Data.Ad,
            lot.ID = id ∧ lot.LivingSpace = 0 ∧ lot.Rooms ≠ "Студия")) ∧
    (∃ rs, realty.Check 2024 realty.mixedFeed = (some rs, none) ∧
      rs = realty.mixedFeed.Data.Offer.enum.flatMap
        (fun p => realty.lotMessages 2024 p.1 p.2) ∧
      (∀ idx lot, realty.livingMsg lot.InternalID ∈ realty.lotMessages 2024 idx lot
        ↔ lot.LivingSpace.Value = 0 ∧ lot.OpenPlan ≠ "1") ∧
      (∀ id, realty.livingMsg id ∈ rs
        ↔ ∃ lot ∈ realty.mixedFeed.Data.Offer,
            lot.InternalID = id ∧ lot.LivingSpace.Value = 0 ∧ lot.OpenPlan ≠ "1"))) ∧
    avito.Check avito.studioFeed
      = (some ["field LivingSpace is empty. InternalID: s2"], none) :=
  ⟨C25_living_area_rule avito.studioFeed rfl (by decide) 2024 realty.mixedFeed rfl (by decide),
    by decide⟩

/-- C26. Unfinished-building rule, with the current calendar year `year` as an
input. For every fetched Realty Feed with at least two offers and every offer,
and for every fetched DomClick Feed with at least two buildings and every
building: the message list of the listing contains
"BuildingState == unfinished for <BuiltYear>. InternalID: <id>" exactly when
BuiltYear < year and BuildingState = "unfinished"; a listing whose BuiltYear is
`year` or later yields no message beginning "Bu"; and, for a positive year, a
listing without BuiltYear (0) in state "unfinished" yields both the zero-check
message of BuiltYear and the message of the rule. The result of `Check`
contains a message beginning "Bu" exactly when it is the message of a listing
that triggers the rule. -/
theorem C26_unfinished_building_rule (year : Int) (fr : realty.Feed)
    (hgr : fr.isGet = true) (hlr : 2 ≤ fr.Data.Offer.length) (fd : domclick.Feed)
    (hgd : fd.isGet = true) (hld : 2 ≤ fd.Data.Complex.Buildings.Building.length) :
    (∃ rs, realty.Check year fr = (some rs, none) ∧
      rs = fr.Data.Offer.enum.flatMap (fun p => realty.lotMessages year p.1 p.2) ∧
      (∀ m, startsWith "Bu" m → (m ∈ rs ↔ ∃ lot ∈ fr.Data.Offer,
        unfinishedRule year lot.BuiltYear lot.BuildingState
          ∧ m = unfinishedMsg lot.BuiltYear lot.InternalID)) ∧
      (∀ idx lot,
        (unfinishedMsg lot.BuiltYear lot.InternalID ∈ realty.lotMessages year idx lot
          ↔ lot.BuiltYear < year ∧ lot.BuildingState = "unfinished") ∧
        (year ≤ lot.BuiltYear →
          ∀ m ∈ realty.lotMessages year idx lot, ¬ startsWith "Bu" m) ∧
        (0 < year → lot.BuiltYear = 0 → lot.BuildingState = "unfinished" →
          ("field offer.BuiltYear is empty. InternalID: " ++ lot.InternalID)
            ∈ realty.lotMessages year idx lot ∧
          unfinishedMsg 0 lot.InternalID ∈ realty.lotMessages year idx lot))) ∧
    (∃ rs, domclick.Check year fd = (some rs, none) ∧
      rs = domclick.complexMessages year fd.Data.Complex ∧
      (∀ m, startsWith "Bu" m → (m ∈ rs ↔ ∃ building ∈ fd.Data.Complex.Buildings.Building,
        unfinishedRule year building.BuiltYear building.BuildingState
          ∧ m = unfinishedMsg building.BuiltYear building.ID)) ∧
      (∀ pos building,
        (unfinishedMsg building.BuiltYear building.ID
            ∈ domclick.buildingMessages year pos building
          ↔ building.BuiltYear < year ∧ building.BuildingState = "unfinished") ∧
        (year ≤ building.BuiltYear →
          ∀ m ∈ domclick.buildingMessages year pos building, ¬ startsWith "Bu" m) ∧
        (0 < year → building.BuiltYear = 0 → building.BuildingState = "unfinished" →
          ("field Complex.Buildings.Building.BuiltYear is empty. InternalID: " ++ building.ID)
            ∈ domclick.buildingMessages year pos building ∧
          unfinishedMsg 0 building.ID ∈ domclick.buildingMessages year pos building))) := by
  refine ⟨⟨_, realty.Check_many_offers year fr hgr hlr, rfl, ?_, ?_⟩,
    ⟨_, domclick.Check_many_buildings year fd hgd hld, rfl, ?_, ?_⟩⟩
  · intro m hm
    exact mem_flatMap_enum_iff _ _ _ _
      (fun p => realty.unfinished_mem_lotMessages m hm year p.1 p.2)
  · intro idx lot
    refine ⟨?_, ?_, ?_⟩
    · rw [realty.unfinished_mem_lotMessages _ (unfinishedMsg_startsWith _ _)]
      exact and_iff_left rfl
    · intro hy m hm hs
      exact absurd ((realty.unfinished_mem_lotMessages m hs year idx lot).1 hm).1.1
        (not_lt.2 hy)
    · intro hy h0 hst
      refine ⟨realty.builtYear_zero_mem_lotMessages year idx lot h0, ?_⟩
      rw [realty.unfinished_mem_lotMessages _ (unfinishedMsg_startsWith _ _)]
      exact ⟨⟨h0 ▸ hy, hst⟩, by rw [h0]⟩
  · intro m hm
    exact domclick.unfinished_mem_complexMessages m hm year _
  · intro pos building
    refine ⟨?_, ?_, ?_⟩
    · rw [domclick.unfinished_mem_buildingMessages _ (unfinishedMsg_startsWith _ _)]
      exact and_iff_left rfl
    · intro hy m hm hs
      exact absurd ((domclick.unfinished_mem_buildingMessages m hs year pos building).1 hm).1.1
        (not_lt.2 hy)
    · intro hy h0 hst
      refine ⟨domclick.builtYear_zero_mem_buildingMessages year pos building h0, ?_⟩
      rw [domclick.unfinished_mem_buildingMessages _ (unfinishedMsg_startsWith _ _)]
      exact ⟨⟨h0 ▸ hy, hst⟩, by rw [h0]⟩

/-- Witness of C26, in the year 2024: listings in state "unfinished" built in
2023, in 2024, (for Realty) in 2025, and without built year. The listing of
2023 and the listing without built year are reported, the latter after its
zero-check message. -/
theorem C26_unfinished_building_rule_witness :
    ((∃ rs, realty.Check 2024 realty.unfinishedFeed = (some rs, none) ∧
      rs = realty.unfinishedFeed.Data.Offer.enum.flatMap
        (fun p => realty.lotMessages 2024 p.1 p.2) ∧
      (∀ m, startsWith "Bu" m → (m ∈ rs ↔ ∃ lot ∈ realty.unfinishedFeed.Data.Offer,
        unfinishedRule 2024 lot.BuiltYear lot.BuildingState
          ∧ m = unfinishedMsg lot.BuiltYear lot.InternalID)) ∧
      (∀ idx lot,
        (unfinishedMsg lot.BuiltYear lot.InternalID ∈ realty.lotMessages 2024 idx lot
          ↔ lot.BuiltYear < 2024 ∧ lot.BuildingState = "unfinished") ∧
        ((2024 : Int) ≤ lot.BuiltYear →
          ∀ m ∈ realty.lotMessages 2024 idx lot, ¬ startsWith "Bu" m) ∧
        ((0 : Int) < 2024 → lot.BuiltYear = 0 → lot.BuildingState = "unfinished" →
          ("field offer.BuiltYear is empty. InternalID: " ++ lot.InternalID)
            ∈ realty.lotMessages 2024 idx lot ∧
          unfinishedMsg 0 lot.InternalID ∈ realty.lotMessages 2024 idx lot))) ∧
    (∃ rs, domclick.Check 2024 domclick.unfinishedFeed = (some rs, none) ∧
      rs = domclick.complexMessages 2024 domclick.unfinishedFeed.Data.Complex ∧
      (∀ m, startsWith "Bu" m →
        (m ∈ rs ↔ ∃ building ∈ domclick.unfinishedFeed.Data.Complex.Buildings.Building,
          unfinishedRule 2024 building.BuiltYear building.BuildingState
            ∧ m = unfinishedMsg building.BuiltYear building.ID)) ∧
      (∀ pos building,
        (unfinishedMsg building.BuiltYear building.ID
            ∈ domclick.buildingMessages 2024 pos building
          ↔ building.BuiltYear < 2024 ∧ building.BuildingState = "unfinished") ∧
        ((2024 : Int) ≤ building.BuiltYear →
          ∀ m ∈ domclick.buildingMessages 2024 pos building, ¬ startsWith "Bu" m) ∧
        ((0 : Int) < 2024 → building.BuiltYear = 0 → building.BuildingState = "unfinished" →
          ("field Complex.Buildings.Building.BuiltYear is empty. InternalID: " ++ building.ID)
            ∈ domclick.buildingMessages 2024 pos building ∧
          unfinishedMsg 0 building.ID ∈ domclick.buildingMessages 2024 pos building)))) ∧
    realty.Check 2024 realty.unfinishedFeed
      = (some ["BuildingState == unfinished for 2023. InternalID: u1",
               "field offer.BuiltYear is empty. InternalID: u4",
               "BuildingState == unfinished for 0. InternalID: u4"], none) ∧
    domclick.Check 2024 domclick.unfinishedFeed
      = (some ["BuildingState == unfinished for 2023. InternalID: b1",
               "field Complex.Buildings.Building.BuiltYear is empty. InternalID: b3",
               "BuildingState == unfinished for 0. InternalID: b3"], none) :=
  ⟨C26_unfinished_building_rule 2024 realty.unfinishedFeed rfl (by decide)
      domclick.unfinishedFeed rfl (by decide), by decide, by decide⟩

/-- C27 fails as stated: the fallback is guarded by `LastModified` being the
zero time, not by the absence of the header. A Feed that holds the time 5 from
an earlier call and meets a probe without `Last-Modified` keeps 5, although the
payload's generation date "g" is the time 9. A probe whose parsable header is
the zero time leads to the generation date being used. A Feed fetched before
whose payload's generation date does not parse returns the error and stays
fetched. -/
theorem C27_fallback_needs_zero_time :
    (∃ r, realty.Get (Env.dated (Response.okWith "") (Response.okWith "g"))
        realty.sampleParse { client := some 0, LastModified := 5 } = .ok r ∧
      r.err = none ∧ r.feed.Data.GenerationDate = "g" ∧ r.feed.LastModified = 5) ∧
    (∃ r, realty.Get (Env.dated (Response.okDated "zero" "") (Response.okWith "g"))
        realty.sampleParse { client := some 0 } = .ok r ∧
      r.err = none ∧ r.feed.LastModified = 9) ∧
    (∃ r, realty.Get (Env.dated (Response.okWith "") (Response.okWith "x"))
        realty.sampleParse { client := some 0, isGet := true } = .ok r ∧
      r.err = some "parsing time" ∧ r.feed.isGet = true) :=
  ⟨⟨_, rfl, rfl, rfl, rfl⟩, ⟨_, rfl, rfl, rfl⟩, ⟨_, rfl, rfl, rfl⟩⟩

/-- C27, amended. For a Realty Feed with a client whose probe and body fetch
succeed and whose body decodes, the fallback runs exactly when `LastModified`
is the zero time after the probe and the decoding. If the probe's response
carries no `Last-Modified` header: a Feed whose `LastModified` is zero gets the
generation date the decoded `Data` holds, parsed as RFC 3339, and is marked
fetched, or, when that text does not parse, `Get` returns the parse error,
`LastModified` is zero and the fetched flag is as it was; a Feed whose
`LastModified` is not zero keeps it and is marked fetched. If the probe's
response carries a parsable header, a time other than the zero time becomes
`LastModified`, the Feed is marked fetched and the generation date is not
consulted; the zero time leads to the fallback. -/
theorem C27_fallback_when_zero (env : Env) (parse : String → Except String realty.Document)
    (f : realty.Feed) (c : Nat) (head get : Response) (body : String)
    (doc : realty.Document) (hc : f.client = some c)
    (hf : env.fetches c f.url head get) (hb : get.Body = .ok body)
    (hp : parse body = .ok doc) (hd : doc.err = none) :
    (head.Header.Get "Last-Modified" = "" →
      (f.LastModified = 0 →
        (∀ t, env.ParseRFC3339Nano (realty.Unmarshal doc f.Data).1.GenerationDate = .ok t →
          ∃ r, realty.Get env parse f = .ok r ∧ r.err = none ∧
            r.feed.LastModified = t ∧ r.feed.isGet = true) ∧
        (∀ e, env.ParseRFC3339Nano (realty.Unmarshal doc f.Data).1.GenerationDate = .error e →
          ∃ r, realty.Get env parse f = .ok r ∧ r.err = some e ∧
            r.feed.LastModified = 0 ∧ r.feed.isGet = f.isGet)) ∧
      (f.LastModified ≠ 0 →
        ∃ r, realty.Get env parse f = .ok r ∧ r.err = none ∧
          r.feed.LastModified = f.LastModified ∧ r.feed.isGet = true)) ∧
    (∀ t, head.Header.Get "Last-Modified" ≠ "" →
      env.ParseRFC1123 (head.Header.Get "Last-Modified") = .ok t →
      (t ≠ 0 →
        ∃ r, realty.Get env parse f = .ok r ∧ r.err = none ∧
          r.feed.LastModified = t ∧ r.feed.isGet = true) ∧
      (t = 0 →
        (∀ t', env.ParseRFC3339Nano (realty.Unmarshal doc f.Data).1.GenerationDate = .ok t' →
          ∃ r, realty.Get env parse f = .ok r ∧ r.err = none ∧
            r.feed.LastModified = t' ∧ r.feed.isGet = true) ∧
        (∀ e, env.ParseRFC3339Nano (realty.Unmarshal doc f.Data).1.GenerationDate = .error e →
          ∃ r, realty.Get env parse f = .ok r ∧ r.err = some e ∧
            r.feed.LastModified = 0 ∧ r.feed.isGet = f.isGet))) := by
  have hget := realty_Get_fetched env parse f c head get hc hf
  constructor
  · intro hattr
    rw [if_neg (not_not.2 hattr)] at hget
    obtain ⟨hnz, hz⟩ := realty_finish_decoded env parse get f
      [("HEAD", f.url), ("GET", f.url)] body doc hb hp hd
    refine ⟨fun h0 => ⟨?_, ?_⟩, fun hne => ?_⟩
    · intro t ht
      exact ⟨_, hget, by rw [(hz h0).1 t ht], by rw [(hz h0).1 t ht], by rw [(hz h0).1 t ht]⟩
    · intro e he
      exact ⟨_, hget, by rw [(hz h0).2 e he], by rw [(hz h0).2 e he], by rw [(hz h0).2 e he]⟩
    · exact ⟨_, hget, by rw [hnz hne], by rw [hnz hne], by rw [hnz hne]⟩
  · intro t hattr hparse
    rw [if_pos hattr, hparse] at hget
    obtain ⟨hnz, hz⟩ := realty_finish_decoded env parse get { f with LastModified := t }
      [("HEAD", f.url), ("GET", f.url)] body doc hb hp hd
    refine ⟨fun hne => ?_, fun h0 => ⟨?_, ?_⟩⟩
    · exact ⟨_, hget, by rw [hnz hne], by rw [hnz hne], by rw [hnz hne]⟩
    · intro t' ht
      exact ⟨_, hget, by rw [(hz h0).1 t' ht], by rw [(hz h0).1 t' ht],
        by rw [(hz h0).1 t' ht]⟩
    · intro e he
      exact ⟨_, hget, by rw [(hz h0).2 e he], by rw [(hz h0).2 e he],
        by rw [(hz h0).2 e he]⟩

/-- Witness of C27 (amended): a Feed with a client that was never fetched.
Without `Last-Modified` header the generation date "g" of the payload, the time
9, becomes `LastModified`; with the header "h", the time 7, the header wins. -/
theorem C27_fallback_when_zero_witness :
    (∃ r, realty.Get (Env.dated (Response.okWith "") (Response.okWith "g"))
        realty.sampleParse { client := some 0 } = .ok r ∧ r.err = none ∧
      r.feed.LastModified = 9 ∧ r.feed.isGet = true) ∧
    (∃ r, realty.Get (Env.dated (Response.okDated "h" "") (Response.okWith "g"))
        realty.sampleParse { client := some 0 } = .ok r ∧ r.err = none ∧
      r.feed.LastModified = 7 ∧ r.feed.isGet = true) :=
  ⟨(((C27_fallback_when_zero (Env.dated (Response.okWith "") (Response.okWith "g"))
      realty.sampleParse { client := some 0 } 0 (Response.okWith "") (Response.okWith "g")
      "g" { children := [.generation_date "g"] } rfl ⟨rfl, rfl, rfl, rfl, rfl, rfl⟩ rfl rfl
      rfl).1 rfl).1 rfl).1 9 rfl,
    ((C27_fallback_when_zero (Env.dated (Response.okDated "h" "") (Response.okWith "g"))
      realty.sampleParse { client := some 0 } 0 (Response.okDated "h" "")
      (Response.okWith "g") "g" { children := [.generation_date "g"] } rfl
      ⟨rfl, rfl, rfl, rfl, rfl, rfl⟩ rfl rfl rfl).2 7 (by decide) rfl).1 (by decide)⟩

/-- C28 fails in the code. `Get` hands the `Feed` itself to `xml.Unmarshal`, not
its `Data`, so the `feed_version` and `object` elements of the root match no
field. After a successful CIAN `Get` of a payload whose root holds only
`feed_version` and `object` elements the Feed is marked fetched and its `Data`
is what it was before the call: the version and the objects are not decoded. -/
theorem C28_objects_not_decoded (env : Env) (parse : String → Except String cian.Document)
    (f : cian.Feed) (c : Nat) (hc : f.client = some c)
    (r : Returned cian.Feed) (hr : cian.Get env parse f = .ok r) (hnil : r.err = none) :
    ∃ resp body doc, env.Do c "GET" f.url = .ok resp ∧ resp.Body = .ok body ∧
      parse body = .ok doc ∧ r.feed.isGet = true ∧
      ((∀ ch ∈ doc.children, ch.isListing = true) → r.feed.Data = f.Data) := by
  obtain ⟨i, hi, ⟨t, ht⟩, -, -, -, hfail, hnext⟩ := cian_Get_some env parse f c hc
  cases hierr : i.err with
  | some e =>
    rw [hfail e hierr] at hr
    cases hr
    simp at hnil
  | none =>
    obtain ⟨g, -, -, -, hgfail, hgnext⟩ := hnext hierr
    cases hgerr : g.err with
    | some e =>
      rw [hgfail e hgerr] at hr
      cases hr
      simp at hnil
    | none =>
      obtain ⟨resp, -, hdo, -, hget⟩ := hgnext hgerr
      rw [hget] at hr
      cases hr
      obtain ⟨body, doc, hb, hp, -, hfeed⟩ :=
        cian_finish_ok parse resp i.feed (i.sent ++ g.sent) hnil
      refine ⟨resp, body, doc, hdo, hb, hp, by rw [hfeed], ?_⟩
      intro hall
      rw [hfeed, cian_listing_children_skipped doc.children i.feed hall, ht]

/-- Witness of C28, at the failing input: a fresh Feed with a client and a
payload whose root holds the version "2" and eleven objects. `Get` returns nil
and marks the Feed fetched, `Data` holds no version and no object, and `Check`
answers "feed is empty". -/
theorem C28_objects_not_decoded_witness :
    cian.samplePayload.children.length = 12 ∧
    ∃ r, cian.Get (Env.answering (Response.okWith "") (Response.okWith "b"))
        (fun _ => .ok cian.samplePayload) { client := some 0 } = .ok r ∧
      r.err = none ∧ r.feed.isGet = true ∧ r.feed.Data = {} ∧
      r.feed.Data.FeedVersion = "" ∧ r.feed.Data.Object = [] ∧
      cian.Check 2024 r.feed = (some ["feed is empty"], none) :=
  ⟨by decide, _, rfl, rfl, rfl,
    (C28_objects_not_decoded (Env.answering (Response.okWith "") (Response.okWith "b"))
      (fun _ => .ok cian.samplePayload) { client := some 0 } 0 rfl _ rfl rfl).elim
      (fun _ h => h.elim (fun _ h => h.elim (fun _ h =>
        h.2.2.2.2 ((Except.ok.inj h.2.2.1) ▸
          (by decide : ∀ ch ∈ cian.samplePayload.children, ch.isListing = true))))),
    rfl, rfl, by decide⟩

/-- C29. In DomClick `checkLots` the pass over the flats appends, flat by flat,
what the checks of one flat append. For a flat with LivingArea = 0 the appended
messages are: messages of the earlier checks, the zero-check message of
LivingArea, then for each index i with an empty RoomsArea.Area[i], in index
order, "Field Flats.Flat.RoomsArea.Area[i] is empty. InternalID: <FlatID>", then
messages of the later checks; no other message begins
"Field Flats.Flat.R". For a flat with non-zero LivingArea no appended message
begins "Field Flats.Flat.R", whatever its RoomsArea entries are. For example a
flat "f1" without living area whose entries 0 and 2 are empty yields the three
messages shown, and the same flat with living area 20 yields none. -/
theorem C29_room_areas_after_living_area (flats : List domclick.Flat) (floors : Int)
    (rs : List String) :
    domclick.checkLots flats floors rs
      = rs ++ flats.enum.flatMap (fun p => domclick.checkLot floors p.1 p.2 []) ∧
    domclick.checkLot 9 0 domclick.roomlessFlat ["x"]
      = ["x", "field Flats.Flat.LivingArea is empty. InternalID: f1",
         "Field Flats.Flat.RoomsArea.Area[0] is empty. InternalID: f1",
         "Field Flats.Flat.RoomsArea.Area[2] is empty. InternalID: f1"] ∧
    domclick.checkLot 9 0 { domclick.roomlessFlat with LivingArea := 20 } ["x"] = ["x"] ∧
    ∀ (idx : Nat) (lot : domclick.Flat) (rs' : List String),
      (lot.LivingArea = 0 → ∃ A B,
        domclick.checkLot floors idx lot rs'
          = rs' ++ (A ++ [domclick.livingAreaMsg lot.FlatID] ++ domclick.roomMessages lot ++ B) ∧
        (∀ m ∈ A, ¬ startsWith "Field Flats.Flat.R" m) ∧
        (∀ m ∈ B, ¬ startsWith "Field Flats.Flat.R" m)) ∧
      (lot.LivingArea ≠ 0 → ∃ L,
        domclick.checkLot floors idx lot rs' = rs' ++ L ∧
        ∀ m ∈ L, ¬ startsWith "Field Flats.Flat.R" m) := by
  refine ⟨?_, by decide, by decide, ?_⟩
  · rw [domclick.checkLots_eq]
    congr 2
    funext p
    rw [domclick.checkLot_eq_flat, List.nil_append]
  · intro idx lot rs'
    constructor
    · intro h
      exact ⟨_, _, by rw [domclick.checkLot_eq_flat, domclick.lotMessages_living_zero _ _ _ h],
        domclick.before_living_avoids idx lot, domclick.after_rooms_avoids floors lot⟩
    · intro h
      exact ⟨_, domclick.checkLot_eq_flat floors idx lot rs',
        domclick.lotMessages_living_nonzero floors idx lot h⟩

